import Mathlib

/-!
# Quadlet: container and volume unit conversion

A shallow embedding of `pkg/quadlet/quadlet.go` and `pkg/quadlet/podmancmdline.go`
and the properties of the conversion proved about it.

Go strings are Lean strings; `uint32` values are natural numbers, reduced
modulo `2^32` wherever the Go code does arithmetic on them.  The range
algebra (`Ranges`) and the unit-file store (`systemdparser.UnitFile`) are not
part of the two source files; they are modelled from the specification and
marked as such.
-/

namespace Quadlet

set_option linter.dupNamespace false

/-! ## Identity ranges -/

/-- The constant math.MaxUint32. -/
def MaxUint32 : Nat := 4294967295

/-- Interval of ids: the span from Start up to, not including, Start + Length. -/
structure Range where
  Start : Nat
  Length : Nat
deriving DecidableEq

/-- Modelled from the spec: the type Ranges of the range algebra (ranges.go is
missing), an ordered collection of intervals. -/
structure Ranges where
  Ranges : List Range
deriving DecidableEq

/-- Modelled from the spec: NewRangesEmpty (ranges.go is missing), the set with
no intervals. -/
def NewRangesEmpty : Ranges := ⟨[]⟩

/-- Modelled from the spec: NewRanges (ranges.go is missing), the
single-interval set of(start, length). -/
def NewRanges (start length : Nat) : Ranges := ⟨[⟨start, length⟩]⟩

/-- Modelled from the spec: Ranges.Copy (ranges.go is missing), an independent
deep copy; values are immutable here, so the copy is the value itself. -/
def Ranges.Copy (r : Quadlet.Ranges) : Quadlet.Ranges := ⟨r.Ranges⟩

/-- Modelled from the spec: minUint32 (ranges.go is missing), the smaller of
two numbers. -/
def minUint32 (x y : Nat) : Nat := if x < y then x else y

/-- Modelled from the spec: what Ranges.Remove (ranges.go is missing) does to
one stored interval.  An interval that shares an id with the removed span
`[start, start + length)` is replaced by the portion before the span and the
portion after it, each kept only when it is not empty; any other interval is
untouched. -/
def Range.remove (r : Range) (start length : Nat) : List Range :=
  if max r.Start start < min (r.Start + r.Length) (start + length) then
    (if r.Start < start then [⟨r.Start, start - r.Start⟩] else []) ++
    (if start + length < r.Start + r.Length then
      [⟨start + length, r.Start + r.Length - (start + length)⟩] else [])
  else [r]

/-- Modelled from the spec: Ranges.Remove (ranges.go is missing) removes the
span `[start, start + length)` from the set, interval by interval, keeping
the order.  The Go method mutates the receiver; here the new value is
returned. -/
def Ranges.Remove (r : Quadlet.Ranges) (start length : Nat) : Quadlet.Ranges :=
  ⟨r.Ranges.flatMap (fun cur => cur.remove start length)⟩

/-- One call `podman.addIdMap(argPrefix, containerIdStart, hostIdStart, numIds)`
made by addIdMaps. -/
structure IdMap where
  containerIdStart : Nat
  hostIdStart : Nat
  numIds : Nat
deriving DecidableEq

/-- Identity loop of addIdMaps (quadlet.go lines 205-212) over the intervals of
unmappedIds: each one is passed to addIdMap as an identity mapping and is
removed from mappedIds and from availableHostIds.  Returns the calls made
and the two sets as the loop leaves them. -/
def identityLoop : List Range → Ranges → Ranges → List IdMap × Ranges × Ranges
  | [], mappedIds, availableHostIds => ([], mappedIds, availableHostIds)
  | r :: rest, mappedIds, availableHostIds =>
    let start := r.Start
    let length := r.Length
    let out := identityLoop rest (mappedIds.Remove start length)
      (availableHostIds.Remove start length)
    (⟨start, start, length⟩ :: out.1, out.2)

/-- Inner loop of addIdMaps (quadlet.go lines 219-230) for one interval of
mappedIds, `for c_length > 0 && len(availableHostIds.Ranges) > 0`.

The first argument bounds the number of iterations.  An iteration with
`next_length > 0` lowers `c_length`, so a run that ends takes at most
`c_length` iterations, the bound addIdMaps passes.  An iteration with
`next_length = 0` (the first pool interval has length 0) changes nothing and
the Go loop spins in that state for ever; the model leaves the loop in that
state. -/
def poolLoopInner : Nat → Nat → Nat → Ranges → List IdMap × Ranges
  | 0, _, _, availableHostIds => ([], availableHostIds)
  | fuel + 1, c_start, c_length, availableHostIds =>
    match availableHostIds.Ranges with
    | [] => ([], availableHostIds)
    | h_range :: _ =>
      if c_length > 0 then
        let h_start := h_range.Start
        let h_length := h_range.Length
        let next_length := minUint32 h_length c_length
        let out := poolLoopInner fuel ((c_start + next_length) % 4294967296)
          ((c_length + 4294967296 - next_length) % 4294967296)
          (availableHostIds.Remove h_start next_length)
        (⟨c_start, h_start, next_length⟩ :: out.1, out.2)
      else ([], availableHostIds)

/-- Outer loop of addIdMaps (quadlet.go lines 214-231) over the intervals of
mappedIds, `for c_idx < len(mappedIds.Ranges) && len(availableHostIds.Ranges) > 0`. -/
def poolLoop : List Range → Ranges → List IdMap × Ranges
  | [], availableHostIds => ([], availableHostIds)
  | c_range :: rest, availableHostIds =>
    match availableHostIds.Ranges with
    | [] => ([], availableHostIds)
    | _ :: _ =>
      let c_start := c_range.Start
      let c_length := c_range.Length
      let inner := poolLoopInner c_length c_start c_length availableHostIds
      let out := poolLoop rest inner.2
      (inner.1 ++ out.1, out.2)

/-- The body of addIdMaps (quadlet.go lines 179-232) with the command line left
out: the calls of `podman.addIdMap` it makes, in order, and the host pool as
the in-place removals leave it.  A nil pool is `none`. -/
def addIdMapsCalls (containerId hostId remapStartId : Nat)
    (availableHostIds : Option Ranges) : List IdMap × Ranges :=
  let availableHostIds := match availableHostIds with
    | none => NewRangesEmpty
    | some p => p
  let unmappedIds := NewRanges 0 remapStartId
  let mappedIds := NewRanges 0 MaxUint32
  let mappedIds := mappedIds.Remove containerId 1
  let unmappedIds := unmappedIds.Remove containerId 1
  let unmappedIds := unmappedIds.Remove hostId 1
  let availableHostIds := availableHostIds.Remove hostId 1
  let ident := identityLoop unmappedIds.Ranges mappedIds availableHostIds
  let pool := poolLoop ident.2.1.Ranges ident.2.2
  (⟨containerId, hostId, 1⟩ :: (ident.1 ++ pool.1), pool.2)

/-! ## The podman command line (podmancmdline.go) -/

/-- A helper for constructing podman command lines. -/
structure PodmanCmdline where
  Args : List String
deriving DecidableEq

/-- Method `add` of PodmanCmdline. -/
def PodmanCmdline.add (c : PodmanCmdline) (args : List String) : PodmanCmdline :=
  ⟨c.Args ++ args⟩

/-- The format "%d:%d:%d" of addIdMap. -/
def fmtIdMap (containerIdStart hostIdStart numIds : Nat) : String :=
  toString containerIdStart ++ ":" ++ toString hostIdStart ++ ":" ++ toString numIds

/-- Method `addIdMap` of PodmanCmdline. -/
def PodmanCmdline.addIdMap (c : PodmanCmdline) (argPrefix : String)
    (containerIdStart hostIdStart numIds : Nat) : PodmanCmdline :=
  if numIds ≠ 0 then
    (c.add [argPrefix]).add [fmtIdMap containerIdStart hostIdStart numIds]
  else c

/-- Function `NewPodmanCmdline`. -/
def NewPodmanCmdline (args : List String) : PodmanCmdline :=
  ((⟨[]⟩ : PodmanCmdline).add ["/usr/bin/podman"]).add args

/-- Function `addIdMaps` (quadlet.go lines 179-232): the calls of addIdMapsCalls
applied to the command line in order. -/
def addIdMaps (podman : PodmanCmdline) (argPrefix : String)
    (containerId hostId remapStartId : Nat) (availableHostIds : Option Ranges) :
    PodmanCmdline :=
  (addIdMapsCalls containerId hostId remapStartId availableHostIds).1.foldl
    (fun p m => p.addIdMap argPrefix m.containerIdStart m.hostIdStart m.numIds) podman

/-- The remap entries a call of addIdMaps emits: the calls of addIdMap with
`numIds != 0`, the only ones that append to the command line. -/
def emittedIdMaps (containerId hostId remapStartId : Nat)
    (availableHostIds : Option Ranges) : List IdMap :=
  (addIdMapsCalls containerId hostId remapStartId availableHostIds).1.filter
    (fun m => m.numIds ≠ 0)

/-! ## Go library functions used by the converter -/

/-- The characters unicode.IsSpace accepts: tab, line feed, vertical tab, form
feed, carriage return, space, U+0085, U+00A0 and the characters of the
Unicode property White_Space beyond Latin-1. -/
def isSpace (c : Char) : Bool :=
  (0x09 ≤ c.toNat && c.toNat ≤ 0x0d) || c.toNat == 0x20 || c.toNat == 0x85 ||
  c.toNat == 0xa0 || c.toNat == 0x1680 || (0x2000 ≤ c.toNat && c.toNat ≤ 0x200a) ||
  c.toNat == 0x2028 || c.toNat == 0x2029 || c.toNat == 0x202f || c.toNat == 0x205f ||
  c.toNat == 0x3000

/-- The function strings.TrimSpace: the string without its leading and trailing
white space. -/
def TrimSpace (s : String) : String :=
  ⟨((s.data.dropWhile isSpace).reverse.dropWhile isSpace).reverse⟩

/-- What strings.ToLower gives on ASCII text: the letters A-Z are lower-cased
and the other characters kept.  On other text strings.ToLower lower-cases
every letter of Unicode; see `Host.ToLower`. -/
def lowerASCII (s : String) : String := ⟨s.data.map Char.toLower⟩

/-- The function strings.HasSuffix. -/
def HasSuffix (s suffix : String) : Bool := suffix.data.isSuffixOf s.data

/-- The function strings.LastIndexByte on the characters of the string: the index
of the last occurrence of c, or -1. -/
def LastIndexByte : List Char → Char → Int
  | [], _ => -1
  | x :: rest, c =>
    if LastIndexByte rest c ≥ 0 then LastIndexByte rest c + 1
    else if x = c then 0 else -1

/-- The function strings.SplitN with the separator ":" on the characters of the
string: at most n fields, the last one holding the unsplit rest. -/
def SplitNColon : Nat → List Char → List (List Char)
  | 0, _ => []
  | 1, s => [s]
  | n + 2, s =>
    match s.span (fun c => c != ':') with
    | (field, []) => [field]
    | (field, _ :: rest) => field :: SplitNColon (n + 1) rest

/-- The function sort.Strings: ascending order of strings.  Go compares the
bytes of the UTF-8 encoding, which orders strings as the lexicographic order
of their characters does. -/
def sortStrings (ks : List String) : List String :=
  ks.insertionSort (fun a b => ¬ b.data < a.data)

/-- A Go `map[string]string`: the key/value pairs it holds, every key once. -/
abbrev GoMap := List (String × String)

/-- The value stored under a key, the empty string when there is none (`m[k]`). -/
def GoMap.get (m : GoMap) (k : String) : String :=
  match m.find? (fun p => p.1 == k) with
  | some p => p.2
  | none => ""

/-- Assignment `m[k] = v`. -/
def GoMap.set (m : GoMap) (k v : String) : GoMap :=
  if m.any (fun p => p.1 == k) then m.map (fun p => if p.1 == k then (k, v) else p)
  else m ++ [(k, v)]

/-- The keys of the map; `range` visits them in an order Go leaves open. -/
def GoMap.keys (m : GoMap) : List String := m.map (fun p => p.1)

/-! ### Regular expressions -/

/-- The regular expressions needed for validPortRange. -/
inductive Regex where
  | never : Regex
  | empty : Regex
  | char : Char → Regex
  | digit : Regex
  | seq : Regex → Regex → Regex
  | alt : Regex → Regex → Regex
  | star : Regex → Regex

/-- The expression `r?`. -/
def Regex.opt (r : Regex) : Regex := .alt r .empty

/-- The expression `r+`. -/
def Regex.plus (r : Regex) : Regex := .seq r (.star r)

/-- The expression matching the characters of a literal in order. -/
def Regex.lit : List Char → Regex
  | [] => .empty
  | c :: rest => .seq (.char c) (Regex.lit rest)

/-- Whether the expression matches the empty string. -/
def Regex.nullable : Regex → Bool
  | .never => false
  | .empty => true
  | .char _ => false
  | .digit => false
  | .seq a b => a.nullable && b.nullable
  | .alt a b => a.nullable || b.nullable
  | .star _ => true

/-- The derivative of the expression by one character: what is left to match
after reading c. -/
def Regex.deriv : Regex → Char → Regex
  | .never, _ => .never
  | .empty, _ => .never
  | .char d, c => if c = d then .empty else .never
  | .digit, c => if '0' ≤ c ∧ c ≤ '9' then .empty else .never
  | .seq a b, c =>
    if a.nullable then .alt (.seq (a.deriv c) b) (b.deriv c) else .seq (a.deriv c) b
  | .alt a b, c => .alt (a.deriv c) (b.deriv c)
  | .star a, c => .seq (a.deriv c) (.star a)

/-- Whether the expression matches the whole of the text. -/
def Regex.matchesAll (r : Regex) (text : List Char) : Bool :=
  (text.foldl Regex.deriv r).nullable

/-- The method MatchString for a pattern `r$`: some match of r ends at the end
of the text; where it starts is open. -/
def Regex.MatchStringToEnd (r : Regex) (text : String) : Bool :=
  text.data.tails.any r.matchesAll

/-- The pattern of validPortRange without its final `$`,
`\d+(-\d+)?(/udp|/tcp)?`. -/
def validPortRange : Regex :=
  .seq Regex.digit.plus
    (.seq (Regex.seq (.char '-') Regex.digit.plus).opt
      (Regex.alt (Regex.lit "/udp".data) (Regex.lit "/tcp".data)).opt)

/-! ## The unit-file store and the host (external collaborators) -/

/-- Modelled from the spec: one `key=value` line of a unit file
(systemdparser is missing) together with the group it stands in. -/
structure UnitLine where
  group : String
  key : String
  value : String
deriving DecidableEq

/-- Modelled from the spec: systemdparser.UnitFile (systemdparser is missing),
the ordered group/key store of section 6: the lines of the file in order,
its file name and its path. -/
structure UnitFile where
  Filename : String
  Path : String
  lines : List UnitLine
deriving DecidableEq

/-- The collaborators the spec leaves outside the core: the calling process,
the host subordinate-id directory, and the textual conventions of the unit
store (how a boolean, a number, an identity, a word list, a `key=value` list
and a range list are written, and how a command line is quoted). -/
structure Host where
  /-- Result of os.Getuid. -/
  Getuid : Nat
  /-- Result of os.Getgid. -/
  Getgid : Nat
  /-- Decoding of a boolean value; none when the text is no boolean. -/
  parseBoolean : String → Option Bool
  /-- Decoding of a number; none when the text is no number. -/
  parseUint32 : String → Option Nat
  /-- Resolution of a user given by number or name. -/
  lookupUid : String → Except String Nat
  /-- Resolution of a group given by number or name. -/
  lookupGid : String → Except String Nat
  /-- Function lookupHostSubuid: the subordinate uid range of a user, if any. -/
  lookupHostSubuid : String → Option Ranges
  /-- Function lookupHostSubgid: the subordinate gid range of a user, if any. -/
  lookupHostSubgid : String → Option Ranges
  /-- Function ParseRanges. -/
  ParseRanges : String → Ranges
  /-- Shell-style splitting of a value into words. -/
  splitArgs : String → List String
  /-- Splitting of a value into `key=value` assignments. -/
  splitKeyVals : String → List (String × String)
  /-- Quoting of a command line into one value. -/
  quoteCmdline : List String → String
  /-- The function strings.ToLower of the Go library, which lower-cases every
  letter of Unicode. -/
  ToLower : String → String
  /-- On ASCII text strings.ToLower lower-cases the letters A-Z and keeps the
  other characters. -/
  ToLower_ascii : ∀ s : String, (∀ c ∈ s.data, c.toNat < 128) → ToLower s = lowerASCII s

/-- Modelled from the spec: UnitFile.Dup (systemdparser is missing), a duplicate
of the unit. -/
def UnitFile.Dup (u : UnitFile) : UnitFile := ⟨u.Filename, u.Path, u.lines⟩

/-- Modelled from the spec: UnitFile.ListKeys (systemdparser is missing), the
keys of a group in file order. -/
def UnitFile.ListKeys (u : UnitFile) (groupName : String) : List String :=
  (u.lines.filter (fun l => l.group == groupName)).map (fun l => l.key)

/-- Modelled from the spec: UnitFile.LookupAll (systemdparser is missing), all
values of a key in file order. -/
def UnitFile.LookupAll (u : UnitFile) (groupName key : String) : List String :=
  (u.lines.filter (fun l => l.group == groupName && l.key == key)).map (fun l => l.value)

/-- Modelled from the spec: UnitFile.Lookup (systemdparser is missing), the
value of a key, the last one when the key is given several times; none when
the key is absent (Go returns `"", false`). -/
def UnitFile.Lookup (u : UnitFile) (groupName key : String) : Option String :=
  (u.LookupAll groupName key).getLast?

/-- Modelled from the spec: UnitFile.HasKey (systemdparser is missing). -/
def UnitFile.HasKey (u : UnitFile) (groupName key : String) : Bool :=
  u.lines.any (fun l => l.group == groupName && l.key == key)

/-- Modelled from the spec: UnitFile.LookupBoolean (systemdparser is missing),
a boolean with a caller-supplied default. -/
def UnitFile.LookupBoolean (host : Host) (u : UnitFile) (groupName key : String)
    (defaultValue : Bool) : Bool :=
  match u.Lookup groupName key with
  | none => defaultValue
  | some v => (host.parseBoolean v).getD defaultValue

/-- Modelled from the spec: UnitFile.LookupUint32 (systemdparser is missing),
an unsigned 32-bit integer with a default. -/
def UnitFile.LookupUint32 (host : Host) (u : UnitFile) (groupName key : String)
    (defaultValue : Nat) : Nat :=
  match u.Lookup groupName key with
  | none => defaultValue
  | some v =>
    match host.parseUint32 v with
    | none => defaultValue
    | some n => n % 4294967296

/-- Modelled from the spec: UnitFile.LookupUid (systemdparser is missing), a
user given by number or name resolved to a numeric id. -/
def UnitFile.LookupUid (host : Host) (u : UnitFile) (groupName key : String)
    (defaultValue : Nat) : Except String Nat :=
  match u.Lookup groupName key with
  | none => .ok defaultValue
  | some v =>
    match host.lookupUid v with
    | .error e => .error e
    | .ok n => .ok (n % 4294967296)

/-- Modelled from the spec: UnitFile.LookupGid (systemdparser is missing), a
group given by number or name resolved to a numeric id. -/
def UnitFile.LookupGid (host : Host) (u : UnitFile) (groupName key : String)
    (defaultValue : Nat) : Except String Nat :=
  match u.Lookup groupName key with
  | none => .ok defaultValue
  | some v =>
    match host.lookupGid v with
    | .error e => .error e
    | .ok n => .ok (n % 4294967296)

/-- Modelled from the spec: UnitFile.LookupAllKeyVal (systemdparser is
missing), the assignments of all values of a key merged into one map, a later
assignment of a key replacing an earlier one. -/
def UnitFile.LookupAllKeyVal (host : Host) (u : UnitFile) (groupName key : String) : GoMap :=
  ((u.LookupAll groupName key).flatMap host.splitKeyVals).foldl
    (fun m kv => m.set kv.1 kv.2) []

/-- Modelled from the spec: UnitFile.LookupAllArgs (systemdparser is missing),
all values of a key tokenized as word lists, in order. -/
def UnitFile.LookupAllArgs (host : Host) (u : UnitFile) (groupName key : String) :
    List String :=
  (u.LookupAll groupName key).flatMap host.splitArgs

/-- Modelled from the spec: UnitFile.LookupLastArgs (systemdparser is missing),
the last-defined value of a key tokenized as a word list; none when the key
is absent. -/
def UnitFile.LookupLastArgs (host : Host) (u : UnitFile) (groupName key : String) :
    Option (List String) :=
  (u.Lookup groupName key).map host.splitArgs

/-- Modelled from the spec: UnitFile.Add (systemdparser is missing), one more
`key=value` line in the group. -/
def UnitFile.Add (u : UnitFile) (groupName key value : String) : UnitFile :=
  { u with lines := u.lines ++ [⟨groupName, key, value⟩] }

/-- Modelled from the spec: UnitFile.Set (systemdparser is missing), the key
set to the value, replacing what the group held for it. -/
def UnitFile.Set (u : UnitFile) (groupName key value : String) : UnitFile :=
  { u with lines := (u.lines.filter (fun l => !(l.group == groupName && l.key == key)) ++
      [⟨groupName, key, value⟩]) }

/-- Modelled from the spec: UnitFile.Setv (systemdparser is missing), several
keys set at once, in the order given. -/
def UnitFile.Setv (u : UnitFile) (groupName : String) (keyvals : List (String × String)) :
    UnitFile :=
  keyvals.foldl (fun f kv => f.Set groupName kv.1 kv.2) u

/-- Modelled from the spec: UnitFile.RenameGroup (systemdparser is missing). -/
def UnitFile.RenameGroup (u : UnitFile) (groupName newName : String) : UnitFile :=
  { u with lines := (u.lines.map fun l =>
      if l.group == groupName then { l with group := newName } else l) }

/-- Modelled from the spec: UnitFile.AddCmdline (systemdparser is missing), a
full command line installed as one quoted value. -/
def UnitFile.AddCmdline (host : Host) (u : UnitFile) (groupName key : String)
    (args : List String) : UnitFile :=
  u.Add groupName key (host.quoteCmdline args)

/-! ## The rest of the command-line helper (podmancmdline.go) -/

/-- Method `addf` of PodmanCmdline; the argument is the formatted string. -/
def PodmanCmdline.addf (c : PodmanCmdline) (formatted : String) : PodmanCmdline :=
  c.add [formatted]

/-- Method `addKeys` of PodmanCmdline. -/
def PodmanCmdline.addKeys (c : PodmanCmdline) (arg : String) (keys : GoMap) : PodmanCmdline :=
  let ks := sortStrings keys.keys
  ks.foldl (fun c k => c.add [arg, k ++ "=" ++ keys.get k]) c

/-- Method `addEnv` of PodmanCmdline. -/
def PodmanCmdline.addEnv (c : PodmanCmdline) (env : GoMap) : PodmanCmdline :=
  c.addKeys "--env" env

/-- Method `addLabels` of PodmanCmdline. -/
def PodmanCmdline.addLabels (c : PodmanCmdline) (labels : GoMap) : PodmanCmdline :=
  c.addKeys "--label" labels

/-- Method `addAnnotations` of PodmanCmdline. -/
def PodmanCmdline.addAnnotations (c : PodmanCmdline) (annotations : GoMap) : PodmanCmdline :=
  c.addKeys "--annotation" annotations

/-! ## The converter (quadlet.go) -/

def UnitGroup : String := "Unit"
def InstallGroup : String := "Install"
def ServiceGroup : String := "Service"
def ContainerGroup : String := "Container"
def XContainerGroup : String := "X-Container"
def VolumeGroup : String := "Volume"
def XVolumeGroup : String := "X-Volume"
def QuadletUserName : String := "quadlet"
def FallbackUidStart : Nat := 1879048192
def FallbackUidLength : Nat := 165536
def FallbackGidStart : Nat := 1879048192
def FallbackGidLength : Nat := 165536

/-- The keys of the map supportedContainerKeys; each one maps to true. -/
def supportedContainerKeys : List String :=
  ["ContainerName", "Image", "Environment", "Exec", "NoNewPrivileges", "DropCapability",
   "AddCapability", "ReadOnly", "RemapUsers", "RemapUidStart", "RemapGidStart",
   "RemapUidRanges", "RemapGidRanges", "Notify", "SocketActivated", "ExposeHostPort",
   "PublishPort", "KeepId", "User", "Group", "HostUser", "HostGroup", "Volume",
   "PodmanArgs", "Label", "Annotation", "RunInit", "VolatileTmp", "Timezone"]

/-- The keys of the map supportedVolumeKeys; each one maps to true. -/
def supportedVolumeKeys : List String := ["User", "Group", "Label"]

/-- Function `replaceExtension`. -/
def replaceExtension (name extension extraPrefix extraSuffix : String) : String :=
  let dot := LastIndexByte name.data '.'
  let baseName := if dot > 0 then String.mk (name.data.take dot.toNat) else name
  extraPrefix ++ baseName ++ extraSuffix ++ extension

/-- The package variables defaultRemapUids and defaultRemapGids; none is nil. -/
structure Globals where
  defaultRemapUids : Option Ranges
  defaultRemapGids : Option Ranges

/-- Function `getDefaultRemapUids`: the value returned and the package variables
after the call. -/
def getDefaultRemapUids (host : Host) (g : Globals) : Option Ranges × Globals :=
  let g :=
    if g.defaultRemapUids.isNone then
      let g := { g with defaultRemapUids := host.lookupHostSubuid QuadletUserName }
      if g.defaultRemapUids.isNone then
        { g with defaultRemapUids := some (NewRanges FallbackUidStart FallbackUidLength) }
      else g
    else g
  (g.defaultRemapUids, g)

/-- Function `getDefaultRemapGids`: the value returned and the package variables
after the call. -/
def getDefaultRemapGids (host : Host) (g : Globals) : Option Ranges × Globals :=
  let g :=
    if g.defaultRemapGids.isNone then
      let g := { g with defaultRemapGids := host.lookupHostSubgid QuadletUserName }
      if g.defaultRemapGids.isNone then
        { g with defaultRemapGids := some (NewRanges FallbackGidStart FallbackGidLength) }
      else g
    else g
  (g.defaultRemapUids, g)

/-- Function `isPortRange`: validPortRange.MatchString(port). -/
def isPortRange (port : String) : Bool :=
  validPortRange.MatchStringToEnd port

/-- Function `checkForUnknownKeys`: the error for the first key of the group
that is not supported, none (nil) when there is no such key. -/
def checkForUnknownKeys (unit : UnitFile) (groupName : String)
    (supportedKeys : List String) : Option String :=
  match (unit.ListKeys groupName).find? (fun key => !supportedKeys.contains key) with
  | some key =>
    some ("Unsupported key '" ++ key ++ "' in group '" ++ groupName ++ "' in " ++ unit.Path)
  | none => none

/-- Function `lookupRanges`; a nil nameLookup or defaultValue is none. -/
def lookupRanges (host : Host) (unit : UnitFile) (groupName key : String)
    (nameLookup : Option (String → Option Ranges)) (defaultValue : Option Ranges) : Ranges :=
  match unit.Lookup groupName key with
  | none =>
    match defaultValue with
    | some d => d.Copy
    | none => NewRangesEmpty
  | some v =>
    if v == "" then NewRangesEmpty
    else if !(v.data.head?.any Char.isDigit) then
      match nameLookup with
      | some f =>
        match f v with
        | some r => r
        | none => NewRangesEmpty
      | none => NewRangesEmpty
    else host.ParseRanges v

/-- Inner loop of splitPorts (quadlet.go lines 160-162),
`for end < len(ports) && ports[end] != ']'`, returning `end`.  The first
argument bounds the iterations; each one raises `end`, so `len(ports) - end`
of them are enough. -/
def splitPortsSkip (ports : List Char) : Nat → Nat → Nat
  | 0, e => e
  | fuel + 1, e =>
    if e < ports.length ∧ ports[e]? ≠ some ']' then splitPortsSkip ports fuel (e + 1) else e

/-- Outer loop of splitPorts (quadlet.go lines 157-173), returning `parts`,
`start` and `end`.  The first argument bounds the iterations; each one raises
`end`, so `len(ports)` of them are enough. -/
def splitPortsLoop (ports : List Char) : Nat → Nat → Nat → List String → List String × Nat × Nat
  | 0, start, e, parts => (parts, start, e)
  | fuel + 1, start, e, parts =>
    if e < ports.length then
      if ports[e]? = some '[' then
        let e := e + 1
        let e := splitPortsSkip ports (ports.length - e) e
        let e := if e < ports.length then e + 1 else e
        splitPortsLoop ports fuel start e parts
      else if ports[e]? = some ':' then
        let parts := parts ++ [String.mk ((ports.drop start).take (e - start))]
        let e := e + 1
        let start := e
        splitPortsLoop ports fuel start e parts
      else
        splitPortsLoop ports fuel start (e + 1) parts
    else (parts, start, e)

/-- Function `splitPorts`.  The Go code scans bytes; the three characters it
looks for are ASCII, which in UTF-8 occur as bytes of no other character, so
the scan over the characters of the string cuts at the same places. -/
def splitPorts (ports : String) : List String :=
  let out := splitPortsLoop ports.data ports.data.length 0 0 []
  out.1 ++ [String.mk ((ports.data.drop out.2.1).take (out.2.2 - out.2.1))]

/-- Body of the loop over the Volume values (quadlet.go lines 461-505). -/
def addVolume (st : UnitFile × PodmanCmdline) (volume : String) : UnitFile × PodmanCmdline :=
  let service := st.1
  let podman := st.2
  let parts := (SplitNColon 3 volume.data).map String.mk
  let source := if parts.length ≥ 2 then parts.getD 0 "" else ""
  let dest := if parts.length ≥ 2 then parts.getD 1 "" else parts.getD 0 ""
  let options := if parts.length ≥ 3 then ":" ++ parts.getD 2 "" else ""
  let isUnit := source != "" && source.data.head? != some '/' && HasSuffix source ".volume"
  let volume_name := replaceExtension source "" "systemd-" ""
  let volume_service_name := replaceExtension source ".service" "" "-volume"
  let service :=
    if source != "" then
      if source.data.head? == some '/' then service.Add UnitGroup "RequiresMountsFor" source
      else if HasSuffix source ".volume" then
        (service.Add UnitGroup "Requires" volume_service_name).Add UnitGroup "After"
          volume_service_name
      else service
    else service
  let source := if isUnit then volume_name else source
  let podman := podman.add ["-v"]
  let podman :=
    if source == "" then podman.add [dest]
    else podman.addf (source ++ ":" ++ dest ++ options)
  (service, podman)

/-- Loop over the ExposeHostPort values (quadlet.go lines 508-516). -/
def addExposedPorts : List String → PodmanCmdline → Except String PodmanCmdline
  | [], podman => .ok podman
  | exposed_port :: rest, podman =>
    let exposed_port := TrimSpace exposed_port
    if !isPortRange exposed_port then
      .error ("Invalid port format '" ++ exposed_port ++ "'")
    else addExposedPorts rest (podman.addf ("--expose=" ++ exposed_port))

/-- Body of the loop over the PublishPort values (quadlet.go lines 520-575): the
error it returns, or the formatted argument it passes to `podman.addf`. -/
def publishPortArg (publish_port : String) : Except String String :=
  let publish_port := TrimSpace publish_port
  let parts := splitPorts publish_port
  if parts.length ≠ 1 ∧ parts.length ≠ 2 ∧ parts.length ≠ 3 then
    .error ("Invalid published port '" ++ publish_port ++ "'")
  else
  let container_port :=
    if parts.length = 1 then parts.getD 0 ""
    else if parts.length = 2 then parts.getD 1 "" else parts.getD 2 ""
  let ip := if parts.length = 3 then parts.getD 0 "" else ""
  let host_port :=
    if parts.length = 2 then parts.getD 0 ""
    else if parts.length = 3 then parts.getD 1 "" else ""
  let ip := if ip == "0.0.0.0" then "" else ip
  if host_port != "" && !isPortRange host_port then
    .error ("Invalid port format '" ++ host_port ++ "'")
  else if container_port != "" && !isPortRange container_port then
    .error ("Invalid port format '" ++ container_port ++ "'")
  else if ip != "" then
    if host_port != "" then .ok ("-p=" ++ ip ++ ":" ++ host_port ++ ":" ++ container_port)
    else .ok ("-p=" ++ ip ++ "::" ++ container_port)
  else if host_port != "" then .ok ("-p=" ++ host_port ++ ":" ++ container_port)
  else .ok ("-p=" ++ container_port)

/-- Loop over the PublishPort values (quadlet.go lines 519-576). -/
def addPublishPorts : List String → PodmanCmdline → Except String PodmanCmdline
  | [], podman => .ok podman
  | publish_port :: rest, podman =>
    match publishPortArg publish_port with
    | .error e => .error e
    | .ok arg => addPublishPorts rest (podman.addf arg)

/-- Lines 235-595 of ConvertContainer: all of the conversion but the last step,
which installs the command line.  Returns the error, or the service unit and
the podman command line built, and the package variables after the call. -/
def convertContainerCmdline (host : Host) (g : Globals) (container : UnitFile)
    (isUser : Bool) : Except String (UnitFile × PodmanCmdline) × Globals :=
  let service := container.Dup
  let service :=
    { service with Filename := replaceExtension container.Filename ".service" "" "" }
  let service :=
    if container.Path != "" then service.Add UnitGroup "SourcePath" container.Path
    else service
  match checkForUnknownKeys container ContainerGroup supportedContainerKeys with
  | some err => (.error err, g)
  | none =>
  let service := service.RenameGroup ContainerGroup XContainerGroup
  let lookupImage := container.Lookup ContainerGroup "Image"
  let image := lookupImage.getD ""
  if !lookupImage.isSome || image == "" then (.error "No Image key specified", g) else
  let lookupName := container.Lookup ContainerGroup "ContainerName"
  let containerName :=
    if !lookupName.isSome || lookupName.getD "" == "" then "systemd-%N"
    else lookupName.getD ""
  let service := service.Add ServiceGroup "Environment" "PODMAN_SYSTEMD_UNIT=%n"
  let lookupKillMode := service.Lookup ServiceGroup "KillMode"
  let killMode := lookupKillMode.getD ""
  let ok := lookupKillMode.isSome
  if (!ok || !(killMode == "mixed" || killMode == "control-group")) && ok then
    (.error ("Invalid KillMode '" ++ killMode ++ "'"), g)
  else
  let service :=
    if !ok || !(killMode == "mixed" || killMode == "control-group") then
      service.Set ServiceGroup "KillMode" "mixed"
    else service
  let podmanEnv := container.LookupAllKeyVal host ContainerGroup "Environment"
  let service := service.Add UnitGroup "RequiresMountsFor" "%t/containers"
  let service := service.Add ServiceGroup "ExecStartPre" "-rm -f %t/%N.cid"
  let service :=
    service.Add ServiceGroup "ExecStopPost" "-/usr/bin/podman rm -f -i --cidfile=%t/%N.cid"
  let service := service.Add ServiceGroup "ExecStopPost" "-rm -f %t/%N.cid"
  let podman := NewPodmanCmdline ["run"]
  let podman := podman.addf ("--name=" ++ containerName)
  let podman := podman.add
    ["--cidfile=%t/%N.cid", "--replace", "--rm", "-d", "--log-driver", "journald",
     "--pull=never"]
  let service := service.Add ServiceGroup "Delegate" "yes"
  let podman := podman.add ["--runtime", "/usr/bin/crun", "--cgroups=split"]
  let lookupTimezone := container.Lookup ContainerGroup "Timezone"
  let timezone := lookupTimezone.getD ""
  let podman :=
    if lookupTimezone.isSome && timezone != "" then podman.addf ("--tz=" ++ timezone)
    else podman
  let runInit := container.LookupBoolean host ContainerGroup "RunInit" true
  let podman := if runInit then podman.add ["--init"] else podman
  let notify := container.LookupBoolean host ContainerGroup "Notify" false
  let podman :=
    if notify then podman.add ["--sdnotify=container"] else podman.add ["--sdnotify=conmon"]
  let service := service.Setv ServiceGroup [("Type", "notify"), ("NotifyAccess", "all")]
  let service :=
    if !container.HasKey ServiceGroup "SyslogIdentifier" then
      service.Set ServiceGroup "SyslogIdentifier" "%N"
    else service
  let noNewPrivileges := container.LookupBoolean host ContainerGroup "NoNewPrivileges" true
  let podman :=
    if noNewPrivileges then podman.add ["--security-opt=no-new-privileges"] else podman
  let dropCaps :=
    if container.HasKey ContainerGroup "DropCapability" then
      container.LookupAll ContainerGroup "DropCapability"
    else ["all"]
  let podman := dropCaps.foldl (fun p caps => p.addf ("--cap-drop=" ++ host.ToLower caps)) podman
  let addCaps := container.LookupAll ContainerGroup "AddCapability"
  let podman := addCaps.foldl (fun p caps => p.addf ("--cap-add=" ++ host.ToLower caps)) podman
  let readOnly := container.LookupBoolean host ContainerGroup "ReadOnly" false
  let podman := if readOnly then podman.add ["--read-only"] else podman
  let volatileTmp := container.LookupBoolean host ContainerGroup "VolatileTmp" true
  let podman :=
    if volatileTmp then
      if !readOnly then podman.add ["--tmpfs", "/tmp:rw,size=512M,mode=1777"] else podman
    else if readOnly then podman.add ["--read-only-tmpfs=false"]
    else podman
  let socketActivated := container.LookupBoolean host ContainerGroup "SocketActivated" false
  let podman := if socketActivated then podman.add ["--preserve-fds=1"] else podman
  let podmanEnv :=
    if socketActivated then (podmanEnv.set "LISTEN_FDS" "1").set "LISTEN_PID" "2"
    else podmanEnv
  let keepId := container.LookupBoolean host ContainerGroup "KeepId" false
  if keepId && !isUser then
    (.error ("Key 'KeepId' in '" ++ container.Path ++ "' unsupported for system units"), g)
  else
  let defaultContainerUid := if keepId then host.Getuid % 4294967296 else 0
  let defaultContainerGid := if keepId then host.Getgid % 4294967296 else 0
  let podman := if keepId then podman.add ["--userns", "keep-id"] else podman
  let uid := container.LookupUint32 host ContainerGroup "User" defaultContainerUid
  let gid := container.LookupUint32 host ContainerGroup "Group" defaultContainerGid
  match container.LookupUid host ContainerGroup "HostUser" uid with
  | .error err => (.error ("Key 'HostUser' invalid: " ++ err), g)
  | .ok hostUid =>
  match container.LookupGid host ContainerGroup "HostGroup" gid with
  | .error err => (.error ("Key 'HostGroup' invalid: " ++ err), g)
  | .ok hostGid =>
  let podman :=
    if uid != defaultContainerUid || gid != defaultContainerUid then
      let podman := podman.add ["--user"]
      if gid == defaultContainerGid then podman.addf (toString uid)
      else podman.addf (toString uid ++ ":" ++ toString gid)
    else podman
  let remapUsers :=
    if isUser then false else container.LookupBoolean host ContainerGroup "RemapUsers" false
  let remapped : PodmanCmdline × Globals :=
    if !remapUsers then
      let podman :=
        if uid != hostUid then addIdMaps podman "--uidmap" uid hostUid MaxUint32 none
        else podman
      let podman :=
        if gid != hostGid then addIdMaps podman "--gidmap" gid hostGid MaxUint32 none
        else podman
      (podman, g)
    else
      let defaultUids := getDefaultRemapUids host g
      let uid_remap_ids := lookupRanges host container ContainerGroup "RemapUidRanges"
        (some host.lookupHostSubuid) defaultUids.1
      let defaultGids := getDefaultRemapGids host defaultUids.2
      let gid_remap_ids := lookupRanges host container ContainerGroup "RemapGidRanges"
        (some host.lookupHostSubgid) defaultGids.1
      let remap_uid_start := container.LookupUint32 host ContainerGroup "RemapUidStart" 1
      let remap_gid_start := container.LookupUint32 host ContainerGroup "RemapGidStart" 1
      let podman := addIdMaps podman "--uidmap" uid hostUid remap_uid_start (some uid_remap_ids)
      let podman := addIdMaps podman "--gidmap" gid hostGid remap_gid_start (some gid_remap_ids)
      (podman, defaultGids.2)
  let podman := remapped.1
  let g := remapped.2
  let volumes := container.LookupAll ContainerGroup "Volume"
  let mounted := volumes.foldl addVolume (service, podman)
  let service := mounted.1
  let podman := mounted.2
  let exposed_ports := container.LookupAll ContainerGroup "ExposeHostPort"
  match addExposedPorts exposed_ports podman with
  | .error err => (.error err, g)
  | .ok podman =>
  let publish_ports := container.LookupAll ContainerGroup "PublishPort"
  match addPublishPorts publish_ports podman with
  | .error err => (.error err, g)
  | .ok podman =>
  let podman := podman.addEnv podmanEnv
  let labels := container.LookupAllKeyVal host ContainerGroup "Label"
  let podman := podman.addLabels labels
  let annotations := container.LookupAllKeyVal host ContainerGroup "Annotation"
  let podman := podman.addAnnotations annotations
  let podman_args := container.LookupAllArgs host ContainerGroup "PodmanArgs"
  let podman := podman.add podman_args
  let podman := podman.add [image]
  let podman :=
    match container.LookupLastArgs host ContainerGroup "Exec" with
    | some exec_args => podman.add exec_args
    | none => podman
  (.ok (service, podman), g)

/-- Function `ConvertContainer`: the generated unit or the error, and the package
variables after the call. -/
def ConvertContainer (host : Host) (g : Globals) (container : UnitFile) (isUser : Bool) :
    Except String UnitFile × Globals :=
  match convertContainerCmdline host g container isUser with
  | (.error err, g) => (.error err, g)
  | (.ok (service, podman), g) =>
    (.ok (service.AddCmdline host ServiceGroup "ExecStart" podman.Args), g)

/-- The argument list ConvertContainer installs as ExecStart, or its error. -/
def ConvertContainerArgs (host : Host) (g : Globals) (container : UnitFile) (isUser : Bool) :
    Except String (List String) :=
  match (convertContainerCmdline host g container isUser).1 with
  | .error err => .error err
  | .ok (_, podman) => .ok podman.Args

/-- Function `ConvertVolume`. -/
def ConvertVolume (host : Host) (volume : UnitFile) (name : String) : Except String UnitFile :=
  let service := volume.Dup
  let service :=
    { service with Filename := replaceExtension volume.Filename ".service" "" "-volume" }
  match checkForUnknownKeys volume VolumeGroup supportedVolumeKeys with
  | some err => .error err
  | none =>
  let service := service.RenameGroup VolumeGroup XVolumeGroup
  let volume_name := replaceExtension name "" "systemd-" ""
  let service := service.Add UnitGroup "RequiresMountsFor" "%t/containers"
  let exec_cond :=
    "/usr/bin/bash -c \"! /usr/bin/podman volume exists " ++ volume_name ++ "\""
  let labels := volume.LookupAllKeyVal host VolumeGroup "Label"
  let podman := NewPodmanCmdline ["volume", "create"]
  let opts := "o="
  let opts :=
    if volume.HasKey VolumeGroup "User" then
      let uid := volume.LookupUint32 host VolumeGroup "User" 0
      let opts := if opts.length > 2 then opts ++ "," else opts
      opts ++ ("uid=" ++ toString uid)
    else opts
  let opts :=
    if volume.HasKey VolumeGroup "Group" then
      let gid := volume.LookupUint32 host VolumeGroup "Group" 0
      let opts := if opts.length > 2 then opts ++ "," else opts
      opts ++ ("gid=" ++ toString gid)
    else opts
  let podman := if opts.length > 2 then podman.add ["--opt", opts] else podman
  let podman := podman.addLabels labels
  let podman := podman.add [volume_name]
  let service := service.AddCmdline host ServiceGroup "ExecStart" podman.Args
  let service := service.Setv ServiceGroup
    [("Type", "oneshot"), ("RemainAfterExit", "yes"), ("ExecCondition", exec_cond),
     ("SyslogIdentifier", "%N")]
  .ok service

/-! ## A host and units for the examples -/

/-- Decimal reading of a string of digits. -/
def parseDecimal (s : String) : Option Nat :=
  if s.data ≠ [] ∧ s.data.all Char.isDigit = true then
    some (s.data.foldl (fun n c => 10 * n + (c.toNat - 48)) 0)
  else none

/-- A host for the examples: booleans are written yes and no, numbers and ids
in decimal, no subordinate ranges are configured, a value is one word. -/
def exampleHost : Host where
  Getuid := 1000
  Getgid := 1000
  parseBoolean := fun s =>
    if s = "yes" then some true else if s = "no" then some false else none
  parseUint32 := parseDecimal
  lookupUid := fun s =>
    match parseDecimal s with
    | some n => .ok n
    | none => .error "unknown user"
  lookupGid := fun s =>
    match parseDecimal s with
    | some n => .ok n
    | none => .error "unknown group"
  lookupHostSubuid := fun _ => none
  lookupHostSubgid := fun _ => none
  ParseRanges := fun _ => NewRangesEmpty
  splitArgs := fun s => [s]
  splitKeyVals := fun _ => []
  quoteCmdline := fun args => String.join (args.map (fun a => a ++ " "))
  ToLower := lowerASCII
  ToLower_ascii := fun _ _ => rfl

/-- Package variables before any conversion. -/
def noGlobals : Globals := ⟨none, none⟩

/-- The container unit with the given lines of the Container group. -/
def containerUnit (keyvals : List (String × String)) : UnitFile :=
  ⟨"web.container", "/etc/containers/systemd/web.container",
    keyvals.map (fun kv => ⟨ContainerGroup, kv.1, kv.2⟩)⟩

/-- The argument list expected for a unit whose only key is Image. -/
def minimalArgs (image : String) : List String :=
  ["/usr/bin/podman", "run", "--name=systemd-%N", "--cidfile=%t/%N.cid", "--replace",
   "--rm", "-d", "--log-driver", "journald", "--pull=never", "--runtime", "/usr/bin/crun",
   "--cgroups=split", "--init", "--sdnotify=conmon", "--security-opt=no-new-privileges",
   "--cap-drop=all", "--tmpfs", "/tmp:rw,size=512M,mode=1777", image]

/-- The keys of the Container group that configure namespace remapping. -/
def remapKeys : List String :=
  ["RemapUsers", "RemapUidStart", "RemapGidStart", "RemapUidRanges", "RemapGidRanges"]

/-- The unit without the remapping keys of its Container group.  Two units
differ only in the values or the presence of those keys when this gives the
same unit for both. -/
def UnitFile.withoutRemapKeys (u : UnitFile) : UnitFile :=
  { u with lines :=
      (u.lines.filter fun l => !(l.group == ContainerGroup && remapKeys.contains l.key)) }

/-- The container uid ConvertContainer resolves in the unprivileged context
(quadlet.go lines 398-412): the User key, by default the uid of the calling
process under KeepId and 0 otherwise. -/
def userContainerUid (host : Host) (container : UnitFile) : Nat :=
  container.LookupUint32 host ContainerGroup "User"
    (if container.LookupBoolean host ContainerGroup "KeepId" false then
      host.Getuid % 4294967296 else 0)

/-- The container gid ConvertContainer resolves in the unprivileged context
(quadlet.go lines 398-413). -/
def userContainerGid (host : Host) (container : UnitFile) : Nat :=
  container.LookupUint32 host ContainerGroup "Group"
    (if container.LookupBoolean host ContainerGroup "KeepId" false then
      host.Getgid % 4294967296 else 0)

/-! ## Predicates used to state the properties of the remapping -/

/-- The id x lies in the span of the interval r. -/
def Range.Contains (r : Range) (x : Nat) : Prop :=
  r.Start ≤ x ∧ x < r.Start + r.Length

/-- The id x lies in one of the intervals of the set. -/
def Ranges.Contains (rs : Quadlet.Ranges) (x : Nat) : Prop :=
  ∃ r ∈ rs.Ranges, r.Contains x

/-- The container id x lies in the container span of the entry. -/
def IdMap.mapsContainer (m : IdMap) (x : Nat) : Prop :=
  m.containerIdStart ≤ x ∧ x < m.containerIdStart + m.numIds

/-- The host id x lies in the host span of the entry. -/
def IdMap.mapsHost (m : IdMap) (x : Nat) : Prop :=
  m.hostIdStart ≤ x ∧ x < m.hostIdStart + m.numIds

/-- Two entries are disjoint on both axes: no container id lies in the
container span of both and no host id lies in the host span of both. -/
def IdMap.Disjoint (a b : IdMap) : Prop :=
  (∀ x, ¬ (a.mapsContainer x ∧ b.mapsContainer x)) ∧
  (∀ x, ¬ (a.mapsHost x ∧ b.mapsHost x))

/-- The two tokens addIdMap appends for an emitted entry. -/
def IdMap.tokens (argPrefix : String) (m : IdMap) : List String :=
  [argPrefix, fmtIdMap m.containerIdStart m.hostIdStart m.numIds]

/-- No id lies in two intervals of the list. -/
def RangesDisjoint (l : List Range) : Prop :=
  l.Pairwise (fun a b => ∀ x, ¬ (a.Contains x ∧ b.Contains x))

/-- The tokens of the single-pair map of one axis (quadlet.go lines 444-449):
those of `addIdMaps(podman, argPrefix, id, hostId, math.MaxUint32, nil)` when the
container id differs from the host id, none otherwise. -/
def singlePairMap (argPrefix : String) (id hostId : Nat) : List String :=
  if id != hostId then
    (emittedIdMaps id hostId MaxUint32 none).flatMap (IdMap.tokens argPrefix)
  else []

/-! ## Top-level colons -/

/-- Number of colons of the text that lie outside a bracketed segment.  The
flag says whether the scan starts inside a segment; a segment runs from '['
to the next ']' or, if there is none, to the end of the text. -/
def topColons : Bool → List Char → Nat
  | _, [] => 0
  | true, c :: rest => topColons (c != ']') rest
  | false, c :: rest =>
    if c = '[' then topColons true rest
    else (if c = ':' then 1 else 0) + topColons false rest

/-- Whether the end of the text lies inside a bracketed segment that is still
open; the flag says whether the scan starts inside a segment. -/
def insideBracket : Bool → List Char → Bool
  | m, [] => m
  | true, c :: rest => insideBracket (c != ']') rest
  | false, c :: rest => insideBracket (c == '[') rest

/-- Number of top-level colons of a string. -/
def topLevelColons (s : String) : Nat := topColons false s.data

/-- The fields joined with ":" between them. -/
def joinColon : List (List Char) → List Char
  | [] => []
  | [a] => a
  | a :: b :: rest => a ++ ':' :: joinColon (b :: rest)

/-- Reference splitter used in the proofs about splitPorts: the fields of
`cur ++ text` when `cur` is the part of the current field read so far and the
flag says whether the scan is inside a bracketed segment. -/
def splitRef : Bool → List Char → List Char → List (List Char)
  | _, [], cur => [cur]
  | true, c :: rest, cur => splitRef (c != ']') rest (cur ++ [c])
  | false, c :: rest, cur =>
    if c = '[' then splitRef true rest (cur ++ [c])
    else if c = ':' then cur :: splitRef false rest []
    else splitRef false rest (cur ++ [c])

/-- The port grammar of the specification, read on the whole of the text:
digits, optionally followed by '-' and digits, optionally followed by "/tcp"
or "/udp". -/
def matchesPortGrammar (s : String) : Bool :=
  let text := s.data
  let range :=
    if "/tcp".data.isSuffixOf text || "/udp".data.isSuffixOf text then
      text.take (text.length - 4)
    else text
  match range.span Char.isDigit with
  | (first, []) => !first.isEmpty
  | (first, '-' :: last) => !first.isEmpty && !last.isEmpty && last.all Char.isDigit
  | _ => false

/-- The fields of a published port as lines 536-555 of quadlet.go read them
from the top-level split of the value: one field is the container port, two
are host port and container port, three are ip, host port and container port,
and the ip "0.0.0.0" is replaced by the empty string. -/
def PublishFields (parts : List String) (ip host_port container_port : String) : Prop :=
  (parts = [container_port] ∧ host_port = "" ∧ ip = "") ∨
  (parts = [host_port, container_port] ∧ ip = "") ∨
  (∃ ip0, parts = [ip0, host_port, container_port] ∧ ip = if ip0 = "0.0.0.0" then "" else ip0)

/-- The flag "-p=" followed by only the fields that are present (not empty),
the container port being always written. -/
def publishFlag (ip host_port container_port : String) : String :=
  if ip ≠ "" then
    if host_port ≠ "" then "-p=" ++ ip ++ ":" ++ host_port ++ ":" ++ container_port
    else "-p=" ++ ip ++ "::" ++ container_port
  else if host_port ≠ "" then "-p=" ++ host_port ++ ":" ++ container_port
  else "-p=" ++ container_port

/-! ## The shape of the argument list -/

/-- The flags lines 369-384 of ConvertContainer append to the command line for
the values read under ReadOnly and VolatileTmp. -/
def readOnlyFlags (readOnly volatileTmp : Bool) : List String :=
  (if readOnly then ["--read-only"] else []) ++
  (if volatileTmp then
    if !readOnly then ["--tmpfs", "/tmp:rw,size=512M,mode=1777"] else []
   else if readOnly then ["--read-only-tmpfs=false"]
   else [])

/-- The tokens lines 369-384 of ConvertContainer can append. -/
def readOnlyTokens : List String :=
  ["--read-only", "--tmpfs", "/tmp:rw,size=512M,mode=1777", "--read-only-tmpfs=false"]

/-- A command line that starts with `/usr/bin/podman run` and holds none of the
tokens of `readOnlyTokens`. -/
def PodmanCmdline.FreshRun (p : PodmanCmdline) : Prop :=
  ∃ l, p.Args = ["/usr/bin/podman", "run"] ++ l ∧ ∀ t ∈ l, t ∉ readOnlyTokens

/-! ## Further hosts for the examples -/

/-- A host for the examples whose process has the user id 1000 and the group
id 100. -/
def staffHost : Host := { exampleHost with Getgid := 100 }

/-- A host for the examples on which the user quadlet has the subordinate user
ids 100000-165535 and the subordinate group ids 200000-265535. -/
def subidHost : Host :=
  { exampleHost with
    lookupHostSubuid := fun name =>
      if name = "quadlet" then some (NewRanges 100000 65536) else none
    lookupHostSubgid := fun name =>
      if name = "quadlet" then some (NewRanges 200000 65536) else none }

/-! ## The steps of addIdMaps -/

/-- The intervals ascend: each one ends before the next one starts. -/
def RangesAscending (l : List Range) : Prop :=
  l.Pairwise (fun a b => a.Start + a.Length ≤ b.Start)

/-- The state of addIdMaps when its identity loop ends (quadlet.go line 212):
the calls of `podman.addIdMap` the loop made, and mappedIds and
availableHostIds as it leaves them. -/
def addIdMapsIdentity (containerId hostId remapStartId : Nat)
    (availableHostIds : Option Ranges) : List IdMap × Ranges × Ranges :=
  let availableHostIds := match availableHostIds with
    | none => NewRangesEmpty
    | some p => p
  let unmappedIds := NewRanges 0 remapStartId
  let mappedIds := NewRanges 0 MaxUint32
  let mappedIds := mappedIds.Remove containerId 1
  let unmappedIds := unmappedIds.Remove containerId 1
  let unmappedIds := unmappedIds.Remove hostId 1
  let availableHostIds := availableHostIds.Remove hostId 1
  identityLoop unmappedIds.Ranges mappedIds availableHostIds

/-- The entries the identity loop of addIdMaps emits. -/
def identityIdMaps (containerId hostId remapStartId : Nat)
    (availableHostIds : Option Ranges) : List IdMap :=
  (addIdMapsIdentity containerId hostId remapStartId availableHostIds).1.filter
    (fun m => m.numIds ≠ 0)

/-- The calls of `podman.addIdMap` the pool loops of addIdMaps make (quadlet.go
lines 214-231). -/
def poolIdMapCalls (containerId hostId remapStartId : Nat)
    (availableHostIds : Option Ranges) : List IdMap :=
  (poolLoop (addIdMapsIdentity containerId hostId remapStartId availableHostIds).2.1.Ranges
    (addIdMapsIdentity containerId hostId remapStartId availableHostIds).2.2).1

/-- The ids of the intervals, in the order of the intervals and ascending
within each. -/
def rangesIds (l : List Range) : List Nat :=
  l.flatMap (fun r => List.range' r.Start r.Length)

/-- The pairs (container id, host id) an entry maps, in ascending order. -/
def IdMap.pairs (m : IdMap) : List (Nat × Nat) :=
  (List.range' m.containerIdStart m.numIds).zip (List.range' m.hostIdStart m.numIds)

/-- A valid pool: its intervals ascend without overlap and none is empty.  On
an empty first interval the inner pool loop of addIdMaps takes nothing from
the pool and does not advance. -/
def Ranges.Valid (r : Quadlet.Ranges) : Prop :=
  RangesAscending r.Ranges ∧ ∀ q ∈ r.Ranges, 0 < q.Length

/-- The container ids addIdMaps has still to map when the identity loop ends:
the ids of mappedIds, ascending. -/
def idsToMap (containerId hostId remapStartId : Nat) (availableHostIds : Option Ranges) :
    List Nat :=
  rangesIds (addIdMapsIdentity containerId hostId remapStartId availableHostIds).2.1.Ranges

/-- The host ids left in the pool when the identity loop of addIdMaps ends:
the ids of availableHostIds, ascending. -/
def hostIdsLeft (containerId hostId remapStartId : Nat) (availableHostIds : Option Ranges) :
    List Nat :=
  rangesIds (addIdMapsIdentity containerId hostId remapStartId availableHostIds).2.2.Ranges

/-! ## Units without some keys of the Container group -/

/-- The keys of the Container group read by the ReadOnly step of
ConvertContainer (quadlet.go lines 369-384). -/
def readOnlyKeys : List String := ["ReadOnly", "VolatileTmp"]

/-- The unit without the given keys of its Container group.  Two units differ
only in the values or the presence of those keys when this gives the same
unit for both. -/
def UnitFile.withoutKeys (u : UnitFile) (keys : List String) : UnitFile :=
  { u with lines :=
      (u.lines.filter fun l => !(l.group == ContainerGroup && keys.contains l.key)) }

/-! ## Ranges objects and pointers to them

The definitions above treat a `*Ranges` as the set it points to.  The ones
below keep the objects apart from the pointers, to follow what `Remove` does
in place to an object that several pointers may share. -/

/-- The Ranges objects built so far.  A `*Ranges` is the index of its object;
a new object goes to the end. -/
structure Heap where
  objects : List Ranges
deriving DecidableEq

/-- The object a pointer points to. -/
def Heap.get (h : Heap) (p : Nat) : Ranges := h.objects.getD p NewRangesEmpty

/-- A new object with the given contents: its pointer and the objects after
the allocation. -/
def Heap.alloc (h : Heap) (r : Ranges) : Nat × Heap :=
  (h.objects.length, ⟨h.objects ++ [r]⟩)

/-- The object behind the pointer overwritten. -/
def Heap.set (h : Heap) (p : Nat) (r : Ranges) : Heap := ⟨h.objects.set p r⟩

/-- Modelled from the spec: NewRangesEmpty (ranges.go is missing) returns a
pointer to a new empty set. -/
def Heap.NewRangesEmpty (h : Heap) : Nat × Heap := h.alloc Quadlet.NewRangesEmpty

/-- Modelled from the spec: NewRanges (ranges.go is missing) returns a pointer
to a new single-interval set. -/
def Heap.NewRanges (h : Heap) (start length : Nat) : Nat × Heap :=
  h.alloc (Quadlet.NewRanges start length)

/-- Modelled from the spec: Ranges.Copy (ranges.go is missing) returns a
pointer to an independent deep copy, a new object with the same intervals. -/
def Heap.Copy (h : Heap) (p : Nat) : Nat × Heap := h.alloc (h.get p).Copy

/-- Modelled from the spec: Ranges.Remove (ranges.go is missing) mutates the
receiver in place. -/
def Heap.Remove (h : Heap) (p : Nat) (start length : Nat) : Heap :=
  h.set p ((h.get p).Remove start length)

/-- Modelled from the spec: lookupHostSubuid (not in the two source files)
returns nil or a pointer to a set it has newly built. -/
def lookupHostSubuidRef (host : Host) (h : Heap) (name : String) : Option Nat × Heap :=
  match host.lookupHostSubuid name with
  | none => (none, h)
  | some r => (some (h.alloc r).1, (h.alloc r).2)

/-- Modelled from the spec: lookupHostSubgid (not in the two source files)
returns nil or a pointer to a set it has newly built. -/
def lookupHostSubgidRef (host : Host) (h : Heap) (name : String) : Option Nat × Heap :=
  match host.lookupHostSubgid name with
  | none => (none, h)
  | some r => (some (h.alloc r).1, (h.alloc r).2)

/-- Modelled from the spec: ParseRanges (ranges.go is missing) returns a
pointer to a set it has newly built. -/
def ParseRangesRef (host : Host) (h : Heap) (v : String) : Nat × Heap :=
  h.alloc (host.ParseRanges v)

/-- The package variables defaultRemapUids and defaultRemapGids as pointers;
none is nil. -/
structure GlobalRefs where
  defaultRemapUids : Option Nat
  defaultRemapGids : Option Nat
deriving DecidableEq

/-- The sets the package variables point to. -/
def GlobalRefs.deref (g : GlobalRefs) (h : Heap) : Globals :=
  ⟨g.defaultRemapUids.map h.get, g.defaultRemapGids.map h.get⟩

/-- Function `getDefaultRemapUids` on pointers: the pointer returned, the
package variables and the objects after the call. -/
def getDefaultRemapUidsRef (host : Host) (g : GlobalRefs) (h : Heap) :
    Option Nat × GlobalRefs × Heap :=
  let st : GlobalRefs × Heap :=
    if g.defaultRemapUids.isNone then
      let looked := lookupHostSubuidRef host h QuadletUserName
      let g := { g with defaultRemapUids := looked.1 }
      let h := looked.2
      if g.defaultRemapUids.isNone then
        let made := h.NewRanges FallbackUidStart FallbackUidLength
        ({ g with defaultRemapUids := some made.1 }, made.2)
      else (g, h)
    else (g, h)
  (st.1.defaultRemapUids, st.1, st.2)

/-- Function `getDefaultRemapGids` on pointers: the pointer returned, the
package variables and the objects after the call. -/
def getDefaultRemapGidsRef (host : Host) (g : GlobalRefs) (h : Heap) :
    Option Nat × GlobalRefs × Heap :=
  let st : GlobalRefs × Heap :=
    if g.defaultRemapGids.isNone then
      let looked := lookupHostSubgidRef host h QuadletUserName
      let g := { g with defaultRemapGids := looked.1 }
      let h := looked.2
      if g.defaultRemapGids.isNone then
        let made := h.NewRanges FallbackGidStart FallbackGidLength
        ({ g with defaultRemapGids := some made.1 }, made.2)
      else (g, h)
    else (g, h)
  (st.1.defaultRemapUids, st.1, st.2)

/-- Function `lookupRanges` on pointers: the pointer returned and the objects
after the call; a nil nameLookup or defaultValue is none. -/
def lookupRangesRef (host : Host) (h : Heap) (unit : UnitFile) (groupName key : String)
    (nameLookup : Option (Heap → String → Option Nat × Heap)) (defaultValue : Option Nat) :
    Nat × Heap :=
  match unit.Lookup groupName key with
  | none =>
    match defaultValue with
    | some d => h.Copy d
    | none => h.NewRangesEmpty
  | some v =>
    if v == "" then h.NewRangesEmpty
    else if !(v.data.head?.any Char.isDigit) then
      match nameLookup with
      | some f =>
        match (f h v).1 with
        | some r => (r, (f h v).2)
        | none => (f h v).2.NewRangesEmpty
      | none => h.NewRangesEmpty
    else ParseRangesRef host h v

/-- Identity loop of addIdMaps (quadlet.go lines 205-212) on pointers: the
command line and the objects as the loop leaves them. -/
def identityLoopRef (argPrefix : String) (mappedIds availableHostIds : Nat) :
    List Range → PodmanCmdline → Heap → PodmanCmdline × Heap
  | [], podman, h => (podman, h)
  | r :: rest, podman, h =>
    let start := r.Start
    let length := r.Length
    let podman := podman.addIdMap argPrefix start start length
    let h := h.Remove mappedIds start length
    let h := h.Remove availableHostIds start length
    identityLoopRef argPrefix mappedIds availableHostIds rest podman h

/-- Inner loop of addIdMaps (quadlet.go lines 219-230) on pointers, with the
bound on the number of iterations of `poolLoopInner`. -/
def poolLoopInnerRef (argPrefix : String) (availableHostIds : Nat) :
    Nat → Nat → Nat → PodmanCmdline → Heap → PodmanCmdline × Heap
  | 0, _, _, podman, h => (podman, h)
  | fuel + 1, c_start, c_length, podman, h =>
    match (h.get availableHostIds).Ranges with
    | [] => (podman, h)
    | h_range :: _ =>
      if c_length > 0 then
        let h_start := h_range.Start
        let h_length := h_range.Length
        let next_length := minUint32 h_length c_length
        let podman := podman.addIdMap argPrefix c_start h_start next_length
        let h := h.Remove availableHostIds h_start next_length
        poolLoopInnerRef argPrefix availableHostIds fuel ((c_start + next_length) % 4294967296)
          ((c_length + 4294967296 - next_length) % 4294967296) podman h
      else (podman, h)

/-- Outer loop of addIdMaps (quadlet.go lines 214-231) on pointers, over the
intervals of mappedIds, which the loop does not change. -/
def poolLoopRef (argPrefix : String) (availableHostIds : Nat) :
    List Range → PodmanCmdline → Heap → PodmanCmdline × Heap
  | [], podman, h => (podman, h)
  | c_range :: rest, podman, h =>
    match (h.get availableHostIds).Ranges with
    | [] => (podman, h)
    | _ :: _ =>
      let c_start := c_range.Start
      let c_length := c_range.Length
      let inner := poolLoopInnerRef argPrefix availableHostIds c_length c_start c_length podman h
      poolLoopRef argPrefix availableHostIds rest inner.1 inner.2

/-- Function `addIdMaps` (quadlet.go lines 179-232) on pointers: the command
line and the objects after the call.  A nil pool is none. -/
def addIdMapsRef (h : Heap) (podman : PodmanCmdline) (argPrefix : String)
    (containerId hostId remapStartId : Nat) (availableHostIds : Option Nat) :
    PodmanCmdline × Heap :=
  let pool : Nat × Heap := match availableHostIds with
    | none => h.NewRangesEmpty
    | some p => (p, h)
  let availableHostIds := pool.1
  let h := pool.2
  let made := h.NewRanges 0 remapStartId
  let unmappedIds := made.1
  let h := made.2
  let made := h.NewRanges 0 MaxUint32
  let mappedIds := made.1
  let h := made.2
  let podman := podman.addIdMap argPrefix containerId hostId 1
  let h := h.Remove mappedIds containerId 1
  let h := h.Remove unmappedIds containerId 1
  let h := h.Remove unmappedIds hostId 1
  let h := h.Remove availableHostIds hostId 1
  let ident := identityLoopRef argPrefix mappedIds availableHostIds (h.get unmappedIds).Ranges
    podman h
  poolLoopRef argPrefix availableHostIds (ident.2.get mappedIds).Ranges ident.1 ident.2

/-- Lines 434-459 of ConvertContainer on pointers: the step that emits the id
maps.  Returns the command line, the package variables and the objects. -/
def remapUsersRef (host : Host) (g : GlobalRefs) (h : Heap) (container : UnitFile)
    (isUser : Bool) (podman : PodmanCmdline) (uid hostUid gid hostGid : Nat) :
    PodmanCmdline × GlobalRefs × Heap :=
  let remapUsers :=
    if isUser then false else container.LookupBoolean host ContainerGroup "RemapUsers" false
  if !remapUsers then
    let st : PodmanCmdline × Heap :=
      if uid != hostUid then addIdMapsRef h podman "--uidmap" uid hostUid MaxUint32 none
      else (podman, h)
    let st : PodmanCmdline × Heap :=
      if gid != hostGid then addIdMapsRef st.2 st.1 "--gidmap" gid hostGid MaxUint32 none
      else st
    (st.1, g, st.2)
  else
    let defaultUids := getDefaultRemapUidsRef host g h
    let uid_remap_ids := lookupRangesRef host defaultUids.2.2 container ContainerGroup
      "RemapUidRanges" (some (lookupHostSubuidRef host)) defaultUids.1
    let defaultGids := getDefaultRemapGidsRef host defaultUids.2.1 uid_remap_ids.2
    let gid_remap_ids := lookupRangesRef host defaultGids.2.2 container ContainerGroup
      "RemapGidRanges" (some (lookupHostSubgidRef host)) defaultGids.1
    let remap_uid_start := container.LookupUint32 host ContainerGroup "RemapUidStart" 1
    let remap_gid_start := container.LookupUint32 host ContainerGroup "RemapGidStart" 1
    let st := addIdMapsRef gid_remap_ids.2 podman "--uidmap" uid hostUid remap_uid_start
      (some uid_remap_ids.1)
    let st := addIdMapsRef st.2 st.1 "--gidmap" gid hostGid remap_gid_start
      (some gid_remap_ids.1)
    (st.1, defaultGids.2.1, st.2)
/-- Lines 235-595 of ConvertContainer on pointers: as `convertContainerCmdline`,
with the package variables as pointers and the Ranges objects after the call. -/
def convertContainerCmdlineRef (host : Host) (g : GlobalRefs) (h : Heap) (container : UnitFile)
    (isUser : Bool) : Except String (UnitFile × PodmanCmdline) × GlobalRefs × Heap :=
  let service := container.Dup
  let service :=
    { service with Filename := replaceExtension container.Filename ".service" "" "" }
  let service :=
    if container.Path != "" then service.Add UnitGroup "SourcePath" container.Path
    else service
  match checkForUnknownKeys container ContainerGroup supportedContainerKeys with
  | some err => (.error err, g, h)
  | none =>
  let service := service.RenameGroup ContainerGroup XContainerGroup
  let lookupImage := container.Lookup ContainerGroup "Image"
  let image := lookupImage.getD ""
  if !lookupImage.isSome || image == "" then (.error "No Image key specified", g, h) else
  let lookupName := container.Lookup ContainerGroup "ContainerName"
  let containerName :=
    if !lookupName.isSome || lookupName.getD "" == "" then "systemd-%N"
    else lookupName.getD ""
  let service := service.Add ServiceGroup "Environment" "PODMAN_SYSTEMD_UNIT=%n"
  let lookupKillMode := service.Lookup ServiceGroup "KillMode"
  let killMode := lookupKillMode.getD ""
  let ok := lookupKillMode.isSome
  if (!ok || !(killMode == "mixed" || killMode == "control-group")) && ok then
    (.error ("Invalid KillMode '" ++ killMode ++ "'"), g, h)
  else
  let service :=
    if !ok || !(killMode == "mixed" || killMode == "control-group") then
      service.Set ServiceGroup "KillMode" "mixed"
    else service
  let podmanEnv := container.LookupAllKeyVal host ContainerGroup "Environment"
  let service := service.Add UnitGroup "RequiresMountsFor" "%t/containers"
  let service := service.Add ServiceGroup "ExecStartPre" "-rm -f %t/%N.cid"
  let service :=
    service.Add ServiceGroup "ExecStopPost" "-/usr/bin/podman rm -f -i --cidfile=%t/%N.cid"
  let service := service.Add ServiceGroup "ExecStopPost" "-rm -f %t/%N.cid"
  let podman := NewPodmanCmdline ["run"]
  let podman := podman.addf ("--name=" ++ containerName)
  let podman := podman.add
    ["--cidfile=%t/%N.cid", "--replace", "--rm", "-d", "--log-driver", "journald",
     "--pull=never"]
  let service := service.Add ServiceGroup "Delegate" "yes"
  let podman := podman.add ["--runtime", "/usr/bin/crun", "--cgroups=split"]
  let lookupTimezone := container.Lookup ContainerGroup "Timezone"
  let timezone := lookupTimezone.getD ""
  let podman :=
    if lookupTimezone.isSome && timezone != "" then podman.addf ("--tz=" ++ timezone)
    else podman
  let runInit := container.LookupBoolean host ContainerGroup "RunInit" true
  let podman := if runInit then podman.add ["--init"] else podman
  let notify := container.LookupBoolean host ContainerGroup "Notify" false
  let podman :=
    if notify then podman.add ["--sdnotify=container"] else podman.add ["--sdnotify=conmon"]
  let service := service.Setv ServiceGroup [("Type", "notify"), ("NotifyAccess", "all")]
  let service :=
    if !container.HasKey ServiceGroup "SyslogIdentifier" then
      service.Set ServiceGroup "SyslogIdentifier" "%N"
    else service
  let noNewPrivileges := container.LookupBoolean host ContainerGroup "NoNewPrivileges" true
  let podman :=
    if noNewPrivileges then podman.add ["--security-opt=no-new-privileges"] else podman
  let dropCaps :=
    if container.HasKey ContainerGroup "DropCapability" then
      container.LookupAll ContainerGroup "DropCapability"
    else ["all"]
  let podman := dropCaps.foldl (fun p caps => p.addf ("--cap-drop=" ++ host.ToLower caps)) podman
  let addCaps := container.LookupAll ContainerGroup "AddCapability"
  let podman := addCaps.foldl (fun p caps => p.addf ("--cap-add=" ++ host.ToLower caps)) podman
  let readOnly := container.LookupBoolean host ContainerGroup "ReadOnly" false
  let podman := if readOnly then podman.add ["--read-only"] else podman
  let volatileTmp := container.LookupBoolean host ContainerGroup "VolatileTmp" true
  let podman :=
    if volatileTmp then
      if !readOnly then podman.add ["--tmpfs", "/tmp:rw,size=512M,mode=1777"] else podman
    else if readOnly then podman.add ["--read-only-tmpfs=false"]
    else podman
  let socketActivated := container.LookupBoolean host ContainerGroup "SocketActivated" false
  let podman := if socketActivated then podman.add ["--preserve-fds=1"] else podman
  let podmanEnv :=
    if socketActivated then (podmanEnv.set "LISTEN_FDS" "1").set "LISTEN_PID" "2"
    else podmanEnv
  let keepId := container.LookupBoolean host ContainerGroup "KeepId" false
  if keepId && !isUser then
    (.error ("Key 'KeepId' in '" ++ container.Path ++ "' unsupported for system units"), g, h)
  else
  let defaultContainerUid := if keepId then host.Getuid % 4294967296 else 0
  let defaultContainerGid := if keepId then host.Getgid % 4294967296 else 0
  let podman := if keepId then podman.add ["--userns", "keep-id"] else podman
  let uid := container.LookupUint32 host ContainerGroup "User" defaultContainerUid
  let gid := container.LookupUint32 host ContainerGroup "Group" defaultContainerGid
  match container.LookupUid host ContainerGroup "HostUser" uid with
  | .error err => (.error ("Key 'HostUser' invalid: " ++ err), g, h)
  | .ok hostUid =>
  match container.LookupGid host ContainerGroup "HostGroup" gid with
  | .error err => (.error ("Key 'HostGroup' invalid: " ++ err), g, h)
  | .ok hostGid =>
  let podman :=
    if uid != defaultContainerUid || gid != defaultContainerUid then
      let podman := podman.add ["--user"]
      if gid == defaultContainerGid then podman.addf (toString uid)
      else podman.addf (toString uid ++ ":" ++ toString gid)
    else podman
  let remapped := remapUsersRef host g h container isUser podman uid hostUid gid hostGid
  let podman := remapped.1
  let g := remapped.2.1
  let h := remapped.2.2
  let volumes := container.LookupAll ContainerGroup "Volume"
  let mounted := volumes.foldl addVolume (service, podman)
  let service := mounted.1
  let podman := mounted.2
  let exposed_ports := container.LookupAll ContainerGroup "ExposeHostPort"
  match addExposedPorts exposed_ports podman with
  | .error err => (.error err, g, h)
  | .ok podman =>
  let publish_ports := container.LookupAll ContainerGroup "PublishPort"
  match addPublishPorts publish_ports podman with
  | .error err => (.error err, g, h)
  | .ok podman =>
  let podman := podman.addEnv podmanEnv
  let labels := container.LookupAllKeyVal host ContainerGroup "Label"
  let podman := podman.addLabels labels
  let annotations := container.LookupAllKeyVal host ContainerGroup "Annotation"
  let podman := podman.addAnnotations annotations
  let podman_args := container.LookupAllArgs host ContainerGroup "PodmanArgs"
  let podman := podman.add podman_args
  let podman := podman.add [image]
  let podman :=
    match container.LookupLastArgs host ContainerGroup "Exec" with
    | some exec_args => podman.add exec_args
    | none => podman
  (.ok (service, podman), g, h)

/-- Function `ConvertContainer` on pointers: the generated unit or the error, the
package variables and the Ranges objects after the call. -/
def ConvertContainerRef (host : Host) (g : GlobalRefs) (h : Heap) (container : UnitFile)
    (isUser : Bool) : Except String UnitFile × GlobalRefs × Heap :=
  match convertContainerCmdlineRef host g h container isUser with
  | (.error err, g, h) => (.error err, g, h)
  | (.ok (service, podman), g, h) =>
    (.ok (service.AddCmdline host ServiceGroup "ExecStart" podman.Args), g, h)

/-- The argument list ConvertContainer, on pointers, installs as ExecStart, or
its error. -/
def ConvertContainerArgsRef (host : Host) (g : GlobalRefs) (h : Heap) (container : UnitFile)
    (isUser : Bool) : Except String (List String) :=
  match (convertContainerCmdlineRef host g h container isUser).1 with
  | .error err => .error err
  | .ok (_, podman) => .ok podman.Args

/-- The package variables, when set, point to objects that exist. -/
def GlobalRefs.WellFormed (g : GlobalRefs) (h : Heap) : Prop :=
  (∀ p, g.defaultRemapUids = some p → p < h.objects.length) ∧
  (∀ p, g.defaultRemapGids = some p → p < h.objects.length)

/-- What a run from the package variables g and the objects h to g2 and h2
keeps: every object that existed has its contents, no object is dropped, a
package variable that was set points where it did, and the package variables
point to objects that exist. -/
def Keeps (g : GlobalRefs) (h : Heap) (g2 : GlobalRefs) (h2 : Heap) : Prop :=
  (∀ p, p < h.objects.length → h2.get p = h.get p) ∧
  h.objects.length ≤ h2.objects.length ∧
  (∀ p, g.defaultRemapUids = some p → g2.defaultRemapUids = some p) ∧
  (∀ p, g.defaultRemapGids = some p → g2.defaultRemapGids = some p) ∧
  g2.WellFormed h2

/-- A result on pointers agrees with a result on sets: the same outcome, the
package variables point to the sets of the other result, and the run kept what
`Keeps` lists. -/
def Refines {α : Type} (g : GlobalRefs) (h : Heap) (out : α × GlobalRefs × Heap)
    (v : α × Globals) : Prop :=
  out.1 = v.1 ∧ out.2.1.deref out.2.2 = v.2 ∧ Keeps g h out.2.1 out.2.2

/-- The set `getDefaultRemapUids` gives the user variable when it is nil
(quadlet.go lines 87-92): the looked-up set, or the fallback. -/
def defaultUidsValue (host : Host) : Ranges :=
  (host.lookupHostSubuid QuadletUserName).getD (NewRanges FallbackUidStart FallbackUidLength)

/-- The set `getDefaultRemapGids` gives the group variable when it is nil
(quadlet.go lines 99-104): the looked-up set, or the fallback. -/
def defaultGidsValue (host : Host) : Ranges :=
  (host.lookupHostSubgid QuadletUserName).getD (NewRanges FallbackGidStart FallbackGidLength)

/-- A name lookup on pointers that returns nil or a pointer to a new object
holding the set the lookup on sets returns. -/
def NameLookupFresh (fRef : Heap → String → Option Nat × Heap)
    (f : String → Option Ranges) : Prop :=
  ∀ (h : Heap) (v : String),
    (fRef h v).1.map (fRef h v).2.get = f v ∧
    (∀ q, q < h.objects.length → (fRef h v).2.get q = h.get q) ∧
    h.objects.length ≤ (fRef h v).2.objects.length ∧
    (∀ p, (fRef h v).1 = some p → h.objects.length ≤ p ∧ p < (fRef h v).2.objects.length)

/-- Package variables that are initialised: the user variable points to the
first object and the group variable to the second. -/
def initialisedRefs : GlobalRefs := ⟨some 0, some 1⟩

/-- Two objects, the sets 100000+65536 and 200000+65536, for `initialisedRefs`. -/
def initialisedHeap : Heap := ⟨[NewRanges 100000 65536, NewRanges 200000 65536]⟩

/-- A container unit with RemapUsers enabled and no explicit ranges. -/
def remapUnit : UnitFile := containerUnit [("Image", "img"), ("RemapUsers", "yes")]

/-- The flags of the id maps (quadlet.go lines 445-458). -/
def remapFlags : List String := ["--uidmap", "--gidmap"]

/-- The environment ConvertContainer hands to podman.addEnv (quadlet.go lines
275 and 387-396): the Environment values, with LISTEN_FDS and LISTEN_PID set
for a socket-activated container. -/
def containerEnv (host : Host) (container : UnitFile) : GoMap :=
  let podmanEnv := container.LookupAllKeyVal host ContainerGroup "Environment"
  if container.LookupBoolean host ContainerGroup "SocketActivated" false then
    (podmanEnv.set "LISTEN_FDS" "1").set "LISTEN_PID" "2"
  else podmanEnv

/-- No token of the command line is a flag of the id maps. -/
def PodmanCmdline.NoRemapFlag (p : PodmanCmdline) : Prop :=
  ∀ t ∈ p.Args, t ∉ remapFlags

/-! ## Theorems -/

/-- The function strings.ToLower keeps the default capability `all`. -/
theorem Host.ToLower_all (host : Host) : host.ToLower "all" = "all" :=
  (host.ToLower_ascii "all" (by decide)).trans (by decide)

/-! ### The range algebra -/

theorem Range.remove_contains (r : Range) (s l x : Nat) :
    (∃ q ∈ r.remove s l, q.Contains x) ↔ r.Contains x ∧ ¬ (s ≤ x ∧ x < s + l) := by
  unfold Range.remove Range.Contains
  by_cases h : max r.Start s < min (r.Start + r.Length) (s + l)
  · rw [if_pos h]
    constructor
    · rintro ⟨q, hq, hx⟩
      rcases List.mem_append.1 hq with h1 | h1
      · split at h1
        · rw [List.mem_singleton] at h1; subst h1; simp only at hx ⊢; omega
        · simp at h1
      · split at h1
        · rw [List.mem_singleton] at h1; subst h1; simp only at hx ⊢; omega
        · simp at h1
    · rintro ⟨hx, hn⟩
      by_cases hlt : x < s
      · refine ⟨⟨r.Start, s - r.Start⟩, ?_, ?_⟩
        · rw [if_pos (by omega)]; simp
        · simp only; omega
      · refine ⟨⟨s + l, r.Start + r.Length - (s + l)⟩, ?_, ?_⟩
        · rw [if_pos (by omega : s + l < r.Start + r.Length)]; simp
        · simp only; omega
  · rw [if_neg h]
    simp only [List.mem_singleton, exists_eq_left]
    omega

theorem Ranges.Remove_contains (rs : Quadlet.Ranges) (s l x : Nat) :
    (rs.Remove s l).Contains x ↔ rs.Contains x ∧ ¬ (s ≤ x ∧ x < s + l) := by
  unfold Ranges.Remove Ranges.Contains
  simp only [List.mem_flatMap]
  constructor
  · rintro ⟨q, ⟨r, hr, hq⟩, hx⟩
    have := (Range.remove_contains r s l x).1 ⟨q, hq, hx⟩
    exact ⟨⟨r, hr, this.1⟩, this.2⟩
  · rintro ⟨⟨r, hr, hx⟩, hn⟩
    obtain ⟨q, hq, hqx⟩ := (Range.remove_contains r s l x).2 ⟨hx, hn⟩
    exact ⟨q, ⟨r, hr, hq⟩, hqx⟩

theorem Range.remove_sub (r : Range) (s l : Nat) (q : Range) (hq : q ∈ r.remove s l)
    (x : Nat) (hx : q.Contains x) : r.Contains x :=
  ((Range.remove_contains r s l x).1 ⟨q, hq, hx⟩).1

theorem Range.remove_end_le (r : Range) (s l : Nat) (q : Range) (hq : q ∈ r.remove s l) :
    q.Start + q.Length ≤ r.Start + r.Length := by
  unfold Range.remove at hq
  split at hq
  · rcases List.mem_append.1 hq with h | h
    · split at h
      · rw [List.mem_singleton] at h; subst h; simp only; omega
      · simp at h
    · split at h
      · rw [List.mem_singleton] at h; subst h; simp only; omega
      · simp at h
  · rw [List.mem_singleton] at hq; subst hq; exact le_rfl

theorem Range.remove_disjoint (r : Range) (s l : Nat) : RangesDisjoint (r.remove s l) := by
  unfold RangesDisjoint Range.remove Range.Contains
  split
  · split <;> split <;>
      simp only [List.append_nil, List.nil_append, List.singleton_append, List.pairwise_cons,
        List.Pairwise.nil, List.mem_singleton, List.not_mem_nil, forall_eq, and_true,
        IsEmpty.forall_iff, implies_true]
    intros
    omega
  · simp

theorem Ranges.Remove_disjoint (rs : Quadlet.Ranges) (s l : Nat)
    (h : RangesDisjoint rs.Ranges) : RangesDisjoint (rs.Remove s l).Ranges := by
  unfold RangesDisjoint Ranges.Remove at *
  rw [List.pairwise_flatMap]
  refine ⟨fun a _ => Range.remove_disjoint a s l, ?_⟩
  refine h.imp ?_
  intro a b hab q hq q2 hq2 x hx
  exact hab x ⟨Range.remove_sub a s l q hq x hx.1, Range.remove_sub b s l q2 hq2 x hx.2⟩

theorem Ranges.Remove_end_le (rs : Quadlet.Ranges) (s l B : Nat)
    (h : ∀ r ∈ rs.Ranges, r.Start + r.Length ≤ B) :
    ∀ r ∈ (rs.Remove s l).Ranges, r.Start + r.Length ≤ B := by
  intro q hq
  unfold Ranges.Remove at hq
  obtain ⟨r, hr, hq⟩ := List.mem_flatMap.1 hq
  exact le_trans (Range.remove_end_le r s l q hq) (h r hr)

/-! ### The loops of addIdMaps -/

theorem minUint32_le_left (x y : Nat) : minUint32 x y ≤ x := by
  unfold minUint32; split <;> omega

theorem minUint32_le_right (x y : Nat) : minUint32 x y ≤ y := by
  unfold minUint32; split <;> omega

theorem identityLoop_calls (us : List Range) (m a : Ranges) :
    (identityLoop us m a).1 = us.map (fun r => (⟨r.Start, r.Start, r.Length⟩ : IdMap)) := by
  induction us generalizing m a with
  | nil => rfl
  | cons r rest ih => simp only [identityLoop, List.map_cons, ih]

theorem identityLoop_mapped_contains (us : List Range) (m a : Ranges) (x : Nat) :
    (identityLoop us m a).2.1.Contains x ↔ m.Contains x ∧ ∀ r ∈ us, ¬ r.Contains x := by
  induction us generalizing m a with
  | nil => simp [identityLoop]
  | cons r rest ih =>
    simp only [identityLoop, ih, Ranges.Remove_contains, List.mem_cons, forall_eq_or_imp,
      Range.Contains]
    tauto

theorem identityLoop_avail_contains (us : List Range) (m a : Ranges) (x : Nat) :
    (identityLoop us m a).2.2.Contains x ↔ a.Contains x ∧ ∀ r ∈ us, ¬ r.Contains x := by
  induction us generalizing m a with
  | nil => simp [identityLoop]
  | cons r rest ih =>
    simp only [identityLoop, ih, Ranges.Remove_contains, List.mem_cons, forall_eq_or_imp,
      Range.Contains]
    tauto

theorem identityLoop_mapped_disjoint (us : List Range) (m a : Ranges)
    (h : RangesDisjoint m.Ranges) : RangesDisjoint (identityLoop us m a).2.1.Ranges := by
  induction us generalizing m a with
  | nil => exact h
  | cons r rest ih =>
    simp only [identityLoop]
    exact ih _ _ (Ranges.Remove_disjoint m _ _ h)

theorem identityLoop_mapped_end_le (us : List Range) (m a : Ranges) (B : Nat)
    (h : ∀ r ∈ m.Ranges, r.Start + r.Length ≤ B) :
    ∀ r ∈ (identityLoop us m a).2.1.Ranges, r.Start + r.Length ≤ B := by
  induction us generalizing m a with
  | nil => exact h
  | cons r rest ih =>
    simp only [identityLoop]
    exact ih _ _ (Ranges.Remove_end_le m _ _ B h)

theorem poolLoopInner_spec (fuel : Nat) : ∀ (c_start c_length : Nat) (avail : Ranges),
    c_start + c_length < 4294967296 →
    (∀ m ∈ (poolLoopInner fuel c_start c_length avail).1,
      (∀ x, m.mapsContainer x → c_start ≤ x ∧ x < c_start + c_length) ∧
      (∀ x, m.mapsHost x → avail.Contains x)) ∧
    (∀ x, (poolLoopInner fuel c_start c_length avail).2.Contains x →
      avail.Contains x ∧ ∀ m ∈ (poolLoopInner fuel c_start c_length avail).1, ¬ m.mapsHost x) ∧
    List.Pairwise IdMap.Disjoint (poolLoopInner fuel c_start c_length avail).1 := by
  induction fuel with
  | zero =>
    intro c_start c_length avail _
    simp [poolLoopInner]
  | succ fuel ih =>
    intro c_start c_length avail hb
    rcases avail with ⟨_ | ⟨h_range, tl⟩⟩
    · simp [poolLoopInner]
    · by_cases hc : c_length > 0
      · have hl := minUint32_le_left h_range.Length c_length
        have hr := minUint32_le_right h_range.Length c_length
        have e1 : (c_start + minUint32 h_range.Length c_length) % 4294967296 =
            c_start + minUint32 h_range.Length c_length := Nat.mod_eq_of_lt (by omega)
        have e2 : (c_length + 4294967296 - minUint32 h_range.Length c_length) % 4294967296 =
            c_length - minUint32 h_range.Length c_length := by omega
        simp only [poolLoopInner, hc, if_true, e1, e2]
        obtain ⟨i1, i2, i3⟩ := ih (c_start + minUint32 h_range.Length c_length)
          (c_length - minUint32 h_range.Length c_length)
          (Ranges.Remove ⟨h_range :: tl⟩ h_range.Start (minUint32 h_range.Length c_length))
          (by omega)
        refine ⟨?_, ?_, ?_⟩
        · intro m hm
          rcases List.mem_cons.1 hm with hm | hm
          · subst hm
            refine ⟨fun x hx => ?_, fun x hx => ⟨h_range, List.mem_cons_self _ _, ?_⟩⟩
            · simp only [IdMap.mapsContainer] at hx; omega
            · simp only [IdMap.mapsHost, Range.Contains] at hx ⊢; omega
          · refine ⟨fun x hx => ?_, fun x hx => ?_⟩
            · have := (i1 m hm).1 x hx; omega
            · exact ((Ranges.Remove_contains _ _ _ x).1 ((i1 m hm).2 x hx)).1
        · intro x hx
          obtain ⟨hx1, hx2⟩ := i2 x hx
          have hx3 := (Ranges.Remove_contains _ _ _ x).1 hx1
          refine ⟨hx3.1, ?_⟩
          intro m hm
          rcases List.mem_cons.1 hm with hm | hm
          · subst hm
            simp only [IdMap.mapsHost]
            exact hx3.2
          · exact hx2 m hm
        · refine List.pairwise_cons.2 ⟨?_, i3⟩
          intro m hm
          refine ⟨fun x hx => ?_, fun x hx => ?_⟩
          · have := (i1 m hm).1 x hx.2
            have h0 := hx.1
            simp only [IdMap.mapsContainer] at h0; omega
          · have := ((Ranges.Remove_contains _ _ _ x).1 ((i1 m hm).2 x hx.2)).2
            have h0 := hx.1
            simp only [IdMap.mapsHost] at h0
            exact this h0
      · simp [poolLoopInner, hc]

theorem poolLoop_spec (rs : List Range) : ∀ (avail : Ranges),
    RangesDisjoint rs → (∀ r ∈ rs, r.Start + r.Length < 4294967296) →
    (∀ m ∈ (poolLoop rs avail).1,
      (∀ x, m.mapsContainer x → ∃ r ∈ rs, r.Contains x) ∧
      (∀ x, m.mapsHost x → avail.Contains x)) ∧
    (∀ x, (poolLoop rs avail).2.Contains x →
      avail.Contains x ∧ ∀ m ∈ (poolLoop rs avail).1, ¬ m.mapsHost x) ∧
    List.Pairwise IdMap.Disjoint (poolLoop rs avail).1 := by
  induction rs with
  | nil =>
    intro avail _ _
    simp [poolLoop]
  | cons c_range rest ih =>
    intro avail hd hb
    rcases avail with ⟨_ | ⟨h_range, tl⟩⟩
    · simp [poolLoop]
    · simp only [poolLoop]
      obtain ⟨hd1, hd2⟩ := List.pairwise_cons.1 hd
      obtain ⟨i1, i2, i3⟩ := poolLoopInner_spec c_range.Length c_range.Start c_range.Length
        ⟨h_range :: tl⟩ (hb c_range (List.mem_cons_self _ _))
      obtain ⟨o1, o2, o3⟩ := ih
        (poolLoopInner c_range.Length c_range.Start c_range.Length ⟨h_range :: tl⟩).2
        hd2 (fun r hr => hb r (List.mem_cons_of_mem _ hr))
      refine ⟨?_, ?_, ?_⟩
      · intro m hm
        rcases List.mem_append.1 hm with hm | hm
        · exact ⟨fun x hx => ⟨c_range, List.mem_cons_self _ _, (i1 m hm).1 x hx⟩,
            (i1 m hm).2⟩
        · refine ⟨fun x hx => ?_, fun x hx => (i2 x ((o1 m hm).2 x hx)).1⟩
          obtain ⟨r, hr, hrx⟩ := (o1 m hm).1 x hx
          exact ⟨r, List.mem_cons_of_mem _ hr, hrx⟩
      · intro x hx
        obtain ⟨hx1, hx2⟩ := o2 x hx
        obtain ⟨hx3, hx4⟩ := i2 x hx1
        refine ⟨hx3, fun m hm => ?_⟩
        rcases List.mem_append.1 hm with hm | hm
        · exact hx4 m hm
        · exact hx2 m hm
      · refine List.pairwise_append.2 ⟨i3, o3, ?_⟩
        intro a ha b hb2
        refine ⟨fun x hx => ?_, fun x hx => ?_⟩
        · obtain ⟨r, hr, hrx⟩ := (o1 b hb2).1 x hx.2
          exact hd1 r hr x ⟨(i1 a ha).1 x hx.1, hrx⟩
        · exact (i2 x ((o1 b hb2).2 x hx.2)).2 a ha hx.1

theorem foldl_addIdMap_args (argPrefix : String) (calls : List IdMap) (podman : PodmanCmdline) :
    (calls.foldl (fun p m => p.addIdMap argPrefix m.containerIdStart m.hostIdStart m.numIds)
      podman).Args =
    podman.Args ++ (calls.filter (fun m => m.numIds ≠ 0)).flatMap (IdMap.tokens argPrefix) := by
  induction calls generalizing podman with
  | nil => simp
  | cons m rest ih =>
    rw [List.foldl_cons, ih]
    by_cases hm : m.numIds = 0
    · simp [PodmanCmdline.addIdMap, hm, List.filter_cons]
    · simp [PodmanCmdline.addIdMap, PodmanCmdline.add, hm, List.filter_cons, IdMap.tokens]

theorem addIdMapsCalls_pairwise (containerId hostId remapStartId : Nat)
    (availableHostIds : Option Ranges) :
    List.Pairwise IdMap.Disjoint
      (addIdMapsCalls containerId hostId remapStartId availableHostIds).1 := by
  simp only [addIdMapsCalls]
  generalize hA : Ranges.Remove (match availableHostIds with
    | none => NewRangesEmpty
    | some p => p) hostId 1 = avail0
  generalize hU : ((NewRanges 0 remapStartId).Remove containerId 1).Remove hostId 1 = unm
  generalize hM : (NewRanges 0 MaxUint32).Remove containerId 1 = map0
  have hUd : RangesDisjoint unm.Ranges := by
    rw [← hU]
    refine Ranges.Remove_disjoint _ _ _ (Ranges.Remove_disjoint _ _ _ ?_)
    simp [NewRanges, RangesDisjoint]
  have hUc : ∀ x, unm.Contains x → x ≠ containerId ∧ x ≠ hostId := by
    intro x hx
    rw [← hU, Ranges.Remove_contains, Ranges.Remove_contains] at hx
    omega
  have hMd : RangesDisjoint map0.Ranges := by
    rw [← hM]
    refine Ranges.Remove_disjoint _ _ _ ?_
    simp [NewRanges, RangesDisjoint]
  have hMb : ∀ r ∈ map0.Ranges, r.Start + r.Length ≤ MaxUint32 := by
    rw [← hM]
    refine Ranges.Remove_end_le _ _ _ _ ?_
    simp [NewRanges]
  have hMc : ∀ x, map0.Contains x → x ≠ containerId := by
    intro x hx
    rw [← hM, Ranges.Remove_contains] at hx
    omega
  have hAc : ∀ x, avail0.Contains x → x ≠ hostId := by
    intro x hx
    rw [← hA, Ranges.Remove_contains] at hx
    omega
  have hId := identityLoop_mapped_disjoint unm.Ranges map0 avail0 hMd
  have hIb := identityLoop_mapped_end_le unm.Ranges map0 avail0 MaxUint32 hMb
  obtain ⟨p1, _, p3⟩ := poolLoop_spec (identityLoop unm.Ranges map0 avail0).2.1.Ranges
    (identityLoop unm.Ranges map0 avail0).2.2 hId
    (fun r hr => by have := hIb r hr; unfold MaxUint32 at this; omega)
  have pc : ∀ m ∈ (poolLoop (identityLoop unm.Ranges map0 avail0).2.1.Ranges
      (identityLoop unm.Ranges map0 avail0).2.2).1, ∀ x, m.mapsContainer x →
      map0.Contains x ∧ ∀ r ∈ unm.Ranges, ¬ r.Contains x := by
    intro m hm x hx
    obtain ⟨r, hr, hrx⟩ := (p1 m hm).1 x hx
    exact (identityLoop_mapped_contains unm.Ranges map0 avail0 x).1 ⟨r, hr, hrx⟩
  have ph : ∀ m ∈ (poolLoop (identityLoop unm.Ranges map0 avail0).2.1.Ranges
      (identityLoop unm.Ranges map0 avail0).2.2).1, ∀ x, m.mapsHost x →
      avail0.Contains x ∧ ∀ r ∈ unm.Ranges, ¬ r.Contains x := by
    intro m hm x hx
    exact (identityLoop_avail_contains unm.Ranges map0 avail0 x).1 ((p1 m hm).2 x hx)
  rw [identityLoop_calls]
  refine List.pairwise_cons.2 ⟨?_, List.pairwise_append.2 ⟨?_, p3, ?_⟩⟩
  · intro m hm
    rcases List.mem_append.1 hm with hm | hm
    · obtain ⟨r, hr, rfl⟩ := List.mem_map.1 hm
      refine ⟨fun x hx => ?_, fun x hx => ?_⟩
      · have := (hUc x ⟨r, hr, hx.2⟩).1
        have h0 := hx.1
        simp only [IdMap.mapsContainer] at h0; omega
      · have := (hUc x ⟨r, hr, hx.2⟩).2
        have h0 := hx.1
        simp only [IdMap.mapsHost] at h0; omega
    · refine ⟨fun x hx => ?_, fun x hx => ?_⟩
      · have := hMc x (pc m hm x hx.2).1
        have h0 := hx.1
        simp only [IdMap.mapsContainer] at h0; omega
      · have := hAc x (ph m hm x hx.2).1
        have h0 := hx.1
        simp only [IdMap.mapsHost] at h0; omega
  · rw [List.pairwise_map]
    refine hUd.imp ?_
    intro a b hab
    exact ⟨fun x hx => hab x hx, fun x hx => hab x hx⟩
  · intro a ha b hb
    obtain ⟨r, hr, rfl⟩ := List.mem_map.1 ha
    exact ⟨fun x hx => (pc b hb x hx.2).2 r hr hx.1, fun x hx => (ph b hb x hx.2).2 r hr hx.1⟩

/-- C1: for every call of addIdMaps, on any command line, with any container
id, host id and remap start and with a nil pool or any pool of intervals, the
tokens appended are those of the emitted entries, in order, and the emitted
entries are pairwise disjoint on both axes: no container id lies in the
container span of two entries and no host id lies in the host span of two. -/
theorem addIdMaps_entries_disjoint (podman : PodmanCmdline) (argPrefix : String)
    (containerId hostId remapStartId : Nat) (availableHostIds : Option Ranges) :
    (addIdMaps podman argPrefix containerId hostId remapStartId availableHostIds).Args =
      podman.Args ++ (emittedIdMaps containerId hostId remapStartId availableHostIds).flatMap
        (IdMap.tokens argPrefix) ∧
    List.Pairwise IdMap.Disjoint
      (emittedIdMaps containerId hostId remapStartId availableHostIds) :=
  ⟨foldl_addIdMap_args argPrefix _ podman,
    (addIdMapsCalls_pairwise containerId hostId remapStartId availableHostIds).filter _⟩

theorem Ranges.Remove_length_pos (rs : Quadlet.Ranges) (s l : Nat)
    (h : ∀ r ∈ rs.Ranges, 0 < r.Length) : ∀ r ∈ (rs.Remove s l).Ranges, 0 < r.Length := by
  intro q hq
  unfold Ranges.Remove at hq
  obtain ⟨r, hr, hq⟩ := List.mem_flatMap.1 hq
  unfold Range.remove at hq
  split at hq
  · rcases List.mem_append.1 hq with h1 | h1
    · split at h1
      · rw [List.mem_singleton] at h1; subst h1; simp only; omega
      · simp at h1
    · split at h1
      · rw [List.mem_singleton] at h1; subst h1; simp only; omega
      · simp at h1
  · rw [List.mem_singleton] at hq; subst hq; exact h q hr

/-- The iteration bound of poolLoopInner is never what ends the loop when no
pool interval is degenerate: from `c_length` on, more iterations allowed
change nothing. -/
theorem poolLoopInner_fuel (fuel : Nat) : ∀ (c_start c_length : Nat) (avail : Ranges),
    (∀ r ∈ avail.Ranges, 0 < r.Length) → c_length ≤ fuel → c_length < 4294967296 →
    poolLoopInner (fuel + 1) c_start c_length avail =
      poolLoopInner fuel c_start c_length avail := by
  induction fuel with
  | zero =>
    intro c_start c_length avail _ hc _
    have : c_length = 0 := by omega
    subst this
    rcases avail with ⟨_ | ⟨h_range, tl⟩⟩ <;> simp [poolLoopInner]
  | succ fuel ih =>
    intro c_start c_length avail hp hc hb
    rcases avail with ⟨_ | ⟨h_range, tl⟩⟩
    · simp [poolLoopInner]
    · by_cases h0 : c_length > 0
      · have hh : 0 < h_range.Length := hp h_range (List.mem_cons_self _ _)
        have hl := minUint32_le_right h_range.Length c_length
        have hn : 0 < minUint32 h_range.Length c_length := by
          unfold minUint32; split <;> omega
        have e2 : (c_length + 4294967296 - minUint32 h_range.Length c_length) % 4294967296 =
            c_length - minUint32 h_range.Length c_length := by omega
        have key := ih ((c_start + minUint32 h_range.Length c_length) % 4294967296)
          (c_length - minUint32 h_range.Length c_length)
          (Ranges.Remove ⟨h_range :: tl⟩ h_range.Start (minUint32 h_range.Length c_length))
          (Ranges.Remove_length_pos _ _ _ hp) (by omega) (by omega)
        rw [poolLoopInner]
        conv_rhs => rw [poolLoopInner]
        simp only [h0, if_true, e2, key]
      · simp [poolLoopInner, h0]

/-! ### The checks of ConvertContainer -/

theorem convertContainerCmdline_unknown (host : Host) (g : Globals) (container : UnitFile)
    (isUser : Bool) (err : String)
    (h : checkForUnknownKeys container ContainerGroup supportedContainerKeys = some err) :
    convertContainerCmdline host g container isUser = (.error err, g) := by
  unfold convertContainerCmdline
  rw [h]

theorem ConvertContainer_unknown (host : Host) (g : Globals) (container : UnitFile)
    (isUser : Bool) (err : String)
    (h : checkForUnknownKeys container ContainerGroup supportedContainerKeys = some err) :
    ConvertContainer host g container isUser = (.error err, g) := by
  unfold ConvertContainer
  rw [convertContainerCmdline_unknown host g container isUser err h]

theorem checkForUnknownKeys_first (unit : UnitFile) (groupName : String)
    (supportedKeys before after : List String) (key : String)
    (hk : unit.ListKeys groupName = before ++ key :: after)
    (hb : ∀ k ∈ before, k ∈ supportedKeys) (hn : key ∉ supportedKeys) :
    checkForUnknownKeys unit groupName supportedKeys =
      some ("Unsupported key '" ++ key ++ "' in group '" ++ groupName ++ "' in " ++ unit.Path) := by
  have hf : (unit.ListKeys groupName).find? (fun key => !supportedKeys.contains key) =
      some key := by
    rw [List.find?_eq_some]
    refine ⟨by simpa using hn, before, after, hk, ?_⟩
    intro a ha
    simpa using hb a ha
  unfold checkForUnknownKeys
  rw [hf]

theorem checkForUnknownKeys_none (unit : UnitFile) (groupName : String)
    (supportedKeys : List String)
    (h : ∀ k ∈ unit.ListKeys groupName, k ∈ supportedKeys) :
    checkForUnknownKeys unit groupName supportedKeys = none := by
  have hf : (unit.ListKeys groupName).find? (fun key => !supportedKeys.contains key) = none := by
    rw [List.find?_eq_none]
    intro x hx
    simpa using h x hx
  unfold checkForUnknownKeys
  rw [hf]

theorem exists_first_unsupported (keys supportedKeys : List String)
    (h : ∃ k ∈ keys, k ∉ supportedKeys) :
    ∃ before key after, keys = before ++ key :: after ∧
      (∀ k ∈ before, k ∈ supportedKeys) ∧ key ∉ supportedKeys := by
  induction keys with
  | nil => simp at h
  | cons a rest ih =>
    by_cases ha : a ∈ supportedKeys
    · obtain ⟨k, hk, hkn⟩ := h
      rcases List.mem_cons.1 hk with rfl | hk
      · exact absurd ha hkn
      · obtain ⟨before, key, after, e, hb, hn⟩ := ih ⟨k, hk, hkn⟩
        refine ⟨a :: before, key, after, by rw [e]; rfl, ?_, hn⟩
        intro x hx
        rcases List.mem_cons.1 hx with rfl | hx
        · exact ha
        · exact hb x hx
    · exact ⟨[], a, rest, rfl, by simp, ha⟩

/-- C2: for every container unit, host, state of the package variables and both
values of isUser, if the Container group holds a key outside the allow-list,
then the keys of the group split as `before ++ key :: after` with every key of
`before` supported and `key` not, and ConvertContainer returns the
unsupported-key error naming that first key, and no unit. -/
theorem ConvertContainer_unsupported_key (host : Host) (g : Globals) (container : UnitFile)
    (isUser : Bool)
    (h : ∃ k ∈ container.ListKeys ContainerGroup, k ∉ supportedContainerKeys) :
    ∃ before key after, container.ListKeys ContainerGroup = before ++ key :: after ∧
      (∀ k ∈ before, k ∈ supportedContainerKeys) ∧ key ∉ supportedContainerKeys ∧
      ConvertContainer host g container isUser =
        (.error ("Unsupported key '" ++ key ++ "' in group '" ++ ContainerGroup ++ "' in " ++
          container.Path), g) := by
  obtain ⟨before, key, after, e, hb, hn⟩ := exists_first_unsupported _ _ h
  exact ⟨before, key, after, e, hb, hn,
    ConvertContainer_unknown host g container isUser _
      (checkForUnknownKeys_first container ContainerGroup _ before after key e hb hn)⟩

/-- Witness of C2: a unit holding the unsupported key Foo after Image. -/
theorem ConvertContainer_unsupported_key_witness :
    (∃ k ∈ (containerUnit [("Image", "img"), ("Foo", "bar")]).ListKeys ContainerGroup,
      k ∉ supportedContainerKeys) ∧
    ∃ before key after,
      (containerUnit [("Image", "img"), ("Foo", "bar")]).ListKeys ContainerGroup =
        before ++ key :: after ∧
      (∀ k ∈ before, k ∈ supportedContainerKeys) ∧ key ∉ supportedContainerKeys ∧
      ConvertContainer exampleHost noGlobals
          (containerUnit [("Image", "img"), ("Foo", "bar")]) true =
        (.error ("Unsupported key '" ++ key ++ "' in group '" ++ ContainerGroup ++ "' in " ++
          (containerUnit [("Image", "img"), ("Foo", "bar")]).Path), noGlobals) :=
  ⟨⟨"Foo", by decide, by decide⟩,
    ConvertContainer_unsupported_key exampleHost noGlobals
      (containerUnit [("Image", "img"), ("Foo", "bar")]) true ⟨"Foo", by decide, by decide⟩⟩

theorem convertContainerCmdline_no_image (host : Host) (g : Globals) (container : UnitFile)
    (isUser : Bool)
    (hkeys : checkForUnknownKeys container ContainerGroup supportedContainerKeys = none)
    (himg : container.Lookup ContainerGroup "Image" = none ∨
      container.Lookup ContainerGroup "Image" = some "") :
    convertContainerCmdline host g container isUser = (.error "No Image key specified", g) := by
  unfold convertContainerCmdline
  rcases himg with h | h <;> rw [hkeys, h] <;> rfl

/-- C3, amended: for every container unit whose Container group has no Image
key or an empty Image value, on every host and for both values of isUser,
ConvertContainer fails and returns no unit.  When every key of the Container
group is supported the error is "No Image key specified"; otherwise, with
`key` the first unsupported key of the group, it is the unsupported-key error
"Unsupported key '<key>' in group 'Container' in <path>". -/
theorem ConvertContainer_no_image (host : Host) (g : Globals) (container : UnitFile)
    (isUser : Bool)
    (himg : container.Lookup ContainerGroup "Image" = none ∨
      container.Lookup ContainerGroup "Image" = some "") :
    (∃ err, ConvertContainer host g container isUser = (.error err, g)) ∧
    ((∀ k ∈ container.ListKeys ContainerGroup, k ∈ supportedContainerKeys) →
      ConvertContainer host g container isUser = (.error "No Image key specified", g)) ∧
    ((∃ k ∈ container.ListKeys ContainerGroup, k ∉ supportedContainerKeys) →
      ∃ before key after, container.ListKeys ContainerGroup = before ++ key :: after ∧
        (∀ k ∈ before, k ∈ supportedContainerKeys) ∧ key ∉ supportedContainerKeys ∧
        ConvertContainer host g container isUser =
          (.error ("Unsupported key '" ++ key ++ "' in group '" ++ ContainerGroup ++ "' in " ++
            container.Path), g)) := by
  have key : checkForUnknownKeys container ContainerGroup supportedContainerKeys = none →
      ConvertContainer host g container isUser = (.error "No Image key specified", g) := by
    intro hk
    unfold ConvertContainer
    rw [convertContainerCmdline_no_image host g container isUser hk himg]
  refine ⟨?_, fun hk => key (checkForUnknownKeys_none _ _ _ hk), fun hk => ?_⟩
  · cases hc : checkForUnknownKeys container ContainerGroup supportedContainerKeys with
    | none => exact ⟨_, key hc⟩
    | some err => exact ⟨err, ConvertContainer_unknown host g container isUser err hc⟩
  · obtain ⟨before, k, after, e, hb, hn⟩ := exists_first_unsupported _ _ hk
    exact ⟨before, k, after, e, hb, hn,
      ConvertContainer_unknown host g container isUser _
        (checkForUnknownKeys_first container ContainerGroup _ before after k e hb hn)⟩

/-- Witness of C3 as amended: a unit with an empty Image value after the
unsupported key Foo, and the unit with no line at all. -/
theorem ConvertContainer_no_image_witness :
    ((containerUnit [("Foo", "bar"), ("Image", "")]).Lookup ContainerGroup "Image" = none ∨
      (containerUnit [("Foo", "bar"), ("Image", "")]).Lookup ContainerGroup "Image" = some "") ∧
    (∃ before key after,
      (containerUnit [("Foo", "bar"), ("Image", "")]).ListKeys ContainerGroup =
        before ++ key :: after ∧
      (∀ k ∈ before, k ∈ supportedContainerKeys) ∧ key ∉ supportedContainerKeys ∧
      ConvertContainer exampleHost noGlobals (containerUnit [("Foo", "bar"), ("Image", "")])
          true =
        (.error ("Unsupported key '" ++ key ++ "' in group '" ++ ContainerGroup ++ "' in " ++
          (containerUnit [("Foo", "bar"), ("Image", "")]).Path), noGlobals)) ∧
    ConvertContainer exampleHost noGlobals (containerUnit []) false =
      (.error "No Image key specified", noGlobals) :=
  ⟨Or.inr (by decide),
    (ConvertContainer_no_image exampleHost noGlobals
      (containerUnit [("Foo", "bar"), ("Image", "")]) true (Or.inr (by decide))).2.2
      ⟨"Foo", by decide, by decide⟩,
    (ConvertContainer_no_image exampleHost noGlobals (containerUnit []) false
      (Or.inl (by decide))).2.1 (by decide)⟩

/-- Counterexample to C3 as stated: a unit whose Container group has no Image
key and holds the unsupported key Foo fails with the unsupported-key error,
not with "No Image key specified". -/
theorem ConvertContainer_no_image_counterexample :
    (containerUnit [("Foo", "bar")]).Lookup ContainerGroup "Image" = none ∧
    (ConvertContainer exampleHost noGlobals (containerUnit [("Foo", "bar")]) false).1 =
      .error "Unsupported key 'Foo' in group 'Container' in /etc/containers/systemd/web.container" ∧
    (ConvertContainer exampleHost noGlobals (containerUnit [("Foo", "bar")]) false).1 ≠
      .error "No Image key specified" := by
  have h : ConvertContainer exampleHost noGlobals (containerUnit [("Foo", "bar")]) false =
      (.error "Unsupported key 'Foo' in group 'Container' in /etc/containers/systemd/web.container",
        noGlobals) :=
    ConvertContainer_unknown _ _ _ _ _ (by decide)
  refine ⟨by decide, by rw [h], ?_⟩
  rw [h]
  intro hc
  exact absurd (Except.error.inj hc) (by decide)

/-! ### The minimal unit -/

/-- C4: for every non-empty image reference, every file name and path, every
host and both values of isUser, converting the unit whose only line is
Container/Image=img succeeds, the argument list built is exactly the list
minimalArgs img, it is what the generated unit holds (quoted) as
Service/ExecStart, and it contains the default name pattern, the drop-all
capability flag, the init flag and the supervisor-routed notification flag. -/
theorem ConvertContainer_minimal (host : Host) (g : Globals) (filename path img : String)
    (isUser : Bool) (himg : img ≠ "") :
    ConvertContainerArgs host g ⟨filename, path, [⟨ContainerGroup, "Image", img⟩]⟩ isUser =
      .ok (minimalArgs img) ∧
    (∃ service,
      ConvertContainer host g ⟨filename, path, [⟨ContainerGroup, "Image", img⟩]⟩ isUser =
        (.ok service, g) ∧
      service.LookupAll ServiceGroup "ExecStart" = [host.quoteCmdline (minimalArgs img)]) ∧
    "--name=systemd-%N" ∈ minimalArgs img ∧ "--cap-drop=all" ∈ minimalArgs img ∧
    "--init" ∈ minimalArgs img ∧ "--sdnotify=conmon" ∈ minimalArgs img := by
  refine ⟨?_, ?_, by simp [minimalArgs], by simp [minimalArgs], by simp [minimalArgs],
    by simp [minimalArgs]⟩
  · by_cases hp : path = ""
    · subst hp
      simp [ConvertContainerArgs, convertContainerCmdline, checkForUnknownKeys,
        UnitFile.ListKeys, UnitFile.Lookup, UnitFile.LookupAll, ContainerGroup, ServiceGroup,
        UnitGroup, XContainerGroup, supportedContainerKeys, himg, UnitFile.Dup, UnitFile.Add,
        UnitFile.RenameGroup, UnitFile.LookupBoolean, UnitFile.LookupUint32, UnitFile.LookupUid,
        UnitFile.LookupGid, UnitFile.HasKey, UnitFile.LookupAllKeyVal, UnitFile.LookupAllArgs,
        UnitFile.LookupLastArgs, UnitFile.Set, UnitFile.Setv, addExposedPorts, addPublishPorts,
        PodmanCmdline.add, PodmanCmdline.addf, PodmanCmdline.addKeys, PodmanCmdline.addEnv,
        PodmanCmdline.addLabels, PodmanCmdline.addAnnotations, NewPodmanCmdline, sortStrings,
        GoMap.keys, Host.ToLower_all host, minimalArgs]
    · simp [ConvertContainerArgs, convertContainerCmdline, checkForUnknownKeys,
        UnitFile.ListKeys, UnitFile.Lookup, UnitFile.LookupAll, ContainerGroup, ServiceGroup,
        UnitGroup, XContainerGroup, supportedContainerKeys, himg, hp, UnitFile.Dup, UnitFile.Add,
        UnitFile.RenameGroup, UnitFile.LookupBoolean, UnitFile.LookupUint32, UnitFile.LookupUid,
        UnitFile.LookupGid, UnitFile.HasKey, UnitFile.LookupAllKeyVal, UnitFile.LookupAllArgs,
        UnitFile.LookupLastArgs, UnitFile.Set, UnitFile.Setv, addExposedPorts, addPublishPorts,
        PodmanCmdline.add, PodmanCmdline.addf, PodmanCmdline.addKeys, PodmanCmdline.addEnv,
        PodmanCmdline.addLabels, PodmanCmdline.addAnnotations, NewPodmanCmdline, sortStrings,
        GoMap.keys, Host.ToLower_all host, minimalArgs]
  · by_cases hp : path = ""
    · subst hp
      simp [ConvertContainer, UnitFile.AddCmdline, convertContainerCmdline, checkForUnknownKeys,
        UnitFile.ListKeys, UnitFile.Lookup, UnitFile.LookupAll, ContainerGroup, ServiceGroup,
        UnitGroup, XContainerGroup, supportedContainerKeys, himg, UnitFile.Dup, UnitFile.Add,
        UnitFile.RenameGroup, UnitFile.LookupBoolean, UnitFile.LookupUint32, UnitFile.LookupUid,
        UnitFile.LookupGid, UnitFile.HasKey, UnitFile.LookupAllKeyVal, UnitFile.LookupAllArgs,
        UnitFile.LookupLastArgs, UnitFile.Set, UnitFile.Setv, addExposedPorts, addPublishPorts,
        PodmanCmdline.add, PodmanCmdline.addf, PodmanCmdline.addKeys, PodmanCmdline.addEnv,
        PodmanCmdline.addLabels, PodmanCmdline.addAnnotations, NewPodmanCmdline, sortStrings,
        GoMap.keys, Host.ToLower_all host, minimalArgs]
    · simp [ConvertContainer, UnitFile.AddCmdline, convertContainerCmdline, checkForUnknownKeys,
        UnitFile.ListKeys, UnitFile.Lookup, UnitFile.LookupAll, ContainerGroup, ServiceGroup,
        UnitGroup, XContainerGroup, supportedContainerKeys, himg, hp, UnitFile.Dup, UnitFile.Add,
        UnitFile.RenameGroup, UnitFile.LookupBoolean, UnitFile.LookupUint32, UnitFile.LookupUid,
        UnitFile.LookupGid, UnitFile.HasKey, UnitFile.LookupAllKeyVal, UnitFile.LookupAllArgs,
        UnitFile.LookupLastArgs, UnitFile.Set, UnitFile.Setv, addExposedPorts, addPublishPorts,
        PodmanCmdline.add, PodmanCmdline.addf, PodmanCmdline.addKeys, PodmanCmdline.addEnv,
        PodmanCmdline.addLabels, PodmanCmdline.addAnnotations, NewPodmanCmdline, sortStrings,
        GoMap.keys, Host.ToLower_all host, minimalArgs]

/-- Witness of C4: the image reference img. -/
theorem ConvertContainer_minimal_witness :
    "img" ≠ "" ∧
    ConvertContainerArgs exampleHost noGlobals
        ⟨"web.container", "", [⟨ContainerGroup, "Image", "img"⟩]⟩ true =
      .ok (minimalArgs "img") :=
  ⟨by decide, (ConvertContainer_minimal exampleHost noGlobals "web.container" "" "img" true
    (by decide)).1⟩

/-! ### The unit-file store -/

theorem UnitFile.LookupAll_Add (u : UnitFile) (g k v g2 k2 : String) :
    (u.Add g k v).LookupAll g2 k2 =
      u.LookupAll g2 k2 ++ (if g = g2 ∧ k = k2 then [v] else []) := by
  unfold UnitFile.Add UnitFile.LookupAll
  by_cases h : g = g2 ∧ k = k2
  · simp [h, List.filter_append, List.filter_cons]
  · have : ¬ ((g == g2 && k == k2) = true) := by simpa using h
    simp [h, List.filter_append, List.filter_cons, this]

theorem UnitFile.LookupAll_Set (u : UnitFile) (g k v g2 k2 : String) :
    (u.Set g k v).LookupAll g2 k2 =
      if g = g2 ∧ k = k2 then [v] else u.LookupAll g2 k2 := by
  unfold UnitFile.Set UnitFile.LookupAll
  by_cases h : g = g2 ∧ k = k2
  · obtain ⟨rfl, rfl⟩ := h
    simp [List.filter_append, List.filter_cons, List.filter_filter]
  · have h2 : (g == g2 && k == k2) = false := by
      rw [Bool.eq_false_iff]; simpa using h
    have h3 : List.filter (fun l => l.group == g2 && l.key == k2)
        (List.filter (fun l => !(l.group == g && l.key == k)) u.lines) =
        List.filter (fun l => l.group == g2 && l.key == k2) u.lines := by
      rw [List.filter_filter]
      apply List.filter_congr
      intro l _
      by_cases hl : (l.group == g2 && l.key == k2) = true
      · have : ¬ (l.group = g ∧ l.key = k) := by
          intro hc
          simp only [Bool.and_eq_true, beq_iff_eq] at hl
          exact h ⟨hc.1.symm.trans hl.1, hc.2.symm.trans hl.2⟩
        have h4 : (l.group == g && l.key == k) = false := by
          rw [Bool.eq_false_iff]; simpa using this
        rw [hl, h4]; rfl
      · rw [Bool.not_eq_true] at hl
        rw [hl]; rfl
    rw [if_neg h]
    simp only [List.filter_append, List.filter_cons, h2, List.filter_nil, List.append_nil, h3,
      Bool.false_eq_true, if_false]

theorem filter_rename_lines (lines : List UnitLine) (old new g2 k2 : String)
    (h1 : g2 ≠ old) (h2 : g2 ≠ new) :
    ((lines.map fun l => if l.group == old then { l with group := new } else l).filter
      (fun l => l.group == g2 && l.key == k2)).map (fun l => l.value) =
    (lines.filter (fun l => l.group == g2 && l.key == k2)).map (fun l => l.value) := by
  induction lines with
  | nil => rfl
  | cons l rest ih =>
    rw [List.map_cons, List.filter_cons, List.filter_cons]
    by_cases hl : l.group = old
    · have e1 : (l.group == old) = true := by simpa using hl
      have e2 : (new == g2) = false := by
        rw [Bool.eq_false_iff]; simpa using Ne.symm h2
      have e3 : (l.group == g2) = false := by
        rw [Bool.eq_false_iff]; simpa [hl] using Ne.symm h1
      simp only [e1, if_true, e2, e3, Bool.false_and, Bool.false_eq_true, if_false]
      exact ih
    · have e1 : (l.group == old) = false := by
        rw [Bool.eq_false_iff]; simpa using hl
      simp only [e1, Bool.false_eq_true, if_false]
      split
      · rw [List.map_cons, List.map_cons, ih]
      · exact ih

theorem UnitFile.LookupAll_RenameGroup (u : UnitFile) (old new g2 k2 : String)
    (h1 : g2 ≠ old) (h2 : g2 ≠ new) :
    (u.RenameGroup old new).LookupAll g2 k2 = u.LookupAll g2 k2 :=
  filter_rename_lines u.lines old new g2 k2 h1 h2

theorem UnitFile.Lookup_Add_of_ne (u : UnitFile) (g k v g2 k2 : String)
    (h : ¬ (g = g2 ∧ k = k2)) : (u.Add g k v).Lookup g2 k2 = u.Lookup g2 k2 := by
  unfold UnitFile.Lookup
  rw [UnitFile.LookupAll_Add, if_neg h, List.append_nil]

theorem UnitFile.Lookup_Set_of_ne (u : UnitFile) (g k v g2 k2 : String)
    (h : ¬ (g = g2 ∧ k = k2)) : (u.Set g k v).Lookup g2 k2 = u.Lookup g2 k2 := by
  unfold UnitFile.Lookup
  rw [UnitFile.LookupAll_Set, if_neg h]

theorem UnitFile.Lookup_Set_self (u : UnitFile) (g k v : String) :
    (u.Set g k v).Lookup g k = some v := by
  unfold UnitFile.Lookup
  rw [UnitFile.LookupAll_Set, if_pos ⟨rfl, rfl⟩]
  rfl

theorem UnitFile.Lookup_RenameGroup (u : UnitFile) (old new g2 k2 : String)
    (h1 : g2 ≠ old) (h2 : g2 ≠ new) :
    (u.RenameGroup old new).Lookup g2 k2 = u.Lookup g2 k2 := by
  unfold UnitFile.Lookup
  rw [UnitFile.LookupAll_RenameGroup u old new g2 k2 h1 h2]

/-! ### The checks of ConvertContainer, continued -/

/-- The unit the KillMode check of ConvertContainer reads (quadlet.go line 264)
holds for Service/KillMode what the source unit holds. -/
theorem killMode_lookup (container : UnitFile) (fn : String) (c : Prop) [Decidable c] :
    ((((if c then
          (UnitFile.mk fn container.Dup.Path container.Dup.lines).Add UnitGroup "SourcePath"
            container.Path
        else UnitFile.mk fn container.Dup.Path container.Dup.lines).RenameGroup ContainerGroup
          XContainerGroup).Add ServiceGroup "Environment" "PODMAN_SYSTEMD_UNIT=%n").Lookup
      ServiceGroup "KillMode") = container.Lookup ServiceGroup "KillMode" := by
  rw [UnitFile.Lookup_Add_of_ne _ _ _ _ _ _ (by decide),
    UnitFile.Lookup_RenameGroup _ _ _ _ _ (by decide) (by decide)]
  split
  · rw [UnitFile.Lookup_Add_of_ne _ _ _ _ _ _ (by decide)]
    rfl
  · rfl

theorem convertContainerCmdline_killMode (host : Host) (g : Globals) (container : UnitFile)
    (isUser : Bool) (image killMode : String)
    (hkeys : checkForUnknownKeys container ContainerGroup supportedContainerKeys = none)
    (himg : container.Lookup ContainerGroup "Image" = some image) (hne : image ≠ "")
    (hkill : container.Lookup ServiceGroup "KillMode" = some killMode)
    (h1 : killMode ≠ "mixed") (h2 : killMode ≠ "control-group") :
    convertContainerCmdline host g container isUser =
      (.error ("Invalid KillMode '" ++ killMode ++ "'"), g) := by
  unfold convertContainerCmdline
  rw [hkeys, himg]
  have e1 : (killMode == "mixed") = false := by simpa using h1
  have e2 : (killMode == "control-group") = false := by simpa using h2
  simp only [killMode_lookup, hkill]
  simp [hne, e1, e2]

theorem convertContainerCmdline_keepId (host : Host) (g : Globals) (container : UnitFile)
    (image : String)
    (hkeys : checkForUnknownKeys container ContainerGroup supportedContainerKeys = none)
    (himg : container.Lookup ContainerGroup "Image" = some image) (hne : image ≠ "")
    (hkill : container.Lookup ServiceGroup "KillMode" = none ∨
      container.Lookup ServiceGroup "KillMode" = some "mixed" ∨
      container.Lookup ServiceGroup "KillMode" = some "control-group")
    (hkeep : container.LookupBoolean host ContainerGroup "KeepId" false = true) :
    convertContainerCmdline host g container false =
      (.error ("Key 'KeepId' in '" ++ container.Path ++ "' unsupported for system units"),
        g) := by
  unfold convertContainerCmdline
  rw [hkeys, himg]
  rcases hkill with hk | hk | hk <;> simp only [killMode_lookup, hk] <;> simp [hne, hkeep]

theorem ConvertContainer_of_cmdline_error (host : Host) (g : Globals) (container : UnitFile)
    (isUser : Bool) (err : String)
    (h : convertContainerCmdline host g container isUser = (.error err, g)) :
    ConvertContainer host g container isUser = (.error err, g) := by
  unfold ConvertContainer
  rw [h]

/-- C5, amended: for every container unit in which KeepId is true, on every
host, ConvertContainer called for a system unit (isUser = false) fails and
returns no unit, with the error of the first check that fails, in the order
of the code: the unsupported-key error for the first unsupported key of the
Container group; else "No Image key specified" when Image is absent or empty;
else "Invalid KillMode '<value>'" when Service/KillMode is set to a value
other than mixed and control-group; else, all earlier checks passing,
"Key 'KeepId' in '<path>' unsupported for system units". -/
theorem ConvertContainer_keepId_system (host : Host) (g : Globals) (container : UnitFile)
    (hkeep : container.LookupBoolean host ContainerGroup "KeepId" false = true) :
    (∃ err, ConvertContainer host g container false = (.error err, g)) ∧
    ((∃ k ∈ container.ListKeys ContainerGroup, k ∉ supportedContainerKeys) →
      ∃ before key after, container.ListKeys ContainerGroup = before ++ key :: after ∧
        (∀ k ∈ before, k ∈ supportedContainerKeys) ∧ key ∉ supportedContainerKeys ∧
        ConvertContainer host g container false =
          (.error ("Unsupported key '" ++ key ++ "' in group '" ++ ContainerGroup ++ "' in " ++
            container.Path), g)) ∧
    ((∀ k ∈ container.ListKeys ContainerGroup, k ∈ supportedContainerKeys) →
      (container.Lookup ContainerGroup "Image" = none ∨
        container.Lookup ContainerGroup "Image" = some "") →
      ConvertContainer host g container false = (.error "No Image key specified", g)) ∧
    (∀ image killMode, (∀ k ∈ container.ListKeys ContainerGroup, k ∈ supportedContainerKeys) →
      container.Lookup ContainerGroup "Image" = some image → image ≠ "" →
      container.Lookup ServiceGroup "KillMode" = some killMode →
      killMode ≠ "mixed" → killMode ≠ "control-group" →
      ConvertContainer host g container false =
        (.error ("Invalid KillMode '" ++ killMode ++ "'"), g)) ∧
    (∀ image, (∀ k ∈ container.ListKeys ContainerGroup, k ∈ supportedContainerKeys) →
      container.Lookup ContainerGroup "Image" = some image → image ≠ "" →
      (container.Lookup ServiceGroup "KillMode" = none ∨
        container.Lookup ServiceGroup "KillMode" = some "mixed" ∨
        container.Lookup ServiceGroup "KillMode" = some "control-group") →
      ConvertContainer host g container false =
        (.error ("Key 'KeepId' in '" ++ container.Path ++ "' unsupported for system units"),
          g)) := by
  refine ⟨?_, ?_, ?_, ?_, ?_⟩
  · cases hc : checkForUnknownKeys container ContainerGroup supportedContainerKeys with
    | some err => exact ⟨err, ConvertContainer_unknown host g container false err hc⟩
    | none =>
      cases hi : container.Lookup ContainerGroup "Image" with
      | none =>
        exact ⟨_, ConvertContainer_of_cmdline_error _ _ _ _ _
          (convertContainerCmdline_no_image host g container false hc (Or.inl hi))⟩
      | some image =>
        by_cases hne : image = ""
        · subst hne
          exact ⟨_, ConvertContainer_of_cmdline_error _ _ _ _ _
            (convertContainerCmdline_no_image host g container false hc (Or.inr hi))⟩
        · cases hk : container.Lookup ServiceGroup "KillMode" with
          | none =>
            exact ⟨_, ConvertContainer_of_cmdline_error _ _ _ _ _
              (convertContainerCmdline_keepId host g container image hc hi hne (Or.inl hk)
                hkeep)⟩
          | some killMode =>
            by_cases h1 : killMode = "mixed"
            · subst h1
              exact ⟨_, ConvertContainer_of_cmdline_error _ _ _ _ _
                (convertContainerCmdline_keepId host g container image hc hi hne
                  (Or.inr (Or.inl hk)) hkeep)⟩
            · by_cases h2 : killMode = "control-group"
              · subst h2
                exact ⟨_, ConvertContainer_of_cmdline_error _ _ _ _ _
                  (convertContainerCmdline_keepId host g container image hc hi hne
                    (Or.inr (Or.inr hk)) hkeep)⟩
              · exact ⟨_, ConvertContainer_of_cmdline_error _ _ _ _ _
                  (convertContainerCmdline_killMode host g container false image killMode hc hi
                    hne hk h1 h2)⟩
  · intro hk
    obtain ⟨before, k, after, e, hb, hn⟩ := exists_first_unsupported _ _ hk
    exact ⟨before, k, after, e, hb, hn,
      ConvertContainer_unknown host g container false _
        (checkForUnknownKeys_first container ContainerGroup _ before after k e hb hn)⟩
  · intro hkeys hi
    exact ConvertContainer_of_cmdline_error _ _ _ _ _
      (convertContainerCmdline_no_image host g container false
        (checkForUnknownKeys_none _ _ _ hkeys) hi)
  · intro image killMode hkeys hi hne hk h1 h2
    exact ConvertContainer_of_cmdline_error _ _ _ _ _
      (convertContainerCmdline_killMode host g container false image killMode
        (checkForUnknownKeys_none _ _ _ hkeys) hi hne hk h1 h2)
  · intro image hkeys hi hne hk
    exact ConvertContainer_of_cmdline_error _ _ _ _ _
      (convertContainerCmdline_keepId host g container image
        (checkForUnknownKeys_none _ _ _ hkeys) hi hne hk hkeep)

/-- Witness of C5 as amended: a unit with Image=img and KeepId=yes. -/
theorem ConvertContainer_keepId_system_witness :
    (containerUnit [("Image", "img"), ("KeepId", "yes")]).LookupBoolean exampleHost
      ContainerGroup "KeepId" false = true ∧
    ConvertContainer exampleHost noGlobals (containerUnit [("Image", "img"), ("KeepId", "yes")])
        false =
      (.error ("Key 'KeepId' in '" ++ (containerUnit [("Image", "img"), ("KeepId", "yes")]).Path
        ++ "' unsupported for system units"), noGlobals) :=
  ⟨by decide,
    (ConvertContainer_keepId_system exampleHost noGlobals
      (containerUnit [("Image", "img"), ("KeepId", "yes")]) (by decide)).2.2.2.2 "img"
      (by decide) (by decide) (by decide) (Or.inl (by decide))⟩

/-- Counterexample to C5 as stated: a system unit with KeepId=yes and no Image
fails with "No Image key specified", not with the KeepId error. -/
theorem ConvertContainer_keepId_system_counterexample :
    (containerUnit [("KeepId", "yes")]).LookupBoolean exampleHost ContainerGroup "KeepId"
      false = true ∧
    (ConvertContainer exampleHost noGlobals (containerUnit [("KeepId", "yes")]) false).1 =
      .error "No Image key specified" ∧
    (ConvertContainer exampleHost noGlobals (containerUnit [("KeepId", "yes")]) false).1 ≠
      .error ("Key 'KeepId' in '" ++ (containerUnit [("KeepId", "yes")]).Path ++
        "' unsupported for system units") := by
  have h : ConvertContainer exampleHost noGlobals (containerUnit [("KeepId", "yes")]) false =
      (.error "No Image key specified", noGlobals) :=
    ConvertContainer_of_cmdline_error _ _ _ _ _
      (convertContainerCmdline_no_image _ _ _ _ (by decide) (Or.inl (by decide)))
  refine ⟨by decide, by rw [h], ?_⟩
  rw [h]
  intro hc
  exact absurd (Except.error.inj hc) (by decide)

theorem UnitFile.Lookup_ite (c : Prop) [Decidable c] (a b : UnitFile) (g2 k2 : String) :
    (if c then a else b).Lookup g2 k2 = if c then a.Lookup g2 k2 else b.Lookup g2 k2 := by
  split <;> rfl

theorem addVolume_lookup (st : UnitFile × PodmanCmdline) (volume g2 k2 : String)
    (h : g2 ≠ UnitGroup) : (addVolume st volume).1.Lookup g2 k2 = st.1.Lookup g2 k2 := by
  have hA : ∀ (u : UnitFile) (k v : String),
      (u.Add UnitGroup k v).Lookup g2 k2 = u.Lookup g2 k2 :=
    fun u k v => UnitFile.Lookup_Add_of_ne u _ _ _ _ _ (fun hc => h hc.1.symm)
  unfold addVolume
  simp only
  split_ifs <;> simp only [hA]

theorem foldl_addVolume_lookup (volumes : List String) (st : UnitFile × PodmanCmdline)
    (g2 k2 : String) (h : g2 ≠ UnitGroup) :
    (volumes.foldl addVolume st).1.Lookup g2 k2 = st.1.Lookup g2 k2 := by
  induction volumes generalizing st with
  | nil => rfl
  | cons v rest ih => rw [List.foldl_cons, ih, addVolume_lookup st v g2 k2 h]

/-- The unit a successful conversion builds holds for Service/KillMode the
value "mixed" when the source holds none or a value that is not accepted, and
the value of the source otherwise. -/
theorem convertContainerCmdline_service_killMode (host : Host) (g g2 : Globals)
    (container service : UnitFile) (podman : PodmanCmdline) (isUser : Bool) :
    convertContainerCmdline host g container isUser = (.ok (service, podman), g2) →
    service.Lookup ServiceGroup "KillMode" =
      if (!(container.Lookup ServiceGroup "KillMode").isSome ||
          !((container.Lookup ServiceGroup "KillMode").getD "" == "mixed" ||
            (container.Lookup ServiceGroup "KillMode").getD "" == "control-group")) = true
      then some "mixed" else container.Lookup ServiceGroup "KillMode" := by
  unfold convertContainerCmdline
  lift_lets
  intros
  rename_i h
  split at h
  · simp at h
  · dsimp only at h
    split at h
    · simp at h
    · split at h
      · simp at h
      · split at h
        · simp at h
        · split at h
          · simp at h
          · split at h
            · simp at h
            · split at h
              · simp at h
              · split at h
                · simp at h
                · simp only [Prod.mk.injEq, Except.ok.injEq] at h
                  obtain ⟨⟨rfl, -⟩, -⟩ := h
                  rw [foldl_addVolume_lookup _ _ _ _ (by decide)]
                  simp +zetaDelta only [UnitFile.Lookup_ite, UnitFile.Setv, List.foldl_cons,
                    List.foldl_nil]
                  simp only [UnitFile.Lookup_ite,
                    UnitFile.Lookup_Set_of_ne _ ServiceGroup "SyslogIdentifier" _
                      ServiceGroup "KillMode" (by decide),
                    UnitFile.Lookup_Set_of_ne _ ServiceGroup "NotifyAccess" _
                      ServiceGroup "KillMode" (by decide),
                    UnitFile.Lookup_Set_of_ne _ ServiceGroup "Type" _
                      ServiceGroup "KillMode" (by decide),
                    UnitFile.Lookup_Add_of_ne _ ServiceGroup "Delegate" _
                      ServiceGroup "KillMode" (by decide),
                    UnitFile.Lookup_Add_of_ne _ ServiceGroup "ExecStopPost" _
                      ServiceGroup "KillMode" (by decide),
                    UnitFile.Lookup_Add_of_ne _ ServiceGroup "ExecStartPre" _
                      ServiceGroup "KillMode" (by decide),
                    UnitFile.Lookup_Add_of_ne _ UnitGroup "RequiresMountsFor" _
                      ServiceGroup "KillMode" (by decide), ite_self, UnitFile.Lookup_Set_self,
                    killMode_lookup]

theorem ConvertContainer_ok (host : Host) (g g2 : Globals) (container service : UnitFile)
    (isUser : Bool) (h : ConvertContainer host g container isUser = (.ok service, g2)) :
    ∃ s p, convertContainerCmdline host g container isUser = (.ok (s, p), g2) ∧
      service = s.AddCmdline host ServiceGroup "ExecStart" p.Args := by
  unfold ConvertContainer at h
  split at h
  · simp at h
  · rename_i s p g3 heq
    simp only [Prod.mk.injEq, Except.ok.injEq] at h
    obtain ⟨rfl, rfl⟩ := h
    exact ⟨s, p, heq, rfl⟩

theorem ConvertContainer_ok_killMode (host : Host) (g g2 : Globals)
    (container service : UnitFile) (isUser : Bool)
    (h : ConvertContainer host g container isUser = (.ok service, g2)) :
    service.Lookup ServiceGroup "KillMode" =
      if (!(container.Lookup ServiceGroup "KillMode").isSome ||
          !((container.Lookup ServiceGroup "KillMode").getD "" == "mixed" ||
            (container.Lookup ServiceGroup "KillMode").getD "" == "control-group")) = true
      then some "mixed" else container.Lookup ServiceGroup "KillMode" := by
  obtain ⟨s, p, hs, rfl⟩ := ConvertContainer_ok host g g2 container service isUser h
  unfold UnitFile.AddCmdline
  rw [UnitFile.Lookup_Add_of_ne _ _ _ _ _ _ (by decide)]
  exact convertContainerCmdline_service_killMode host g g2 container s p isUser hs

/-- C7: for every container unit with only supported keys and a non-empty
Image, on every host and for both values of isUser: if Service/KillMode is
absent, every unit a conversion generates has KillMode=mixed; if it is present
with a value other than "mixed" and "control-group", conversion fails with
"Invalid KillMode '<value>'"; if it is present with one of the two accepted
values, every unit a conversion generates has that value for KillMode. -/
theorem ConvertContainer_killMode (host : Host) (g : Globals) (container : UnitFile)
    (isUser : Bool) (image : String)
    (hkeys : ∀ k ∈ container.ListKeys ContainerGroup, k ∈ supportedContainerKeys)
    (himg : container.Lookup ContainerGroup "Image" = some image) (hne : image ≠ "") :
    (container.Lookup ServiceGroup "KillMode" = none →
      ∀ service g2, ConvertContainer host g container isUser = (.ok service, g2) →
        service.Lookup ServiceGroup "KillMode" = some "mixed") ∧
    (∀ v, container.Lookup ServiceGroup "KillMode" = some v → v ≠ "mixed" →
      v ≠ "control-group" →
      ConvertContainer host g container isUser = (.error ("Invalid KillMode '" ++ v ++ "'"), g)) ∧
    (∀ v, container.Lookup ServiceGroup "KillMode" = some v →
      v = "mixed" ∨ v = "control-group" →
      ∀ service g2, ConvertContainer host g container isUser = (.ok service, g2) →
        service.Lookup ServiceGroup "KillMode" = some v) := by
  refine ⟨?_, ?_, ?_⟩
  · intro hk service g2 h
    rw [ConvertContainer_ok_killMode host g g2 container service isUser h, hk]
    rfl
  · intro v hk h1 h2
    exact ConvertContainer_of_cmdline_error _ _ _ _ _
      (convertContainerCmdline_killMode host g container isUser image v
        (checkForUnknownKeys_none _ _ _ hkeys) himg hne hk h1 h2)
  · intro v hk hv service g2 h
    rw [ConvertContainer_ok_killMode host g g2 container service isUser h, hk]
    rcases hv with rfl | rfl <;> rfl

/-- Witness of C7: the unit with Image=img and no KillMode is converted, and the
unit generated has KillMode=mixed. -/
theorem ConvertContainer_killMode_witness :
    (∀ k ∈ (containerUnit [("Image", "img")]).ListKeys ContainerGroup,
      k ∈ supportedContainerKeys) ∧
    (containerUnit [("Image", "img")]).Lookup ContainerGroup "Image" = some "img" ∧
    "img" ≠ "" ∧
    (containerUnit [("Image", "img")]).Lookup ServiceGroup "KillMode" = none ∧
    (ConvertContainer exampleHost noGlobals (containerUnit [("Image", "img")]) true).1.toBool
      = true ∧
    ∀ service g2,
      ConvertContainer exampleHost noGlobals (containerUnit [("Image", "img")]) true =
        (.ok service, g2) →
      service.Lookup ServiceGroup "KillMode" = some "mixed" :=
  ⟨by decide, by decide, by decide, by decide, by decide,
    (ConvertContainer_killMode exampleHost noGlobals (containerUnit [("Image", "img")]) true
      "img" (by decide) (by decide) (by decide)).1 (by decide)⟩

/-! ### Units that differ in the remapping keys only -/

theorem UnitFile.withoutRemapKeys_LookupAll (u : UnitFile) (g2 k2 : String)
    (h : (g2 == ContainerGroup && remapKeys.contains k2) = false) :
    u.withoutRemapKeys.LookupAll g2 k2 = u.LookupAll g2 k2 := by
  unfold UnitFile.withoutRemapKeys UnitFile.LookupAll
  simp only [List.filter_filter]
  congr 1
  apply List.filter_congr
  intro l _
  by_cases hl : (l.group == g2 && l.key == k2) = true
  · simp only [Bool.and_eq_true, beq_iff_eq] at hl
    rw [hl.1, hl.2, h]
    simp
  · rw [Bool.not_eq_true] at hl
    rw [hl]; rfl

theorem UnitFile.withoutRemapKeys_Lookup (u : UnitFile) (g2 k2 : String)
    (h : (g2 == ContainerGroup && remapKeys.contains k2) = false) :
    u.withoutRemapKeys.Lookup g2 k2 = u.Lookup g2 k2 := by
  unfold UnitFile.Lookup
  rw [UnitFile.withoutRemapKeys_LookupAll u g2 k2 h]

theorem UnitFile.withoutRemapKeys_HasKey (u : UnitFile) (g2 k2 : String)
    (h : (g2 == ContainerGroup && remapKeys.contains k2) = false) :
    u.withoutRemapKeys.HasKey g2 k2 = u.HasKey g2 k2 := by
  unfold UnitFile.withoutRemapKeys UnitFile.HasKey
  simp only [List.any_filter]
  congr 1
  funext l
  by_cases hl : (l.group == g2 && l.key == k2) = true
  · simp only [Bool.and_eq_true, beq_iff_eq] at hl
    rw [hl.1, hl.2, h]
    simp
  · rw [Bool.not_eq_true] at hl
    rw [hl]; simp

theorem UnitFile.withoutRemapKeys_LookupBoolean (host : Host) (u : UnitFile) (g2 k2 : String)
    (d : Bool) (h : (g2 == ContainerGroup && remapKeys.contains k2) = false) :
    u.withoutRemapKeys.LookupBoolean host g2 k2 d = u.LookupBoolean host g2 k2 d := by
  unfold UnitFile.LookupBoolean
  rw [UnitFile.withoutRemapKeys_Lookup u g2 k2 h]

theorem UnitFile.withoutRemapKeys_LookupUint32 (host : Host) (u : UnitFile) (g2 k2 : String)
    (d : Nat) (h : (g2 == ContainerGroup && remapKeys.contains k2) = false) :
    u.withoutRemapKeys.LookupUint32 host g2 k2 d = u.LookupUint32 host g2 k2 d := by
  unfold UnitFile.LookupUint32
  rw [UnitFile.withoutRemapKeys_Lookup u g2 k2 h]

theorem UnitFile.withoutRemapKeys_LookupUid (host : Host) (u : UnitFile) (g2 k2 : String)
    (d : Nat) (h : (g2 == ContainerGroup && remapKeys.contains k2) = false) :
    u.withoutRemapKeys.LookupUid host g2 k2 d = u.LookupUid host g2 k2 d := by
  unfold UnitFile.LookupUid
  rw [UnitFile.withoutRemapKeys_Lookup u g2 k2 h]

theorem UnitFile.withoutRemapKeys_LookupGid (host : Host) (u : UnitFile) (g2 k2 : String)
    (d : Nat) (h : (g2 == ContainerGroup && remapKeys.contains k2) = false) :
    u.withoutRemapKeys.LookupGid host g2 k2 d = u.LookupGid host g2 k2 d := by
  unfold UnitFile.LookupGid
  rw [UnitFile.withoutRemapKeys_Lookup u g2 k2 h]

theorem UnitFile.withoutRemapKeys_LookupAllKeyVal (host : Host) (u : UnitFile) (g2 k2 : String)
    (h : (g2 == ContainerGroup && remapKeys.contains k2) = false) :
    u.withoutRemapKeys.LookupAllKeyVal host g2 k2 = u.LookupAllKeyVal host g2 k2 := by
  unfold UnitFile.LookupAllKeyVal
  rw [UnitFile.withoutRemapKeys_LookupAll u g2 k2 h]

theorem UnitFile.withoutRemapKeys_LookupAllArgs (host : Host) (u : UnitFile) (g2 k2 : String)
    (h : (g2 == ContainerGroup && remapKeys.contains k2) = false) :
    u.withoutRemapKeys.LookupAllArgs host g2 k2 = u.LookupAllArgs host g2 k2 := by
  unfold UnitFile.LookupAllArgs
  rw [UnitFile.withoutRemapKeys_LookupAll u g2 k2 h]

theorem UnitFile.withoutRemapKeys_LookupLastArgs (host : Host) (u : UnitFile) (g2 k2 : String)
    (h : (g2 == ContainerGroup && remapKeys.contains k2) = false) :
    u.withoutRemapKeys.LookupLastArgs host g2 k2 = u.LookupLastArgs host g2 k2 := by
  unfold UnitFile.LookupLastArgs
  rw [UnitFile.withoutRemapKeys_Lookup u g2 k2 h]

theorem find?_filter_of_imp {α : Type} (p q : α → Bool) (l : List α)
    (h : ∀ a, p a = true → q a = true) : (l.filter q).find? p = l.find? p := by
  induction l with
  | nil => rfl
  | cons a rest ih =>
    rw [List.filter_cons]
    by_cases hq : q a = true
    · rw [if_pos hq, List.find?_cons, List.find?_cons, ih]
    · rw [if_neg hq, ih, List.find?_cons]
      have : p a = false := by
        cases hp : p a
        · rfl
        · exact absurd (h a hp) hq
      rw [this]

theorem UnitFile.withoutRemapKeys_checkForUnknownKeys (u : UnitFile) :
    checkForUnknownKeys u.withoutRemapKeys ContainerGroup supportedContainerKeys =
      checkForUnknownKeys u ContainerGroup supportedContainerKeys := by
  have hf : (u.withoutRemapKeys.ListKeys ContainerGroup).find?
        (fun key => !supportedContainerKeys.contains key) =
      (u.ListKeys ContainerGroup).find? (fun key => !supportedContainerKeys.contains key) := by
    unfold UnitFile.withoutRemapKeys UnitFile.ListKeys
    simp only [List.find?_map, List.filter_filter]
    congr 1
    have e : List.filter (fun a => (a.group == ContainerGroup) &&
          !(a.group == ContainerGroup && remapKeys.contains a.key)) u.lines =
        List.filter (fun a => !(remapKeys.contains a.key))
          (List.filter (fun a => a.group == ContainerGroup) u.lines) := by
      rw [List.filter_filter]
      apply List.filter_congr
      intro l _
      cases (l.group == ContainerGroup) <;> simp
    rw [e]
    apply find?_filter_of_imp
    intro a ha
    simp only [Function.comp_apply, Bool.not_eq_true', Bool.not_eq_eq_eq_not, Bool.not_true] at ha ⊢
    by_contra hc
    rw [Bool.not_eq_false] at hc
    have : a.key ∈ remapKeys := by simpa using hc
    have h2 : a.key ∈ supportedContainerKeys := by
      revert this
      simp only [remapKeys, supportedContainerKeys, List.mem_cons, List.mem_singleton,
        List.not_mem_nil, or_false]
      rintro (h | h | h | h | h) <;> simp [h]
    have h3 : supportedContainerKeys.contains a.key = true := by simpa using h2
    rw [h3] at ha
    exact absurd ha (by decide)
  unfold checkForUnknownKeys
  rw [hf]
  rfl

theorem UnitFile.withoutRemapKeys_LookupUint32_fn (host : Host) (u : UnitFile) (g2 k2 : String)
    (h : (g2 == ContainerGroup && remapKeys.contains k2) = false) :
    UnitFile.LookupUint32 host u.withoutRemapKeys g2 k2 = UnitFile.LookupUint32 host u g2 k2 :=
  funext fun d => UnitFile.withoutRemapKeys_LookupUint32 host u g2 k2 d h

theorem UnitFile.withoutRemapKeys_LookupUid_fn (host : Host) (u : UnitFile) (g2 k2 : String)
    (h : (g2 == ContainerGroup && remapKeys.contains k2) = false) :
    UnitFile.LookupUid host u.withoutRemapKeys g2 k2 = UnitFile.LookupUid host u g2 k2 :=
  funext fun d => UnitFile.withoutRemapKeys_LookupUid host u g2 k2 d h

theorem UnitFile.withoutRemapKeys_LookupGid_fn (host : Host) (u : UnitFile) (g2 k2 : String)
    (h : (g2 == ContainerGroup && remapKeys.contains k2) = false) :
    UnitFile.LookupGid host u.withoutRemapKeys g2 k2 = UnitFile.LookupGid host u g2 k2 :=
  funext fun d => UnitFile.withoutRemapKeys_LookupGid host u g2 k2 d h

theorem addVolume_snd (s s2 : UnitFile) (p : PodmanCmdline) (volume : String) :
    (addVolume (s, p) volume).2 = (addVolume (s2, p) volume).2 := rfl

theorem foldl_addVolume_snd (volumes : List String) (s s2 : UnitFile) (p : PodmanCmdline) :
    (volumes.foldl addVolume (s, p)).2 = (volumes.foldl addVolume (s2, p)).2 := by
  induction volumes generalizing s s2 p with
  | nil => rfl
  | cons v rest ih =>
    rw [List.foldl_cons, List.foldl_cons]
    have e : ∀ s : UnitFile, addVolume (s, p) v = ((addVolume (s, p) v).1, (addVolume (s, p) v).2) :=
      fun s => rfl
    rw [e s, e s2, addVolume_snd s s2 p v]
    exact ih _ _ _

/-- In the unprivileged context the argument list, or the error, of a unit is
that of the unit without its remapping keys, whatever the package variables. -/
theorem ConvertContainerArgs_withoutRemapKeys (host : Host) (g g2 : Globals) (u : UnitFile) :
    ConvertContainerArgs host g u true = ConvertContainerArgs host g2 u.withoutRemapKeys true := by
  unfold ConvertContainerArgs convertContainerCmdline
  rw [show u.withoutRemapKeys.Path = u.Path from rfl,
    show u.withoutRemapKeys.Filename = u.Filename from rfl,
    UnitFile.withoutRemapKeys_checkForUnknownKeys,
    UnitFile.withoutRemapKeys_Lookup u ContainerGroup "Image" (by decide),
    UnitFile.withoutRemapKeys_Lookup u ContainerGroup "ContainerName" (by decide),
    UnitFile.withoutRemapKeys_Lookup u ContainerGroup "Timezone" (by decide),
    UnitFile.withoutRemapKeys_LookupAllKeyVal host u ContainerGroup "Environment" (by decide),
    UnitFile.withoutRemapKeys_LookupAllKeyVal host u ContainerGroup "Label" (by decide),
    UnitFile.withoutRemapKeys_LookupAllKeyVal host u ContainerGroup "Annotation" (by decide),
    UnitFile.withoutRemapKeys_LookupBoolean host u ContainerGroup "RunInit" _ (by decide),
    UnitFile.withoutRemapKeys_LookupBoolean host u ContainerGroup "Notify" _ (by decide),
    UnitFile.withoutRemapKeys_LookupBoolean host u ContainerGroup "NoNewPrivileges" _
      (by decide),
    UnitFile.withoutRemapKeys_LookupBoolean host u ContainerGroup "ReadOnly" _ (by decide),
    UnitFile.withoutRemapKeys_LookupBoolean host u ContainerGroup "VolatileTmp" _ (by decide),
    UnitFile.withoutRemapKeys_LookupBoolean host u ContainerGroup "SocketActivated" _
      (by decide),
    UnitFile.withoutRemapKeys_LookupBoolean host u ContainerGroup "KeepId" _ (by decide),
    UnitFile.withoutRemapKeys_HasKey u ServiceGroup "SyslogIdentifier" (by decide),
    UnitFile.withoutRemapKeys_HasKey u ContainerGroup "DropCapability" (by decide),
    UnitFile.withoutRemapKeys_LookupAll u ContainerGroup "DropCapability" (by decide),
    UnitFile.withoutRemapKeys_LookupAll u ContainerGroup "AddCapability" (by decide),
    UnitFile.withoutRemapKeys_LookupAll u ContainerGroup "Volume" (by decide),
    UnitFile.withoutRemapKeys_LookupAll u ContainerGroup "ExposeHostPort" (by decide),
    UnitFile.withoutRemapKeys_LookupAll u ContainerGroup "PublishPort" (by decide),
    UnitFile.withoutRemapKeys_LookupAllArgs host u ContainerGroup "PodmanArgs" (by decide),
    UnitFile.withoutRemapKeys_LookupLastArgs host u ContainerGroup "Exec" (by decide),
    UnitFile.withoutRemapKeys_LookupUint32_fn host u ContainerGroup "User" (by decide),
    UnitFile.withoutRemapKeys_LookupUint32_fn host u ContainerGroup "Group" (by decide),
    UnitFile.withoutRemapKeys_LookupUid_fn host u ContainerGroup "HostUser" (by decide),
    UnitFile.withoutRemapKeys_LookupGid_fn host u ContainerGroup "HostGroup" (by decide)]
  lift_lets
  intro service25 service24 service23 service22 lookupImage0 image0 lookupName0 containerName0
    service21 lookupKillMode1 killMode1 ok1 service20 podmanEnv1 service19 service18 service17
    service16 podman15 podman14 podman13 service15 podman12 lookupTimezone0 timezone0 podman11
    runInit0 podman10 notify0 podman9 service14 service13 noNewPrivileges0 podman8 dropCaps0
    podman7 addCaps0 podman6 readOnly0 podman5 volatileTmp0 podman4 socketActivated0 podman3
    podmanEnv0 keepId0 defaultContainerUid0 defaultContainerGid0 podman2 uid0 gid0 podman1
    podman0 remapUsers1 defaultUids1 uid_remap_ids1 defaultGids1 gid_remap_ids1
    remap_uid_start1 remap_gid_start1 volumes0 exposed_ports0 publish_ports0 labels0
    annotations0 podman_args0 service12 service11 service10 service9 service8 lookupKillMode0
    killMode0 ok0 service7 service6 service5 service4 service3 service2 service1 service0
    remapUsers0 defaultUids0 uid_remap_ids0 defaultGids0 gid_remap_ids0 remap_uid_start0
    remap_gid_start0
  have hk1 : lookupKillMode1 = u.Lookup ServiceGroup "KillMode" := killMode_lookup u _ _
  have hk0 : lookupKillMode0 = u.Lookup ServiceGroup "KillMode" :=
    (killMode_lookup u.withoutRemapKeys _ _).trans
      (UnitFile.withoutRemapKeys_Lookup u ServiceGroup "KillMode" (by decide))
  have hkm : killMode0 = killMode1 := by
    show lookupKillMode0.getD "" = lookupKillMode1.getD ""
    rw [hk1, hk0]
  have hok : ok0 = ok1 := by
    show lookupKillMode0.isSome = lookupKillMode1.isSome
    rw [hk1, hk0]
  have hr1 : remapUsers1 = false := rfl
  have hr0 : remapUsers0 = false := rfl
  rw [hkm, hok, hr1, hr0]
  cases hc : checkForUnknownKeys u ContainerGroup supportedContainerKeys with
  | some err => rfl
  | none =>
    dsimp only
    by_cases hi : (!lookupImage0.isSome || image0 == "") = true
    · rw [if_pos hi, if_pos hi]
    · rw [if_neg hi, if_neg hi]
      by_cases hkc : ((!ok1 || !(killMode1 == "mixed" || killMode1 == "control-group")) && ok1)
          = true
      · rw [if_pos hkc, if_pos hkc]
      · rw [if_neg hkc, if_neg hkc]
        by_cases hkeep : (keepId0 && !true) = true
        · rw [if_pos hkeep, if_pos hkeep]
        · rw [if_neg hkeep, if_neg hkeep]
          cases hU : UnitFile.LookupUid host u ContainerGroup "HostUser" uid0 with
          | error err => rfl
          | ok hostUid =>
            dsimp only
            cases hG : UnitFile.LookupGid host u ContainerGroup "HostGroup" gid0 with
            | error err => rfl
            | ok hostGid =>
              dsimp only
              simp only [Bool.not_false, if_true]
              rw [foldl_addVolume_snd volumes0 service0 service13]
              cases hE : addExposedPorts exposed_ports0 (List.foldl addVolume (service13,
                  if (gid0 != hostGid) = true then
                    addIdMaps
                      (if (uid0 != hostUid) = true then
                        addIdMaps podman0 "--uidmap" uid0 hostUid MaxUint32 none
                      else podman0) "--gidmap" gid0 hostGid MaxUint32 none
                  else
                    if (uid0 != hostUid) = true then
                      addIdMaps podman0 "--uidmap" uid0 hostUid MaxUint32 none
                    else podman0) volumes0).2 with
              | error err => rfl
              | ok podman =>
                dsimp only
                cases hP : addPublishPorts publish_ports0 podman with
                | error err => rfl
                | ok podman => rfl

theorem addIdMaps_args (podman : PodmanCmdline) (argPrefix : String)
    (containerId hostId remapStartId : Nat) (availableHostIds : Option Ranges) :
    (addIdMaps podman argPrefix containerId hostId remapStartId availableHostIds).Args =
      podman.Args ++ (emittedIdMaps containerId hostId remapStartId availableHostIds).flatMap
        (IdMap.tokens argPrefix) :=
  foldl_addIdMap_args argPrefix _ podman

theorem foldl_addVolume_args (volumes : List String) (s : UnitFile) (p : PodmanCmdline) :
    ∃ l, (volumes.foldl addVolume (s, p)).2.Args = p.Args ++ l := by
  induction volumes generalizing s p with
  | nil => exact ⟨[], by simp⟩
  | cons v rest ih =>
    rw [List.foldl_cons]
    obtain ⟨l, hl⟩ := ih (addVolume (s, p) v).1 (addVolume (s, p) v).2
    have e : ∃ l2, (addVolume (s, p) v).2.Args = p.Args ++ l2 := by
      have key : ∀ (c : Prop) [Decidable c] (a b : List String),
          ∃ l, (if c then (⟨p.Args ++ a⟩ : PodmanCmdline) else ⟨p.Args ++ b⟩).Args =
            p.Args ++ l := by
        intro c _ a b
        by_cases hc : c
        · exact ⟨a, by rw [if_pos hc]⟩
        · exact ⟨b, by rw [if_neg hc]⟩
      unfold addVolume
      simp only [PodmanCmdline.add, PodmanCmdline.addf, List.append_assoc]
      exact key _ _ _
    obtain ⟨l2, hl2⟩ := e
    exact ⟨l2 ++ l, by rw [hl, hl2, List.append_assoc]⟩

theorem addExposedPorts_args (ports : List String) (p q : PodmanCmdline)
    (h : addExposedPorts ports p = .ok q) : ∃ l, q.Args = p.Args ++ l := by
  induction ports generalizing p with
  | nil =>
    simp only [addExposedPorts, Except.ok.injEq] at h
    exact ⟨[], by rw [h]; simp⟩
  | cons v rest ih =>
    simp only [addExposedPorts] at h
    split at h
    · simp at h
    · obtain ⟨l, hl⟩ := ih _ h
      exact ⟨("--expose=" ++ TrimSpace v) :: l, by
        rw [hl]; simp [PodmanCmdline.addf, PodmanCmdline.add]⟩

theorem addPublishPorts_args (ports : List String) (p q : PodmanCmdline)
    (h : addPublishPorts ports p = .ok q) : ∃ l, q.Args = p.Args ++ l := by
  induction ports generalizing p with
  | nil =>
    simp only [addPublishPorts, Except.ok.injEq] at h
    exact ⟨[], by rw [h]; simp⟩
  | cons v rest ih =>
    simp only [addPublishPorts] at h
    split at h
    · simp at h
    · rename_i arg _
      obtain ⟨l, hl⟩ := ih _ h
      exact ⟨arg :: l, by rw [hl]; simp [PodmanCmdline.addf, PodmanCmdline.add]⟩

theorem addKeys_args (p : PodmanCmdline) (arg : String) (keys : GoMap) :
    ∃ l, (p.addKeys arg keys).Args = p.Args ++ l := by
  unfold PodmanCmdline.addKeys
  simp only
  generalize sortStrings keys.keys = ks
  induction ks generalizing p with
  | nil => exact ⟨[], by simp⟩
  | cons k rest ih =>
    rw [List.foldl_cons]
    obtain ⟨l, hl⟩ := ih (p.add [arg, k ++ "=" ++ keys.get k])
    exact ⟨[arg, k ++ "=" ++ keys.get k] ++ l, by
      rw [hl]; simp only [PodmanCmdline.add, List.append_assoc]⟩

/-! ### splitPorts -/

theorem slice_append (ports : List Char) (a b c : Nat) (h1 : a ≤ b) (h2 : b ≤ c) :
    (ports.drop a).take (b - a) ++ (ports.drop b).take (c - b) = (ports.drop a).take (c - a) := by
  have e : c - a = (b - a) + (c - b) := by omega
  rw [e, List.take_add, List.drop_drop]
  congr 3
  omega

theorem slice_one (ports : List Char) (e : Nat) (h : e < ports.length) :
    (ports.drop e).take (e + 1 - e) = [ports[e]] := by
  rw [List.drop_eq_getElem_cons h]
  have : e + 1 - e = 1 := by omega
  rw [this]
  rfl

theorem slice_succ (ports : List Char) (a e : Nat) (h1 : a ≤ e) (h : e < ports.length) :
    (ports.drop a).take (e - a) ++ [ports[e]] = (ports.drop a).take (e + 1 - a) := by
  rw [← slice_one ports e h, slice_append ports a e (e + 1) h1 (by omega)]

theorem splitPortsSkip_spec (ports : List Char) (fuel : Nat) : ∀ (e : Nat) (cur : List Char),
    e ≤ ports.length → ports.length - e ≤ fuel →
    e ≤ (if splitPortsSkip ports fuel e < ports.length then splitPortsSkip ports fuel e + 1
      else splitPortsSkip ports fuel e) ∧
    (if splitPortsSkip ports fuel e < ports.length then splitPortsSkip ports fuel e + 1
      else splitPortsSkip ports fuel e) ≤ ports.length ∧
    splitRef true (ports.drop e) cur =
      splitRef false
        (ports.drop (if splitPortsSkip ports fuel e < ports.length then
          splitPortsSkip ports fuel e + 1 else splitPortsSkip ports fuel e))
        (cur ++ (ports.drop e).take
          ((if splitPortsSkip ports fuel e < ports.length then splitPortsSkip ports fuel e + 1
            else splitPortsSkip ports fuel e) - e)) := by
  induction fuel with
  | zero =>
    intro e cur h1 h2
    have he : e = ports.length := by omega
    subst he
    simp [splitPortsSkip, splitRef]
  | succ fuel ih =>
    intro e cur h1 h2
    by_cases hlt : e < ports.length
    · have hget : ports[e]? = some ports[e] := List.getElem?_eq_getElem hlt
      have hdrop : ports.drop e = ports[e] :: ports.drop (e + 1) :=
        List.drop_eq_getElem_cons hlt
      by_cases hc : ports[e] = ']'
      · have hs : splitPortsSkip ports (fuel + 1) e = e := by
          simp [splitPortsSkip, hget, hc]
        rw [hs, if_pos hlt]
        refine ⟨by omega, by omega, ?_⟩
        rw [slice_one ports e hlt]
        conv_lhs => rw [hdrop]
        rw [hc]
        simp [splitRef]
      · have hs : splitPortsSkip ports (fuel + 1) e = splitPortsSkip ports fuel (e + 1) := by
          simp [splitPortsSkip, hget, hc, hlt]
        rw [hs]
        obtain ⟨i1, i2, i3⟩ := ih (e + 1) (cur ++ [ports[e]]) (by omega) (by omega)
        refine ⟨by omega, i2, ?_⟩
        conv_lhs => rw [hdrop]
        have hb : (ports[e] != ']') = true := by simpa using hc
        rw [splitRef, hb, i3, List.append_assoc]
        congr 2
        rw [← slice_one ports e hlt]
        exact slice_append ports e (e + 1) _ (by omega) i1
    · have he : e = ports.length := by omega
      have hs : splitPortsSkip ports (fuel + 1) e = e := by
        simp [splitPortsSkip, hlt]
      rw [hs, if_neg hlt]
      subst he
      simp [splitRef]

theorem splitPortsLoop_spec (ports : List Char) (fuel : Nat) :
    ∀ (start e : Nat) (parts : List String),
    start ≤ e → e ≤ ports.length → ports.length - e ≤ fuel →
    (splitPortsLoop ports fuel start e parts).1.map String.data ++
      [(ports.drop (splitPortsLoop ports fuel start e parts).2.1).take
        ((splitPortsLoop ports fuel start e parts).2.2 -
          (splitPortsLoop ports fuel start e parts).2.1)] =
    parts.map String.data ++ splitRef false (ports.drop e) ((ports.drop start).take (e - start)) := by
  induction fuel with
  | zero =>
    intro start e parts _ h2 h3
    have he : e = ports.length := by omega
    subst he
    simp [splitPortsLoop, splitRef]
  | succ fuel ih =>
    intro start e parts h1 h2 h3
    by_cases hlt : e < ports.length
    · have hget : ports[e]? = some ports[e] := List.getElem?_eq_getElem hlt
      have hdrop : ports.drop e = ports[e] :: ports.drop (e + 1) :=
        List.drop_eq_getElem_cons hlt
      by_cases hb : ports[e] = '['
      · obtain ⟨s1, s2, s3⟩ := splitPortsSkip_spec ports (ports.length - (e + 1)) (e + 1)
          ((ports.drop start).take (e - start) ++ [ports[e]]) (by omega) (le_refl _)
        have hl : splitPortsLoop ports (fuel + 1) start e parts =
            splitPortsLoop ports fuel start
              (if splitPortsSkip ports (ports.length - (e + 1)) (e + 1) < ports.length then
                splitPortsSkip ports (ports.length - (e + 1)) (e + 1) + 1
              else splitPortsSkip ports (ports.length - (e + 1)) (e + 1)) parts := by
          simp [splitPortsLoop, hlt, hget, hb]
        rw [hl, ih _ _ _ (by omega) s2 (by omega)]
        congr 1
        conv_rhs => rw [hdrop, splitRef, if_pos hb, s3, slice_succ ports start e h1 hlt]
        rw [slice_append ports start (e + 1) _ (by omega) s1]
      · by_cases hc : ports[e] = ':'
        · have hl : splitPortsLoop ports (fuel + 1) start e parts =
              splitPortsLoop ports fuel (e + 1) (e + 1)
                (parts ++ [String.mk ((ports.drop start).take (e - start))]) := by
            simp [splitPortsLoop, hlt, hget, hb, hc]
          rw [hl, ih _ _ _ (le_refl _) (by omega) (by omega)]
          conv_rhs => rw [hdrop, splitRef, if_neg hb, if_pos hc]
          simp
        · have hl : splitPortsLoop ports (fuel + 1) start e parts =
              splitPortsLoop ports fuel start (e + 1) parts := by
            simp [splitPortsLoop, hlt, hget, hb, hc]
          rw [hl, ih _ _ _ (by omega) (by omega) (by omega)]
          conv_rhs => rw [hdrop, splitRef, if_neg hb, if_neg hc, slice_succ ports start e h1 hlt]
    · have he : e = ports.length := by omega
      have hl : splitPortsLoop ports (fuel + 1) start e parts = (parts, start, e) := by
        simp [splitPortsLoop, hlt]
      rw [hl]
      subst he
      simp [splitRef]

theorem splitPorts_data (ports : String) :
    (splitPorts ports).map String.data = splitRef false ports.data [] := by
  have h := splitPortsLoop_spec ports.data ports.data.length 0 0 [] (le_refl _)
    (Nat.zero_le _) (by omega)
  unfold splitPorts
  simp only [List.map_append, List.map_cons, List.map_nil]
  rw [h]
  simp

theorem splitRef_length (s : List Char) : ∀ (m : Bool) (cur : List Char),
    (splitRef m s cur).length = topColons m s + 1 := by
  induction s with
  | nil => intro m cur; cases m <;> rfl
  | cons c rest ih =>
    intro m cur
    cases m
    · simp only [splitRef, topColons]
      split
      · exact ih _ _
      · split
        · rw [List.length_cons, ih]; omega
        · rw [ih]; omega
    · simp only [splitRef, topColons]
      exact ih _ _

theorem joinColon_cons (x : List Char) (l : List (List Char)) (h : l ≠ []) :
    joinColon (x :: l) = x ++ ':' :: joinColon l := by
  cases l with
  | nil => exact absurd rfl h
  | cons b r => rfl

theorem splitRef_ne_nil (s : List Char) (m : Bool) (cur : List Char) : splitRef m s cur ≠ [] := by
  intro h
  have := splitRef_length s m cur
  rw [h] at this
  simp at this

theorem splitRef_join (s : List Char) : ∀ (m : Bool) (cur : List Char),
    joinColon (splitRef m s cur) = cur ++ s := by
  induction s with
  | nil => intro m cur; cases m <;> simp [splitRef, joinColon]
  | cons c rest ih =>
    intro m cur
    cases m
    · simp only [splitRef]
      split
      · rw [ih]; simp
      · split
        · rename_i hc
          rw [joinColon_cons _ _ (splitRef_ne_nil _ _ _), ih, hc]; simp
        · rw [ih]; simp
    · simp only [splitRef]
      rw [ih]; simp

theorem topColons_append (a : List Char) : ∀ (m : Bool) (b : List Char),
    topColons m (a ++ b) = topColons m a + topColons (insideBracket m a) b := by
  induction a with
  | nil => intro m b; cases m <;> simp [topColons, insideBracket]
  | cons c rest ih =>
    intro m b
    cases m
    · rw [List.cons_append]
      simp only [topColons, insideBracket]
      split
      · rename_i hc
        rw [ih, hc]; rfl
      · rename_i hc
        have : (c == '[') = false := by simpa using hc
        rw [ih, this]; omega
    · rw [List.cons_append]
      simp only [topColons, insideBracket]
      exact ih _ _

theorem insideBracket_append (a : List Char) : ∀ (m : Bool) (b : List Char),
    insideBracket m (a ++ b) = insideBracket (insideBracket m a) b := by
  induction a with
  | nil => intro m b; cases m <;> simp [insideBracket]
  | cons c rest ih =>
    intro m b
    rw [List.cons_append]
    cases m <;> simp only [insideBracket] <;> exact ih _ _

theorem splitRef_fields (s : List Char) : ∀ (m : Bool) (cur : List Char),
    topColons false cur = 0 → insideBracket false cur = m →
    ∀ field ∈ splitRef m s cur, topColons false field = 0 := by
  induction s with
  | nil =>
    intro m cur h1 _ field hf
    have : field = cur := by cases m <;> simpa [splitRef] using hf
    rw [this]; exact h1
  | cons c rest ih =>
    intro m cur h1 h2 field hf
    cases m
    · simp only [splitRef] at hf
      split at hf
      · rename_i hc
        refine ih true (cur ++ [c]) ?_ ?_ field hf
        · rw [topColons_append, h1, h2, hc]; rfl
        · rw [insideBracket_append, h2, hc]; rfl
      · rename_i hc
        split at hf
        · rcases List.mem_cons.1 hf with rfl | hf
          · exact h1
          · exact ih false [] rfl rfl field hf
        · rename_i hc2
          refine ih false (cur ++ [c]) ?_ ?_ field hf
          · rw [topColons_append, h1, h2]
            simp [topColons, hc, hc2]
          · rw [insideBracket_append, h2]
            simp [insideBracket, hc]
    · simp only [splitRef] at hf
      refine ih (c != ']') (cur ++ [c]) ?_ ?_ field hf
      · rw [topColons_append, h1, h2]
        simp [topColons]
      · rw [insideBracket_append, h2]
        simp [insideBracket]

theorem intercalate_go_data (l : List String) : ∀ acc : String,
    (String.intercalate.go acc ":" l).data = joinColon (acc.data :: l.map String.data) := by
  induction l with
  | nil => intro acc; rfl
  | cons a rest ih =>
    intro acc
    rw [String.intercalate.go, ih]
    simp only [String.data_append, List.map_cons]
    cases rest with
    | nil => simp [joinColon]
    | cons b r => simp [joinColon]

theorem intercalate_data (l : List String) (h : l ≠ []) :
    (String.intercalate ":" l).data = joinColon (l.map String.data) := by
  cases l with
  | nil => exact absurd rfl h
  | cons a rest => exact intercalate_go_data rest a

/-- C8: for every string, splitPorts splits it at exactly the colons outside a
bracketed segment: the result has one field more than the string has
top-level colons, no field has a top-level colon, and the fields joined with
":" give the string back; "[::1]:8080:80/tcp" yields the three fields "[::1]",
"8080" and "80/tcp", "8080:80" two fields and "80" one field. -/
theorem splitPorts_top_level (ports : String) :
    (splitPorts ports).length = topLevelColons ports + 1 ∧
    (∀ field ∈ splitPorts ports, topLevelColons field = 0) ∧
    String.intercalate ":" (splitPorts ports) = ports ∧
    splitPorts "[::1]:8080:80/tcp" = ["[::1]", "8080", "80/tcp"] ∧
    splitPorts "8080:80" = ["8080", "80"] ∧ splitPorts "80" = ["80"] := by
  have hd := splitPorts_data ports
  refine ⟨?_, ?_, ?_, by decide, by decide, by decide⟩
  · have := splitRef_length ports.data false []
    rw [← hd, List.length_map] at this
    exact this
  · intro field hf
    have hm : field.data ∈ (splitPorts ports).map String.data := List.mem_map_of_mem _ hf
    rw [hd] at hm
    exact splitRef_fields ports.data false [] rfl rfl field.data hm
  · have hne : splitPorts ports ≠ [] := by
      intro hc
      rw [hc] at hd
      exact splitRef_ne_nil _ _ _ hd.symm
    apply String.ext
    rw [intercalate_data _ hne, hd, splitRef_join]
    rfl

/-! ### The port loops -/

theorem tail_args (host : Host) (u : UnitFile) (P : PodmanCmdline) (env labels ann : GoMap)
    (pargs : List String) (image : String) :
    ∃ l, (match UnitFile.LookupLastArgs host u ContainerGroup "Exec" with
      | some exec_args =>
        (((((P.addEnv env).addLabels labels).addAnnotations ann).add pargs).add [image]).add
          exec_args
      | none =>
        ((((P.addEnv env).addLabels labels).addAnnotations ann).add pargs).add [image]).Args =
      P.Args ++ l := by
  obtain ⟨l4, e4⟩ := addKeys_args P "--env" env
  obtain ⟨l5, e5⟩ := addKeys_args (P.addEnv env) "--label" labels
  obtain ⟨l6, e6⟩ := addKeys_args ((P.addEnv env).addLabels labels) "--annotation" ann
  unfold PodmanCmdline.addEnv PodmanCmdline.addLabels PodmanCmdline.addAnnotations at *
  cases UnitFile.LookupLastArgs host u ContainerGroup "Exec" with
  | none =>
    exact ⟨l4 ++ l5 ++ l6 ++ pargs ++ [image], by
      simp only [PodmanCmdline.add, e6, e5, e4, List.append_assoc]⟩
  | some a =>
    exact ⟨l4 ++ l5 ++ l6 ++ pargs ++ [image] ++ a, by
      simp only [PodmanCmdline.add, e6, e5, e4, List.append_assoc]⟩

theorem ConvertContainerArgs_ok_ports (host : Host) (g : Globals) (u : UnitFile)
    (isUser : Bool) (args : List String) :
    ConvertContainerArgs host g u isUser = .ok args →
    ∃ pV pE pP,
      addExposedPorts (u.LookupAll ContainerGroup "ExposeHostPort") pV = .ok pE ∧
      addPublishPorts (u.LookupAll ContainerGroup "PublishPort") pE = .ok pP ∧
      ∃ l, args = pP.Args ++ l := by
  unfold ConvertContainerArgs convertContainerCmdline
  lift_lets
  intros
  rename_i h
  split at h
  · simp at h
  · rename_i s p heq
    split at heq
    · simp at heq
    · dsimp only at heq
      split at heq
      · simp at heq
      · split at heq
        · simp at heq
        · split at heq
          · simp at heq
          · split at heq
            · simp at heq
            · split at heq
              · simp at heq
              · split at heq
                · simp at heq
                · split at heq
                  · simp at heq
                  · rename_i a1 pE hE a2 pP hP
                    simp only [Except.ok.injEq, Prod.mk.injEq] at heq
                    obtain ⟨-, hp⟩ := heq
                    have h2 := Except.ok.inj h
                    refine ⟨_, pE, pP, hE, hP, ?_⟩
                    rw [← h2, ← hp]
                    exact tail_args host u pP _ _ _ _ _

theorem addPublishPorts_mem (ports : List String) : ∀ (p q : PodmanCmdline),
    addPublishPorts ports p = .ok q →
    ∀ v ∈ ports, ∃ arg, publishPortArg v = .ok arg ∧ arg ∈ q.Args := by
  induction ports with
  | nil => intro p q _ v hv; simp at hv
  | cons w rest ih =>
    intro p q h v hv
    simp only [addPublishPorts] at h
    split at h
    · simp at h
    · rename_i arg harg
      rcases List.mem_cons.1 hv with rfl | hv
      · obtain ⟨l, hl⟩ := addPublishPorts_args rest _ q h
        exact ⟨arg, harg, by rw [hl]; simp [PodmanCmdline.addf, PodmanCmdline.add]⟩
      · exact ih _ q h v hv

theorem publish_core (ip host_port container_port arg e1 e2 : String)
    (h : (if (host_port != "" && !isPortRange host_port) = true then
        (Except.error e1 : Except String String)
      else if (container_port != "" && !isPortRange container_port) = true then .error e2
      else if (ip != "") = true then
        if (host_port != "") = true then
          .ok ("-p=" ++ ip ++ ":" ++ host_port ++ ":" ++ container_port)
        else .ok ("-p=" ++ ip ++ "::" ++ container_port)
      else if (host_port != "") = true then .ok ("-p=" ++ host_port ++ ":" ++ container_port)
      else .ok ("-p=" ++ container_port)) = .ok arg) :
    (host_port ≠ "" → isPortRange host_port = true) ∧
    (container_port ≠ "" → isPortRange container_port = true) ∧
    arg = publishFlag ip host_port container_port := by
  unfold publishFlag
  by_cases h1 : host_port = "" <;> by_cases h2 : container_port = "" <;>
    by_cases h3 : ip = "" <;> by_cases h4 : isPortRange host_port = true <;>
    by_cases h5 : isPortRange container_port = true <;>
    simp only [h1, h2, h3, h4, h5, bne_self_eq_false, Bool.false_and, Bool.false_eq_true,
      if_false, if_true, Bool.not_true, Bool.and_false, bne_iff_ne, ne_eq, not_true_eq_false,
      not_false_eq_true, Bool.not_false, Bool.and_true, Bool.not_eq_true, Bool.and_self,
      Except.ok.injEq, false_implies, true_implies, implies_true, true_and, and_true,
      Bool.true_and, Bool.decide_eq_true, decide_not, Bool.not_eq_true', decide_eq_false_iff_not,
      decide_True, decide_False, reduceCtorEq] at h ⊢ <;>
    exact h.symm

theorem publish_core_error (ip host_port container_port err e1 e2 : String)
    (h : (if (host_port != "" && !isPortRange host_port) = true then
        (Except.error e1 : Except String String)
      else if (container_port != "" && !isPortRange container_port) = true then .error e2
      else if (ip != "") = true then
        if (host_port != "") = true then
          .ok ("-p=" ++ ip ++ ":" ++ host_port ++ ":" ++ container_port)
        else .ok ("-p=" ++ ip ++ "::" ++ container_port)
      else if (host_port != "") = true then .ok ("-p=" ++ host_port ++ ":" ++ container_port)
      else .ok ("-p=" ++ container_port)) = .error err) :
    err = e1 ∨ err = e2 := by
  by_cases c1 : (host_port != "" && !isPortRange host_port) = true
  · rw [if_pos c1] at h
    exact Or.inl (Except.error.inj h).symm
  · rw [if_neg c1] at h
    by_cases c2 : (container_port != "" && !isPortRange container_port) = true
    · rw [if_pos c2] at h
      exact Or.inr (Except.error.inj h).symm
    · rw [if_neg c2] at h
      by_cases c3 : (ip != "") = true <;> by_cases c4 : (host_port != "") = true <;>
        simp only [c3, c4, if_true, if_false, Bool.false_eq_true, reduceCtorEq] at h

theorem publishPortArg_ok (v arg : String) (h : publishPortArg v = .ok arg) :
    ∃ ip host_port container_port,
      PublishFields (splitPorts (TrimSpace v)) ip host_port container_port ∧
      (host_port ≠ "" → isPortRange host_port = true) ∧
      (container_port ≠ "" → isPortRange container_port = true) ∧
      arg = publishFlag ip host_port container_port := by
  unfold publishPortArg at h
  dsimp only at h
  generalize splitPorts (TrimSpace v) = parts at h
  split at h
  · simp at h
  · rename_i hlen
    match parts, hlen with
    | [], hlen => simp at hlen
    | [cp], _ =>
      exact ⟨"", "", cp, Or.inl ⟨rfl, rfl, rfl⟩, publish_core "" "" cp arg _ _ h⟩
    | [hp, cp], _ =>
      exact ⟨"", hp, cp, Or.inr (Or.inl ⟨rfl, rfl⟩), publish_core "" hp cp arg _ _ h⟩
    | [ip0, hp, cp], _ =>
      refine ⟨if (ip0 == "0.0.0.0") = true then "" else ip0, hp, cp,
        Or.inr (Or.inr ⟨ip0, rfl, ?_⟩), publish_core _ hp cp arg _ _ h⟩
      by_cases hz : ip0 = "0.0.0.0" <;> simp [hz]
    | _ :: _ :: _ :: _ :: _, hlen => simp at hlen

theorem publishPortArg_too_many (v : String) (h : (splitPorts (TrimSpace v)).length > 3) :
    publishPortArg v = .error ("Invalid published port '" ++ TrimSpace v ++ "'") := by
  unfold publishPortArg
  dsimp only
  rw [if_pos ⟨by omega, by omega, by omega⟩]

/-- C9, the code at the failing input: the value "abc80" has no surrounding
white space and does not match the port grammar, yet isPortRange accepts it
(the pattern is anchored at the end only), the conversion succeeds and
"--expose=abc80" is emitted. -/
theorem ConvertContainer_expose_unanchored :
    TrimSpace "abc80" = "abc80" ∧ matchesPortGrammar "abc80" = false ∧
    isPortRange "abc80" = true ∧
    ConvertContainerArgs exampleHost noGlobals
        (containerUnit [("Image", "img"), ("ExposeHostPort", "abc80")]) false =
      .ok ["/usr/bin/podman", "run", "--name=systemd-%N", "--cidfile=%t/%N.cid", "--replace",
        "--rm", "-d", "--log-driver", "journald", "--pull=never", "--runtime", "/usr/bin/crun",
        "--cgroups=split", "--init", "--sdnotify=conmon", "--security-opt=no-new-privileges",
        "--cap-drop=all", "--tmpfs", "/tmp:rw,size=512M,mode=1777", "--expose=abc80", "img"] :=
  ⟨by decide, by decide, by decide, by rfl⟩

/-- C10, amended: for every container unit, host and value of isUser, and every
PublishPort value of the unit: if the conversion succeeds, the argument list
holds the flag "-p=" followed by only the fields present among ip, host port
and container port as read from the top-level split of the trimmed value, the
host port, when present, is accepted by isPortRange and the container port is
empty or accepted by isPortRange; a value whose top-level split has more than
three fields makes the conversion fail; and the body of the loop fails with
"Invalid published port" or "Invalid port format" only. -/
theorem ConvertContainer_publish_port (host : Host) (g : Globals) (container : UnitFile)
    (isUser : Bool) (v : String) (hv : v ∈ container.LookupAll ContainerGroup "PublishPort") :
    (∀ args, ConvertContainerArgs host g container isUser = .ok args →
      ∃ ip host_port container_port,
        PublishFields (splitPorts (TrimSpace v)) ip host_port container_port ∧
        (host_port ≠ "" → isPortRange host_port = true) ∧
        (container_port ≠ "" → isPortRange container_port = true) ∧
        publishFlag ip host_port container_port ∈ args) ∧
    ((splitPorts (TrimSpace v)).length > 3 →
      ∃ err, ConvertContainerArgs host g container isUser = .error err) ∧
    (∀ err, publishPortArg v = .error err →
      err = "Invalid published port '" ++ TrimSpace v ++ "'" ∨
      ∃ port, err = "Invalid port format '" ++ port ++ "'") := by
  have key : ∀ args, ConvertContainerArgs host g container isUser = .ok args →
      ∃ arg, publishPortArg v = .ok arg ∧ arg ∈ args := by
    intro args ha
    obtain ⟨pV, pE, pP, _, hP, l, hl⟩ := ConvertContainerArgs_ok_ports host g container isUser
      args ha
    obtain ⟨arg, h1, h2⟩ := addPublishPorts_mem _ pE pP hP v hv
    exact ⟨arg, h1, by rw [hl]; exact List.mem_append_left _ h2⟩
  refine ⟨?_, ?_, ?_⟩
  · intro args ha
    obtain ⟨arg, h1, h2⟩ := key args ha
    obtain ⟨ip, hp, cp, f1, f2, f3, f4⟩ := publishPortArg_ok v arg h1
    exact ⟨ip, hp, cp, f1, f2, f3, by rw [← f4]; exact h2⟩
  · intro hlen
    cases hr : ConvertContainerArgs host g container isUser with
    | error err => exact ⟨err, rfl⟩
    | ok args =>
      obtain ⟨arg, h1, _⟩ := key args hr
      rw [publishPortArg_too_many v hlen] at h1
      cases h1
  · intro err he
    unfold publishPortArg at he
    dsimp only at he
    by_cases hlen : (splitPorts (TrimSpace v)).length ≠ 1 ∧
        (splitPorts (TrimSpace v)).length ≠ 2 ∧ (splitPorts (TrimSpace v)).length ≠ 3
    · rw [if_pos hlen] at he
      exact Or.inl (Except.error.inj he).symm
    · rw [if_neg hlen] at he
      rcases publish_core_error _ _ _ _ _ _ he with h | h
      · exact Or.inr ⟨_, h⟩
      · exact Or.inr ⟨_, h⟩

/-- Witness of C10 as amended: the value "[::1]:8080:80/tcp". -/
theorem ConvertContainer_publish_port_witness :
    "[::1]:8080:80/tcp" ∈ (containerUnit [("Image", "img"),
        ("PublishPort", "[::1]:8080:80/tcp")]).LookupAll ContainerGroup "PublishPort" ∧
    (ConvertContainerArgs exampleHost noGlobals (containerUnit [("Image", "img"),
        ("PublishPort", "[::1]:8080:80/tcp")]) false).toBool = true ∧
    ∀ args, ConvertContainerArgs exampleHost noGlobals (containerUnit [("Image", "img"),
        ("PublishPort", "[::1]:8080:80/tcp")]) false = .ok args →
      ∃ ip host_port container_port,
        PublishFields (splitPorts (TrimSpace "[::1]:8080:80/tcp")) ip host_port
          container_port ∧
        (host_port ≠ "" → isPortRange host_port = true) ∧
        (container_port ≠ "" → isPortRange container_port = true) ∧
        publishFlag ip host_port container_port ∈ args :=
  ⟨by decide, by decide,
    (ConvertContainer_publish_port exampleHost noGlobals (containerUnit [("Image", "img"),
      ("PublishPort", "[::1]:8080:80/tcp")]) false "[::1]:8080:80/tcp" (by decide)).1⟩

/-- Counterexample to C10 as stated: the value "8080:" splits into the host port
"8080" and an empty container port, the conversion succeeds and the flag
emitted is "-p=8080:". -/
theorem ConvertContainer_publish_port_counterexample :
    splitPorts (TrimSpace "8080:") = ["8080", ""] ∧
    ConvertContainerArgs exampleHost noGlobals
        (containerUnit [("Image", "img"), ("PublishPort", "8080:")]) false =
      .ok ["/usr/bin/podman", "run", "--name=systemd-%N", "--cidfile=%t/%N.cid", "--replace",
        "--rm", "-d", "--log-driver", "journald", "--pull=never", "--runtime", "/usr/bin/crun",
        "--cgroups=split", "--init", "--sdnotify=conmon", "--security-opt=no-new-privileges",
        "--cap-drop=all", "--tmpfs", "/tmp:rw,size=512M,mode=1777", "-p=8080:", "img"] :=
  ⟨by decide, by rfl⟩

/-! ### Sorted emission of key/value flags -/

/-- The order sort.Strings sorts by is the order of strings. -/
theorem sortStrings_rel (a b : String) : ¬ b.data < a.data ↔ a ≤ b :=
  (not_congr String.lt_iff_toList_lt.symm).trans not_lt

theorem sortStrings_sorted (ks : List String) :
    (sortStrings ks).Sorted (fun a b => ¬ b.data < a.data) := by
  unfold sortStrings
  haveI : IsTotal String (fun a b => ¬ b.data < a.data) :=
    ⟨fun a b => by simp only [sortStrings_rel]; exact le_total a b⟩
  haveI : IsTrans String (fun a b => ¬ b.data < a.data) :=
    ⟨fun a b c => by simp only [sortStrings_rel]; exact le_trans⟩
  exact List.sorted_insertionSort _ ks

theorem sortStrings_perm (ks : List String) : (sortStrings ks).Perm ks := by
  unfold sortStrings
  exact List.perm_insertionSort _ ks

/-- Keys that are pairwise different come out of sort.Strings strictly ascending. -/
theorem sortStrings_strict (ks : List String) (h : ks.Nodup) :
    (sortStrings ks).Pairwise (fun a b => a.data < b.data) := by
  have hs := sortStrings_sorted ks
  have hn : (sortStrings ks).Nodup := (sortStrings_perm ks).nodup_iff.mpr h
  have hs2 : (sortStrings ks).Pairwise (fun a b => a ≤ b) :=
    List.Pairwise.imp (fun h => (sortStrings_rel _ _).mp h) hs
  have hlt := List.Pairwise.and hs2 hn
  exact hlt.imp (fun h => String.lt_iff_toList_lt.mp (lt_of_le_of_ne h.1 h.2))

/-- The sorted keys do not depend on the order the keys are listed in. -/
theorem sortStrings_of_perm (ks ks2 : List String) (h : ks.Perm ks2) :
    sortStrings ks = sortStrings ks2 := by
  haveI : IsAntisymm String (fun a b => ¬ b.data < a.data) :=
    ⟨fun a b => by simp only [sortStrings_rel]; exact le_antisymm⟩
  exact List.eq_of_perm_of_sorted
    (((sortStrings_perm ks).trans h).trans (sortStrings_perm ks2).symm)
    (sortStrings_sorted ks) (sortStrings_sorted ks2)

/-- In a map whose keys are pairwise different, a pair it holds is the value
read under its key. -/
theorem GoMap.get_of_mem (m : GoMap) (h : m.keys.Nodup) (k v : String) (hm : (k, v) ∈ m) :
    m.get k = v := by
  induction m with
  | nil => simp at hm
  | cons p rest ih =>
    unfold GoMap.keys at h
    rw [List.map_cons, List.nodup_cons] at h
    unfold GoMap.get
    rw [List.find?_cons]
    rcases List.mem_cons.mp hm with heq | hin
    · subst heq
      simp
    · have hne : p.1 ≠ k := by
        intro hpk
        apply h.1
        rw [hpk]
        exact List.mem_map.mpr ⟨(k, v), hin, rfl⟩
      have hb : (p.1 == k) = false := by simpa using hne
      rw [hb]
      exact ih h.2 hin

/-- Two maps holding the same pairs give the same value under every key. -/
theorem GoMap.get_of_perm (m m2 : GoMap) (h : m.keys.Nodup) (hp : m.Perm m2) (k : String) :
    m.get k = m2.get k := by
  have h2 : m2.keys.Nodup :=
    (List.Perm.nodup_iff (List.Perm.map (fun p : String × String => p.1) hp)).mp h
  by_cases hk : ∃ v, (k, v) ∈ m
  · obtain ⟨v, hv⟩ := hk
    rw [GoMap.get_of_mem m h k v hv, GoMap.get_of_mem m2 h2 k v (hp.subset hv)]
  · have hn : ∀ (mm : GoMap), (¬ ∃ v, (k, v) ∈ mm) → mm.get k = "" := by
      intro mm hmm
      unfold GoMap.get
      have : mm.find? (fun p => p.1 == k) = none := by
        rw [List.find?_eq_none]
        intro p hp hpk
        apply hmm
        have : p.1 = k := by simpa using hpk
        exact ⟨p.2, by rw [← this]; exact hp⟩
      rw [this]
    rw [hn m hk, hn m2 (fun ⟨v, hv⟩ => hk ⟨v, hp.symm.subset hv⟩)]

/-- The tokens `addKeys` appends: one pair per key, in the sorted order. -/
theorem addKeys_tokens (c : PodmanCmdline) (arg : String) (keys : GoMap) :
    (c.addKeys arg keys).Args =
      c.Args ++ (sortStrings keys.keys).flatMap (fun k => [arg, k ++ "=" ++ keys.get k]) := by
  unfold PodmanCmdline.addKeys
  simp only
  generalize sortStrings keys.keys = ks
  induction ks generalizing c with
  | nil => simp
  | cons k rest ih =>
    rw [List.foldl_cons, ih, List.flatMap_cons]
    simp only [PodmanCmdline.add, List.append_assoc]

/-- Claim C11: `addKeys` leaves the tokens already present in place and appends,
for the keys of the map taken in strictly ascending order, the flag followed by
`key=value`, one such pair per key; two maps holding the same key/value pairs,
whatever order they were inserted in, produce the same command line.  The
methods addEnv, addLabels and addAnnotations are `addKeys` with the flags
`--env`, `--label` and `--annotation`. -/
theorem addKeys_sorted_pairs (c : PodmanCmdline) (arg : String) (m m2 : GoMap)
    (h : m.keys.Nodup) (hp : m.Perm m2) :
    (c.addKeys arg m).Args =
      c.Args ++ (sortStrings m.keys).flatMap (fun k => [arg, k ++ "=" ++ m.get k]) ∧
    (sortStrings m.keys).Pairwise (fun a b => a.data < b.data) ∧
    (sortStrings m.keys).Perm m.keys ∧
    c.addEnv m = c.addKeys "--env" m ∧
    c.addLabels m = c.addKeys "--label" m ∧
    c.addAnnotations m = c.addKeys "--annotation" m ∧
    c.addKeys arg m = c.addKeys arg m2 := by
  refine ⟨addKeys_tokens c arg m, sortStrings_strict _ h, sortStrings_perm _, rfl, rfl, rfl,
    ?_⟩
  unfold PodmanCmdline.addKeys
  simp only
  have hk : sortStrings m.keys = sortStrings m2.keys :=
    sortStrings_of_perm _ _ (List.Perm.map (fun p : String × String => p.1) hp)
  rw [← hk]
  have hg : (fun (c : PodmanCmdline) k => c.add [arg, k ++ "=" ++ m.get k]) =
      (fun (c : PodmanCmdline) k => c.add [arg, k ++ "=" ++ m2.get k]) := by
    funext c k
    rw [GoMap.get_of_perm m m2 h hp k]
  rw [hg]

/-- Witness of C11: the map with the pairs B=2 and A=1, inserted in either
order. -/
theorem addKeys_sorted_pairs_witness :
    (GoMap.keys [("B", "2"), ("A", "1")]).Nodup ∧
    ((NewPodmanCmdline ["run"]).addKeys "--env" [("B", "2"), ("A", "1")]).Args =
      ["/usr/bin/podman", "run", "--env", "A=1", "--env", "B=2"] ∧
    (NewPodmanCmdline ["run"]).addKeys "--env" [("B", "2"), ("A", "1")] =
      (NewPodmanCmdline ["run"]).addKeys "--env" [("A", "1"), ("B", "2")] :=
  ⟨by decide, by decide,
   (addKeys_sorted_pairs (NewPodmanCmdline ["run"]) "--env" [("B", "2"), ("A", "1")]
      [("A", "1"), ("B", "2")] (by decide) (List.Perm.swap _ _ _)).2.2.2.2.2.2⟩

/-! ### The shape of the argument list -/

theorem prefixed_not_readOnlyToken (p x : String)
    (h : ∀ t ∈ readOnlyTokens, p.data.isPrefixOf t.data = false) : p ++ x ∉ readOnlyTokens := by
  intro hm
  have h2 := h _ hm
  have h3 : p.data.isPrefixOf (p ++ x).data = true := by
    rw [String.data_append, List.isPrefixOf_iff_prefix]
    exact List.prefix_append _ _
  rw [h3] at h2
  exact Bool.noConfusion h2

theorem PodmanCmdline.FreshRun.add {p : PodmanCmdline} (hp : p.FreshRun) (ts : List String)
    (hts : ∀ t ∈ ts, t ∉ readOnlyTokens) : (p.add ts).FreshRun := by
  obtain ⟨l, hl, hc⟩ := hp
  refine ⟨l ++ ts, by simp only [PodmanCmdline.add, hl, List.append_assoc], ?_⟩
  intro t ht
  rcases List.mem_append.mp ht with h | h
  · exact hc t h
  · exact hts t h

theorem PodmanCmdline.FreshRun.addf {p : PodmanCmdline} (hp : p.FreshRun) (t : String)
    (ht : t ∉ readOnlyTokens) : (p.addf t).FreshRun :=
  hp.add [t] (by intro s hs; rw [List.mem_singleton.mp hs]; exact ht)

theorem PodmanCmdline.FreshRun.ite {p q : PodmanCmdline} (c : Prop) [Decidable c]
    (hp : p.FreshRun) (hq : q.FreshRun) : (if c then p else q).FreshRun := by
  split
  · exact hp
  · exact hq

theorem PodmanCmdline.FreshRun.foldl {p : PodmanCmdline} (hp : p.FreshRun) (pfx : String)
    (f : String → String) (h : ∀ t ∈ readOnlyTokens, pfx.data.isPrefixOf t.data = false)
    (caps : List String) :
    (caps.foldl (fun p c => p.addf (pfx ++ f c)) p).FreshRun := by
  induction caps generalizing p with
  | nil => exact hp
  | cons c rest ih =>
    rw [List.foldl_cons]
    exact ih (hp.addf _ (prefixed_not_readOnlyToken _ _ h))

/-- The step of lines 369-384 appends `readOnlyFlags`. -/
theorem readOnly_step (p : PodmanCmdline) (ro vt : Bool) :
    (if vt = true then
      if (!ro) = true then
        (if ro = true then p.add ["--read-only"] else p).add
          ["--tmpfs", "/tmp:rw,size=512M,mode=1777"]
      else (if ro = true then p.add ["--read-only"] else p)
    else if ro = true then
      (if ro = true then p.add ["--read-only"] else p).add ["--read-only-tmpfs=false"]
    else (if ro = true then p.add ["--read-only"] else p)).Args =
      p.Args ++ readOnlyFlags ro vt := by
  cases ro <;> cases vt <;> simp [readOnlyFlags, PodmanCmdline.add]

/-- The last steps of ConvertContainer append the environment, the labels and
the annotations, and then exactly the PodmanArgs tokens, the image and the
tokens of Exec. -/
theorem tail_args_exact (host : Host) (u : UnitFile) (P : PodmanCmdline)
    (env labels ann : GoMap) (pargs : List String) (image : String) :
    ∃ l, (match UnitFile.LookupLastArgs host u ContainerGroup "Exec" with
      | some exec_args =>
        (((((P.addEnv env).addLabels labels).addAnnotations ann).add pargs).add [image]).add
          exec_args
      | none =>
        ((((P.addEnv env).addLabels labels).addAnnotations ann).add pargs).add [image]).Args =
      P.Args ++ l ++ pargs ++ [image] ++
        (UnitFile.LookupLastArgs host u ContainerGroup "Exec").getD [] := by
  obtain ⟨l4, e4⟩ := addKeys_args P "--env" env
  obtain ⟨l5, e5⟩ := addKeys_args (P.addEnv env) "--label" labels
  obtain ⟨l6, e6⟩ := addKeys_args ((P.addEnv env).addLabels labels) "--annotation" ann
  unfold PodmanCmdline.addEnv PodmanCmdline.addLabels PodmanCmdline.addAnnotations at *
  cases UnitFile.LookupLastArgs host u ContainerGroup "Exec" with
  | none =>
    exact ⟨l4 ++ l5 ++ l6, by
      simp only [PodmanCmdline.add, e6, e5, e4, List.append_assoc, Option.getD_none,
        List.append_nil]⟩
  | some a =>
    exact ⟨l4 ++ l5 ++ l6, by
      simp only [PodmanCmdline.add, e6, e5, e4, List.append_assoc, Option.getD_some]⟩

/-- The shape of every argument list ConvertContainer installs: the podman
command and `run`, arguments free of the read-only flags, the flags of the
ReadOnly and VolatileTmp step, further arguments, and then exactly the
PodmanArgs tokens, the image and the tokens of Exec. -/
theorem ConvertContainerArgs_shape (host : Host) (g : Globals) (u : UnitFile) (isUser : Bool)
    (args : List String) :
    ConvertContainerArgs host g u isUser = .ok args →
    ∃ before mid,
      (∀ t ∈ before, t ∉ readOnlyTokens) ∧
      args = ["/usr/bin/podman", "run"] ++ before ++
        readOnlyFlags (u.LookupBoolean host ContainerGroup "ReadOnly" false)
          (u.LookupBoolean host ContainerGroup "VolatileTmp" true) ++ mid ++
        u.LookupAllArgs host ContainerGroup "PodmanArgs" ++
        [(u.Lookup ContainerGroup "Image").getD ""] ++
        (u.LookupLastArgs host ContainerGroup "Exec").getD [] := by
  unfold ConvertContainerArgs convertContainerCmdline
  lift_lets
  intro service12 service11 service10 service9 lookupImage0 image0 lookupName0 containerName0
    service8 lookupKillMode0 killMode0 ok0 service7 podmanEnv1 service6 service5 service4
    service3 podman15 podman14 podman13 service2 podman12 lookupTimezone0 timezone0 podman11
    runInit0 podman10 notify0 podman9 service1 service0 noNewPrivileges0 podman8 dropCaps0
    podman7 addCaps0 podman6 readOnly0 podman5 volatileTmp0 podman4 socketActivated0 podman3
    podmanEnv0 keepId0 defaultContainerUid0 defaultContainerGid0 podman2 uid0 gid0 podman1
    podman0 remapUsers0 defaultUids0 uid_remap_ids0 defaultGids0 gid_remap_ids0
    remap_uid_start0 remap_gid_start0 volumes0 exposed_ports0 publish_ports0 labels0
    annotations0 podman_args0 h
  have c15 : podman15.FreshRun := ⟨[], rfl, by simp⟩
  have c14 : podman14.FreshRun :=
    c15.addf _ (prefixed_not_readOnlyToken _ _ (by decide))
  have c13 : podman13.FreshRun := c14.add _ (by decide)
  have c12 : podman12.FreshRun := c13.add _ (by decide)
  have c11 : podman11.FreshRun :=
    PodmanCmdline.FreshRun.ite _ (c12.addf _ (prefixed_not_readOnlyToken _ _ (by decide))) c12
  have c10 : podman10.FreshRun := PodmanCmdline.FreshRun.ite _ (c11.add _ (by decide)) c11
  have c9 : podman9.FreshRun :=
    PodmanCmdline.FreshRun.ite _ (c10.add _ (by decide)) (c10.add _ (by decide))
  have c8 : podman8.FreshRun := PodmanCmdline.FreshRun.ite _ (c9.add _ (by decide)) c9
  have c7 : podman7.FreshRun := c8.foldl "--cap-drop=" host.ToLower (by decide) dropCaps0
  have c6 : podman6.FreshRun := c7.foldl "--cap-add=" host.ToLower (by decide) addCaps0
  have e4 : podman4.Args = podman6.Args ++ readOnlyFlags readOnly0 volatileTmp0 :=
    readOnly_step podman6 readOnly0 volatileTmp0
  have e0 : ∃ l, podman0.Args = podman4.Args ++ l := by
    have e3 : ∃ l, podman3.Args = podman4.Args ++ l := by
      by_cases hs : socketActivated0 = true
      · exact ⟨["--preserve-fds=1"], by
          show (if socketActivated0 = true then podman4.add ["--preserve-fds=1"]
            else podman4).Args = _
          rw [if_pos hs]; rfl⟩
      · exact ⟨[], by
          show (if socketActivated0 = true then podman4.add ["--preserve-fds=1"]
            else podman4).Args = _
          rw [if_neg hs, List.append_nil]⟩
    have e2 : ∃ l, podman2.Args = podman3.Args ++ l := by
      by_cases hs : keepId0 = true
      · exact ⟨["--userns", "keep-id"], by
          show (if keepId0 = true then podman3.add ["--userns", "keep-id"]
            else podman3).Args = _
          rw [if_pos hs]; rfl⟩
      · exact ⟨[], by
          show (if keepId0 = true then podman3.add ["--userns", "keep-id"]
            else podman3).Args = _
          rw [if_neg hs, List.append_nil]⟩
    have e1 : ∃ l, podman0.Args = podman2.Args ++ l := by
      show ∃ l, (if (uid0 != defaultContainerUid0 || gid0 != defaultContainerUid0) = true then
          if (gid0 == defaultContainerGid0) = true then
            (podman2.add ["--user"]).addf (toString uid0)
          else (podman2.add ["--user"]).addf (toString uid0 ++ ":" ++ toString gid0)
        else podman2).Args = podman2.Args ++ l
      split
      · split
        · exact ⟨["--user"] ++ [toString uid0], by
            simp only [PodmanCmdline.addf, PodmanCmdline.add, List.append_assoc]⟩
        · exact ⟨["--user"] ++ [toString uid0 ++ ":" ++ toString gid0], by
            simp only [PodmanCmdline.addf, PodmanCmdline.add, List.append_assoc]⟩
      · exact ⟨[], by rw [List.append_nil]⟩
    obtain ⟨l3, h3⟩ := e3
    obtain ⟨l2, h2⟩ := e2
    obtain ⟨l1, h1⟩ := e1
    exact ⟨l3 ++ l2 ++ l1, by rw [h1, h2, h3]; simp only [List.append_assoc]⟩
  cases hc : checkForUnknownKeys u ContainerGroup supportedContainerKeys with
  | some err => rw [hc] at h; simp at h
  | none =>
    rw [hc] at h
    dsimp only at h
    by_cases hi : (!lookupImage0.isSome || image0 == "") = true
    · rw [if_pos hi] at h; simp at h
    · rw [if_neg hi] at h
      by_cases hkc : ((!ok0 || !(killMode0 == "mixed" || killMode0 == "control-group")) && ok0)
          = true
      · rw [if_pos hkc] at h; simp at h
      · rw [if_neg hkc] at h
        by_cases hkeep : (keepId0 && !isUser) = true
        · rw [if_pos hkeep] at h; simp at h
        · rw [if_neg hkeep] at h
          cases hU : UnitFile.LookupUid host u ContainerGroup "HostUser" uid0 with
          | error err => rw [hU] at h; simp at h
          | ok hostUid =>
            rw [hU] at h
            dsimp only at h
            cases hG : UnitFile.LookupGid host u ContainerGroup "HostGroup" gid0 with
            | error err => rw [hG] at h; simp at h
            | ok hostGid =>
              rw [hG] at h
              dsimp only at h
              generalize hR :
                (if (!remapUsers0) = true then
                  (if (gid0 != hostGid) = true then
                    addIdMaps
                      (if (uid0 != hostUid) = true then
                        addIdMaps podman0 "--uidmap" uid0 hostUid MaxUint32 none
                      else podman0) "--gidmap" gid0 hostGid MaxUint32 none
                  else
                    if (uid0 != hostUid) = true then
                      addIdMaps podman0 "--uidmap" uid0 hostUid MaxUint32 none
                    else podman0, g)
                else
                  (addIdMaps
                    (addIdMaps podman0 "--uidmap" uid0 hostUid remap_uid_start0
                      (some uid_remap_ids0))
                    "--gidmap" gid0 hostGid remap_gid_start0 (some gid_remap_ids0),
                    defaultGids0.2)) = R at h
              have hRargs : ∃ l, R.1.Args = podman0.Args ++ l := by
                rw [← hR]
                by_cases hr : (!remapUsers0) = true
                · rw [if_pos hr]
                  by_cases h1 : (uid0 != hostUid) = true <;>
                    by_cases h2 : (gid0 != hostGid) = true <;>
                    simp only [h1, h2, if_true, if_false, addIdMaps_args, List.append_assoc,
                      Bool.false_eq_true]
                  · exact ⟨_, rfl⟩
                  · exact ⟨_, rfl⟩
                  · exact ⟨_, rfl⟩
                  · exact ⟨[], by rw [List.append_nil]⟩
                · rw [if_neg hr]
                  simp only [addIdMaps_args, List.append_assoc]
                  exact ⟨_, rfl⟩
              obtain ⟨lR, eR⟩ := hRargs
              obtain ⟨l1, e1⟩ := foldl_addVolume_args volumes0 service0 R.1
              cases hE : addExposedPorts exposed_ports0
                  (List.foldl addVolume (service0, R.1) volumes0).2 with
              | error err => rw [hE] at h; simp at h
              | ok pE =>
                rw [hE] at h
                dsimp only at h
                obtain ⟨l2, e2⟩ := addExposedPorts_args _ _ _ hE
                cases hP : addPublishPorts publish_ports0 pE with
                | error err => rw [hP] at h; simp at h
                | ok pP =>
                  rw [hP] at h
                  dsimp only at h
                  obtain ⟨l3, e3⟩ := addPublishPorts_args _ _ _ hP
                  obtain ⟨l4, e5⟩ := tail_args_exact host u pP podmanEnv0 labels0 annotations0
                    podman_args0 image0
                  have h2 := Except.ok.inj h
                  obtain ⟨l0, e0⟩ := e0
                  obtain ⟨l6, e6, hclean⟩ := c6
                  refine ⟨l6, l0 ++ lR ++ l1 ++ l2 ++ l3 ++ l4, hclean, ?_⟩
                  rw [← h2]
                  refine e5.trans ?_
                  rw [e3, e2, e1, eR, e0, e4, e6]
                  simp only [List.append_assoc]

/-- Claim C12: when ConvertContainer succeeds, the argument list it installs as
ExecStart begins with `/usr/bin/podman`, `run` and ends with exactly the tokens
of all PodmanArgs values in their order, then the Image value as one token,
then the tokens of the last Exec value when there is one; nothing follows this
tail and nothing else stands inside it. -/
theorem ConvertContainer_args_tail (host : Host) (g : Globals) (u : UnitFile) (isUser : Bool)
    (args : List String) :
    ConvertContainerArgs host g u isUser = .ok args →
    ∃ middle,
      args = ["/usr/bin/podman", "run"] ++ middle ++
        u.LookupAllArgs host ContainerGroup "PodmanArgs" ++
        [(u.Lookup ContainerGroup "Image").getD ""] ++
        (u.LookupLastArgs host ContainerGroup "Exec").getD [] := by
  intro h
  obtain ⟨before, mid, -, e⟩ := ConvertContainerArgs_shape host g u isUser args h
  exact ⟨before ++ readOnlyFlags (u.LookupBoolean host ContainerGroup "ReadOnly" false)
    (u.LookupBoolean host ContainerGroup "VolatileTmp" true) ++ mid, by
      rw [e]; simp only [List.append_assoc]⟩

/-- Witness of C12: a unit with two PodmanArgs values and two Exec values. -/
theorem ConvertContainer_args_tail_witness :
    ∃ middle,
      ["/usr/bin/podman", "run", "--name=systemd-%N", "--cidfile=%t/%N.cid", "--replace",
        "--rm", "-d", "--log-driver", "journald", "--pull=never", "--runtime",
        "/usr/bin/crun", "--cgroups=split", "--init", "--sdnotify=conmon",
        "--security-opt=no-new-privileges", "--cap-drop=all", "--read-only",
        "--read-only-tmpfs=false", "--foo", "--bar", "img", "sleep"] =
      ["/usr/bin/podman", "run"] ++ middle ++ ["--foo", "--bar"] ++ ["img"] ++ ["sleep"] :=
  ConvertContainer_args_tail exampleHost noGlobals
    (containerUnit [("Image", "img"), ("PodmanArgs", "--foo"), ("PodmanArgs", "--bar"),
      ("Exec", "true"), ("Exec", "sleep"), ("ReadOnly", "yes"), ("VolatileTmp", "no")])
    false _ (by rfl)

/-! ### The user flag and the default remap ranges -/

/-- Claim C13 fails on the code: line 425 compares the group id with the default
user id.  Under KeepId in the user context, on a host whose process has the
user id 1000 and the group id 100, a unit without User and Group resolves to
the defaults (1000, 100), and `--user 1000` is emitted all the same; on a
host whose process ids are both 1000 it is not.  On the first host a unit with
Group=1000 resolves to a group id other than the default 100, and no `--user`
is emitted. -/
theorem ConvertContainer_user_flag_gid_against_uid :
    UnitFile.LookupUint32 staffHost (containerUnit [("Image", "img"), ("KeepId", "yes")])
      ContainerGroup "User" (staffHost.Getuid % 4294967296) = staffHost.Getuid % 4294967296 ∧
    UnitFile.LookupUint32 staffHost (containerUnit [("Image", "img"), ("KeepId", "yes")])
      ContainerGroup "Group" (staffHost.Getgid % 4294967296) = staffHost.Getgid % 4294967296 ∧
    ConvertContainerArgs staffHost noGlobals
        (containerUnit [("Image", "img"), ("KeepId", "yes")]) true =
      .ok ["/usr/bin/podman", "run", "--name=systemd-%N", "--cidfile=%t/%N.cid", "--replace",
        "--rm", "-d", "--log-driver", "journald", "--pull=never", "--runtime",
        "/usr/bin/crun", "--cgroups=split", "--init", "--sdnotify=conmon",
        "--security-opt=no-new-privileges", "--cap-drop=all", "--tmpfs",
        "/tmp:rw,size=512M,mode=1777", "--userns", "keep-id", "--user", "1000", "img"] ∧
    ConvertContainerArgs exampleHost noGlobals
        (containerUnit [("Image", "img"), ("KeepId", "yes")]) true =
      .ok ["/usr/bin/podman", "run", "--name=systemd-%N", "--cidfile=%t/%N.cid", "--replace",
        "--rm", "-d", "--log-driver", "journald", "--pull=never", "--runtime",
        "/usr/bin/crun", "--cgroups=split", "--init", "--sdnotify=conmon",
        "--security-opt=no-new-privileges", "--cap-drop=all", "--tmpfs",
        "/tmp:rw,size=512M,mode=1777", "--userns", "keep-id", "img"] ∧
    UnitFile.LookupUint32 staffHost
      (containerUnit [("Image", "img"), ("KeepId", "yes"), ("Group", "1000")])
      ContainerGroup "Group" (staffHost.Getgid % 4294967296) ≠ staffHost.Getgid % 4294967296 ∧
    ConvertContainerArgs staffHost noGlobals
        (containerUnit [("Image", "img"), ("KeepId", "yes"), ("Group", "1000")]) true =
      .ok ["/usr/bin/podman", "run", "--name=systemd-%N", "--cidfile=%t/%N.cid", "--replace",
        "--rm", "-d", "--log-driver", "journald", "--pull=never", "--runtime",
        "/usr/bin/crun", "--cgroups=split", "--init", "--sdnotify=conmon",
        "--security-opt=no-new-privileges", "--cap-drop=all", "--tmpfs",
        "/tmp:rw,size=512M,mode=1777", "--userns", "keep-id", "img"] := by
  refine ⟨by decide, by decide, by rfl, by rfl, by decide, by rfl⟩

/-- Claim C14 fails on the code: `getDefaultRemapGids` fills the group cache and
then returns the user cache (line 106).  It returns whatever the user cache
holds; on a host where the user quadlet has subordinate user ids from 100000
and subordinate group ids from 200000 it returns nil with empty caches and
the user range once the user cache is filled, and a unit with RemapUsers and
no RemapGidRanges draws its group pool from 100000. -/
theorem getDefaultRemapGids_returns_uids :
    (∀ (host : Host) (g : Globals), (getDefaultRemapGids host g).1 = g.defaultRemapUids) ∧
    subidHost.lookupHostSubgid QuadletUserName = some (NewRanges 200000 65536) ∧
    (getDefaultRemapGids subidHost noGlobals).1 = none ∧
    (getDefaultRemapGids subidHost (getDefaultRemapUids subidHost noGlobals).2).1 =
      some (NewRanges 100000 65536) ∧
    ConvertContainerArgs subidHost noGlobals
        (containerUnit [("Image", "img"), ("RemapUsers", "yes")]) false =
      .ok ["/usr/bin/podman", "run", "--name=systemd-%N", "--cidfile=%t/%N.cid", "--replace",
        "--rm", "-d", "--log-driver", "journald", "--pull=never", "--runtime",
        "/usr/bin/crun", "--cgroups=split", "--init", "--sdnotify=conmon",
        "--security-opt=no-new-privileges", "--cap-drop=all", "--tmpfs",
        "/tmp:rw,size=512M,mode=1777", "--uidmap", "0:0:1", "--uidmap", "1:100000:65536",
        "--gidmap", "0:0:1", "--gidmap", "1:100000:65536", "img"] := by
  refine ⟨?_, by decide, by decide, by decide, by rfl⟩
  intro host g
  unfold getDefaultRemapGids
  simp only
  split
  · split <;> rfl
  · rfl

/-! ### The volume converter -/

/-- The Service keys ConvertVolume sets last, and the command line it adds
before them. -/
theorem volume_service_keys (host : Host) (s : UnitFile) (args : List String) (cond : String) :
    ((s.AddCmdline host ServiceGroup "ExecStart" args).Setv ServiceGroup
        [("Type", "oneshot"), ("RemainAfterExit", "yes"), ("ExecCondition", cond),
         ("SyslogIdentifier", "%N")]).Lookup ServiceGroup "Type" = some "oneshot" ∧
    ((s.AddCmdline host ServiceGroup "ExecStart" args).Setv ServiceGroup
        [("Type", "oneshot"), ("RemainAfterExit", "yes"), ("ExecCondition", cond),
         ("SyslogIdentifier", "%N")]).Lookup ServiceGroup "RemainAfterExit" = some "yes" ∧
    ((s.AddCmdline host ServiceGroup "ExecStart" args).Setv ServiceGroup
        [("Type", "oneshot"), ("RemainAfterExit", "yes"), ("ExecCondition", cond),
         ("SyslogIdentifier", "%N")]).Lookup ServiceGroup "SyslogIdentifier" = some "%N" ∧
    ((s.AddCmdline host ServiceGroup "ExecStart" args).Setv ServiceGroup
        [("Type", "oneshot"), ("RemainAfterExit", "yes"), ("ExecCondition", cond),
         ("SyslogIdentifier", "%N")]).Lookup ServiceGroup "ExecCondition" = some cond ∧
    ((s.AddCmdline host ServiceGroup "ExecStart" args).Setv ServiceGroup
        [("Type", "oneshot"), ("RemainAfterExit", "yes"), ("ExecCondition", cond),
         ("SyslogIdentifier", "%N")]).LookupAll ServiceGroup "ExecStart" =
      s.LookupAll ServiceGroup "ExecStart" ++ [host.quoteCmdline args] ∧
    ((s.AddCmdline host ServiceGroup "ExecStart" args).Setv ServiceGroup
        [("Type", "oneshot"), ("RemainAfterExit", "yes"), ("ExecCondition", cond),
         ("SyslogIdentifier", "%N")]).Filename = s.Filename := by
  simp only [UnitFile.Setv, List.foldl_cons, List.foldl_nil, UnitFile.AddCmdline]
  refine ⟨?_, ?_, ?_, ?_, ?_, rfl⟩
  · rw [UnitFile.Lookup_Set_of_ne _ _ _ _ _ _ (by decide),
      UnitFile.Lookup_Set_of_ne _ _ _ _ _ _ (by decide),
      UnitFile.Lookup_Set_of_ne _ _ _ _ _ _ (by decide), UnitFile.Lookup_Set_self]
  · rw [UnitFile.Lookup_Set_of_ne _ _ _ _ _ _ (by decide),
      UnitFile.Lookup_Set_of_ne _ _ _ _ _ _ (by decide), UnitFile.Lookup_Set_self]
  · rw [UnitFile.Lookup_Set_self]
  · rw [UnitFile.Lookup_Set_of_ne _ _ _ _ _ _ (by decide), UnitFile.Lookup_Set_self]
  · rw [UnitFile.LookupAll_Set, if_neg (by decide), UnitFile.LookupAll_Set, if_neg (by decide),
      UnitFile.LookupAll_Set, if_neg (by decide), UnitFile.LookupAll_Set, if_neg (by decide),
      UnitFile.LookupAll_Add, if_pos ⟨rfl, rfl⟩]

/-- The option string ConvertVolume builds from the presence of User and Group
(lines 623-644), and whether it passes it on. -/
theorem volume_opts (p : PodmanCmdline) (hasUser hasGroup : Bool) (uid gid : String) :
    (if (if hasGroup = true then
          (if (if hasUser = true then
                (if "o=".length > 2 then "o=" ++ "," else "o=") ++ ("uid=" ++ uid)
              else "o=").length > 2 then
            (if hasUser = true then
                (if "o=".length > 2 then "o=" ++ "," else "o=") ++ ("uid=" ++ uid)
              else "o=") ++ ","
          else
            (if hasUser = true then
                (if "o=".length > 2 then "o=" ++ "," else "o=") ++ ("uid=" ++ uid)
              else "o=")) ++ ("gid=" ++ gid)
        else
          (if hasUser = true then
              (if "o=".length > 2 then "o=" ++ "," else "o=") ++ ("uid=" ++ uid)
            else "o=")).length > 2 then
      p.add ["--opt",
        (if hasGroup = true then
          (if (if hasUser = true then
                (if "o=".length > 2 then "o=" ++ "," else "o=") ++ ("uid=" ++ uid)
              else "o=").length > 2 then
            (if hasUser = true then
                (if "o=".length > 2 then "o=" ++ "," else "o=") ++ ("uid=" ++ uid)
              else "o=") ++ ","
          else
            (if hasUser = true then
                (if "o=".length > 2 then "o=" ++ "," else "o=") ++ ("uid=" ++ uid)
              else "o=")) ++ ("gid=" ++ gid)
        else
          (if hasUser = true then
              (if "o=".length > 2 then "o=" ++ "," else "o=") ++ ("uid=" ++ uid)
            else "o="))]
    else p).Args =
    p.Args ++ (if hasUser = true then
        if hasGroup = true then ["--opt", "o=uid=" ++ uid ++ ",gid=" ++ gid]
        else ["--opt", "o=uid=" ++ uid]
      else if hasGroup = true then ["--opt", "o=gid=" ++ gid]
      else []) := by
  have h0 : ¬ "o=".length > 2 := by decide
  have hlen : ∀ (a b : String), a.length > 2 → (a ++ b).length > 2 := by
    intro a b h
    rw [String.length_append]
    omega
  have hu : ("o=uid=" ++ uid).length > 2 := hlen _ _ (by decide)
  have hg : ("o=gid=" ++ gid).length > 2 := hlen _ _ (by decide)
  have hug : ("o=uid=" ++ uid ++ ",gid=" ++ gid).length > 2 := hlen _ _ (hlen _ _ hu)
  have e1 : "o=" ++ ("uid=" ++ uid) = "o=uid=" ++ uid := by
    rw [← String.append_assoc]; rfl
  have e2 : "o=" ++ ("gid=" ++ gid) = "o=gid=" ++ gid := by
    rw [← String.append_assoc]; rfl
  have e3 : "o=uid=" ++ uid ++ "," ++ ("gid=" ++ gid) = "o=uid=" ++ uid ++ ",gid=" ++ gid := by
    rw [String.append_assoc ("o=uid=" ++ uid) "," ("gid=" ++ gid),
      ← String.append_assoc "," "gid=" gid, ← String.append_assoc]
    rfl
  rw [if_neg h0]
  cases hasUser <;> cases hasGroup
  · simp only [Bool.false_eq_true, if_false, if_neg h0, List.append_nil]
  · simp only [Bool.false_eq_true, if_false, if_true, if_neg h0, e2, if_pos hg]
    rfl
  · simp only [Bool.false_eq_true, if_false, if_true, e1, if_pos hu]
    rfl
  · simp only [if_true, e1, if_pos hu, e3, if_pos hug]
    rfl

/-- Function `replaceExtension` on a name with a non-empty base and an extension
without a dot: the extension is cut off. -/
theorem replaceExtension_base (base ext extension extraPrefix extraSuffix : String)
    (hb : base ≠ "") (he : '.' ∉ ext.data) :
    replaceExtension (base ++ "." ++ ext) extension extraPrefix extraSuffix =
      extraPrefix ++ base ++ extraSuffix ++ extension := by
  have hl : ∀ (l : List Char), '.' ∉ l → LastIndexByte l '.' = -1 := by
    intro l
    induction l with
    | nil => intro _; rfl
    | cons x rest ih =>
      intro h
      have h1 : '.' ∉ rest := fun hm => h (List.mem_cons_of_mem _ hm)
      have h2 : x ≠ '.' := fun hx => h (by rw [hx]; exact List.mem_cons_self _ _)
      simp only [LastIndexByte, ih h1, if_neg h2]
      decide
  have hd : ∀ (b : List Char), LastIndexByte (b ++ '.' :: ext.data) '.' = b.length := by
    intro b
    induction b with
    | nil =>
      simp only [List.nil_append, LastIndexByte, hl _ he, List.length_nil]
      decide
    | cons x rest ih =>
      rw [List.cons_append]
      simp only [LastIndexByte]
      rw [ih, if_pos (by omega), List.length_cons]
      push_cast
      rfl
  have hdata : (base ++ "." ++ ext).data = base.data ++ '.' :: ext.data := by
    simp only [String.data_append, List.append_assoc]
    rfl
  unfold replaceExtension
  simp only [hdata, hd]
  have hpos : ((base.data.length : Nat) : Int) > 0 := by
    have : base.data ≠ [] := fun h => hb (by
      cases base
      simp only at h
      rw [h])
    have := List.length_pos.mpr this
    omega
  rw [if_pos hpos]
  simp only [Int.toNat_ofNat, List.take_left']

/-- The unit ConvertVolume generates from a volume unit holding only supported
keys: its file name, the keys of its Service group, and the command line added
to ExecStart. -/
theorem ConvertVolume_ok (host : Host) (volume : UnitFile) (name : String)
    (h : ∀ key ∈ volume.ListKeys VolumeGroup, key ∈ supportedVolumeKeys) :
    ∃ service,
      ConvertVolume host volume name = .ok service ∧
      service.Filename = replaceExtension volume.Filename ".service" "" "-volume" ∧
      service.Lookup ServiceGroup "Type" = some "oneshot" ∧
      service.Lookup ServiceGroup "RemainAfterExit" = some "yes" ∧
      service.Lookup ServiceGroup "SyslogIdentifier" = some "%N" ∧
      service.Lookup ServiceGroup "ExecCondition" =
        some ("/usr/bin/bash -c \"! /usr/bin/podman volume exists " ++
          replaceExtension name "" "systemd-" "" ++ "\"") ∧
      service.LookupAll ServiceGroup "ExecStart" =
        volume.LookupAll ServiceGroup "ExecStart" ++
          [host.quoteCmdline (["/usr/bin/podman", "volume", "create"] ++
            (if volume.HasKey VolumeGroup "User" = true then
              if volume.HasKey VolumeGroup "Group" = true then
                ["--opt", "o=uid=" ++ toString (volume.LookupUint32 host VolumeGroup "User" 0) ++
                  ",gid=" ++ toString (volume.LookupUint32 host VolumeGroup "Group" 0)]
              else
                ["--opt", "o=uid=" ++ toString (volume.LookupUint32 host VolumeGroup "User" 0)]
            else if volume.HasKey VolumeGroup "Group" = true then
              ["--opt", "o=gid=" ++ toString (volume.LookupUint32 host VolumeGroup "Group" 0)]
            else []) ++
            (sortStrings (volume.LookupAllKeyVal host VolumeGroup "Label").keys).flatMap
              (fun k => ["--label",
                k ++ "=" ++ (volume.LookupAllKeyVal host VolumeGroup "Label").get k]) ++
            [replaceExtension name "" "systemd-" ""])] := by
  unfold ConvertVolume
  rw [checkForUnknownKeys_none _ _ _ h]
  dsimp only
  refine ⟨_, rfl, (volume_service_keys host _ _ _).2.2.2.2.2,
    (volume_service_keys host _ _ _).1, (volume_service_keys host _ _ _).2.1,
    (volume_service_keys host _ _ _).2.2.1, (volume_service_keys host _ _ _).2.2.2.1,
    (volume_service_keys host _ _ _).2.2.2.2.1.trans ?_⟩
  rw [UnitFile.LookupAll_Add, if_neg (by decide), List.append_nil,
    UnitFile.LookupAll_RenameGroup _ _ _ _ _ (by decide) (by decide)]
  have hargs : ∀ (P : PodmanCmdline) (labels : GoMap) (vn : String),
      ((P.addLabels labels).add [vn]).Args =
        P.Args ++ (sortStrings labels.keys).flatMap
          (fun k => ["--label", k ++ "=" ++ labels.get k]) ++ [vn] := by
    intro P labels vn
    simp only [PodmanCmdline.add, PodmanCmdline.addLabels, addKeys_tokens]
  rw [hargs, volume_opts]
  rfl

/-- Claim C15: on a volume unit holding only supported keys, and for every
name, ConvertVolume succeeds.  The Service group of the unit it generates has
Type=oneshot, RemainAfterExit=yes, SyslogIdentifier=%N and an ExecCondition that
tests the non-existence of the volume named by the last argument of the
`volume create` command added to ExecStart; that name is `systemd-` followed
by the name without its extension.  After `volume create` the command holds
`--opt` with `o=uid=U,gid=G`, `o=uid=U` or `o=gid=G` exactly when User and
Group, only User, or only Group is set, then the labels, then the name. -/
theorem ConvertVolume_service (host : Host) (volume : UnitFile) (name : String)
    (h : ∀ key ∈ volume.ListKeys VolumeGroup, key ∈ supportedVolumeKeys) :
    ∃ service,
      ConvertVolume host volume name = .ok service ∧
      service.Lookup ServiceGroup "Type" = some "oneshot" ∧
      service.Lookup ServiceGroup "RemainAfterExit" = some "yes" ∧
      service.Lookup ServiceGroup "SyslogIdentifier" = some "%N" ∧
      service.Lookup ServiceGroup "ExecCondition" =
        some ("/usr/bin/bash -c \"! /usr/bin/podman volume exists " ++
          replaceExtension name "" "systemd-" "" ++ "\"") ∧
      service.LookupAll ServiceGroup "ExecStart" =
        volume.LookupAll ServiceGroup "ExecStart" ++
          [host.quoteCmdline (["/usr/bin/podman", "volume", "create"] ++
            (if volume.HasKey VolumeGroup "User" = true then
              if volume.HasKey VolumeGroup "Group" = true then
                ["--opt", "o=uid=" ++ toString (volume.LookupUint32 host VolumeGroup "User" 0) ++
                  ",gid=" ++ toString (volume.LookupUint32 host VolumeGroup "Group" 0)]
              else
                ["--opt", "o=uid=" ++ toString (volume.LookupUint32 host VolumeGroup "User" 0)]
            else if volume.HasKey VolumeGroup "Group" = true then
              ["--opt", "o=gid=" ++ toString (volume.LookupUint32 host VolumeGroup "Group" 0)]
            else []) ++
            (sortStrings (volume.LookupAllKeyVal host VolumeGroup "Label").keys).flatMap
              (fun k => ["--label",
                k ++ "=" ++ (volume.LookupAllKeyVal host VolumeGroup "Label").get k]) ++
            [replaceExtension name "" "systemd-" ""])] ∧
      (∀ base ext : String, base ≠ "" → '.' ∉ ext.data → name = base ++ "." ++ ext →
        replaceExtension name "" "systemd-" "" = "systemd-" ++ base) := by
  obtain ⟨service, h1, -, h3, h4, h5, h6, h7⟩ := ConvertVolume_ok host volume name h
  refine ⟨service, h1, h3, h4, h5, h6, h7, ?_⟩
  intro base ext hb he hn
  rw [hn, replaceExtension_base base ext "" "systemd-" "" hb he, String.append_empty,
    String.append_empty]

/-- Witness of C15: the volume unit data.volume with User=1000 and Group=100. -/
theorem ConvertVolume_service_witness :
    (∀ key ∈ UnitFile.ListKeys ⟨"data.volume", "/etc/containers/systemd/data.volume",
        [⟨VolumeGroup, "User", "1000"⟩, ⟨VolumeGroup, "Group", "100"⟩]⟩ VolumeGroup,
      key ∈ supportedVolumeKeys) ∧
    ∃ service,
      ConvertVolume exampleHost ⟨"data.volume", "/etc/containers/systemd/data.volume",
        [⟨VolumeGroup, "User", "1000"⟩, ⟨VolumeGroup, "Group", "100"⟩]⟩ "data.volume" =
        .ok service ∧
      service.Lookup ServiceGroup "Type" = some "oneshot" ∧
      service.Lookup ServiceGroup "ExecCondition" =
        some "/usr/bin/bash -c \"! /usr/bin/podman volume exists systemd-data\"" ∧
      service.LookupAll ServiceGroup "ExecStart" =
        ["/usr/bin/podman volume create --opt o=uid=1000,gid=100 systemd-data "] :=
  ⟨by decide,
    let ⟨service, h1, h2, _, _, h5, h6, _⟩ :=
      ConvertVolume_service exampleHost ⟨"data.volume", "/etc/containers/systemd/data.volume",
        [⟨VolumeGroup, "User", "1000"⟩, ⟨VolumeGroup, "Group", "100"⟩]⟩ "data.volume"
        (by decide)
    ⟨service, h1, h2, h5.trans (by decide), h6.trans (by decide)⟩⟩

/-! ### Volume names in the two converters -/

theorem span_no_colon (a : List Char) (h : ':' ∉ a) :
    a.span (fun c => c != ':') = (a, []) := by
  induction a with
  | nil => rfl
  | cons x rest ih =>
    have h1 : ':' ∉ rest := fun hm => h (List.mem_cons_of_mem _ hm)
    have h2 : (x != ':') = true := by
      simp only [bne_iff_ne, ne_eq]
      intro hx
      exact h (by rw [hx]; exact List.mem_cons_self _ _)
    rw [List.span_eq_take_drop] at ih ⊢
    have ih2 := ih h1
    simp only [Prod.mk.injEq] at ih2
    rw [List.takeWhile_cons, List.dropWhile_cons, h2]
    simp only [if_true, ih2.1, ih2.2]

theorem span_colon (a b : List Char) (h : ':' ∉ a) :
    (a ++ ':' :: b).span (fun c => c != ':') = (a, ':' :: b) := by
  induction a with
  | nil => rfl
  | cons x rest ih =>
    have h1 : ':' ∉ rest := fun hm => h (List.mem_cons_of_mem _ hm)
    have h2 : (x != ':') = true := by
      simp only [bne_iff_ne, ne_eq]
      intro hx
      exact h (by rw [hx]; exact List.mem_cons_self _ _)
    rw [List.span_eq_take_drop] at ih ⊢
    have ih2 := ih h1
    simp only [Prod.mk.injEq] at ih2
    rw [List.cons_append, List.takeWhile_cons, List.dropWhile_cons, h2]
    simp only [if_true, ih2.1, ih2.2]

theorem first_colon (l : List Char) :
    ':' ∉ l ∨ ∃ d o, l = d ++ ':' :: o ∧ ':' ∉ d := by
  induction l with
  | nil => exact Or.inl (by simp)
  | cons x rest ih =>
    by_cases hx : x = ':'
    · exact Or.inr ⟨[], rest, by rw [hx]; rfl, by simp⟩
    · rcases ih with h | ⟨d, o, e, hd⟩
      · refine Or.inl ?_
        intro hm
        rcases List.mem_cons.mp hm with h1 | h1
        · exact hx h1.symm
        · exact h h1
      · refine Or.inr ⟨x :: d, o, by rw [e]; rfl, ?_⟩
        intro hm
        rcases List.mem_cons.mp hm with h1 | h1
        · exact hx h1.symm
        · exact hd h1

/-- The fields `addVolume` cuts a value `source:rest` into, where the source
holds no colon: the source, and the rest cut at its first colon. -/
theorem SplitNColon_source (f rest : List Char) (h : ':' ∉ f) :
    (':' ∉ rest ∧ SplitNColon 3 (f ++ ':' :: rest) = [f, rest]) ∨
    ∃ d o, rest = d ++ ':' :: o ∧ SplitNColon 3 (f ++ ':' :: rest) = [f, d, o] := by
  rcases first_colon rest with hr | ⟨d, o, e, hd⟩
  · refine Or.inl ⟨hr, ?_⟩
    simp only [SplitNColon, span_colon f rest h, span_no_colon rest hr]
  · refine Or.inr ⟨d, o, e, ?_⟩
    rw [e]
    simp only [SplitNColon, span_colon f _ h, span_colon d o hd]

/-- The volume name `replaceExtension` makes with the prefix `systemd-` is
never empty. -/
theorem replaceExtension_systemd_ne (f : String) : replaceExtension f "" "systemd-" "" ≠ "" := by
  intro h
  have h2 := congrArg String.data h
  unfold replaceExtension at h2
  simp only [String.data_append] at h2
  exact absurd h2 (by
    show ¬ ('s' :: _ = [])
    exact List.cons_ne_nil _ _)

/-- A Volume value `source:rest` whose source is not absolute, holds no colon
and ends in `.volume`: `addVolume` orders the unit after the service
`replaceExtension source ".service" "" "-volume"` and mounts the volume
`replaceExtension source "" "systemd-" ""`. -/
theorem addVolume_unit_source (service : UnitFile) (podman : PodmanCmdline) (f rest : String)
    (hne : f ≠ "") (habs : f.data.head? ≠ some '/') (hsuf : HasSuffix f ".volume" = true)
    (hcolon : ':' ∉ f.data) :
    addVolume (service, podman) (f ++ ":" ++ rest) =
      ((service.Add UnitGroup "Requires" (replaceExtension f ".service" "" "-volume")).Add
          UnitGroup "After" (replaceExtension f ".service" "" "-volume"),
        ⟨podman.Args ++ ["-v", replaceExtension f "" "systemd-" "" ++ ":" ++ rest]⟩) := by
  have hdata : (f ++ ":" ++ rest).data = f.data ++ ':' :: rest.data := by
    simp only [String.data_append, List.append_assoc]
    rfl
  have hb1 : (f != "") = true := by simpa using hne
  have hb2 : (f.data.head? != some '/') = true := by simpa using habs
  have hb3 : (f.data.head? == some '/') = false := by simpa using habs
  unfold addVolume
  rcases SplitNColon_source f.data rest.data hcolon with ⟨-, e⟩ | ⟨d, o, er, e⟩
  · simp only [hdata, e, List.map_cons, List.map_nil, List.length_cons, List.length_nil]
    simp [hb1, hb2, hb3, hsuf, hne, PodmanCmdline.add, PodmanCmdline.addf]
    intro h0
    exact absurd h0 (replaceExtension_systemd_ne _)
  · simp only [hdata, e, List.map_cons, List.map_nil, List.length_cons, List.length_nil]
    simp [hb1, hb2, hb3, hsuf, hne, PodmanCmdline.add, PodmanCmdline.addf]
    rw [if_neg (replaceExtension_systemd_ne _)]
    have hf : (String.mk f.data) = f := rfl
    have hrest : rest = String.mk d ++ (":" ++ String.mk o) :=
      String.ext (by rw [er, String.data_append, String.data_append]; rfl)
    rw [hf, hrest, String.append_assoc]

/-- A name ending in `.volume` is a base followed by `.volume`. -/
theorem HasSuffix_volume (f : String) (h : HasSuffix f ".volume" = true) :
    ∃ base : String, f = base ++ "." ++ "volume" := by
  unfold HasSuffix at h
  rw [List.isSuffixOf_iff_suffix] at h
  obtain ⟨t, ht⟩ := h
  refine ⟨String.mk t, String.ext ?_⟩
  rw [← ht, String.data_append, String.data_append, List.append_assoc]
  rfl

/-- Claim C16: for a Volume value whose source f is not absolute, holds no
colon and ends in `.volume`, the volume name ConvertContainer puts in place of
f in the `-v` argument is the name of the volume ConvertVolume(v, f) creates,
and the unit it adds under Requires and After is the file name of the unit
ConvertVolume generates for a volume unit whose file name is f.  Both come from
`replaceExtension`: `systemd-<base>` and `<base>-volume.service`, where f is
the non-empty base followed by `.volume`; for the name `.volume`, which
`replaceExtension` does not cut, the whole name stands for the base. -/
theorem addVolume_names_agree (host : Host) (v service : UnitFile) (podman : PodmanCmdline)
    (f rest : String)
    (hne : f ≠ "") (habs : f.data.head? ≠ some '/') (hsuf : HasSuffix f ".volume" = true)
    (hcolon : ':' ∉ f.data)
    (hv : ∀ key ∈ v.ListKeys VolumeGroup, key ∈ supportedVolumeKeys) (hf : v.Filename = f) :
    ∃ generated command volumeName,
      ConvertVolume host v f = .ok generated ∧
      generated.LookupAll ServiceGroup "ExecStart" =
        v.LookupAll ServiceGroup "ExecStart" ++
          [host.quoteCmdline (["/usr/bin/podman", "volume", "create"] ++ command ++
            [volumeName])] ∧
      addVolume (service, podman) (f ++ ":" ++ rest) =
        ((service.Add UnitGroup "Requires" generated.Filename).Add UnitGroup "After"
            generated.Filename,
          ⟨podman.Args ++ ["-v", volumeName ++ ":" ++ rest]⟩) ∧
      volumeName = replaceExtension f "" "systemd-" "" ∧
      generated.Filename = replaceExtension f ".service" "" "-volume" ∧
      ∃ base : String, f = base ++ ".volume" ∧
        (base ≠ "" →
          volumeName = "systemd-" ++ base ∧ generated.Filename = base ++ "-volume.service") ∧
        (base = "" →
          volumeName = "systemd-.volume" ∧ generated.Filename = ".volume-volume.service") := by
  obtain ⟨generated, h1, h2, -, -, -, -, h7⟩ := ConvertVolume_ok host v f hv
  rw [hf] at h2
  obtain ⟨base, hb⟩ := HasSuffix_volume f hsuf
  refine ⟨generated,
    (if v.HasKey VolumeGroup "User" = true then
      if v.HasKey VolumeGroup "Group" = true then
        ["--opt", "o=uid=" ++ toString (v.LookupUint32 host VolumeGroup "User" 0) ++
          ",gid=" ++ toString (v.LookupUint32 host VolumeGroup "Group" 0)]
      else ["--opt", "o=uid=" ++ toString (v.LookupUint32 host VolumeGroup "User" 0)]
    else if v.HasKey VolumeGroup "Group" = true then
      ["--opt", "o=gid=" ++ toString (v.LookupUint32 host VolumeGroup "Group" 0)]
    else []) ++
    (sortStrings (v.LookupAllKeyVal host VolumeGroup "Label").keys).flatMap
      (fun k => ["--label", k ++ "=" ++ (v.LookupAllKeyVal host VolumeGroup "Label").get k]),
    replaceExtension f "" "systemd-" "", h1, ?_, ?_, rfl, h2, base, ?_, ?_, ?_⟩
  · rw [h7]
    simp only [List.append_assoc]
  · rw [h2]
    exact addVolume_unit_source service podman f rest hne habs hsuf hcolon
  · rw [hb, String.append_assoc]
    rfl
  · intro hbase
    refine ⟨?_, ?_⟩
    · rw [hb, replaceExtension_base base "volume" "" "systemd-" "" hbase (by decide),
        String.append_empty, String.append_empty]
    · rw [h2, hb, replaceExtension_base base "volume" ".service" "" "-volume" hbase (by decide),
        String.empty_append, String.append_assoc]
      rfl
  · intro hbase
    rw [hbase] at hb
    have hf2 : f = ".volume" := hb
    rw [h2, hf2]
    exact ⟨by decide, by decide⟩

/-- Witness of C16: the Volume value data.volume:/data:ro. -/
theorem addVolume_names_agree_witness :
    ∃ generated command volumeName,
      ConvertVolume exampleHost ⟨"data.volume", "/etc/containers/systemd/data.volume", []⟩
        "data.volume" = .ok generated ∧
      generated.LookupAll ServiceGroup "ExecStart" =
        [exampleHost.quoteCmdline (["/usr/bin/podman", "volume", "create"] ++ command ++
          [volumeName])] ∧
      addVolume (⟨"web.service", "", []⟩, ⟨[]⟩) "data.volume:/data:ro" =
        ((UnitFile.mk "web.service" "" []).Add UnitGroup "Requires" generated.Filename |>.Add
            UnitGroup "After" generated.Filename,
          ⟨["-v", volumeName ++ ":" ++ "/data:ro"]⟩) ∧
      volumeName = "systemd-data" ∧
      generated.Filename = "data-volume.service" :=
  let ⟨generated, command, volumeName, h1, h2, h3, h4, h5, _⟩ :=
    addVolume_names_agree exampleHost
      ⟨"data.volume", "/etc/containers/systemd/data.volume", []⟩ ⟨"web.service", "", []⟩ ⟨[]⟩
      "data.volume" "/data:ro" (by decide) (by decide) (by decide) (by decide) (by decide) rfl
  ⟨generated, command, volumeName, h1, h2, h3, h4.trans (by decide), h5.trans (by decide)⟩

/-! ### The entries of addIdMaps, step by step -/

theorem addIdMapsCalls_steps (containerId hostId remapStartId : Nat)
    (availableHostIds : Option Ranges) :
    (addIdMapsCalls containerId hostId remapStartId availableHostIds).1 =
      ⟨containerId, hostId, 1⟩ ::
        ((addIdMapsIdentity containerId hostId remapStartId availableHostIds).1 ++
          poolIdMapCalls containerId hostId remapStartId availableHostIds) := rfl

theorem emittedIdMaps_steps (containerId hostId remapStartId : Nat)
    (availableHostIds : Option Ranges) :
    emittedIdMaps containerId hostId remapStartId availableHostIds =
      ⟨containerId, hostId, 1⟩ ::
        (identityIdMaps containerId hostId remapStartId availableHostIds ++
          (poolIdMapCalls containerId hostId remapStartId availableHostIds).filter
            (fun m => m.numIds ≠ 0)) := by
  unfold emittedIdMaps identityIdMaps
  rw [addIdMapsCalls_steps, List.filter_cons_of_pos (by simp), List.filter_append]

theorem Range.remove_ascending (r : Range) (s l : Nat) : RangesAscending (r.remove s l) := by
  unfold RangesAscending Range.remove
  split
  · split <;> split <;>
      simp only [List.append_nil, List.nil_append, List.singleton_append, List.pairwise_cons,
        List.Pairwise.nil, List.mem_singleton, List.not_mem_nil, forall_eq, and_true,
        IsEmpty.forall_iff, implies_true]
    omega
  · simp

theorem Range.remove_start_ge (r : Range) (s l : Nat) (q : Range) (hq : q ∈ r.remove s l) :
    r.Start ≤ q.Start := by
  unfold Range.remove at hq
  split at hq
  · rename_i hi
    rcases List.mem_append.1 hq with h | h
    · split at h
      · rw [List.mem_singleton] at h; subst h; simp only; omega
      · simp at h
    · split at h
      · rw [List.mem_singleton] at h; subst h; simp only
        have := le_max_left r.Start s
        have := le_max_right r.Start s
        have := min_le_left (r.Start + r.Length) (s + l)
        have := min_le_right (r.Start + r.Length) (s + l)
        omega
      · simp at h
  · rw [List.mem_singleton] at hq; subst hq; exact le_refl _

theorem Ranges.Remove_ascending (rs : Quadlet.Ranges) (s l : Nat)
    (h : RangesAscending rs.Ranges) : RangesAscending (rs.Remove s l).Ranges := by
  unfold RangesAscending Ranges.Remove at *
  rw [List.pairwise_flatMap]
  refine ⟨fun a _ => Range.remove_ascending a s l, ?_⟩
  refine h.imp ?_
  intro a b hab q hq q2 hq2
  have h1 := Range.remove_end_le a s l q hq
  have h2 := Range.remove_start_ge b s l q2 hq2
  omega

theorem Ranges.Remove_valid (rs : Quadlet.Ranges) (s l : Nat) (h : rs.Valid) :
    (rs.Remove s l).Valid :=
  ⟨Ranges.Remove_ascending rs s l h.1, Ranges.Remove_length_pos rs s l h.2⟩

/-- What holds of mappedIds and is kept by `Remove` holds of it when the
identity loop ends; likewise for availableHostIds. -/
theorem identityLoop_keeps (P : Ranges → Prop)
    (hP : ∀ (r : Ranges) (s l : Nat), P r → P (r.Remove s l)) (us : List Range) (m a : Ranges) :
    (P m → P (identityLoop us m a).2.1) ∧ (P a → P (identityLoop us m a).2.2) := by
  induction us generalizing m a with
  | nil => exact ⟨id, id⟩
  | cons r rest ih =>
    simp only [identityLoop]
    exact ⟨fun h => (ih _ _).1 (hP _ _ _ h), fun h => (ih _ _).2 (hP _ _ _ h)⟩

/-- The unmapped intervals of addIdMaps hold exactly the ids below remapStartId
other than containerId and hostId. -/
theorem unmappedIds_contains (containerId hostId remapStartId x : Nat) :
    (((NewRanges 0 remapStartId).Remove containerId 1).Remove hostId 1).Contains x ↔
      x < remapStartId ∧ x ≠ containerId ∧ x ≠ hostId := by
  rw [Ranges.Remove_contains, Ranges.Remove_contains]
  simp only [Ranges.Contains, NewRanges, List.mem_singleton, exists_eq_left, Range.Contains]
  omega

theorem unmappedIds_ascending (containerId hostId remapStartId : Nat) :
    RangesAscending (((NewRanges 0 remapStartId).Remove containerId 1).Remove hostId
      1).Ranges :=
  Ranges.Remove_ascending _ _ _ (Ranges.Remove_ascending _ _ _ (by
    simp [NewRanges, RangesAscending]))

/-- The entries of the identity loop: each maps an interval of ids onto
itself, they ascend, and together they cover exactly the ids below
remapStartId other than containerId and hostId. -/
theorem identityIdMaps_spec (containerId hostId remapStartId : Nat)
    (availableHostIds : Option Ranges) :
    (∀ m ∈ identityIdMaps containerId hostId remapStartId availableHostIds,
      m.hostIdStart = m.containerIdStart ∧ m.numIds ≠ 0) ∧
    (identityIdMaps containerId hostId remapStartId availableHostIds).Pairwise
      (fun a b => a.containerIdStart + a.numIds ≤ b.containerIdStart) ∧
    (∀ x, (∃ m ∈ identityIdMaps containerId hostId remapStartId availableHostIds,
        m.mapsContainer x) ↔ x < remapStartId ∧ x ≠ containerId ∧ x ≠ hostId) := by
  unfold identityIdMaps addIdMapsIdentity
  simp only [identityLoop_calls]
  refine ⟨?_, ?_, ?_⟩
  · intro m hm
    obtain ⟨hm1, hm2⟩ := List.mem_filter.1 hm
    obtain ⟨r, -, rfl⟩ := List.mem_map.1 hm1
    exact ⟨rfl, by simpa using hm2⟩
  · refine List.Pairwise.filter _ ?_
    rw [List.pairwise_map]
    exact unmappedIds_ascending containerId hostId remapStartId
  · intro x
    rw [← unmappedIds_contains containerId hostId remapStartId x]
    unfold Ranges.Contains
    constructor
    · rintro ⟨m, hm, hx⟩
      obtain ⟨hm1, -⟩ := List.mem_filter.1 hm
      obtain ⟨r, hr, rfl⟩ := List.mem_map.1 hm1
      exact ⟨r, hr, hx⟩
    · rintro ⟨r, hr, hx⟩
      refine ⟨⟨r.Start, r.Start, r.Length⟩, List.mem_filter.2 ⟨List.mem_map.2 ⟨r, hr, rfl⟩, ?_⟩,
        hx⟩
      have := hx.1
      have := hx.2
      simp only [ne_eq, decide_not, Bool.not_eq_true', decide_eq_false_iff_not]
      omega

/-- With a nil pool the pool loops make no call. -/
theorem poolIdMapCalls_nil (containerId hostId remapStartId : Nat) :
    poolIdMapCalls containerId hostId remapStartId none = [] := by
  unfold poolIdMapCalls addIdMapsIdentity
  have hP := (identityLoop_keeps (fun r => r.Ranges = [])
    (fun r s l h => by unfold Ranges.Remove; simp only at h; rw [h]; rfl)
    (((NewRanges 0 remapStartId).Remove containerId 1).Remove hostId 1).Ranges
    ((NewRanges 0 MaxUint32).Remove containerId 1) (NewRangesEmpty.Remove hostId 1)).2 rfl
  generalize (identityLoop (((NewRanges 0 remapStartId).Remove containerId 1).Remove hostId
    1).Ranges ((NewRanges 0 MaxUint32).Remove containerId 1)
    (NewRangesEmpty.Remove hostId 1)) = st at hP
  have hP2 : st.2.2.Ranges = [] := hP
  cases hr : st.2.1.Ranges with
  | nil => rfl
  | cons r rest => simp only [poolLoop, hP2]

/-- Claim C18: the first entry addIdMaps emits is the mandatory entry
(containerId, hostId, 1).  The entries the identity step emits next map an
interval onto itself, as (s, s, len), come in ascending order of s, and cover
exactly the ids of [0, remapStartId) other than containerId and hostId.  The
entries drawn from the pool follow, and no entry of length 0 is emitted. -/
theorem addIdMaps_identity_entries (containerId hostId remapStartId : Nat)
    (availableHostIds : Option Ranges) :
    emittedIdMaps containerId hostId remapStartId availableHostIds =
      ⟨containerId, hostId, 1⟩ ::
        (identityIdMaps containerId hostId remapStartId availableHostIds ++
          (poolIdMapCalls containerId hostId remapStartId availableHostIds).filter
            (fun m => m.numIds ≠ 0)) ∧
    (∀ m ∈ identityIdMaps containerId hostId remapStartId availableHostIds,
      m.hostIdStart = m.containerIdStart) ∧
    (identityIdMaps containerId hostId remapStartId availableHostIds).Pairwise
      (fun a b => a.containerIdStart + a.numIds ≤ b.containerIdStart) ∧
    (∀ x, (∃ m ∈ identityIdMaps containerId hostId remapStartId availableHostIds,
        m.mapsContainer x) ↔ x < remapStartId ∧ x ≠ containerId ∧ x ≠ hostId) ∧
    (∀ m ∈ emittedIdMaps containerId hostId remapStartId availableHostIds, m.numIds ≠ 0) := by
  obtain ⟨h1, h2, h3⟩ := identityIdMaps_spec containerId hostId remapStartId availableHostIds
  refine ⟨emittedIdMaps_steps _ _ _ _, fun m hm => (h1 m hm).1, h2, h3, ?_⟩
  intro m hm
  unfold emittedIdMaps at hm
  simpa using (List.mem_filter.1 hm).2

/-- Claim C17 as amended: with a nil pool the entries addIdMaps emits are the
mandatory entry (containerId, hostId, 1) and then identity entries (s, s, len)
only, and these cover exactly the container ids below remapStartId other than
containerId and hostId; with the remap start 2^32 - 1 that ConvertContainer
passes along with a nil pool, these are all ids of the id space but
containerId, hostId and 2^32 - 1. -/
theorem addIdMaps_nil_pool (containerId hostId remapStartId : Nat) :
    emittedIdMaps containerId hostId remapStartId none =
      ⟨containerId, hostId, 1⟩ :: identityIdMaps containerId hostId remapStartId none ∧
    (∀ m ∈ identityIdMaps containerId hostId remapStartId none,
      m.hostIdStart = m.containerIdStart) ∧
    (∀ x, (∃ m ∈ identityIdMaps containerId hostId remapStartId none, m.mapsContainer x) ↔
      x < remapStartId ∧ x ≠ containerId ∧ x ≠ hostId) ∧
    (∀ x, (∃ m ∈ identityIdMaps containerId hostId MaxUint32 none, m.mapsContainer x) ↔
      x < 4294967296 ∧ x ≠ containerId ∧ x ≠ hostId ∧ x ≠ 4294967295) := by
  obtain ⟨h1, -, h3⟩ := identityIdMaps_spec containerId hostId remapStartId none
  refine ⟨?_, fun m hm => (h1 m hm).1, h3, ?_⟩
  · rw [emittedIdMaps_steps, poolIdMapCalls_nil]
    simp
  · intro x
    rw [(identityIdMaps_spec containerId hostId MaxUint32 none).2.2 x]
    unfold MaxUint32
    omega

/-- Counterexample to C17 as stated: with a nil pool and the remap start 1 the
only entry emitted is the mandatory one, and no entry covers the container id
5; with the remap start 2^32 - 1, the container id 1000 and the host id 5 the
entries are 1000:5:1, 0:0:5, 6:6:994 and 1001:1001:4294966294, and no entry
covers the container ids 5 and 4294967295. -/
theorem addIdMaps_nil_pool_counterexample :
    emittedIdMaps 0 0 1 none = [⟨0, 0, 1⟩] ∧
    (¬ ∃ m ∈ emittedIdMaps 0 0 1 none, m.mapsContainer 5) ∧
    emittedIdMaps 1000 5 4294967295 none =
      [⟨1000, 5, 1⟩, ⟨0, 0, 5⟩, ⟨6, 6, 994⟩, ⟨1001, 1001, 4294966294⟩] ∧
    (¬ ∃ m ∈ emittedIdMaps 1000 5 4294967295 none, m.mapsContainer 5) ∧
    (¬ ∃ m ∈ emittedIdMaps 1000 5 4294967295 none, m.mapsContainer 4294967295) := by
  have e1 : emittedIdMaps 0 0 1 none = [⟨0, 0, 1⟩] := by decide
  have e2 : emittedIdMaps 1000 5 4294967295 none =
      [⟨1000, 5, 1⟩, ⟨0, 0, 5⟩, ⟨6, 6, 994⟩, ⟨1001, 1001, 4294966294⟩] := by decide
  refine ⟨e1, ?_, e2, ?_, ?_⟩
  · rw [e1]
    simp [IdMap.mapsContainer]
  · rw [e2]
    simp [IdMap.mapsContainer]
  · rw [e2]
    simp [IdMap.mapsContainer]

/-! ### The entries drawn from the pool -/

theorem zip_append_drop {α β : Type} (A B : List α) (L : List β) :
    (A ++ B).zip L = A.zip L ++ B.zip (L.drop A.length) := by
  induction A generalizing L with
  | nil => simp
  | cons a A ih =>
    cases L with
    | nil => simp
    | cons b L => simp [ih]

theorem zip_take_left {α β : Type} (A : List α) (L : List β) :
    A.zip L = A.zip (L.take A.length) := by
  induction A generalizing L with
  | nil => simp
  | cons a A ih =>
    cases L with
    | nil => simp
    | cons b L => simp only [List.zip_cons_cons, List.length_cons, List.take_succ_cons, ← ih]

theorem map_fst_zip_take {α β : Type} (A : List α) (B : List β) :
    (A.zip B).map Prod.fst = A.take (min A.length B.length) := by
  induction A generalizing B with
  | nil => simp
  | cons a A ih =>
    cases B with
    | nil => simp
    | cons b B =>
      simp only [List.zip_cons_cons, List.map_cons, List.length_cons, ih,
        Nat.add_min_add_right, List.take_succ_cons]

theorem range_split (s n len : Nat) (h : n ≤ len) :
    List.range' s len = List.range' s n ++ List.range' (s + n) (len - n) := by
  rw [List.range'_append_1]
  congr 1
  omega

theorem rangesIds_cons (r : Range) (tl : List Range) :
    rangesIds (r :: tl) = List.range' r.Start r.Length ++ rangesIds tl := by
  simp [rangesIds]

theorem mem_rangesIds (l : List Range) (x : Nat) :
    x ∈ rangesIds l ↔ ∃ r ∈ l, r.Contains x := by
  unfold rangesIds Range.Contains
  simp only [List.mem_flatMap, List.mem_range'_1]

theorem rangesIds_sorted (l : List Range) (h : RangesAscending l) :
    (rangesIds l).Pairwise (fun a b => a < b) := by
  unfold rangesIds RangesAscending at *
  rw [List.pairwise_flatMap]
  refine ⟨fun r _ => List.pairwise_lt_range' r.Start r.Length, ?_⟩
  refine h.imp ?_
  intro a b hab x hx y hy
  rw [List.mem_range'_1] at hx hy
  omega

theorem zip_sorted (A B : List Nat) (hA : A.Pairwise (fun a b => a < b))
    (hB : B.Pairwise (fun a b => a < b)) :
    (A.zip B).Pairwise (fun p q => p.1 < q.1 ∧ p.2 < q.2) := by
  induction A generalizing B with
  | nil => simp
  | cons a A ih =>
    cases B with
    | nil => simp
    | cons b B =>
      rw [List.zip_cons_cons, List.pairwise_cons]
      rw [List.pairwise_cons] at hA hB
      refine ⟨?_, ih B hA.2 hB.2⟩
      rintro ⟨x, y⟩ hxy
      have := List.of_mem_zip hxy
      exact ⟨hA.1 x this.1, hB.1 y this.2⟩

/-- Removing the first ids of the first interval of a valid pool. -/
theorem Ranges.Remove_head (hr : Range) (tl : List Range) (n : Nat)
    (hv : Ranges.Valid ⟨hr :: tl⟩) (hn0 : 0 < n) (hn : n ≤ hr.Length) :
    (Ranges.Remove ⟨hr :: tl⟩ hr.Start n).Ranges =
      (if n < hr.Length then [⟨hr.Start + n, hr.Length - n⟩] else []) ++ tl := by
  obtain ⟨hasc, hpos⟩ := hv
  unfold RangesAscending at hasc
  simp only at hasc hpos
  rw [List.pairwise_cons] at hasc
  unfold Ranges.Remove
  simp only [List.flatMap_cons]
  have htl : tl.flatMap (fun cur => cur.remove hr.Start n) = tl := by
    have : ∀ q ∈ tl, q.remove hr.Start n = [q] := by
      intro q hq
      have h1 := hasc.1 q hq
      unfold Range.remove
      rw [if_neg]
      have := le_max_left q.Start hr.Start
      have := min_le_right (q.Start + q.Length) (hr.Start + n)
      omega
    clear hasc hpos
    induction tl with
    | nil => rfl
    | cons q rest ih =>
      rw [List.flatMap_cons, this q (List.mem_cons_self _ _),
        ih (fun q hq => this q (List.mem_cons_of_mem _ hq))]
      rfl
  rw [htl]
  congr 1
  unfold Range.remove
  have hmax : max hr.Start hr.Start = hr.Start := max_self _
  have hmin : min (hr.Start + hr.Length) (hr.Start + n) = hr.Start + n :=
    min_eq_right (by omega)
  rw [hmax, hmin, if_pos (by omega), if_neg (lt_irrefl _), List.nil_append]
  by_cases hlt : n < hr.Length
  · rw [if_pos hlt, if_pos (by omega)]
    congr 2
    omega
  · rw [if_neg hlt, if_neg (by omega)]

theorem Ranges.Remove_head_ids (hr : Range) (tl : List Range) (n : Nat)
    (hv : Ranges.Valid ⟨hr :: tl⟩) (hn0 : 0 < n) (hn : n ≤ hr.Length) :
    rangesIds (Ranges.Remove ⟨hr :: tl⟩ hr.Start n).Ranges =
      (rangesIds (hr :: tl)).drop n := by
  rw [Ranges.Remove_head hr tl n hv hn0 hn, rangesIds_cons, range_split hr.Start n hr.Length hn,
    List.append_assoc, List.drop_left' (List.length_range' _ _ _)]
  by_cases hlt : n < hr.Length
  · rw [if_pos hlt]
    simp [rangesIds]
  · rw [if_neg hlt]
    have : hr.Length - n = 0 := by omega
    rw [this]
    simp

/-- The pairs an entry maps, listed. -/
theorem IdMap.mem_pairs (c h n i : Nat) (hi : i < n) :
    (c + i, h + i) ∈ IdMap.pairs ⟨c, h, n⟩ := by
  unfold IdMap.pairs
  simp only
  induction n generalizing c h i with
  | zero => omega
  | succ n ih =>
    rw [List.range'_succ, List.range'_succ, List.zip_cons_cons]
    cases i with
    | zero => exact List.mem_cons_self _ _
    | succ i =>
      have := ih (c + 1) (h + 1) i (by omega)
      have e1 : c + (i + 1) = c + 1 + i := by omega
      have e2 : h + (i + 1) = h + 1 + i := by omega
      rw [e1, e2]
      exact List.mem_cons_of_mem _ this

/-- The inner pool loop, run on a valid pool with the bound addIdMaps passes:
its entries pair the ids of the container interval with the lowest ids of the
pool, in order, and the ids paired are taken out of the pool. -/
theorem poolLoopInner_ids (fuel : Nat) : ∀ (c_start c_length : Nat) (avail : Ranges),
    avail.Valid → c_length ≤ fuel → c_start + c_length < 4294967296 →
    ((poolLoopInner fuel c_start c_length avail).1.flatMap IdMap.pairs =
      (List.range' c_start c_length).zip (rangesIds avail.Ranges)) ∧
    rangesIds (poolLoopInner fuel c_start c_length avail).2.Ranges =
      (rangesIds avail.Ranges).drop c_length ∧
    (poolLoopInner fuel c_start c_length avail).2.Valid ∧
    (∀ m ∈ (poolLoopInner fuel c_start c_length avail).1, 0 < m.numIds) := by
  induction fuel with
  | zero =>
    intro c_start c_length avail hv hc _
    have : c_length = 0 := by omega
    subst this
    simp [poolLoopInner, hv]
  | succ fuel ih =>
    intro c_start c_length avail hv hc hb
    rcases avail with ⟨_ | ⟨h_range, tl⟩⟩
    · simp [poolLoopInner, rangesIds, hv]
    · by_cases hpos : c_length > 0
      · have hlen : 0 < h_range.Length := hv.2 h_range (List.mem_cons_self _ _)
        have hn0 : 0 < minUint32 h_range.Length c_length := by
          unfold minUint32; split <;> omega
        have hn1 : minUint32 h_range.Length c_length ≤ h_range.Length := by
          unfold minUint32; split <;> omega
        have hn2 : minUint32 h_range.Length c_length ≤ c_length := by
          unfold minUint32; split <;> omega
        have hvalid : (Ranges.Remove ⟨h_range :: tl⟩ h_range.Start
            (minUint32 h_range.Length c_length)).Valid := Ranges.Remove_valid _ _ _ hv
        have hids := Ranges.Remove_head_ids h_range tl _ hv hn0 hn1
        have e1 : (c_start + minUint32 h_range.Length c_length) % 4294967296 =
            c_start + minUint32 h_range.Length c_length := Nat.mod_eq_of_lt (by omega)
        have e2 : (c_length + 4294967296 - minUint32 h_range.Length c_length) % 4294967296 =
            c_length - minUint32 h_range.Length c_length := by omega
        obtain ⟨i1, i2, i3, i4⟩ := ih (c_start + minUint32 h_range.Length c_length)
          (c_length - minUint32 h_range.Length c_length)
          (Ranges.Remove ⟨h_range :: tl⟩ h_range.Start (minUint32 h_range.Length c_length))
          hvalid (by omega) (by omega)
        simp only [poolLoopInner, if_pos hpos, e1, e2]
        refine ⟨?_, ?_, i3, ?_⟩
        · rw [List.flatMap_cons, i1, hids,
            range_split c_start (minUint32 h_range.Length c_length) c_length hn2,
            zip_append_drop, List.length_range']
          congr 1
          have ht : minUint32 h_range.Length c_length ≤
              (List.range' h_range.Start h_range.Length).length := by
            rw [List.length_range']; exact hn1
          rw [zip_take_left (List.range' c_start _) (rangesIds _), List.length_range',
            rangesIds_cons, List.take_append_of_le_length ht,
            range_split h_range.Start _ h_range.Length hn1,
            List.take_left' (List.length_range' _ _ _)]
          rfl
        · rw [i2, hids, List.drop_drop]
          congr 1
          omega
        · intro m hm
          rcases List.mem_cons.1 hm with rfl | hm
          · exact hn0
          · exact i4 m hm
      · have : c_length = 0 := by omega
        subst this
        simp [poolLoopInner, hv]

/-- The pool loops, run on a valid pool: the entries pair the ids still to map
with the ids of the pool, both taken in ascending order, as far as both last. -/
theorem poolLoop_ids (rs : List Range) : ∀ (avail : Ranges),
    avail.Valid → (∀ r ∈ rs, r.Start + r.Length < 4294967296) →
    ((poolLoop rs avail).1.flatMap IdMap.pairs = (rangesIds rs).zip (rangesIds avail.Ranges)) ∧
    (∀ m ∈ (poolLoop rs avail).1, 0 < m.numIds) := by
  induction rs with
  | nil =>
    intro avail _ _
    simp [poolLoop, rangesIds]
  | cons r rest ih =>
    intro avail hv hb
    rcases avail with ⟨_ | ⟨h_range, tl⟩⟩
    · simp [poolLoop, rangesIds]
    · obtain ⟨i1, i2, i3, i4⟩ := poolLoopInner_ids r.Length r.Start r.Length ⟨h_range :: tl⟩ hv
        (le_refl _) (hb r (List.mem_cons_self _ _))
      obtain ⟨j1, j2⟩ := ih (poolLoopInner r.Length r.Start r.Length ⟨h_range :: tl⟩).2 i3
        (fun q hq => hb q (List.mem_cons_of_mem _ hq))
      simp only [poolLoop]
      refine ⟨?_, ?_⟩
      · rw [List.flatMap_append, i1, j1, i2, rangesIds_cons r rest, zip_append_drop,
          List.length_range']
      · intro m hm
        rcases List.mem_append.1 hm with hm | hm
        · exact i4 m hm
        · exact j2 m hm

/-- The state of addIdMaps when the identity loop ends, for a valid pool: the
intervals still to map ascend and end below 2^32 - 1, none of their ids is
containerId or an id of the identity entries, and the pool left is valid. -/
theorem addIdMapsIdentity_state (containerId hostId remapStartId : Nat) (pool : Ranges)
    (hv : pool.Valid) :
    RangesAscending
      (addIdMapsIdentity containerId hostId remapStartId (some pool)).2.1.Ranges ∧
    (∀ r ∈ (addIdMapsIdentity containerId hostId remapStartId (some pool)).2.1.Ranges,
      r.Start + r.Length < 4294967296) ∧
    (addIdMapsIdentity containerId hostId remapStartId (some pool)).2.2.Valid ∧
    (∀ x, (addIdMapsIdentity containerId hostId remapStartId (some pool)).2.1.Contains x →
      x ≠ containerId ∧
      ¬ (((NewRanges 0 remapStartId).Remove containerId 1).Remove hostId 1).Contains x) := by
  unfold addIdMapsIdentity
  simp only
  refine ⟨?_, ?_, ?_, ?_⟩
  · exact (identityLoop_keeps (fun r => RangesAscending r.Ranges)
      (fun r s l h => Ranges.Remove_ascending r s l h) _ _ _).1
      (Ranges.Remove_ascending _ _ _ (by simp [NewRanges, RangesAscending]))
  · intro r hr
    have := identityLoop_mapped_end_le _ _ _ MaxUint32
      (Ranges.Remove_end_le (NewRanges 0 MaxUint32) containerId 1 MaxUint32
        (by simp [NewRanges])) r hr
    unfold MaxUint32 at this
    omega
  · exact (identityLoop_keeps Ranges.Valid (fun r s l h => Ranges.Remove_valid r s l h) _ _
      _).2 (Ranges.Remove_valid _ _ _ hv)
  · intro x hx
    rw [identityLoop_mapped_contains, Ranges.Remove_contains] at hx
    refine ⟨by omega, ?_⟩
    rintro ⟨r, hr, hrx⟩
    exact hx.2 r hr hrx

/-- An entry maps the container id x exactly when x is the container id of
one of its pairs. -/
theorem IdMap.mapsContainer_pairs (m : IdMap) (x : Nat) :
    m.mapsContainer x ↔ x ∈ m.pairs.map Prod.fst := by
  unfold IdMap.pairs IdMap.mapsContainer
  rw [List.map_fst_zip _ _ (by simp), List.mem_range'_1]

/-- Claim C19: for a valid pool, let C be the container ids still to map when
the mandatory and identity steps are done and H the host ids left in the
pool, both ascending.  The entries drawn from the pool have positive lengths
and map, pair by pair, the ids of C onto the ids of H in order as far as both
last: the min(|C|, |H|) lowest ids of C onto the lowest of H by the
order-preserving bijection.  They are emitted in ascending order on both
axes, after the mandatory and identity entries, and the ids of C beyond the
first min(|C|, |H|) are mapped by no entry. -/
theorem addIdMaps_pool_entries (containerId hostId remapStartId : Nat) (pool : Ranges)
    (hv : pool.Valid) :
    emittedIdMaps containerId hostId remapStartId (some pool) =
      ⟨containerId, hostId, 1⟩ ::
        (identityIdMaps containerId hostId remapStartId (some pool) ++
          poolIdMapCalls containerId hostId remapStartId (some pool)) ∧
    (∀ m ∈ poolIdMapCalls containerId hostId remapStartId (some pool), 0 < m.numIds) ∧
    (idsToMap containerId hostId remapStartId (some pool)).Pairwise (fun a b => a < b) ∧
    (hostIdsLeft containerId hostId remapStartId (some pool)).Pairwise (fun a b => a < b) ∧
    (poolIdMapCalls containerId hostId remapStartId (some pool)).flatMap IdMap.pairs =
      (idsToMap containerId hostId remapStartId (some pool)).zip
        (hostIdsLeft containerId hostId remapStartId (some pool)) ∧
    (poolIdMapCalls containerId hostId remapStartId (some pool)).Pairwise
      (fun a b => a.containerIdStart + a.numIds ≤ b.containerIdStart ∧
        a.hostIdStart + a.numIds ≤ b.hostIdStart) ∧
    (∀ x ∈ (idsToMap containerId hostId remapStartId (some pool)).drop
        (min (idsToMap containerId hostId remapStartId (some pool)).length
          (hostIdsLeft containerId hostId remapStartId (some pool)).length),
      ¬ ∃ m ∈ emittedIdMaps containerId hostId remapStartId (some pool),
        m.mapsContainer x) := by
  obtain ⟨s1, s2, s3, s4⟩ := addIdMapsIdentity_state containerId hostId remapStartId pool hv
  obtain ⟨p1, p2⟩ := poolLoop_ids _ _ s3 s2
  have hC := rangesIds_sorted _ s1
  have hH := rangesIds_sorted _ s3.1
  have hfilter : (poolIdMapCalls containerId hostId remapStartId (some pool)).filter
      (fun m => m.numIds ≠ 0) = poolIdMapCalls containerId hostId remapStartId (some pool) := by
    rw [List.filter_eq_self]
    intro m hm
    have := p2 m hm
    simp only [ne_eq, decide_not, Bool.not_eq_true', decide_eq_false_iff_not]
    omega
  have hsteps := emittedIdMaps_steps containerId hostId remapStartId (some pool)
  rw [hfilter] at hsteps
  have hpairs : ((poolIdMapCalls containerId hostId remapStartId (some pool)).flatMap
      IdMap.pairs).Pairwise (fun p q => p.1 < q.1 ∧ p.2 < q.2) := by
    unfold poolIdMapCalls
    rw [p1]
    exact zip_sorted _ _ hC hH
  refine ⟨hsteps, p2, hC, hH, p1, ?_, ?_⟩
  · rw [List.pairwise_flatMap] at hpairs
    refine List.Pairwise.imp_of_mem ?_ hpairs.2
    intro a b ha hb hab
    have hna := p2 a ha
    have hnb := p2 b hb
    have h1 := hab (a.containerIdStart + (a.numIds - 1), a.hostIdStart + (a.numIds - 1))
      (IdMap.mem_pairs a.containerIdStart a.hostIdStart a.numIds (a.numIds - 1) (by omega))
      (b.containerIdStart + 0, b.hostIdStart + 0)
      (IdMap.mem_pairs b.containerIdStart b.hostIdStart b.numIds 0 hnb)
    simp only at h1
    omega
  · intro x hx
    rintro ⟨m, hm, hmx⟩
    have hxC : x ∈ idsToMap containerId hostId remapStartId (some pool) :=
      List.mem_of_mem_drop hx
    have hxc : (addIdMapsIdentity containerId hostId remapStartId (some pool)).2.1.Contains
        x := (mem_rangesIds _ x).1 hxC
    obtain ⟨hne, hnot⟩ := s4 x hxc
    rw [hsteps] at hm
    rcases List.mem_cons.1 hm with rfl | hm
    · unfold IdMap.mapsContainer at hmx
      simp only at hmx
      omega
    · rcases List.mem_append.1 hm with hm | hm
      · apply hnot
        rw [unmappedIds_contains]
        exact ((identityIdMaps_spec containerId hostId remapStartId (some pool)).2.2 x).1
          ⟨m, hm, hmx⟩
      · have hin : x ∈ ((poolIdMapCalls containerId hostId remapStartId (some pool)).flatMap
            IdMap.pairs).map Prod.fst := by
          rw [List.map_flatMap, List.mem_flatMap]
          exact ⟨m, hm, (IdMap.mapsContainer_pairs m x).1 hmx⟩
        have hz : ((idsToMap containerId hostId remapStartId (some pool)).zip
            (hostIdsLeft containerId hostId remapStartId (some pool))).map Prod.fst =
            (idsToMap containerId hostId remapStartId (some pool)).take
              (min (idsToMap containerId hostId remapStartId (some pool)).length
                (hostIdsLeft containerId hostId remapStartId (some pool)).length) := by
          exact map_fst_zip_take _ _
        have p1b : (poolIdMapCalls containerId hostId remapStartId (some pool)).flatMap
            IdMap.pairs = (idsToMap containerId hostId remapStartId (some pool)).zip
              (hostIdsLeft containerId hostId remapStartId (some pool)) := p1
        rw [p1b, hz] at hin
        have hnd : (idsToMap containerId hostId remapStartId (some pool)).Nodup :=
          hC.imp (fun h => Nat.ne_of_lt h)
        exact List.disjoint_take_drop hnd (le_refl _) hin hx

/-- Witness of C19: container id 0, host id 0, remap start 1 and the pool of
the host ids 5-6 and 100000-165535. -/
theorem addIdMaps_pool_entries_witness :
    (Ranges.mk [⟨5, 2⟩, ⟨100000, 65536⟩]).Valid ∧
    emittedIdMaps 0 0 1 (some ⟨[⟨5, 2⟩, ⟨100000, 65536⟩]⟩) =
      ⟨0, 0, 1⟩ :: (identityIdMaps 0 0 1 (some ⟨[⟨5, 2⟩, ⟨100000, 65536⟩]⟩) ++
        poolIdMapCalls 0 0 1 (some ⟨[⟨5, 2⟩, ⟨100000, 65536⟩]⟩)) ∧
    poolIdMapCalls 0 0 1 (some ⟨[⟨5, 2⟩, ⟨100000, 65536⟩]⟩) =
      [⟨1, 5, 2⟩, ⟨3, 100000, 65536⟩] :=
  ⟨by unfold Ranges.Valid RangesAscending; decide,
    (addIdMaps_pool_entries 0 0 1 ⟨[⟨5, 2⟩, ⟨100000, 65536⟩]⟩
      (by unfold Ranges.Valid RangesAscending; decide)).1,
    by decide⟩

/-! ### Units that differ in the ReadOnly and VolatileTmp keys only -/

theorem UnitFile.withoutKeys_LookupAll (u : UnitFile) (ks : List String) (g2 k2 : String)
    (h : (g2 == ContainerGroup && ks.contains k2) = false) :
    (u.withoutKeys ks).LookupAll g2 k2 = u.LookupAll g2 k2 := by
  unfold UnitFile.withoutKeys UnitFile.LookupAll
  simp only [List.filter_filter]
  congr 1
  apply List.filter_congr
  intro l _
  by_cases hl : (l.group == g2 && l.key == k2) = true
  · simp only [Bool.and_eq_true, beq_iff_eq] at hl
    rw [hl.1, hl.2, h]
    simp
  · rw [Bool.not_eq_true] at hl
    rw [hl]; rfl

theorem UnitFile.withoutKeys_LookupAll_removed (u : UnitFile) (ks : List String) (k2 : String)
    (h : ks.contains k2 = true) : (u.withoutKeys ks).LookupAll ContainerGroup k2 = [] := by
  unfold UnitFile.withoutKeys UnitFile.LookupAll
  simp only [List.filter_filter]
  rw [List.map_eq_nil_iff, List.filter_eq_nil_iff]
  intro l _
  by_cases hl : (l.group == ContainerGroup && l.key == k2) = true
  · simp only [Bool.and_eq_true, beq_iff_eq] at hl
    rw [hl.1, hl.2, h]
    simp
  · rw [Bool.not_eq_true] at hl
    rw [hl]; simp

theorem UnitFile.withoutKeys_Lookup (u : UnitFile) (ks : List String) (g2 k2 : String)
    (h : (g2 == ContainerGroup && ks.contains k2) = false) :
    (u.withoutKeys ks).Lookup g2 k2 = u.Lookup g2 k2 := by
  unfold UnitFile.Lookup
  rw [UnitFile.withoutKeys_LookupAll u ks g2 k2 h]

theorem UnitFile.withoutKeys_LookupBoolean_removed (host : Host) (u : UnitFile)
    (ks : List String) (k2 : String) (d : Bool) (h : ks.contains k2 = true) :
    (u.withoutKeys ks).LookupBoolean host ContainerGroup k2 d = d := by
  unfold UnitFile.LookupBoolean UnitFile.Lookup
  rw [UnitFile.withoutKeys_LookupAll_removed u ks k2 h]
  rfl

theorem UnitFile.withoutKeys_HasKey (u : UnitFile) (ks : List String) (g2 k2 : String)
    (h : (g2 == ContainerGroup && ks.contains k2) = false) :
    (u.withoutKeys ks).HasKey g2 k2 = u.HasKey g2 k2 := by
  unfold UnitFile.withoutKeys UnitFile.HasKey
  simp only [List.any_filter]
  congr 1
  funext l
  by_cases hl : (l.group == g2 && l.key == k2) = true
  · simp only [Bool.and_eq_true, beq_iff_eq] at hl
    rw [hl.1, hl.2, h]
    simp
  · rw [Bool.not_eq_true] at hl
    rw [hl]; simp

theorem UnitFile.withoutKeys_LookupBoolean (host : Host) (u : UnitFile) (ks : List String)
    (g2 k2 : String) (d : Bool) (h : (g2 == ContainerGroup && ks.contains k2) = false) :
    (u.withoutKeys ks).LookupBoolean host g2 k2 d = u.LookupBoolean host g2 k2 d := by
  unfold UnitFile.LookupBoolean
  rw [UnitFile.withoutKeys_Lookup u ks g2 k2 h]

theorem UnitFile.withoutKeys_LookupAllKeyVal (host : Host) (u : UnitFile) (ks : List String)
    (g2 k2 : String) (h : (g2 == ContainerGroup && ks.contains k2) = false) :
    (u.withoutKeys ks).LookupAllKeyVal host g2 k2 = u.LookupAllKeyVal host g2 k2 := by
  unfold UnitFile.LookupAllKeyVal
  rw [UnitFile.withoutKeys_LookupAll u ks g2 k2 h]

theorem UnitFile.withoutKeys_LookupAllArgs (host : Host) (u : UnitFile) (ks : List String)
    (g2 k2 : String) (h : (g2 == ContainerGroup && ks.contains k2) = false) :
    (u.withoutKeys ks).LookupAllArgs host g2 k2 = u.LookupAllArgs host g2 k2 := by
  unfold UnitFile.LookupAllArgs
  rw [UnitFile.withoutKeys_LookupAll u ks g2 k2 h]

theorem UnitFile.withoutKeys_LookupLastArgs (host : Host) (u : UnitFile) (ks : List String)
    (g2 k2 : String) (h : (g2 == ContainerGroup && ks.contains k2) = false) :
    (u.withoutKeys ks).LookupLastArgs host g2 k2 = u.LookupLastArgs host g2 k2 := by
  unfold UnitFile.LookupLastArgs
  rw [UnitFile.withoutKeys_Lookup u ks g2 k2 h]

theorem UnitFile.withoutKeys_LookupUint32_fn (host : Host) (u : UnitFile) (ks : List String)
    (g2 k2 : String) (h : (g2 == ContainerGroup && ks.contains k2) = false) :
    UnitFile.LookupUint32 host (u.withoutKeys ks) g2 k2 = UnitFile.LookupUint32 host u g2 k2 := by
  funext d
  unfold UnitFile.LookupUint32
  rw [UnitFile.withoutKeys_Lookup u ks g2 k2 h]

theorem UnitFile.withoutKeys_LookupUid_fn (host : Host) (u : UnitFile) (ks : List String)
    (g2 k2 : String) (h : (g2 == ContainerGroup && ks.contains k2) = false) :
    UnitFile.LookupUid host (u.withoutKeys ks) g2 k2 = UnitFile.LookupUid host u g2 k2 := by
  funext d
  unfold UnitFile.LookupUid
  rw [UnitFile.withoutKeys_Lookup u ks g2 k2 h]

theorem UnitFile.withoutKeys_LookupGid_fn (host : Host) (u : UnitFile) (ks : List String)
    (g2 k2 : String) (h : (g2 == ContainerGroup && ks.contains k2) = false) :
    UnitFile.LookupGid host (u.withoutKeys ks) g2 k2 = UnitFile.LookupGid host u g2 k2 := by
  funext d
  unfold UnitFile.LookupGid
  rw [UnitFile.withoutKeys_Lookup u ks g2 k2 h]

theorem UnitFile.withoutKeys_lookupRanges_fn (host : Host) (u : UnitFile) (ks : List String)
    (g2 k2 : String) (h : (g2 == ContainerGroup && ks.contains k2) = false) :
    lookupRanges host (u.withoutKeys ks) g2 k2 = lookupRanges host u g2 k2 := by
  funext f d
  unfold lookupRanges
  rw [UnitFile.withoutKeys_Lookup u ks g2 k2 h]

theorem UnitFile.withoutKeys_checkForUnknownKeys (u : UnitFile) (ks : List String)
    (hks : ∀ k ∈ ks, k ∈ supportedContainerKeys) :
    checkForUnknownKeys (u.withoutKeys ks) ContainerGroup supportedContainerKeys =
      checkForUnknownKeys u ContainerGroup supportedContainerKeys := by
  have hf : ((u.withoutKeys ks).ListKeys ContainerGroup).find?
        (fun key => !supportedContainerKeys.contains key) =
      (u.ListKeys ContainerGroup).find? (fun key => !supportedContainerKeys.contains key) := by
    unfold UnitFile.withoutKeys UnitFile.ListKeys
    simp only [List.find?_map, List.filter_filter]
    congr 1
    have e : List.filter (fun a => (a.group == ContainerGroup) &&
          !(a.group == ContainerGroup && ks.contains a.key)) u.lines =
        List.filter (fun a => !(ks.contains a.key))
          (List.filter (fun a => a.group == ContainerGroup) u.lines) := by
      rw [List.filter_filter]
      apply List.filter_congr
      intro l _
      cases (l.group == ContainerGroup) <;> simp
    rw [e]
    apply find?_filter_of_imp
    intro a ha
    simp only [Function.comp_apply, Bool.not_eq_true', Bool.not_eq_eq_eq_not, Bool.not_true] at ha ⊢
    by_contra hc
    rw [Bool.not_eq_false] at hc
    have : a.key ∈ ks := by simpa using hc
    have h2 : a.key ∈ supportedContainerKeys := hks _ this
    have h3 : supportedContainerKeys.contains a.key = true := by simpa using h2
    rw [h3] at ha
    exact absurd ha (by decide)
  unfold checkForUnknownKeys
  rw [hf]
  rfl

/-! ### Steps that append the same tokens to every command line -/

theorem ite_add_uniform (c : Prop) [Decidable c] (l : List String) :
    ∃ toks, ∀ p : PodmanCmdline, (if c then p.add l else p).Args = p.Args ++ toks := by
  by_cases h : c
  · exact ⟨l, fun p => by rw [if_pos h]; rfl⟩
  · exact ⟨[], fun p => by rw [if_neg h, List.append_nil]⟩

theorem user_step_uniform (c c2 : Prop) [Decidable c] [Decidable c2] (a b : String) :
    ∃ toks, ∀ p : PodmanCmdline,
      (if c then
        if c2 then (p.add ["--user"]).addf a else (p.add ["--user"]).addf b
      else p).Args = p.Args ++ toks := by
  by_cases h : c
  · by_cases h2 : c2
    · exact ⟨["--user", a], fun p => by
        rw [if_pos h, if_pos h2]
        simp only [PodmanCmdline.addf, PodmanCmdline.add, List.append_assoc]
        rfl⟩
    · exact ⟨["--user", b], fun p => by
        rw [if_pos h, if_neg h2]
        simp only [PodmanCmdline.addf, PodmanCmdline.add, List.append_assoc]
        rfl⟩
  · exact ⟨[], fun p => by rw [if_neg h, List.append_nil]⟩

theorem remap_step_uniform (c : Bool) (uid hostUid gid hostGid s1 s2 : Nat) (r1 r2 : Ranges)
    (g g2 : Globals) :
    ∃ toks, ∀ p : PodmanCmdline,
      ((if (!c) = true then
          (if (gid != hostGid) = true then
            addIdMaps
              (if (uid != hostUid) = true then
                addIdMaps p "--uidmap" uid hostUid MaxUint32 none
              else p) "--gidmap" gid hostGid MaxUint32 none
          else
            if (uid != hostUid) = true then
              addIdMaps p "--uidmap" uid hostUid MaxUint32 none
            else p, g)
        else
          (addIdMaps (addIdMaps p "--uidmap" uid hostUid s1 (some r1)) "--gidmap" gid hostGid s2
            (some r2), g2)) : PodmanCmdline × Globals).1.Args = p.Args ++ toks := by
  by_cases hr : (!c) = true
  · by_cases h1 : (uid != hostUid) = true <;> by_cases h2 : (gid != hostGid) = true
    · exact ⟨(emittedIdMaps uid hostUid MaxUint32 none).flatMap (IdMap.tokens "--uidmap") ++
        (emittedIdMaps gid hostGid MaxUint32 none).flatMap (IdMap.tokens "--gidmap"),
        fun p => by simp only [hr, h1, h2, if_true, addIdMaps_args, List.append_assoc]⟩
    · exact ⟨(emittedIdMaps uid hostUid MaxUint32 none).flatMap (IdMap.tokens "--uidmap"),
        fun p => by
          simp only [hr, h1, h2, if_true, if_false, addIdMaps_args, Bool.false_eq_true]⟩
    · exact ⟨(emittedIdMaps gid hostGid MaxUint32 none).flatMap (IdMap.tokens "--gidmap"),
        fun p => by
          simp only [hr, h1, h2, if_true, if_false, addIdMaps_args, Bool.false_eq_true]⟩
    · exact ⟨[], fun p => by
        simp only [hr, h1, h2, if_true, if_false, List.append_nil, Bool.false_eq_true]⟩
  · exact ⟨(emittedIdMaps uid hostUid s1 (some r1)).flatMap (IdMap.tokens "--uidmap") ++
      (emittedIdMaps gid hostGid s2 (some r2)).flatMap (IdMap.tokens "--gidmap"),
      fun p => by
        simp only [hr, if_false, addIdMaps_args, List.append_assoc, Bool.false_eq_true]⟩

theorem addVolume_uniform (v : String) :
    ∃ toks, ∀ (s : UnitFile) (p : PodmanCmdline),
      (addVolume (s, p) v).2.Args = p.Args ++ toks := by
  have key : ∀ (c : Prop) [Decidable c] (q : PodmanCmdline) (d y : String),
      (if c then q.add [d] else q.addf y).Args = q.Args ++ [if c then d else y] := by
    intro c _ q d y
    split <;> rfl
  refine ⟨(addVolume (⟨"", "", []⟩, ⟨[]⟩) v).2.Args, fun s p => ?_⟩
  unfold addVolume
  simp only [key]
  simp only [PodmanCmdline.add, List.nil_append, List.append_assoc]

theorem foldl_addVolume_uniform (volumes : List String) :
    ∃ toks, ∀ (s : UnitFile) (p : PodmanCmdline),
      (volumes.foldl addVolume (s, p)).2.Args = p.Args ++ toks := by
  induction volumes with
  | nil => exact ⟨[], fun s p => by simp⟩
  | cons v rest ih =>
    obtain ⟨t1, h1⟩ := addVolume_uniform v
    obtain ⟨t2, h2⟩ := ih
    refine ⟨t1 ++ t2, fun s p => ?_⟩
    rw [List.foldl_cons]
    have := h2 (addVolume (s, p) v).1 (addVolume (s, p) v).2
    rw [this, h1, List.append_assoc]

theorem addExposedPorts_uniform (ports : List String) : ∀ (p q : PodmanCmdline),
    addExposedPorts ports p = .ok q →
    ∃ toks, q.Args = p.Args ++ toks ∧
      ∀ p2 : PodmanCmdline, addExposedPorts ports p2 = .ok ⟨p2.Args ++ toks⟩ := by
  induction ports with
  | nil =>
    intro p q h
    simp only [addExposedPorts, Except.ok.injEq] at h
    exact ⟨[], by rw [h]; simp, fun p2 => by simp [addExposedPorts]⟩
  | cons v rest ih =>
    intro p q h
    simp only [addExposedPorts] at h
    split at h
    · simp at h
    · rename_i hv
      obtain ⟨t, ht, hu⟩ := ih _ q h
      refine ⟨("--expose=" ++ TrimSpace v) :: t, ?_, fun p2 => ?_⟩
      · rw [ht]
        simp [PodmanCmdline.addf, PodmanCmdline.add]
      · simp only [addExposedPorts]
        rw [if_neg hv, hu]
        simp [PodmanCmdline.addf, PodmanCmdline.add]

theorem addPublishPorts_uniform (ports : List String) : ∀ (p q : PodmanCmdline),
    addPublishPorts ports p = .ok q →
    ∃ toks, q.Args = p.Args ++ toks ∧
      ∀ p2 : PodmanCmdline, addPublishPorts ports p2 = .ok ⟨p2.Args ++ toks⟩ := by
  induction ports with
  | nil =>
    intro p q h
    simp only [addPublishPorts, Except.ok.injEq] at h
    exact ⟨[], by rw [h]; simp, fun p2 => by simp [addPublishPorts]⟩
  | cons v rest ih =>
    intro p q h
    simp only [addPublishPorts] at h
    split at h
    · simp at h
    · rename_i arg harg
      obtain ⟨t, ht, hu⟩ := ih _ q h
      refine ⟨arg :: t, ?_, fun p2 => ?_⟩
      · rw [ht]
        simp [PodmanCmdline.addf, PodmanCmdline.add]
      · simp only [addPublishPorts]
        rw [harg]
        simp only
        rw [hu]
        simp [PodmanCmdline.addf, PodmanCmdline.add]

theorem tail_args_uniform (host : Host) (u : UnitFile) (env labels ann : GoMap)
    (pargs : List String) (image : String) :
    ∃ toks, ∀ P : PodmanCmdline,
      (match UnitFile.LookupLastArgs host u ContainerGroup "Exec" with
      | some exec_args =>
        (((((P.addEnv env).addLabels labels).addAnnotations ann).add pargs).add [image]).add
          exec_args
      | none =>
        ((((P.addEnv env).addLabels labels).addAnnotations ann).add pargs).add [image]).Args =
      P.Args ++ toks := by
  cases UnitFile.LookupLastArgs host u ContainerGroup "Exec" with
  | none =>
    exact ⟨(((((⟨[]⟩ : PodmanCmdline).addEnv env).addLabels labels).addAnnotations ann).add
        pargs).add [image] |>.Args, fun P => by
      simp only [PodmanCmdline.add, PodmanCmdline.addEnv, PodmanCmdline.addLabels,
        PodmanCmdline.addAnnotations, addKeys_tokens, List.append_assoc, List.nil_append]⟩
  | some a =>
    exact ⟨((((((⟨[]⟩ : PodmanCmdline).addEnv env).addLabels labels).addAnnotations ann).add
        pargs).add [image]).add a |>.Args, fun P => by
      simp only [PodmanCmdline.add, PodmanCmdline.addEnv, PodmanCmdline.addLabels,
        PodmanCmdline.addAnnotations, addKeys_tokens, List.append_assoc, List.nil_append]⟩

/-- The argument list of a unit and that of the unit without its ReadOnly and
VolatileTmp keys, which gets the default tmpfs pair: the two lists differ in
the flags of the ReadOnly step only, and the arguments in front of the flags
hold none of the four tokens of that step. -/
theorem ConvertContainerArgs_readOnly_pivot (host : Host) (g : Globals) (u : UnitFile) (isUser : Bool)
    (args : List String) :
    ConvertContainerArgs host g u isUser = .ok args →
    ∃ before after,
      (∀ t ∈ before, t ∉ readOnlyTokens) ∧
      ConvertContainerArgs host g (u.withoutKeys readOnlyKeys) isUser =
        .ok (before ++ ["--tmpfs", "/tmp:rw,size=512M,mode=1777"] ++ after) ∧
      args = before ++
        readOnlyFlags (u.LookupBoolean host ContainerGroup "ReadOnly" false)
          (u.LookupBoolean host ContainerGroup "VolatileTmp" true) ++ after := by
  unfold ConvertContainerArgs convertContainerCmdline
  rw [show (u.withoutKeys readOnlyKeys).Path = u.Path from rfl,
    show (u.withoutKeys readOnlyKeys).Filename = u.Filename from rfl,
    UnitFile.withoutKeys_checkForUnknownKeys u readOnlyKeys (by decide),
    UnitFile.withoutKeys_Lookup u readOnlyKeys ContainerGroup "Image" (by decide),
    UnitFile.withoutKeys_Lookup u readOnlyKeys ContainerGroup "ContainerName" (by decide),
    UnitFile.withoutKeys_Lookup u readOnlyKeys ContainerGroup "Timezone" (by decide),
    UnitFile.withoutKeys_LookupAllKeyVal host u readOnlyKeys ContainerGroup "Environment"
      (by decide),
    UnitFile.withoutKeys_LookupAllKeyVal host u readOnlyKeys ContainerGroup "Label" (by decide),
    UnitFile.withoutKeys_LookupAllKeyVal host u readOnlyKeys ContainerGroup "Annotation"
      (by decide),
    UnitFile.withoutKeys_LookupBoolean host u readOnlyKeys ContainerGroup "RunInit" _ (by decide),
    UnitFile.withoutKeys_LookupBoolean host u readOnlyKeys ContainerGroup "Notify" _ (by decide),
    UnitFile.withoutKeys_LookupBoolean host u readOnlyKeys ContainerGroup "NoNewPrivileges" _
      (by decide),
    UnitFile.withoutKeys_LookupBoolean_removed host u readOnlyKeys "ReadOnly" _ (by decide),
    UnitFile.withoutKeys_LookupBoolean_removed host u readOnlyKeys "VolatileTmp" _ (by decide),
    UnitFile.withoutKeys_LookupBoolean host u readOnlyKeys ContainerGroup "SocketActivated" _
      (by decide),
    UnitFile.withoutKeys_LookupBoolean host u readOnlyKeys ContainerGroup "KeepId" _ (by decide),
    UnitFile.withoutKeys_LookupBoolean host u readOnlyKeys ContainerGroup "RemapUsers" _
      (by decide),
    UnitFile.withoutKeys_HasKey u readOnlyKeys ServiceGroup "SyslogIdentifier" (by decide),
    UnitFile.withoutKeys_HasKey u readOnlyKeys ContainerGroup "DropCapability" (by decide),
    UnitFile.withoutKeys_LookupAll u readOnlyKeys ContainerGroup "DropCapability" (by decide),
    UnitFile.withoutKeys_LookupAll u readOnlyKeys ContainerGroup "AddCapability" (by decide),
    UnitFile.withoutKeys_LookupAll u readOnlyKeys ContainerGroup "Volume" (by decide),
    UnitFile.withoutKeys_LookupAll u readOnlyKeys ContainerGroup "ExposeHostPort" (by decide),
    UnitFile.withoutKeys_LookupAll u readOnlyKeys ContainerGroup "PublishPort" (by decide),
    UnitFile.withoutKeys_LookupAllArgs host u readOnlyKeys ContainerGroup "PodmanArgs"
      (by decide),
    UnitFile.withoutKeys_LookupLastArgs host u readOnlyKeys ContainerGroup "Exec" (by decide),
    UnitFile.withoutKeys_LookupUint32_fn host u readOnlyKeys ContainerGroup "User" (by decide),
    UnitFile.withoutKeys_LookupUint32_fn host u readOnlyKeys ContainerGroup "Group" (by decide),
    UnitFile.withoutKeys_LookupUint32_fn host u readOnlyKeys ContainerGroup "RemapUidStart"
      (by decide),
    UnitFile.withoutKeys_LookupUint32_fn host u readOnlyKeys ContainerGroup "RemapGidStart"
      (by decide),
    UnitFile.withoutKeys_lookupRanges_fn host u readOnlyKeys ContainerGroup "RemapUidRanges"
      (by decide),
    UnitFile.withoutKeys_lookupRanges_fn host u readOnlyKeys ContainerGroup "RemapGidRanges"
      (by decide),
    UnitFile.withoutKeys_LookupUid_fn host u readOnlyKeys ContainerGroup "HostUser" (by decide),
    UnitFile.withoutKeys_LookupGid_fn host u readOnlyKeys ContainerGroup "HostGroup" (by decide)]
  lift_lets
  intro service25 service24 service23 service22 lookupImage0 image0 lookupName0 containerName0
    service21 lookupKillMode1 killMode1 ok1 service20 podmanEnv1 service19 service18 service17
    service16 podman21 podman20 podman19 service15 podman18 lookupTimezone0 timezone0 podman17
    runInit0 podman16 notify0 podman15 service14 service13 noNewPrivileges0 podman14 dropCaps0
    podman13 addCaps0 podman12 readOnly1 podman11 volatileTmp1 podman10 socketActivated0 podman9
    podmanEnv0 keepId0 defaultContainerUid0 defaultContainerGid0 podman8 uid0 gid0 podman7
    podman6 remapUsers0 defaultUids0 uid_remap_ids0 defaultGids0 gid_remap_ids0
    remap_uid_start0 remap_gid_start0 volumes0 exposed_ports0 publish_ports0 labels0
    annotations0 podman_args0 service12 service11 service10 service9 service8 lookupKillMode0
    killMode0 ok0 service7 service6 service5 service4 service3 service2 service1 service0
    readOnly0 podman5 volatileTmp0 podman4 podman3 podman2 podman1 podman0
  have c21 : podman21.FreshRun := ⟨[], rfl, by simp⟩
  have c20 : podman20.FreshRun :=
    c21.addf _ (prefixed_not_readOnlyToken _ _ (by decide))
  have c19 : podman19.FreshRun := c20.add _ (by decide)
  have c18 : podman18.FreshRun := c19.add _ (by decide)
  have c17 : podman17.FreshRun :=
    PodmanCmdline.FreshRun.ite _ (c18.addf _ (prefixed_not_readOnlyToken _ _ (by decide))) c18
  have c16 : podman16.FreshRun := PodmanCmdline.FreshRun.ite _ (c17.add _ (by decide)) c17
  have c15 : podman15.FreshRun :=
    PodmanCmdline.FreshRun.ite _ (c16.add _ (by decide)) (c16.add _ (by decide))
  have c14 : podman14.FreshRun := PodmanCmdline.FreshRun.ite _ (c15.add _ (by decide)) c15
  have c13 : podman13.FreshRun := c14.foldl "--cap-drop=" host.ToLower (by decide) dropCaps0
  have c12 : podman12.FreshRun := c13.foldl "--cap-add=" host.ToLower (by decide) addCaps0
  have e10 : podman10.Args = podman12.Args ++ readOnlyFlags readOnly1 volatileTmp1 :=
    readOnly_step podman12 readOnly1 volatileTmp1
  have e4 : podman4.Args = podman12.Args ++ ["--tmpfs", "/tmp:rw,size=512M,mode=1777"] :=
    readOnly_step podman12 false true
  obtain ⟨t3, ht3⟩ := ite_add_uniform (socketActivated0 = true) ["--preserve-fds=1"]
  have a9 : podman9.Args = podman10.Args ++ t3 := ht3 podman10
  have a3 : podman3.Args = podman4.Args ++ t3 := ht3 podman4
  obtain ⟨t2, ht2⟩ := ite_add_uniform (keepId0 = true) ["--userns", "keep-id"]
  have a8 : podman8.Args = podman9.Args ++ t2 := ht2 podman9
  have a2 : podman2.Args = podman3.Args ++ t2 := ht2 podman3
  obtain ⟨tU, htU⟩ := user_step_uniform
    ((uid0 != defaultContainerUid0 || gid0 != defaultContainerUid0) = true)
    ((gid0 == defaultContainerGid0) = true) (toString uid0)
    (toString uid0 ++ ":" ++ toString gid0)
  have a6 : podman6.Args = podman8.Args ++ tU := htU podman8
  have a0 : podman0.Args = podman2.Args ++ tU := htU podman2
  have hk1 : lookupKillMode1 = u.Lookup ServiceGroup "KillMode" := killMode_lookup u _ _
  have hk0 : lookupKillMode0 = u.Lookup ServiceGroup "KillMode" :=
    (killMode_lookup (u.withoutKeys readOnlyKeys) _ _).trans
      (UnitFile.withoutKeys_Lookup u readOnlyKeys ServiceGroup "KillMode" (by decide))
  have hkm : killMode0 = killMode1 := by
    show lookupKillMode0.getD "" = lookupKillMode1.getD ""
    rw [hk1, hk0]
  have hok : ok0 = ok1 := by
    show lookupKillMode0.isSome = lookupKillMode1.isSome
    rw [hk1, hk0]
  rw [hkm, hok]
  cases hc : checkForUnknownKeys u ContainerGroup supportedContainerKeys with
  | some err => intro h; simp at h
  | none =>
    dsimp only
    by_cases hi : (!lookupImage0.isSome || image0 == "") = true
    · rw [if_pos hi]; intro h; simp at h
    · rw [if_neg hi, if_neg hi]
      by_cases hkc : ((!ok1 || !(killMode1 == "mixed" || killMode1 == "control-group")) && ok1)
          = true
      · rw [if_pos hkc]; intro h; simp at h
      · rw [if_neg hkc, if_neg hkc]
        by_cases hkeep : (keepId0 && !isUser) = true
        · rw [if_pos hkeep]; intro h; simp at h
        · rw [if_neg hkeep, if_neg hkeep]
          cases hU : UnitFile.LookupUid host u ContainerGroup "HostUser" uid0 with
          | error err => intro h; simp at h
          | ok hostUid =>
            dsimp only
            cases hG : UnitFile.LookupGid host u ContainerGroup "HostGroup" gid0 with
            | error err => intro h; simp at h
            | ok hostGid =>
              dsimp only
              obtain ⟨tR, htR⟩ := remap_step_uniform remapUsers0 uid0 hostUid gid0 hostGid
                remap_uid_start0 remap_gid_start0 uid_remap_ids0 gid_remap_ids0 g defaultGids0.2
              have aR := htR podman6
              have aR0 := htR podman0
              generalize
                (if (!remapUsers0) = true then
        (if (gid0 != hostGid) = true then
          addIdMaps
            (if (uid0 != hostUid) = true then
              addIdMaps podman6 "--uidmap" uid0 hostUid MaxUint32 none
            else podman6) "--gidmap" gid0 hostGid MaxUint32 none
        else
          if (uid0 != hostUid) = true then
            addIdMaps podman6 "--uidmap" uid0 hostUid MaxUint32 none
          else podman6, g)
      else
        (addIdMaps
          (addIdMaps podman6 "--uidmap" uid0 hostUid remap_uid_start0
            (some uid_remap_ids0))
          "--gidmap" gid0 hostGid remap_gid_start0 (some gid_remap_ids0),
          defaultGids0.2)) = R at aR ⊢
              generalize
                (if (!remapUsers0) = true then
        (if (gid0 != hostGid) = true then
          addIdMaps
            (if (uid0 != hostUid) = true then
              addIdMaps podman0 "--uidmap" uid0 hostUid MaxUint32 none
            else podman0) "--gidmap" gid0 hostGid MaxUint32 none
        else
          if (uid0 != hostUid) = true then
            addIdMaps podman0 "--uidmap" uid0 hostUid MaxUint32 none
          else podman0, g)
      else
        (addIdMaps
          (addIdMaps podman0 "--uidmap" uid0 hostUid remap_uid_start0
            (some uid_remap_ids0))
          "--gidmap" gid0 hostGid remap_gid_start0 (some gid_remap_ids0),
          defaultGids0.2)) = R0 at aR0 ⊢
              obtain ⟨tV, htV⟩ := foldl_addVolume_uniform volumes0
              have aV := htV service13 R.1
              have aV0 := htV service0 R0.1
              cases hE : addExposedPorts exposed_ports0
                  (List.foldl addVolume (service13, R.1) volumes0).2 with
              | error err => intro h; simp at h
              | ok pE =>
                obtain ⟨tE, aE, uE⟩ := addExposedPorts_uniform _ _ _ hE
                rw [uE (List.foldl addVolume (service0, R0.1) volumes0).2]
                dsimp only
                cases hP : addPublishPorts publish_ports0 pE with
                | error err => intro h; simp at h
                | ok pP =>
                  obtain ⟨tP, aP, uP⟩ := addPublishPorts_uniform _ _ _ hP
                  rw [uP]
                  dsimp only
                  obtain ⟨tT, hT⟩ := tail_args_uniform host u podmanEnv0 labels0 annotations0
                    podman_args0 image0
                  intro h
                  have h2 := Except.ok.inj h
                  obtain ⟨l12, e12, hclean⟩ := c12
                  refine ⟨podman12.Args, t3 ++ t2 ++ tU ++ tR ++ tV ++ tE ++ tP ++ tT, ?_, ?_,
                    ?_⟩
                  · intro t ht
                    rw [e12] at ht
                    rcases List.mem_append.mp ht with h1 | h1
                    · rcases List.mem_cons.mp h1 with h3 | h3
                      · rw [h3]; decide
                      · rw [List.mem_singleton.mp h3]; decide
                    · exact hclean t h1
                  · refine congrArg Except.ok ((hT _).trans ?_)
                    simp only [aV0, aR0, a0, a2, a3, e4, List.append_assoc]
                  · rw [← h2]
                    refine (hT pP).trans ?_
                    rw [aP, aE, aV, aR, a6, a8, a9, e10]
                    simp only [List.append_assoc]

/-! ### The flags of ReadOnly and VolatileTmp -/

/-- Claim C20: when ConvertContainer succeeds, its argument list is the
arguments built before the ReadOnly step, none of which is one of the four
tokens of that step, then the flags of the step, then the later arguments.
The flags hold `--read-only` exactly when ReadOnly is true, the pair `--tmpfs`,
`/tmp:rw,size=512M,mode=1777` exactly when VolatileTmp is true and ReadOnly is
false, `--read-only-tmpfs=false` exactly when ReadOnly is true and VolatileTmp
is false, and never both the tmpfs pair and `--read-only-tmpfs=false`.  The
arguments before and after the flags do not depend on the two keys: they are
those around the default tmpfs pair in the conversion of the unit without
the two keys, which succeeds as well. -/
theorem ConvertContainer_readOnly_flags (host : Host) (g : Globals) (u : UnitFile)
    (isUser : Bool) (args : List String) :
    ConvertContainerArgs host g u isUser = .ok args →
    ∃ before flags after,
      args = before ++ flags ++ after ∧
      (∀ t ∈ before, t ∉ readOnlyTokens) ∧
      ConvertContainerArgs host g (u.withoutKeys readOnlyKeys) isUser =
        .ok (before ++ ["--tmpfs", "/tmp:rw,size=512M,mode=1777"] ++ after) ∧
      flags = readOnlyFlags (u.LookupBoolean host ContainerGroup "ReadOnly" false)
        (u.LookupBoolean host ContainerGroup "VolatileTmp" true) ∧
      ("--read-only" ∈ flags ↔ u.LookupBoolean host ContainerGroup "ReadOnly" false = true) ∧
      (["--tmpfs", "/tmp:rw,size=512M,mode=1777"] <:+: flags ↔
        (u.LookupBoolean host ContainerGroup "VolatileTmp" true = true ∧
         u.LookupBoolean host ContainerGroup "ReadOnly" false = false)) ∧
      ("--tmpfs" ∈ flags ↔
        (u.LookupBoolean host ContainerGroup "VolatileTmp" true = true ∧
         u.LookupBoolean host ContainerGroup "ReadOnly" false = false)) ∧
      ("--read-only-tmpfs=false" ∈ flags ↔
        (u.LookupBoolean host ContainerGroup "ReadOnly" false = true ∧
         u.LookupBoolean host ContainerGroup "VolatileTmp" true = false)) ∧
      ¬ ("--tmpfs" ∈ flags ∧ "--read-only-tmpfs=false" ∈ flags) := by
  intro h
  obtain ⟨before, after, hclean, h0, e⟩ :=
    ConvertContainerArgs_readOnly_pivot host g u isUser args h
  refine ⟨before, _, after, e, hclean, h0, rfl, ?_⟩
  cases u.LookupBoolean host ContainerGroup "ReadOnly" false <;>
    cases u.LookupBoolean host ContainerGroup "VolatileTmp" true <;>
    decide

/-- Witness of C20: a unit with ReadOnly=yes and VolatileTmp=no. -/
theorem ConvertContainer_readOnly_flags_witness :
    ∃ before flags after,
      ["/usr/bin/podman", "run", "--name=systemd-%N", "--cidfile=%t/%N.cid", "--replace",
        "--rm", "-d", "--log-driver", "journald", "--pull=never", "--runtime",
        "/usr/bin/crun", "--cgroups=split", "--init", "--sdnotify=conmon",
        "--security-opt=no-new-privileges", "--cap-drop=all", "--read-only",
        "--read-only-tmpfs=false", "img"] = before ++ flags ++ after ∧
      (∀ t ∈ before, t ∉ readOnlyTokens) ∧
      ConvertContainerArgs exampleHost noGlobals
        ((containerUnit [("Image", "img"), ("ReadOnly", "yes"),
          ("VolatileTmp", "no")]).withoutKeys readOnlyKeys) false =
        .ok (before ++ ["--tmpfs", "/tmp:rw,size=512M,mode=1777"] ++ after) ∧
      flags = ["--read-only", "--read-only-tmpfs=false"] :=
  let ⟨before, flags, after, h1, h2, h3, h4, _⟩ :=
    ConvertContainer_readOnly_flags exampleHost noGlobals
      (containerUnit [("Image", "img"), ("ReadOnly", "yes"), ("VolatileTmp", "no")])
      false _ (by rfl)
  ⟨before, flags, after, h1, h2, h3, h4⟩

/-! ## ConvertContainer and the shared default ranges -/

/-! ### Objects and pointers -/

theorem Heap.get_alloc_lt (h : Heap) (r : Ranges) (p : Nat) (hp : p < h.objects.length) :
    (h.alloc r).2.get p = h.get p := by
  unfold Heap.alloc Heap.get
  simp only [List.getD_eq_getElem?_getD]
  rw [List.getElem?_append_left hp]

theorem Heap.get_alloc_new (h : Heap) (r : Ranges) : (h.alloc r).2.get (h.alloc r).1 = r := by
  unfold Heap.alloc Heap.get
  simp [List.getD_eq_getElem?_getD]

theorem Heap.length_alloc (h : Heap) (r : Ranges) :
    (h.alloc r).2.objects.length = h.objects.length + 1 := by
  unfold Heap.alloc
  simp

theorem Heap.alloc_fst (h : Heap) (r : Ranges) : (h.alloc r).1 = h.objects.length := rfl

theorem Heap.get_set_self (h : Heap) (p : Nat) (r : Ranges) (hp : p < h.objects.length) :
    (h.set p r).get p = r := by
  unfold Heap.set Heap.get
  simp [List.getD_eq_getElem?_getD, hp]

theorem Heap.get_set_ne (h : Heap) (p q : Nat) (r : Ranges) (hq : q ≠ p) :
    (h.set p r).get q = h.get q := by
  unfold Heap.set Heap.get
  simp only [List.getD_eq_getElem?_getD]
  rw [List.getElem?_set_ne (Ne.symm hq)]

theorem Heap.length_set (h : Heap) (p : Nat) (r : Ranges) :
    (h.set p r).objects.length = h.objects.length := by
  unfold Heap.set
  simp

theorem Heap.get_Remove_self (h : Heap) (p s l : Nat) (hp : p < h.objects.length) :
    (h.Remove p s l).get p = (h.get p).Remove s l :=
  Heap.get_set_self h p _ hp

theorem Heap.get_Remove_ne (h : Heap) (p q s l : Nat) (hq : q ≠ p) :
    (h.Remove p s l).get q = h.get q :=
  Heap.get_set_ne h p q _ hq

theorem Heap.length_Remove (h : Heap) (p s l : Nat) :
    (h.Remove p s l).objects.length = h.objects.length :=
  Heap.length_set h p _

/-! ### The loops of addIdMaps on pointers -/

/-- The identity loop on pointers does to the objects of mappedIds and
availableHostIds what `identityLoop` does to the sets, changes no other
object, and appends the calls `identityLoop` lists. -/
theorem identityLoopRef_spec (argPrefix : String) (m a : Nat) (hma : m ≠ a) (rs : List Range) :
    ∀ (podman : PodmanCmdline) (h : Heap), m < h.objects.length → a < h.objects.length →
    (identityLoopRef argPrefix m a rs podman h).1 =
      (identityLoop rs (h.get m) (h.get a)).1.foldl
        (fun p c => p.addIdMap argPrefix c.containerIdStart c.hostIdStart c.numIds) podman ∧
    (identityLoopRef argPrefix m a rs podman h).2.get m =
      (identityLoop rs (h.get m) (h.get a)).2.1 ∧
    (identityLoopRef argPrefix m a rs podman h).2.get a =
      (identityLoop rs (h.get m) (h.get a)).2.2 ∧
    (∀ q, q ≠ m → q ≠ a → (identityLoopRef argPrefix m a rs podman h).2.get q = h.get q) ∧
    (identityLoopRef argPrefix m a rs podman h).2.objects.length = h.objects.length := by
  induction rs with
  | nil =>
    intro podman h _ _
    simp [identityLoopRef, identityLoop]
  | cons r rest ih =>
    intro podman h hm ha
    have hm2 : m < ((h.Remove m r.Start r.Length).Remove a r.Start r.Length).objects.length := by
      rw [Heap.length_Remove, Heap.length_Remove]; exact hm
    have ha2 : a < ((h.Remove m r.Start r.Length).Remove a r.Start r.Length).objects.length := by
      rw [Heap.length_Remove, Heap.length_Remove]; exact ha
    have ha1 : a < (h.Remove m r.Start r.Length).objects.length := by
      rw [Heap.length_Remove]; exact ha
    obtain ⟨i1, i2, i3, i4, i5⟩ := ih (podman.addIdMap argPrefix r.Start r.Start r.Length)
      ((h.Remove m r.Start r.Length).Remove a r.Start r.Length) hm2 ha2
    have gm : ((h.Remove m r.Start r.Length).Remove a r.Start r.Length).get m =
        (h.get m).Remove r.Start r.Length := by
      rw [Heap.get_Remove_ne _ _ _ _ _ hma, Heap.get_Remove_self _ _ _ _ hm]
    have ga : ((h.Remove m r.Start r.Length).Remove a r.Start r.Length).get a =
        (h.get a).Remove r.Start r.Length := by
      rw [Heap.get_Remove_self _ _ _ _ ha1, Heap.get_Remove_ne _ _ _ _ _ (Ne.symm hma)]
    rw [gm, ga] at i1 i2 i3
    simp only [identityLoopRef, identityLoop, List.foldl_cons]
    refine ⟨i1, i2, i3, ?_, ?_⟩
    · intro q hqm hqa
      rw [i4 q hqm hqa, Heap.get_Remove_ne _ _ _ _ _ hqa, Heap.get_Remove_ne _ _ _ _ _ hqm]
    · rw [i5, Heap.length_Remove, Heap.length_Remove]

theorem poolLoopInnerRef_spec (argPrefix : String) (a : Nat) (fuel : Nat) :
    ∀ (c_start c_length : Nat) (podman : PodmanCmdline) (h : Heap), a < h.objects.length →
    (poolLoopInnerRef argPrefix a fuel c_start c_length podman h).1 =
      (poolLoopInner fuel c_start c_length (h.get a)).1.foldl
        (fun p c => p.addIdMap argPrefix c.containerIdStart c.hostIdStart c.numIds) podman ∧
    (poolLoopInnerRef argPrefix a fuel c_start c_length podman h).2.get a =
      (poolLoopInner fuel c_start c_length (h.get a)).2 ∧
    (∀ q, q ≠ a →
      (poolLoopInnerRef argPrefix a fuel c_start c_length podman h).2.get q = h.get q) ∧
    (poolLoopInnerRef argPrefix a fuel c_start c_length podman h).2.objects.length =
      h.objects.length := by
  induction fuel with
  | zero =>
    intro c_start c_length podman h _
    simp [poolLoopInnerRef, poolLoopInner]
  | succ fuel ih =>
    intro c_start c_length podman h ha
    cases hr : (h.get a).Ranges with
    | nil => simp [poolLoopInnerRef, poolLoopInner, hr]
    | cons h_range tl =>
      by_cases hc : c_length > 0
      · have ha2 : a < (h.Remove a h_range.Start
            (minUint32 h_range.Length c_length)).objects.length := by
          rw [Heap.length_Remove]; exact ha
        obtain ⟨i1, i2, i3, i4⟩ := ih ((c_start + minUint32 h_range.Length c_length) % 4294967296)
          ((c_length + 4294967296 - minUint32 h_range.Length c_length) % 4294967296)
          (podman.addIdMap argPrefix c_start h_range.Start (minUint32 h_range.Length c_length))
          (h.Remove a h_range.Start (minUint32 h_range.Length c_length)) ha2
        rw [Heap.get_Remove_self _ _ _ _ ha] at i1 i2
        simp only [poolLoopInnerRef, poolLoopInner, hr, if_pos hc, List.foldl_cons]
        refine ⟨i1, i2, ?_, ?_⟩
        · intro q hq
          rw [i3 q hq, Heap.get_Remove_ne _ _ _ _ _ hq]
        · rw [i4, Heap.length_Remove]
      · simp [poolLoopInnerRef, poolLoopInner, hr, hc]

theorem poolLoopRef_spec (argPrefix : String) (a : Nat) (rs : List Range) :
    ∀ (podman : PodmanCmdline) (h : Heap), a < h.objects.length →
    (poolLoopRef argPrefix a rs podman h).1 =
      (poolLoop rs (h.get a)).1.foldl
        (fun p c => p.addIdMap argPrefix c.containerIdStart c.hostIdStart c.numIds) podman ∧
    (∀ q, q ≠ a → (poolLoopRef argPrefix a rs podman h).2.get q = h.get q) ∧
    (poolLoopRef argPrefix a rs podman h).2.objects.length = h.objects.length := by
  induction rs with
  | nil =>
    intro podman h _
    simp [poolLoopRef, poolLoop]
  | cons r rest ih =>
    intro podman h ha
    cases hr : (h.get a).Ranges with
    | nil => simp [poolLoopRef, poolLoop, hr]
    | cons h_range tl =>
      obtain ⟨j1, j2, j3, j4⟩ := poolLoopInnerRef_spec argPrefix a r.Length r.Start r.Length
        podman h ha
      have ha2 : a < (poolLoopInnerRef argPrefix a r.Length r.Start r.Length podman
          h).2.objects.length := by rw [j4]; exact ha
      obtain ⟨i1, i2, i3⟩ := ih
        (poolLoopInnerRef argPrefix a r.Length r.Start r.Length podman h).1
        (poolLoopInnerRef argPrefix a r.Length r.Start r.Length podman h).2 ha2
      rw [j2] at i1
      simp only [poolLoopRef, poolLoop, hr, List.foldl_append]
      refine ⟨i1.trans (by rw [j1]), ?_, ?_⟩
      · intro q hq
        rw [i2 q hq, j3 q hq]
      · rw [i3, j4]

/-- The body of addIdMaps on pointers, after the three sets are there: it
appends the calls of the body on sets and changes no object but the three. -/
theorem addIdMapsRef_core (argPrefix : String) (c hid : Nat) (a u m : Nat)
    (hau : a ≠ u) (ham : a ≠ m) (hum : u ≠ m) (podman : PodmanCmdline) (h1 : Heap)
    (ha : a < h1.objects.length) (hu : u < h1.objects.length) (hm : m < h1.objects.length) :
    (poolLoopRef argPrefix a
      ((identityLoopRef argPrefix m a
        (((((h1.Remove m c 1).Remove u c 1).Remove u hid 1).Remove a hid 1).get u).Ranges
        (podman.addIdMap argPrefix c hid 1)
        ((((h1.Remove m c 1).Remove u c 1).Remove u hid 1).Remove a hid 1)).2.get m).Ranges
      (identityLoopRef argPrefix m a
        (((((h1.Remove m c 1).Remove u c 1).Remove u hid 1).Remove a hid 1).get u).Ranges
        (podman.addIdMap argPrefix c hid 1)
        ((((h1.Remove m c 1).Remove u c 1).Remove u hid 1).Remove a hid 1)).1
      (identityLoopRef argPrefix m a
        (((((h1.Remove m c 1).Remove u c 1).Remove u hid 1).Remove a hid 1).get u).Ranges
        (podman.addIdMap argPrefix c hid 1)
        ((((h1.Remove m c 1).Remove u c 1).Remove u hid 1).Remove a hid 1)).2).1 =
      ((⟨c, hid, 1⟩ : IdMap) ::
        ((identityLoop (((h1.get u).Remove c 1).Remove hid 1).Ranges ((h1.get m).Remove c 1)
            ((h1.get a).Remove hid 1)).1 ++
          (poolLoop
            (identityLoop (((h1.get u).Remove c 1).Remove hid 1).Ranges ((h1.get m).Remove c 1)
              ((h1.get a).Remove hid 1)).2.1.Ranges
            (identityLoop (((h1.get u).Remove c 1).Remove hid 1).Ranges ((h1.get m).Remove c 1)
              ((h1.get a).Remove hid 1)).2.2).1)).foldl
        (fun p x => p.addIdMap argPrefix x.containerIdStart x.hostIdStart x.numIds) podman ∧
    (∀ q, q ≠ a → q ≠ u → q ≠ m →
      (poolLoopRef argPrefix a
        ((identityLoopRef argPrefix m a
          (((((h1.Remove m c 1).Remove u c 1).Remove u hid 1).Remove a hid 1).get u).Ranges
          (podman.addIdMap argPrefix c hid 1)
          ((((h1.Remove m c 1).Remove u c 1).Remove u hid 1).Remove a hid 1)).2.get m).Ranges
        (identityLoopRef argPrefix m a
          (((((h1.Remove m c 1).Remove u c 1).Remove u hid 1).Remove a hid 1).get u).Ranges
          (podman.addIdMap argPrefix c hid 1)
          ((((h1.Remove m c 1).Remove u c 1).Remove u hid 1).Remove a hid 1)).1
        (identityLoopRef argPrefix m a
          (((((h1.Remove m c 1).Remove u c 1).Remove u hid 1).Remove a hid 1).get u).Ranges
          (podman.addIdMap argPrefix c hid 1)
          ((((h1.Remove m c 1).Remove u c 1).Remove u hid 1).Remove a hid 1)).2).2.get q =
        h1.get q) ∧
    (poolLoopRef argPrefix a
      ((identityLoopRef argPrefix m a
        (((((h1.Remove m c 1).Remove u c 1).Remove u hid 1).Remove a hid 1).get u).Ranges
        (podman.addIdMap argPrefix c hid 1)
        ((((h1.Remove m c 1).Remove u c 1).Remove u hid 1).Remove a hid 1)).2.get m).Ranges
      (identityLoopRef argPrefix m a
        (((((h1.Remove m c 1).Remove u c 1).Remove u hid 1).Remove a hid 1).get u).Ranges
        (podman.addIdMap argPrefix c hid 1)
        ((((h1.Remove m c 1).Remove u c 1).Remove u hid 1).Remove a hid 1)).1
      (identityLoopRef argPrefix m a
        (((((h1.Remove m c 1).Remove u c 1).Remove u hid 1).Remove a hid 1).get u).Ranges
        (podman.addIdMap argPrefix c hid 1)
        ((((h1.Remove m c 1).Remove u c 1).Remove u hid 1).Remove a hid 1)).2).2.objects.length =
      h1.objects.length := by
  generalize hh2 : (((h1.Remove m c 1).Remove u c 1).Remove u hid 1).Remove a hid 1 = h2
  have len2 : h2.objects.length = h1.objects.length := by
    rw [← hh2]
    simp only [Heap.length_Remove]
  have gu : h2.get u = ((h1.get u).Remove c 1).Remove hid 1 := by
    rw [← hh2, Heap.get_Remove_ne _ _ _ _ _ (Ne.symm hau),
      Heap.get_Remove_self _ _ _ _ (by simp only [Heap.length_Remove]; exact hu),
      Heap.get_Remove_self _ _ _ _ (by simp only [Heap.length_Remove]; exact hu),
      Heap.get_Remove_ne _ _ _ _ _ hum]
  have gm : h2.get m = (h1.get m).Remove c 1 := by
    rw [← hh2, Heap.get_Remove_ne _ _ _ _ _ (Ne.symm ham),
      Heap.get_Remove_ne _ _ _ _ _ (Ne.symm hum), Heap.get_Remove_ne _ _ _ _ _ (Ne.symm hum),
      Heap.get_Remove_self _ _ _ _ hm]
  have ga : h2.get a = (h1.get a).Remove hid 1 := by
    rw [← hh2, Heap.get_Remove_self _ _ _ _ (by simp only [Heap.length_Remove]; exact ha),
      Heap.get_Remove_ne _ _ _ _ _ hau, Heap.get_Remove_ne _ _ _ _ _ hau,
      Heap.get_Remove_ne _ _ _ _ _ ham]
  have gq : ∀ q, q ≠ a → q ≠ u → q ≠ m → h2.get q = h1.get q := by
    intro q hqa hqu hqm
    rw [← hh2, Heap.get_Remove_ne _ _ _ _ _ hqa, Heap.get_Remove_ne _ _ _ _ _ hqu,
      Heap.get_Remove_ne _ _ _ _ _ hqu, Heap.get_Remove_ne _ _ _ _ _ hqm]
  obtain ⟨i1, i2, i3, i4, i5⟩ := identityLoopRef_spec argPrefix m a (Ne.symm ham)
    (h2.get u).Ranges (podman.addIdMap argPrefix c hid 1) h2 (by rw [len2]; exact hm)
    (by rw [len2]; exact ha)
  obtain ⟨j1, j2, j3⟩ := poolLoopRef_spec argPrefix a
    ((identityLoopRef argPrefix m a (h2.get u).Ranges (podman.addIdMap argPrefix c hid 1)
      h2).2.get m).Ranges
    (identityLoopRef argPrefix m a (h2.get u).Ranges (podman.addIdMap argPrefix c hid 1) h2).1
    (identityLoopRef argPrefix m a (h2.get u).Ranges (podman.addIdMap argPrefix c hid 1) h2).2
    (by rw [i5, len2]; exact ha)
  refine ⟨?_, ?_, ?_⟩
  · rw [j1, i3, i2, i1, gu, gm, ga, List.foldl_cons, List.foldl_append]
  · intro q hqa hqu hqm
    rw [j2 q hqa, i4 q hqm hqa, gq q hqa hqu hqm]
  · rw [j3, i5, len2]

/-- Function `addIdMaps` on pointers builds the command line `addIdMaps` builds
from the set the pool points to, and changes no object that existed before the
call, the pool apart. -/
theorem addIdMapsRef_spec (h : Heap) (podman : PodmanCmdline) (argPrefix : String)
    (c hid R : Nat) (pool : Option Nat) (hp : ∀ p, pool = some p → p < h.objects.length) :
    (addIdMapsRef h podman argPrefix c hid R pool).1 =
      addIdMaps podman argPrefix c hid R (pool.map h.get) ∧
    (∀ q, q < h.objects.length → pool ≠ some q →
      (addIdMapsRef h podman argPrefix c hid R pool).2.get q = h.get q) ∧
    h.objects.length ≤ (addIdMapsRef h podman argPrefix c hid R pool).2.objects.length := by
  cases pool with
  | none =>
    have e := addIdMapsRef_core argPrefix c hid (h.alloc NewRangesEmpty).1
      ((h.alloc NewRangesEmpty).2.alloc (NewRanges 0 R)).1
      (((h.alloc NewRangesEmpty).2.alloc (NewRanges 0 R)).2.alloc (NewRanges 0 MaxUint32)).1
      (by simp only [Heap.alloc_fst, Heap.length_alloc]; omega)
      (by simp only [Heap.alloc_fst, Heap.length_alloc]; omega)
      (by simp only [Heap.alloc_fst, Heap.length_alloc]; omega) podman
      (((h.alloc NewRangesEmpty).2.alloc (NewRanges 0 R)).2.alloc (NewRanges 0 MaxUint32)).2
      (by simp only [Heap.alloc_fst, Heap.length_alloc]; omega)
      (by simp only [Heap.alloc_fst, Heap.length_alloc]; omega)
      (by simp only [Heap.alloc_fst, Heap.length_alloc]; omega)
    have g0 : ((((h.alloc NewRangesEmpty).2.alloc (NewRanges 0 R)).2.alloc
        (NewRanges 0 MaxUint32)).2).get (h.alloc NewRangesEmpty).1 = NewRangesEmpty := by
      rw [Heap.get_alloc_lt _ _ _ (by simp only [Heap.alloc_fst, Heap.length_alloc]; omega),
        Heap.get_alloc_lt _ _ _ (by simp only [Heap.alloc_fst, Heap.length_alloc]; omega)]
      exact Heap.get_alloc_new h _
    have g1 : ((((h.alloc NewRangesEmpty).2.alloc (NewRanges 0 R)).2.alloc
        (NewRanges 0 MaxUint32)).2).get ((h.alloc NewRangesEmpty).2.alloc (NewRanges 0 R)).1 =
        NewRanges 0 R := by
      rw [Heap.get_alloc_lt _ _ _ (by simp only [Heap.alloc_fst, Heap.length_alloc]; omega)]
      exact Heap.get_alloc_new _ _
    have g2 : ((((h.alloc NewRangesEmpty).2.alloc (NewRanges 0 R)).2.alloc
        (NewRanges 0 MaxUint32)).2).get
        (((h.alloc NewRangesEmpty).2.alloc (NewRanges 0 R)).2.alloc (NewRanges 0 MaxUint32)).1 =
        NewRanges 0 MaxUint32 := Heap.get_alloc_new _ _
    rw [g0, g1, g2] at e
    obtain ⟨e1, e2, e3⟩ := e
    unfold addIdMapsRef addIdMaps addIdMapsCalls Heap.NewRangesEmpty Heap.NewRanges
    dsimp only [Option.map]
    refine ⟨e1, ?_, ?_⟩
    · intro q hq _
      have := e2 q (by simp only [Heap.alloc_fst, Heap.length_alloc]; omega)
        (by simp only [Heap.alloc_fst, Heap.length_alloc]; omega)
        (by simp only [Heap.alloc_fst, Heap.length_alloc]; omega)
      refine this.trans ?_
      rw [Heap.get_alloc_lt _ _ _ (by simp only [Heap.length_alloc]; omega),
        Heap.get_alloc_lt _ _ _ (by simp only [Heap.length_alloc]; omega),
        Heap.get_alloc_lt _ _ _ hq]
    · refine le_trans ?_ (le_of_eq e3.symm)
      simp only [Heap.length_alloc]
      omega
  | some p =>
    have hpl := hp p rfl
    have e := addIdMapsRef_core argPrefix c hid p (h.alloc (NewRanges 0 R)).1
      ((h.alloc (NewRanges 0 R)).2.alloc (NewRanges 0 MaxUint32)).1
      (by simp only [Heap.alloc_fst, Heap.length_alloc]; omega)
      (by simp only [Heap.alloc_fst, Heap.length_alloc]; omega)
      (by simp only [Heap.alloc_fst, Heap.length_alloc]; omega) podman
      ((h.alloc (NewRanges 0 R)).2.alloc (NewRanges 0 MaxUint32)).2
      (by simp only [Heap.alloc_fst, Heap.length_alloc]; omega)
      (by simp only [Heap.alloc_fst, Heap.length_alloc]; omega)
      (by simp only [Heap.alloc_fst, Heap.length_alloc]; omega)
    have g0 : (((h.alloc (NewRanges 0 R)).2.alloc (NewRanges 0 MaxUint32)).2).get p =
        h.get p := by
      rw [Heap.get_alloc_lt _ _ _ (by simp only [Heap.length_alloc]; omega),
        Heap.get_alloc_lt _ _ _ hpl]
    have g1 : (((h.alloc (NewRanges 0 R)).2.alloc (NewRanges 0 MaxUint32)).2).get
        (h.alloc (NewRanges 0 R)).1 = NewRanges 0 R := by
      rw [Heap.get_alloc_lt _ _ _ (by simp only [Heap.alloc_fst, Heap.length_alloc]; omega)]
      exact Heap.get_alloc_new h _
    have g2 : (((h.alloc (NewRanges 0 R)).2.alloc (NewRanges 0 MaxUint32)).2).get
        ((h.alloc (NewRanges 0 R)).2.alloc (NewRanges 0 MaxUint32)).1 =
        NewRanges 0 MaxUint32 := Heap.get_alloc_new _ _
    rw [g0, g1, g2] at e
    obtain ⟨e1, e2, e3⟩ := e
    unfold addIdMapsRef addIdMaps addIdMapsCalls Heap.NewRanges
    dsimp only [Option.map]
    refine ⟨e1, ?_, ?_⟩
    · intro q hq hne
      have hqp : q ≠ p := fun hh => hne (by rw [hh])
      have := e2 q hqp (by simp only [Heap.alloc_fst, Heap.length_alloc]; omega)
        (by simp only [Heap.alloc_fst, Heap.length_alloc]; omega)
      refine this.trans ?_
      rw [Heap.get_alloc_lt _ _ _ (by simp only [Heap.length_alloc]; omega),
        Heap.get_alloc_lt _ _ _ hq]
    · refine le_trans ?_ (le_of_eq e3.symm)
      simp only [Heap.length_alloc]
      omega

/-! ### The package variables and the pools on pointers -/

theorem Keeps.refl (g : GlobalRefs) (h : Heap) (hwf : g.WellFormed h) : Keeps g h g h :=
  ⟨fun _ _ => rfl, le_refl _, fun _ hp => hp, fun _ hp => hp, hwf⟩

theorem Keeps.trans {g g1 g2 : GlobalRefs} {h h1 h2 : Heap} (k1 : Keeps g h g1 h1)
    (k2 : Keeps g1 h1 g2 h2) : Keeps g h g2 h2 :=
  ⟨fun p hp => (k2.1 p (lt_of_lt_of_le hp k1.2.1)).trans (k1.1 p hp),
    le_trans k1.2.1 k2.2.1, fun p hp => k2.2.2.1 p (k1.2.2.1 p hp),
    fun p hp => k2.2.2.2.1 p (k1.2.2.2.1 p hp), k2.2.2.2.2⟩

/-- Objects that are kept leave the sets the package variables point to as
they are. -/
theorem GlobalRefs.deref_of_frame (g : GlobalRefs) (h h2 : Heap) (hwf : g.WellFormed h)
    (hf : ∀ p, p < h.objects.length → h2.get p = h.get p) : g.deref h2 = g.deref h := by
  unfold GlobalRefs.deref
  obtain ⟨w1, w2⟩ := hwf
  congr 1
  · cases hu : g.defaultRemapUids with
    | none => rfl
    | some p => simp only [Option.map]; rw [hf p (w1 p hu)]
  · cases hg : g.defaultRemapGids with
    | none => rfl
    | some p => simp only [Option.map]; rw [hf p (w2 p hg)]

theorem GlobalRefs.WellFormed.mono {g : GlobalRefs} {h h2 : Heap} (hwf : g.WellFormed h)
    (hl : h.objects.length ≤ h2.objects.length) : g.WellFormed h2 :=
  ⟨fun p hp => lt_of_lt_of_le (hwf.1 p hp) hl, fun p hp => lt_of_lt_of_le (hwf.2 p hp) hl⟩

/-- Setting the user variable, when it is nil, to a new object. -/
theorem GlobalRefs.setUids_spec (g : GlobalRefs) (h : Heap) (hwf : g.WellFormed h)
    (hu : g.defaultRemapUids = none) (r : Ranges) :
    (GlobalRefs.mk (some (h.alloc r).1) g.defaultRemapGids).deref (h.alloc r).2 =
      ⟨some r, (g.deref h).defaultRemapGids⟩ ∧
    Keeps g h (GlobalRefs.mk (some (h.alloc r).1) g.defaultRemapGids) (h.alloc r).2 := by
  obtain ⟨w1, w2⟩ := hwf
  refine ⟨?_, fun p hp => Heap.get_alloc_lt _ _ _ hp, by rw [Heap.length_alloc]; omega, ?_,
    fun p hp => hp, ?_, ?_⟩
  · unfold GlobalRefs.deref
    congr 1
    · exact congrArg some (Heap.get_alloc_new h r)
    · cases hg : g.defaultRemapGids with
      | none => rfl
      | some p => simp only [Option.map]; rw [Heap.get_alloc_lt _ _ _ (w2 p hg)]
  · intro p hp
    rw [hu] at hp
    exact absurd hp (by simp)
  · intro p hp
    simp only [Option.some.injEq] at hp
    rw [← hp, Heap.alloc_fst, Heap.length_alloc]; omega
  · intro p hp
    rw [Heap.length_alloc]
    have := w2 p hp
    omega

/-- Setting the group variable, when it is nil, to a new object. -/
theorem GlobalRefs.setGids_spec (g : GlobalRefs) (h : Heap) (hwf : g.WellFormed h)
    (hu : g.defaultRemapGids = none) (r : Ranges) :
    (GlobalRefs.mk g.defaultRemapUids (some (h.alloc r).1)).deref (h.alloc r).2 =
      ⟨(g.deref h).defaultRemapUids, some r⟩ ∧
    Keeps g h (GlobalRefs.mk g.defaultRemapUids (some (h.alloc r).1)) (h.alloc r).2 := by
  obtain ⟨w1, w2⟩ := hwf
  refine ⟨?_, fun p hp => Heap.get_alloc_lt _ _ _ hp, by rw [Heap.length_alloc]; omega,
    fun p hp => hp, ?_, ?_, ?_⟩
  · unfold GlobalRefs.deref
    congr 1
    · cases hg : g.defaultRemapUids with
      | none => rfl
      | some p => simp only [Option.map]; rw [Heap.get_alloc_lt _ _ _ (w1 p hg)]
    · exact congrArg some (Heap.get_alloc_new h r)
  · intro p hp
    rw [hu] at hp
    exact absurd hp (by simp)
  · intro p hp
    rw [Heap.length_alloc]
    have := w1 p hp
    omega
  · intro p hp
    simp only [Option.some.injEq] at hp
    rw [← hp, Heap.alloc_fst, Heap.length_alloc]; omega

theorem getDefaultRemapUidsRef_eq (host : Host) (g : GlobalRefs) (h : Heap) :
    getDefaultRemapUidsRef host g h =
      match g.defaultRemapUids with
      | some p => (some p, g, h)
      | none => (some (h.alloc (defaultUidsValue host)).1,
          ⟨some (h.alloc (defaultUidsValue host)).1, g.defaultRemapGids⟩,
          (h.alloc (defaultUidsValue host)).2) := by
  unfold getDefaultRemapUidsRef lookupHostSubuidRef defaultUidsValue
  cases hu : g.defaultRemapUids with
  | some p => simp [hu]
  | none =>
    cases hl : host.lookupHostSubuid QuadletUserName with
    | some r => simp [hu, hl]
    | none => simp [hu, hl, Heap.NewRanges]

theorem getDefaultRemapUids_eq (host : Host) (g : Globals) :
    getDefaultRemapUids host g =
      match g.defaultRemapUids with
      | some p => (some p, g)
      | none => (some (defaultUidsValue host), ⟨some (defaultUidsValue host), g.defaultRemapGids⟩) := by
  unfold getDefaultRemapUids defaultUidsValue
  cases hu : g.defaultRemapUids with
  | some p => simp [hu]
  | none =>
    cases hl : host.lookupHostSubuid QuadletUserName with
    | some r => simp [hu, hl]
    | none => simp [hu, hl]

/-- Function `getDefaultRemapUids` on pointers returns the pointer held by the
user variable, which points to the set `getDefaultRemapUids` returns; an
object that existed is kept, and so are a variable that was set and the
group variable. -/
theorem getDefaultRemapUidsRef_spec (host : Host) (g : GlobalRefs) (h : Heap)
    (hwf : g.WellFormed h) :
    (getDefaultRemapUidsRef host g h).1 = (getDefaultRemapUidsRef host g h).2.1.defaultRemapUids ∧
    (getDefaultRemapUidsRef host g h).2.1.deref (getDefaultRemapUidsRef host g h).2.2 =
      (getDefaultRemapUids host (g.deref h)).2 ∧
    (getDefaultRemapUids host (g.deref h)).1 =
      (getDefaultRemapUids host (g.deref h)).2.defaultRemapUids ∧
    Keeps g h (getDefaultRemapUidsRef host g h).2.1 (getDefaultRemapUidsRef host g h).2.2 ∧
    (getDefaultRemapUidsRef host g h).2.1.defaultRemapGids = g.defaultRemapGids ∧
    (getDefaultRemapUidsRef host g h).2.1.defaultRemapUids.isSome = true := by
  refine ⟨rfl, ?_, rfl, ?_⟩
  · rw [getDefaultRemapUidsRef_eq, getDefaultRemapUids_eq]
    cases hu : g.defaultRemapUids with
    | some p =>
      have e : (g.deref h).defaultRemapUids = some (h.get p) := by
        simp [GlobalRefs.deref, hu]
      rw [e]
    | none =>
      have e : (g.deref h).defaultRemapUids = none := by
        simp [GlobalRefs.deref, hu]
      rw [e]
      exact (GlobalRefs.setUids_spec g h hwf hu _).1
  · rw [getDefaultRemapUidsRef_eq]
    cases hu : g.defaultRemapUids with
    | some p => exact ⟨Keeps.refl g h hwf, rfl, by simp [hu]⟩
    | none => exact ⟨(GlobalRefs.setUids_spec g h hwf hu _).2, rfl, rfl⟩

theorem getDefaultRemapGidsRef_eq (host : Host) (g : GlobalRefs) (h : Heap) :
    getDefaultRemapGidsRef host g h =
      match g.defaultRemapGids with
      | some _ => (g.defaultRemapUids, g, h)
      | none => (g.defaultRemapUids,
          ⟨g.defaultRemapUids, some (h.alloc (defaultGidsValue host)).1⟩,
          (h.alloc (defaultGidsValue host)).2) := by
  unfold getDefaultRemapGidsRef lookupHostSubgidRef defaultGidsValue
  cases hu : g.defaultRemapGids with
  | some p => simp [hu]
  | none =>
    cases hl : host.lookupHostSubgid QuadletUserName with
    | some r => simp [hu, hl]
    | none => simp [hu, hl, Heap.NewRanges]

theorem getDefaultRemapGids_eq (host : Host) (g : Globals) :
    getDefaultRemapGids host g =
      match g.defaultRemapGids with
      | some _ => (g.defaultRemapUids, g)
      | none => (g.defaultRemapUids, ⟨g.defaultRemapUids, some (defaultGidsValue host)⟩) := by
  unfold getDefaultRemapGids defaultGidsValue
  cases hu : g.defaultRemapGids with
  | some p => simp [hu]
  | none =>
    cases hl : host.lookupHostSubgid QuadletUserName with
    | some r => simp [hu, hl]
    | none => simp [hu, hl]

/-- Function `getDefaultRemapGids` on pointers returns the pointer held by the
user variable, as `getDefaultRemapGids` returns the set of that variable; an
object that existed is kept, and so are a variable that was set and the user
variable; the group variable is as before or points to a new object. -/
theorem getDefaultRemapGidsRef_spec (host : Host) (g : GlobalRefs) (h : Heap)
    (hwf : g.WellFormed h) :
    (getDefaultRemapGidsRef host g h).1 = (getDefaultRemapGidsRef host g h).2.1.defaultRemapUids ∧
    (getDefaultRemapGidsRef host g h).2.1.deref (getDefaultRemapGidsRef host g h).2.2 =
      (getDefaultRemapGids host (g.deref h)).2 ∧
    (getDefaultRemapGids host (g.deref h)).1 =
      (getDefaultRemapGids host (g.deref h)).2.defaultRemapUids ∧
    Keeps g h (getDefaultRemapGidsRef host g h).2.1 (getDefaultRemapGidsRef host g h).2.2 ∧
    (getDefaultRemapGidsRef host g h).2.1.defaultRemapUids = g.defaultRemapUids ∧
    (∀ p, (getDefaultRemapGidsRef host g h).2.1.defaultRemapGids = some p →
      g.defaultRemapGids = some p ∨ h.objects.length ≤ p) := by
  refine ⟨?_, ?_, ?_, ?_⟩
  · rw [getDefaultRemapGidsRef_eq]
    cases hu : g.defaultRemapGids <;> rfl
  · rw [getDefaultRemapGidsRef_eq, getDefaultRemapGids_eq]
    cases hu : g.defaultRemapGids with
    | some p =>
      have e : (g.deref h).defaultRemapGids = some (h.get p) := by
        simp [GlobalRefs.deref, hu]
      rw [e]
    | none =>
      have e : (g.deref h).defaultRemapGids = none := by
        simp [GlobalRefs.deref, hu]
      rw [e]
      exact (GlobalRefs.setGids_spec g h hwf hu _).1
  · rw [getDefaultRemapGids_eq]
    cases hu : (g.deref h).defaultRemapGids <;> rfl
  · rw [getDefaultRemapGidsRef_eq]
    cases hu : g.defaultRemapGids with
    | some p => exact ⟨Keeps.refl g h hwf, rfl, fun q hq => Or.inl (hu ▸ hq)⟩
    | none =>
      refine ⟨(GlobalRefs.setGids_spec g h hwf hu _).2, rfl, fun q hq => Or.inr ?_⟩
      simp only [Option.some.injEq] at hq
      rw [← hq, Heap.alloc_fst]

theorem lookupHostSubuidRef_fresh (host : Host) :
    NameLookupFresh (lookupHostSubuidRef host) host.lookupHostSubuid := by
  intro h v
  unfold lookupHostSubuidRef
  cases hl : host.lookupHostSubuid v with
  | none => exact ⟨rfl, fun _ _ => rfl, le_refl _, fun p hp => absurd hp (by simp)⟩
  | some r =>
    refine ⟨congrArg some (Heap.get_alloc_new h r), fun q hq => Heap.get_alloc_lt _ _ _ hq,
      by simp only [Heap.length_alloc]; omega, fun p hp => ?_⟩
    simp only [Option.some.injEq] at hp
    rw [← hp, Heap.alloc_fst, Heap.length_alloc]; omega

theorem lookupHostSubgidRef_fresh (host : Host) :
    NameLookupFresh (lookupHostSubgidRef host) host.lookupHostSubgid := by
  intro h v
  unfold lookupHostSubgidRef
  cases hl : host.lookupHostSubgid v with
  | none => exact ⟨rfl, fun _ _ => rfl, le_refl _, fun p hp => absurd hp (by simp)⟩
  | some r =>
    refine ⟨congrArg some (Heap.get_alloc_new h r), fun q hq => Heap.get_alloc_lt _ _ _ hq,
      by simp only [Heap.length_alloc]; omega, fun p hp => ?_⟩
    simp only [Option.some.injEq] at hp
    rw [← hp, Heap.alloc_fst, Heap.length_alloc]; omega

/-- A new object: its pointer is past the objects that existed, which are kept. -/
theorem Heap.alloc_spec (h : Heap) (r : Ranges) :
    (h.alloc r).2.get (h.alloc r).1 = r ∧
    (∀ q, q < h.objects.length → (h.alloc r).2.get q = h.get q) ∧
    h.objects.length ≤ (h.alloc r).1 ∧
    (h.alloc r).1 < (h.alloc r).2.objects.length :=
  ⟨Heap.get_alloc_new h r, fun q hq => Heap.get_alloc_lt _ _ _ hq, le_refl _,
    by rw [Heap.alloc_fst, Heap.length_alloc]; omega⟩

/-- Function `lookupRanges` on pointers returns a pointer to an object that did
not exist before the call, holding the set `lookupRanges` returns, and keeps
the objects that existed: the default is handed out as a copy. -/
theorem lookupRangesRef_spec (host : Host) (h : Heap) (unit : UnitFile)
    (groupName key : String) (fRef : Heap → String → Option Nat × Heap)
    (f : String → Option Ranges) (hf : NameLookupFresh fRef f) (d : Option Nat) :
    (lookupRangesRef host h unit groupName key (some fRef) d).2.get
        (lookupRangesRef host h unit groupName key (some fRef) d).1 =
      lookupRanges host unit groupName key (some f) (d.map h.get) ∧
    (∀ q, q < h.objects.length →
      (lookupRangesRef host h unit groupName key (some fRef) d).2.get q = h.get q) ∧
    h.objects.length ≤ (lookupRangesRef host h unit groupName key (some fRef) d).1 ∧
    (lookupRangesRef host h unit groupName key (some fRef) d).1 <
      (lookupRangesRef host h unit groupName key (some fRef) d).2.objects.length := by
  unfold lookupRangesRef lookupRanges
  cases hv : unit.Lookup groupName key with
  | none =>
    cases d with
    | none => exact Heap.alloc_spec h _
    | some p => exact Heap.alloc_spec h _
  | some v =>
    dsimp only
    by_cases e1 : (v == "") = true
    · rw [if_pos e1, if_pos e1]
      exact Heap.alloc_spec h _
    · rw [if_neg e1, if_neg e1]
      by_cases e2 : (!(v.data.head?.any Char.isDigit)) = true
      · rw [if_pos e2, if_pos e2]
        obtain ⟨f1, f2, f3, f4⟩ := hf h v
        cases hr : (fRef h v).1 with
        | none =>
          rw [hr] at f1
          rw [← f1]
          obtain ⟨a1, a2, a3, a4⟩ := Heap.alloc_spec (fRef h v).2 NewRangesEmpty
          exact ⟨a1, fun q hq => (a2 q (lt_of_lt_of_le hq f3)).trans (f2 q hq),
            le_trans f3 a3, a4⟩
        | some r =>
          rw [hr] at f1
          rw [← f1]
          exact ⟨rfl, f2, (f4 r hr).1, (f4 r hr).2⟩
      · rw [if_neg e2, if_neg e2]
        exact Heap.alloc_spec h _

/-- A call of addIdMaps with a nil pool, made or skipped: the command line is
the one on sets and the objects that existed are kept. -/
theorem addIdMapsRef_nil_ite (c : Prop) [Decidable c] (h : Heap) (podman : PodmanCmdline)
    (argPrefix : String) (cid hid R : Nat) :
    (if c then addIdMapsRef h podman argPrefix cid hid R none else (podman, h)).1 =
      (if c then addIdMaps podman argPrefix cid hid R none else podman) ∧
    (∀ q, q < h.objects.length →
      (if c then addIdMapsRef h podman argPrefix cid hid R none else (podman, h)).2.get q =
        h.get q) ∧
    h.objects.length ≤
      (if c then addIdMapsRef h podman argPrefix cid hid R none
        else (podman, h)).2.objects.length := by
  have s1 := addIdMapsRef_spec h podman argPrefix cid hid R none (fun p hp => absurd hp (by simp))
  by_cases hc : c
  · rw [if_pos hc, if_pos hc]
    exact ⟨s1.1, fun q hq => s1.2.1 q hq (by simp), s1.2.2⟩
  · rw [if_neg hc, if_neg hc]
    exact ⟨rfl, fun _ _ => rfl, le_refl _⟩

/-- Lines 434-459 of ConvertContainer on pointers emit the id maps of the
lines on sets and leave the package variables pointing to the sets the lines
on sets leave; no object that existed before is changed. -/
theorem remapUsersRef_refines (host : Host) (g : GlobalRefs) (h : Heap) (container : UnitFile)
    (isUser : Bool) (podman : PodmanCmdline) (uid hostUid gid hostGid : Nat)
    (hwf : g.WellFormed h) :
    Refines g h (remapUsersRef host g h container isUser podman uid hostUid gid hostGid)
      (let remapUsers :=
        if isUser then false else container.LookupBoolean host ContainerGroup "RemapUsers" false
      let remapped : PodmanCmdline × Globals :=
        if !remapUsers then
          let podman :=
            if uid != hostUid then addIdMaps podman "--uidmap" uid hostUid MaxUint32 none
            else podman
          let podman :=
            if gid != hostGid then addIdMaps podman "--gidmap" gid hostGid MaxUint32 none
            else podman
          (podman, g.deref h)
        else
          let defaultUids := getDefaultRemapUids host (g.deref h)
          let uid_remap_ids := lookupRanges host container ContainerGroup "RemapUidRanges"
            (some host.lookupHostSubuid) defaultUids.1
          let defaultGids := getDefaultRemapGids host defaultUids.2
          let gid_remap_ids := lookupRanges host container ContainerGroup "RemapGidRanges"
            (some host.lookupHostSubgid) defaultGids.1
          let remap_uid_start := container.LookupUint32 host ContainerGroup "RemapUidStart" 1
          let remap_gid_start := container.LookupUint32 host ContainerGroup "RemapGidStart" 1
          let podman := addIdMaps podman "--uidmap" uid hostUid remap_uid_start (some uid_remap_ids)
          let podman := addIdMaps podman "--gidmap" gid hostGid remap_gid_start (some gid_remap_ids)
          (podman, defaultGids.2)
      remapped) := by
  unfold remapUsersRef
  generalize (if isUser then false
    else container.LookupBoolean host ContainerGroup "RemapUsers" false) = b
  cases b with
  | false =>
    dsimp only
    rw [if_pos (show (!false) = true from rfl)]
    obtain ⟨a1, a2, a3⟩ := addIdMapsRef_nil_ite ((uid != hostUid) = true) h podman "--uidmap"
      uid hostUid MaxUint32
    generalize (if (uid != hostUid) = true then
      addIdMapsRef h podman "--uidmap" uid hostUid MaxUint32 none else (podman, h)) = st1
      at a1 a2 a3 ⊢
    obtain ⟨b1, b2, b3⟩ := addIdMapsRef_nil_ite ((gid != hostGid) = true) st1.2 st1.1 "--gidmap"
      gid hostGid MaxUint32
    have e : (if (gid != hostGid) = true then
        addIdMapsRef st1.2 st1.1 "--gidmap" gid hostGid MaxUint32 none else st1) =
        (if (gid != hostGid) = true then
        addIdMapsRef st1.2 st1.1 "--gidmap" gid hostGid MaxUint32 none else (st1.1, st1.2)) := rfl
    rw [e]
    generalize (if (gid != hostGid) = true then
      addIdMapsRef st1.2 st1.1 "--gidmap" gid hostGid MaxUint32 none else (st1.1, st1.2)) = st2
      at b1 b2 b3 ⊢
    rw [a1] at b1
    have fr : ∀ q, q < h.objects.length → st2.2.get q = h.get q :=
      fun q hq => (b2 q (lt_of_lt_of_le hq a3)).trans (a2 q hq)
    refine ⟨?_, GlobalRefs.deref_of_frame g h st2.2 hwf fr, fr, le_trans a3 b3,
      fun _ hp => hp, fun _ hp => hp, hwf.mono (le_trans a3 b3)⟩
    show st2.1 = _
    rw [b1]
    rfl
  | true =>
    dsimp only
    rw [if_neg (show ¬ (!true) = true by decide), if_neg (show ¬ (!true) = true by decide)]
    obtain ⟨u1, u2, u3, u4, u5, u6⟩ := getDefaultRemapUidsRef_spec host g h hwf
    generalize getDefaultRemapUidsRef host g h = U at u1 u2 u3 u4 u5 u6 ⊢
    obtain ⟨l1, l2, l3, l4⟩ := lookupRangesRef_spec host U.2.2 container ContainerGroup
      "RemapUidRanges" (lookupHostSubuidRef host) host.lookupHostSubuid
      (lookupHostSubuidRef_fresh host) U.1
    have eU : U.1.map U.2.2.get = (getDefaultRemapUids host (g.deref h)).1 := by
      rw [u3, ← u2, u1]; rfl
    rw [eU] at l1
    generalize lookupRangesRef host U.2.2 container ContainerGroup "RemapUidRanges"
      (some (lookupHostSubuidRef host)) U.1 = LU at l1 l2 l3 l4 ⊢
    have wU : U.2.1.WellFormed LU.2 := u4.2.2.2.2.mono (by omega)
    obtain ⟨g1, g2, g3, g4, g5, g6⟩ := getDefaultRemapGidsRef_spec host U.2.1 LU.2 wU
    rw [GlobalRefs.deref_of_frame U.2.1 U.2.2 LU.2 u4.2.2.2.2 l2, u2] at g2 g3
    generalize getDefaultRemapGidsRef host U.2.1 LU.2 = G at g1 g2 g3 g4 g5 g6 ⊢
    obtain ⟨m1, m2, m3, m4⟩ := lookupRangesRef_spec host G.2.2 container ContainerGroup
      "RemapGidRanges" (lookupHostSubgidRef host) host.lookupHostSubgid
      (lookupHostSubgidRef_fresh host) G.1
    have eG : G.1.map G.2.2.get =
        (getDefaultRemapGids host (getDefaultRemapUids host (g.deref h)).2).1 := by
      rw [g3, ← g2, g1]; rfl
    rw [eG] at m1
    generalize lookupRangesRef host G.2.2 container ContainerGroup "RemapGidRanges"
      (some (lookupHostSubgidRef host)) G.1 = LG at m1 m2 m3 m4 ⊢
    have hG := g4.2.1
    obtain ⟨a1, a2, a3⟩ := addIdMapsRef_spec LG.2 podman "--uidmap" uid hostUid
      (container.LookupUint32 host ContainerGroup "RemapUidStart" 1) (some LU.1)
      (fun p hp => by simp only [Option.some.injEq] at hp; omega)
    have eLU : LG.2.get LU.1 = lookupRanges host container ContainerGroup "RemapUidRanges"
        (some host.lookupHostSubuid) (getDefaultRemapUids host (g.deref h)).1 := by
      rw [m2 LU.1 (by omega), g4.1 LU.1 l4, l1]
    simp only [Option.map] at a1
    rw [eLU] at a1
    generalize addIdMapsRef LG.2 podman "--uidmap" uid hostUid
      (container.LookupUint32 host ContainerGroup "RemapUidStart" 1) (some LU.1) = A1
      at a1 a2 a3 ⊢
    obtain ⟨b1, b2, b3⟩ := addIdMapsRef_spec A1.2 A1.1 "--gidmap" gid hostGid
      (container.LookupUint32 host ContainerGroup "RemapGidStart" 1) (some LG.1)
      (fun p hp => by simp only [Option.some.injEq] at hp; omega)
    have eLG : A1.2.get LG.1 = lookupRanges host container ContainerGroup "RemapGidRanges"
        (some host.lookupHostSubgid)
        (getDefaultRemapGids host (getDefaultRemapUids host (g.deref h)).2).1 := by
      rw [a2 LG.1 m4 (by simp only [ne_eq, Option.some.injEq]; omega), m1]
    simp only [Option.map] at b1
    rw [eLG] at b1
    generalize addIdMapsRef A1.2 A1.1 "--gidmap" gid hostGid
      (container.LookupUint32 host ContainerGroup "RemapGidStart" 1) (some LG.1) = A2
      at b1 b2 b3 ⊢
    rw [a1] at b1
    have fr : ∀ q, q < G.2.2.objects.length → q ≠ LU.1 → A2.2.get q = G.2.2.get q := by
      intro q hq hne
      rw [b2 q (by omega) (by simp only [ne_eq, Option.some.injEq]; omega),
        a2 q (by omega) (by simp only [ne_eq, Option.some.injEq]; omega), m2 q hq]
    have frh : ∀ q, q < h.objects.length → A2.2.get q = h.get q := by
      intro q hq
      have h1 := u4.2.1
      rw [fr q (by omega) (by omega), g4.1 q (by omega), l2 q (by omega), u4.1 q hq]
    have hlen : h.objects.length ≤ A2.2.objects.length := by
      have h1 := u4.2.1
      omega
    have hlenG : G.2.2.objects.length ≤ A2.2.objects.length := by omega
    unfold Refines Keeps
    dsimp only
    refine ⟨b1, ?_, frh, hlen, fun p hp => g4.2.2.1 p (u4.2.2.1 p hp),
      fun p hp => g4.2.2.2.1 p (u4.2.2.2.1 p hp), g4.2.2.2.2.mono hlenG⟩
    · show G.2.1.deref A2.2 = _
      rw [← g2]
      unfold GlobalRefs.deref
      congr 1
      · cases hp : G.2.1.defaultRemapUids with
        | none => rfl
        | some p =>
          simp only [Option.map]
          have h1 := u4.2.2.2.2.1 p (by rw [← g5]; exact hp)
          rw [fr p (by omega) (by omega)]
      · cases hp : G.2.1.defaultRemapGids with
        | none => rfl
        | some p =>
          simp only [Option.map]
          have h0 := g4.2.2.2.2.2 p hp
          rcases g6 p hp with h1 | h1
          · have h2 := u4.2.2.2.2.2 p h1
            rw [fr p (by omega) (by omega)]
          · rw [fr p (by omega) (by omega)]

/-- Function `ConvertContainer` on pointers returns what the function on sets
returns and leaves the package variables pointing to the sets the function on
sets leaves; no object that existed before the call is changed, and a
package variable that was set still holds the same pointer. -/
theorem convertContainerCmdlineRef_refines (host : Host) (g : GlobalRefs) (h : Heap)
    (u : UnitFile) (isUser : Bool) (hwf : g.WellFormed h) :
    Refines g h (convertContainerCmdlineRef host g h u isUser)
      (convertContainerCmdline host (g.deref h) u isUser) := by
  unfold convertContainerCmdlineRef convertContainerCmdline
  lift_lets
  intro service1 service2 service3 service4 lookupImage1 image1 lookupName1 containerName1
    service5 lookupKillMode1 killMode1 ok1 service6 podmanEnv1 service7 service8 service9
    service10 podman1 podman2 podman3 service11 podman4 lookupTimezone1 timezone1 podman5
    runInit1 podman6 notify1 podman7 service12 service13 noNewPrivileges1 podman8 dropCaps1
    podman9 addCaps1 podman10 readOnly1 podman11 volatileTmp1 podman12 socketActivated1
    podman13 podmanEnv2 keepId1 defaultContainerUid1 defaultContainerGid1 podman14 uid1 gid1
    podman15 podman16 volumes1 exposed_ports1 publish_ports1 labels1 annotations1 podman_args1
    remapUsers1 defaultUids1 uid_remap_ids1 defaultGids1 gid_remap_ids1 remap_uid_start1
    remap_gid_start1
  have stop : ∀ (e : String),
      Refines g h ((Except.error e : Except String (UnitFile × PodmanCmdline)), g, h)
        (Except.error e, g.deref h) :=
    fun _ => ⟨rfl, rfl, Keeps.refl g h hwf⟩
  cases hc : checkForUnknownKeys u ContainerGroup supportedContainerKeys with
  | some err => exact stop _
  | none =>
    dsimp only
    by_cases hi : (!lookupImage1.isSome || image1 == "") = true
    · rw [if_pos hi, if_pos hi]; exact stop _
    · rw [if_neg hi, if_neg hi]
      by_cases hkc : ((!ok1 || !(killMode1 == "mixed" || killMode1 == "control-group")) && ok1)
          = true
      · rw [if_pos hkc, if_pos hkc]; exact stop _
      · rw [if_neg hkc, if_neg hkc]
        by_cases hkeep : (keepId1 && !isUser) = true
        · rw [if_pos hkeep, if_pos hkeep]; exact stop _
        · rw [if_neg hkeep, if_neg hkeep]
          cases hU : UnitFile.LookupUid host u ContainerGroup "HostUser" uid1 with
          | error err => exact stop _
          | ok hostUid =>
            dsimp only
            cases hG : UnitFile.LookupGid host u ContainerGroup "HostGroup" gid1 with
            | error err => exact stop _
            | ok hostGid =>
              dsimp only
              have key : Refines g h
                  (remapUsersRef host g h u isUser podman16 uid1 hostUid gid1 hostGid)
                  (if (!remapUsers1) = true then
                    (if (gid1 != hostGid) = true then
                      addIdMaps
                        (if (uid1 != hostUid) = true then
                          addIdMaps podman16 "--uidmap" uid1 hostUid MaxUint32 none
                        else podman16) "--gidmap" gid1 hostGid MaxUint32 none
                    else
                      if (uid1 != hostUid) = true then
                        addIdMaps podman16 "--uidmap" uid1 hostUid MaxUint32 none
                      else podman16, g.deref h)
                  else
                    (addIdMaps
                      (addIdMaps podman16 "--uidmap" uid1 hostUid remap_uid_start1
                        (some uid_remap_ids1)) "--gidmap" gid1 hostGid remap_gid_start1
                      (some gid_remap_ids1), defaultGids1.2)) :=
                remapUsersRef_refines host g h u isUser podman16 uid1 hostUid gid1 hostGid hwf
              generalize remapUsersRef host g h u isUser podman16 uid1 hostUid gid1 hostGid = B
                at key ⊢
              generalize
                (if (!remapUsers1) = true then
                    (if (gid1 != hostGid) = true then
                      addIdMaps
                        (if (uid1 != hostUid) = true then
                          addIdMaps podman16 "--uidmap" uid1 hostUid MaxUint32 none
                        else podman16) "--gidmap" gid1 hostGid MaxUint32 none
                    else
                      if (uid1 != hostUid) = true then
                        addIdMaps podman16 "--uidmap" uid1 hostUid MaxUint32 none
                      else podman16, g.deref h)
                  else
                    (addIdMaps
                      (addIdMaps podman16 "--uidmap" uid1 hostUid remap_uid_start1
                        (some uid_remap_ids1)) "--gidmap" gid1 hostGid remap_gid_start1
                      (some gid_remap_ids1), defaultGids1.2)) = V at key ⊢
              obtain ⟨k1, k2, k3⟩ := key
              obtain ⟨Vp, Vg⟩ := V
              obtain ⟨Bp, Bg, Bh⟩ := B
              dsimp only at k1 k2 k3 ⊢
              subst k1
              cases hE : addExposedPorts exposed_ports1
                  (List.foldl addVolume (service13, Bp) volumes1).2 with
              | error err => exact ⟨rfl, k2, k3⟩
              | ok podman17 =>
                dsimp only
                cases hP : addPublishPorts publish_ports1 podman17 with
                | error err => exact ⟨rfl, k2, k3⟩
                | ok podman18 => exact ⟨rfl, k2, k3⟩

/-- Function `getDefaultRemapGids` returns the set of the user variable. -/
theorem getDefaultRemapGids_fst (host : Host) (g : Globals) :
    (getDefaultRemapGids host g).1 = g.defaultRemapUids := by
  rw [getDefaultRemapGids_eq]
  cases g.defaultRemapGids <;> rfl

/-- The result of `ConvertContainer` depends on the package variables only
through the set `getDefaultRemapUids` returns. -/
theorem convertContainerCmdline_globals_congr (host : Host) (g g2 : Globals) (u : UnitFile)
    (isUser : Bool)
    (hU : (getDefaultRemapUids host g).1 = (getDefaultRemapUids host g2).1) :
    (convertContainerCmdline host g u isUser).1 = (convertContainerCmdline host g2 u isUser).1 := by
  unfold convertContainerCmdline
  lift_lets
  intro service1 service2 service3 service4 lookupImage1 image1 lookupName1 containerName1
    service5 lookupKillMode1 killMode1 ok1 service6 podmanEnv1 service7 service8 service9
    service10 podman1 podman2 podman3 service11 podman4 lookupTimezone1 timezone1 podman5
    runInit1 podman6 notify1 podman7 service12 service13 noNewPrivileges1 podman8 dropCaps1
    podman9 addCaps1 podman10 readOnly1 podman11 volatileTmp1 podman12 socketActivated1
    podman13 podmanEnv2 keepId1 defaultContainerUid1 defaultContainerGid1 podman14 uid1 gid1
    podman15 podman16 remapUsers1 defaultUids1 uid_remap_ids1 defaultGids1 gid_remap_ids1
    remap_uid_start1 remap_gid_start1 volumes1 exposed_ports1 publish_ports1 labels1
    annotations1 podman_args1 defaultUids2 uid_remap_ids2 defaultGids2 gid_remap_ids2
  have e1 : uid_remap_ids2 = uid_remap_ids1 := by
    show lookupRanges host u ContainerGroup "RemapUidRanges" (some host.lookupHostSubuid)
        (getDefaultRemapUids host g2).1 =
      lookupRanges host u ContainerGroup "RemapUidRanges" (some host.lookupHostSubuid)
        (getDefaultRemapUids host g).1
    rw [hU]
  have e2 : gid_remap_ids2 = gid_remap_ids1 := by
    show lookupRanges host u ContainerGroup "RemapGidRanges" (some host.lookupHostSubgid)
        (getDefaultRemapGids host (getDefaultRemapUids host g2).2).1 =
      lookupRanges host u ContainerGroup "RemapGidRanges" (some host.lookupHostSubgid)
        (getDefaultRemapGids host (getDefaultRemapUids host g).2).1
    rw [getDefaultRemapGids_fst, getDefaultRemapGids_fst]
    show lookupRanges host u ContainerGroup "RemapGidRanges" (some host.lookupHostSubgid)
        (getDefaultRemapUids host g2).1 =
      lookupRanges host u ContainerGroup "RemapGidRanges" (some host.lookupHostSubgid)
        (getDefaultRemapUids host g).1
    rw [hU]
  rw [e1, e2]
  cases hc : checkForUnknownKeys u ContainerGroup supportedContainerKeys with
  | some err => rfl
  | none =>
    dsimp only
    by_cases hi : (!lookupImage1.isSome || image1 == "") = true
    · rw [if_pos hi, if_pos hi]
    · rw [if_neg hi, if_neg hi]
      by_cases hkc : ((!ok1 || !(killMode1 == "mixed" || killMode1 == "control-group")) && ok1)
          = true
      · rw [if_pos hkc, if_pos hkc]
      · rw [if_neg hkc, if_neg hkc]
        by_cases hkeep : (keepId1 && !isUser) = true
        · rw [if_pos hkeep, if_pos hkeep]
        · rw [if_neg hkeep, if_neg hkeep]
          cases hU : UnitFile.LookupUid host u ContainerGroup "HostUser" uid1 with
          | error err => rfl
          | ok hostUid =>
            dsimp only
            cases hG : UnitFile.LookupGid host u ContainerGroup "HostGroup" gid1 with
            | error err => rfl
            | ok hostGid =>
              dsimp only
              by_cases hr : (!remapUsers1) = true
              · rw [if_pos hr, if_pos hr]
                dsimp only
                split
                · rfl
                · split <;> rfl
              · rw [if_neg hr, if_neg hr]
                dsimp only
                split
                · rfl
                · split <;> rfl

/-- The package variables after `ConvertContainer`: as before the call, or as
the two lazy initialisations leave them. -/
theorem convertContainerCmdline_globals (host : Host) (g : Globals) (u : UnitFile)
    (isUser : Bool) :
    (convertContainerCmdline host g u isUser).2 = g ∨
    (convertContainerCmdline host g u isUser).2 =
      (getDefaultRemapGids host (getDefaultRemapUids host g).2).2 := by
  unfold convertContainerCmdline
  lift_lets
  intro service12 service11 service10 service9 lookupImage0 image0 lookupName0 containerName0
    service8 lookupKillMode0 killMode0 ok0 service7 podmanEnv1 service6 service5 service4
    service3 podman15 podman14 podman13 service2 podman12 lookupTimezone0 timezone0 podman11
    runInit0 podman10 notify0 podman9 service1 service0 noNewPrivileges0 podman8 dropCaps0
    podman7 addCaps0 podman6 readOnly0 podman5 volatileTmp0 podman4 socketActivated0 podman3
    podmanEnv0 keepId0 defaultContainerUid0 defaultContainerGid0 podman2 uid0 gid0 podman1
    podman0 remapUsers0 defaultUids0 uid_remap_ids0 defaultGids0 gid_remap_ids0
    remap_uid_start0 remap_gid_start0 volumes0 exposed_ports0 publish_ports0 labels0
    annotations0 podman_args0
  cases hc : checkForUnknownKeys u ContainerGroup supportedContainerKeys with
  | some err => exact Or.inl rfl
  | none =>
    dsimp only
    by_cases hi : (!lookupImage0.isSome || image0 == "") = true
    · rw [if_pos hi]; exact Or.inl rfl
    · rw [if_neg hi]
      by_cases hkc : ((!ok0 || !(killMode0 == "mixed" || killMode0 == "control-group")) && ok0)
          = true
      · rw [if_pos hkc]; exact Or.inl rfl
      · rw [if_neg hkc]
        by_cases hkeep : (keepId0 && !isUser) = true
        · rw [if_pos hkeep]; exact Or.inl rfl
        · rw [if_neg hkeep]
          cases hU : UnitFile.LookupUid host u ContainerGroup "HostUser" uid0 with
          | error err => exact Or.inl rfl
          | ok hostUid =>
            dsimp only
            cases hG : UnitFile.LookupGid host u ContainerGroup "HostGroup" gid0 with
            | error err => exact Or.inl rfl
            | ok hostGid =>
              dsimp only
              by_cases hr : (!remapUsers0) = true
              · rw [if_pos hr]
                dsimp only
                split
                · exact Or.inl rfl
                · split <;> exact Or.inl rfl
              · rw [if_neg hr]
                dsimp only
                split
                · exact Or.inr rfl
                · split <;> exact Or.inr rfl

/-- The set `getDefaultRemapUids` returns is the same after the two lazy
initialisations. -/
theorem getDefaultRemapUids_initialised (host : Host) (g : Globals) :
    (getDefaultRemapUids host (getDefaultRemapGids host (getDefaultRemapUids host g).2).2).1 =
      (getDefaultRemapUids host g).1 := by
  obtain ⟨gu, gg⟩ := g
  simp only [getDefaultRemapUids_eq, getDefaultRemapGids_eq]
  cases gu <;> cases gg <;> rfl

/-- A second run of `ConvertContainer`, from the package variables the first
run leaves, returns what the first run returns. -/
theorem convertContainerCmdline_again (host : Host) (g : Globals) (u : UnitFile)
    (isUser : Bool) :
    (convertContainerCmdline host (convertContainerCmdline host g u isUser).2 u isUser).1 =
      (convertContainerCmdline host g u isUser).1 := by
  rcases convertContainerCmdline_globals host g u isUser with e | e
  · rw [e]
  · rw [e]
    exact convertContainerCmdline_globals_congr host _ g u isUser
      (getDefaultRemapUids_initialised host g)

/-- The removals of addIdMaps are in place: called on the pointer held by the
user variable itself, it empties the object the variable points to. -/
theorem addIdMapsRef_alters_pool :
    initialisedHeap.get 0 = NewRanges 100000 65536 ∧
    (addIdMapsRef initialisedHeap (NewPodmanCmdline []) "--uidmap" 0 0 1 (some 0)).2.get 0 =
      NewRangesEmpty := by
  decide

/-- A conversion with RemapUsers enabled and no explicit ranges, from
initialised package variables: the id maps come from the set of the user
variable, and the two objects of the package variables are as before. -/
theorem ConvertContainerRef_remap_example :
    ConvertContainerArgsRef subidHost initialisedRefs initialisedHeap remapUnit false =
      .ok ((minimalArgs "img").dropLast ++ ["--uidmap", "0:0:1", "--uidmap", "1:100000:65536",
        "--gidmap", "0:0:1", "--gidmap", "1:100000:65536", "img"]) ∧
    (ConvertContainerRef subidHost initialisedRefs initialisedHeap remapUnit false).2.1 =
      initialisedRefs ∧
    (ConvertContainerRef subidHost initialisedRefs initialisedHeap remapUnit false).2.2.objects.take
      2 = initialisedHeap.objects := by
  refine ⟨by rfl, by decide, by decide⟩

/-- The package variables and the objects after `ConvertContainer` on pointers are
those after its first part. -/
theorem ConvertContainerRef_state (host : Host) (g : GlobalRefs) (h : Heap) (u : UnitFile)
    (isUser : Bool) :
    (ConvertContainerRef host g h u isUser).2 = (convertContainerCmdlineRef host g h u isUser).2 := by
  unfold ConvertContainerRef
  generalize convertContainerCmdlineRef host g h u isUser = r
  obtain ⟨r1, r2, r3⟩ := r
  cases r1 with
  | error e => rfl
  | ok v => rfl

/-- Function `ConvertContainer` on pointers returns the unit, or the error, of
`ConvertContainer` on sets. -/
theorem ConvertContainerRef_result (host : Host) (g : GlobalRefs) (h : Heap) (u : UnitFile)
    (isUser : Bool) (hwf : g.WellFormed h) :
    (ConvertContainerRef host g h u isUser).1 = (ConvertContainer host (g.deref h) u isUser).1 ∧
    ConvertContainerArgsRef host g h u isUser = ConvertContainerArgs host (g.deref h) u isUser := by
  obtain ⟨k1, -, -⟩ := convertContainerCmdlineRef_refines host g h u isUser hwf
  unfold ConvertContainerRef ConvertContainer ConvertContainerArgsRef ConvertContainerArgs
  generalize convertContainerCmdlineRef host g h u isUser = r at k1 ⊢
  generalize convertContainerCmdline host (g.deref h) u isUser = v at k1 ⊢
  obtain ⟨r1, r2, r3⟩ := r
  obtain ⟨v1, v2⟩ := v
  dsimp only at k1
  subst k1
  cases r1 with
  | error e => exact ⟨rfl, rfl⟩
  | ok w => exact ⟨rfl, rfl⟩

/-- With the key absent and a default, `lookupRanges` on pointers returns a
pointer to a new object that holds the intervals of the default, and keeps
every object that existed. -/
theorem lookupRangesRef_default (host : Host) (h : Heap) (u : UnitFile) (groupName key : String)
    (nameLookup : Option (Heap → String → Option Nat × Heap)) (d : Nat)
    (hk : u.Lookup groupName key = none) :
    h.objects.length ≤ (lookupRangesRef host h u groupName key nameLookup (some d)).1 ∧
    (lookupRangesRef host h u groupName key nameLookup (some d)).2.get
      (lookupRangesRef host h u groupName key nameLookup (some d)).1 = h.get d ∧
    (∀ q, q < h.objects.length →
      (lookupRangesRef host h u groupName key nameLookup (some d)).2.get q = h.get q) := by
  unfold lookupRangesRef
  rw [hk]
  obtain ⟨a1, a2, a3, -⟩ := Heap.alloc_spec h (h.get d).Copy
  exact ⟨a3, a1, a2⟩

/-- Claim C21: once the package variables defaultRemapUids and defaultRemapGids
are initialised, a call of ConvertContainer leaves them unchanged.  On the
model with pointers, from package variables that point to existing objects:
the call changes no Ranges object that existed before it, a package variable
that was set still holds the same pointer afterwards, and so the set behind
an initialised variable is the one from before the call; with the key absent,
lookupRanges returns a pointer to a new object holding the intervals of the
default, a copy, so what addIdMaps removes from its pool does not reach the
default; and a second conversion of the same unit, from the state the first
one leaves, produces the same ExecStart argument list (or the same error). -/
theorem ConvertContainer_keeps_default_ranges (host : Host) (g : GlobalRefs) (h : Heap)
    (u : UnitFile) (isUser : Bool) (hwf : g.WellFormed h) :
    (∀ p, p < h.objects.length → (ConvertContainerRef host g h u isUser).2.2.get p = h.get p) ∧
    (∀ p, g.defaultRemapUids = some p →
      (ConvertContainerRef host g h u isUser).2.1.defaultRemapUids = some p ∧
      ((ConvertContainerRef host g h u isUser).2.1.deref
        (ConvertContainerRef host g h u isUser).2.2).defaultRemapUids = some (h.get p)) ∧
    (∀ p, g.defaultRemapGids = some p →
      (ConvertContainerRef host g h u isUser).2.1.defaultRemapGids = some p ∧
      ((ConvertContainerRef host g h u isUser).2.1.deref
        (ConvertContainerRef host g h u isUser).2.2).defaultRemapGids = some (h.get p)) ∧
    (∀ (key : String) (nameLookup : Option (Heap → String → Option Nat × Heap)) (d : Nat),
      u.Lookup ContainerGroup key = none →
      h.objects.length ≤ (lookupRangesRef host h u ContainerGroup key nameLookup (some d)).1 ∧
      (lookupRangesRef host h u ContainerGroup key nameLookup (some d)).2.get
        (lookupRangesRef host h u ContainerGroup key nameLookup (some d)).1 = h.get d ∧
      (∀ q, q < h.objects.length →
        (lookupRangesRef host h u ContainerGroup key nameLookup (some d)).2.get q = h.get q)) ∧
    ConvertContainerArgsRef host (ConvertContainerRef host g h u isUser).2.1
      (ConvertContainerRef host g h u isUser).2.2 u isUser =
      ConvertContainerArgsRef host g h u isUser := by
  obtain ⟨k1, k2, k3⟩ := convertContainerCmdlineRef_refines host g h u isUser hwf
  rw [ConvertContainerRef_state]
  obtain ⟨f1, f2, f3, f4, f5⟩ := k3
  refine ⟨f1, fun p hp => ⟨f3 p hp, ?_⟩, fun p hp => ⟨f4 p hp, ?_⟩,
    fun key nameLookup d hk => lookupRangesRef_default host h u ContainerGroup key nameLookup d hk,
    ?_⟩
  · show (convertContainerCmdlineRef host g h u isUser).2.1.defaultRemapUids.map
      (convertContainerCmdlineRef host g h u isUser).2.2.get = some (h.get p)
    rw [f3 p hp]
    exact congrArg some (f1 p (hwf.1 p hp))
  · show (convertContainerCmdlineRef host g h u isUser).2.1.defaultRemapGids.map
      (convertContainerCmdlineRef host g h u isUser).2.2.get = some (h.get p)
    rw [f4 p hp]
    exact congrArg some (f1 p (hwf.2 p hp))
  · obtain ⟨j1, -, -⟩ := convertContainerCmdlineRef_refines host
      (convertContainerCmdlineRef host g h u isUser).2.1
      (convertContainerCmdlineRef host g h u isUser).2.2 u isUser f5
    unfold ConvertContainerArgsRef
    rw [j1, k2, convertContainerCmdline_again, ← k1]

/-- Witness of C21: a unit with RemapUsers enabled and no explicit ranges,
converted with both package variables initialised. -/
theorem ConvertContainer_keeps_default_ranges_witness :
    initialisedRefs.WellFormed initialisedHeap ∧
    (∀ p, p < initialisedHeap.objects.length →
      (ConvertContainerRef subidHost initialisedRefs initialisedHeap remapUnit false).2.2.get p =
        initialisedHeap.get p) ∧
    ConvertContainerArgsRef subidHost
      (ConvertContainerRef subidHost initialisedRefs initialisedHeap remapUnit false).2.1
      (ConvertContainerRef subidHost initialisedRefs initialisedHeap remapUnit false).2.2
      remapUnit false =
      ConvertContainerArgsRef subidHost initialisedRefs initialisedHeap remapUnit false :=
  have w : initialisedRefs.WellFormed initialisedHeap :=
    ⟨fun p hp => by cases hp; decide, fun p hp => by cases hp; decide⟩
  ⟨w, (ConvertContainer_keeps_default_ranges subidHost initialisedRefs initialisedHeap
      remapUnit false w).1,
    (ConvertContainer_keeps_default_ranges subidHost initialisedRefs initialisedHeap
      remapUnit false w).2.2.2.2⟩

/-! ### The unprivileged context and the remapping step -/

theorem toDigitsCore_head (fuel n : Nat) (ds : List Char) :
    ∃ m rest, Nat.toDigitsCore 10 (fuel + 1) n ds = Nat.digitChar (m % 10) :: rest := by
  induction fuel generalizing n ds with
  | zero =>
    simp only [Nat.toDigitsCore]
    split
    · exact ⟨n, ds, rfl⟩
    · exact ⟨n, ds, rfl⟩
  | succ k ih =>
    rw [Nat.toDigitsCore]
    split
    · exact ⟨n, ds, rfl⟩
    · exact ih _ _

theorem digitChar_ne_minus (k : Nat) (hk : k < 10) : Nat.digitChar k ≠ '-' := by
  interval_cases k <;> decide

/-- A number printed in decimal, whatever follows it, is no flag of the id
maps: it starts with a digit. -/
theorem toString_append_not_remapFlag (n : Nat) (s : String) : toString n ++ s ∉ remapFlags := by
  obtain ⟨m, rest, e⟩ := toDigitsCore_head n n []
  have hd : (toString n ++ s).data = Nat.digitChar (m % 10) :: (rest ++ s.data) := by
    show (Nat.repr n ++ s).data = _
    rw [String.data_append]
    show Nat.toDigits 10 n ++ s.data = _
    unfold Nat.toDigits
    rw [e]
    rfl
  have hne := digitChar_ne_minus (m % 10) (Nat.mod_lt _ (by decide))
  intro hm
  unfold remapFlags at hm
  rcases List.mem_cons.mp hm with h1 | h1
  · rw [h1] at hd
    exact hne (List.head_eq_of_cons_eq hd).symm
  · rw [List.mem_singleton.mp h1] at hd
    exact hne (List.head_eq_of_cons_eq hd).symm

theorem toString_not_remapFlag (n : Nat) : toString n ∉ remapFlags := by
  have h := toString_append_not_remapFlag n ""
  rwa [String.append_empty] at h

theorem prefixed_not_remapFlag (p x : String)
    (h : ∀ t ∈ remapFlags, p.data.isPrefixOf t.data = false) : p ++ x ∉ remapFlags := by
  intro hm
  have h2 := h _ hm
  have h3 : p.data.isPrefixOf (p ++ x).data = true := by
    rw [String.data_append, List.isPrefixOf_iff_prefix]
    exact List.prefix_append _ _
  rw [h3] at h2
  exact Bool.noConfusion h2

theorem noRemapFlag_add {p : PodmanCmdline} (hp : p.NoRemapFlag)
    (ts : List String) (hts : ∀ t ∈ ts, t ∉ remapFlags) : (p.add ts).NoRemapFlag := by
  intro t ht
  rcases List.mem_append.mp ht with h | h
  · exact hp t h
  · exact hts t h

theorem noRemapFlag_addf {p : PodmanCmdline} (hp : p.NoRemapFlag) (t : String)
    (ht : t ∉ remapFlags) : (p.addf t).NoRemapFlag :=
  noRemapFlag_add hp [t] (by intro s hs; rw [List.mem_singleton.mp hs]; exact ht)

theorem noRemapFlag_ite {p q : PodmanCmdline} (c : Prop) [Decidable c]
    (hp : p.NoRemapFlag) (hq : q.NoRemapFlag) : (if c then p else q).NoRemapFlag := by
  split
  · exact hp
  · exact hq

theorem noRemapFlag_foldl {p : PodmanCmdline} (hp : p.NoRemapFlag) (pfx : String)
    (f : String → String) (h : ∀ t ∈ remapFlags, pfx.data.isPrefixOf t.data = false)
    (caps : List String) :
    (caps.foldl (fun p c => p.addf (pfx ++ f c)) p).NoRemapFlag := by
  induction caps generalizing p with
  | nil => exact hp
  | cons c rest ih =>
    rw [List.foldl_cons]
    exact ih (noRemapFlag_addf hp _ (prefixed_not_remapFlag _ _ h))

theorem exec_step_args (e : Option (List String)) (p : PodmanCmdline) :
    (match e with
      | some exec_args => p.add exec_args
      | none => p).Args = p.Args ++ e.getD [] := by
  cases e with
  | none => simp
  | some a => rfl

/-- In the unprivileged context the argument list is: the arguments built
before the remapping step, which hold no flag of the id maps; the single-pair
maps of the two axes; and what the steps after the remapping append, which
are the tokens these steps build from an empty command line. -/
theorem ConvertContainerArgs_user_steps (host : Host) (g : Globals) (u : UnitFile)
    (args : List String) :
    ConvertContainerArgs host g u true = .ok args →
    ∃ hostUid hostGid before pE pP,
      u.LookupUid host ContainerGroup "HostUser" (userContainerUid host u) = .ok hostUid ∧
      u.LookupGid host ContainerGroup "HostGroup" (userContainerGid host u) = .ok hostGid ∧
      (∀ t ∈ before, t ∉ remapFlags) ∧
      addExposedPorts (u.LookupAll ContainerGroup "ExposeHostPort")
        ((u.LookupAll ContainerGroup "Volume").foldl addVolume (u, ⟨[]⟩)).2 = .ok pE ∧
      addPublishPorts (u.LookupAll ContainerGroup "PublishPort") pE = .ok pP ∧
      args = before ++ singlePairMap "--uidmap" (userContainerUid host u) hostUid ++
        singlePairMap "--gidmap" (userContainerGid host u) hostGid ++
        ((((((pP.addEnv (containerEnv host u)).addLabels
          (u.LookupAllKeyVal host ContainerGroup "Label")).addAnnotations
          (u.LookupAllKeyVal host ContainerGroup "Annotation")).add
          (u.LookupAllArgs host ContainerGroup "PodmanArgs")).add
          [(u.Lookup ContainerGroup "Image").getD ""]).Args ++
        (u.LookupLastArgs host ContainerGroup "Exec").getD []) := by
  unfold ConvertContainerArgs convertContainerCmdline
  lift_lets
  intro service12 service11 service10 service9 lookupImage0 image0 lookupName0 containerName0
    service8 lookupKillMode0 killMode0 ok0 service7 podmanEnv1 service6 service5 service4
    service3 podman15 podman14 podman13 service2 podman12 lookupTimezone0 timezone0 podman11
    runInit0 podman10 notify0 podman9 service1 service0 noNewPrivileges0 podman8 dropCaps0
    podman7 addCaps0 podman6 readOnly0 podman5 volatileTmp0 podman4 socketActivated0 podman3
    podmanEnv0 keepId0 defaultContainerUid0 defaultContainerGid0 podman2 uid0 gid0 podman1
    podman0 remapUsers0 defaultUids0 uid_remap_ids0 defaultGids0 gid_remap_ids0
    remap_uid_start0 remap_gid_start0 volumes0 exposed_ports0 publish_ports0 labels0
    annotations0 podman_args0 h
  have hr : remapUsers0 = false := rfl
  have huid : userContainerUid host u = uid0 := rfl
  have hgid : userContainerGid host u = gid0 := rfl
  have henv : containerEnv host u = podmanEnv0 := rfl
  have himg : (u.Lookup ContainerGroup "Image").getD "" = image0 := rfl
  have c15 : podman15.NoRemapFlag := by
    intro t ht
    have : t ∈ ["/usr/bin/podman", "run"] := ht
    rcases List.mem_cons.mp this with e | e
    · rw [e]; decide
    · rw [List.mem_singleton.mp e]; decide
  have c14 : podman14.NoRemapFlag :=
    noRemapFlag_addf c15 _ (prefixed_not_remapFlag _ _ (by decide))
  have c13 : podman13.NoRemapFlag := noRemapFlag_add c14 _ (by decide)
  have c12 : podman12.NoRemapFlag := noRemapFlag_add c13 _ (by decide)
  have c11 : podman11.NoRemapFlag :=
    noRemapFlag_ite _ (noRemapFlag_addf c12 _ (prefixed_not_remapFlag _ _ (by decide))) c12
  have c10 : podman10.NoRemapFlag := noRemapFlag_ite _ (noRemapFlag_add c11 _ (by decide)) c11
  have c9 : podman9.NoRemapFlag :=
    noRemapFlag_ite _ (noRemapFlag_add c10 _ (by decide)) (noRemapFlag_add c10 _ (by decide))
  have c8 : podman8.NoRemapFlag := noRemapFlag_ite _ (noRemapFlag_add c9 _ (by decide)) c9
  have c7 : podman7.NoRemapFlag :=
    noRemapFlag_foldl c8 "--cap-drop=" host.ToLower (by decide) dropCaps0
  have c6 : podman6.NoRemapFlag :=
    noRemapFlag_foldl c7 "--cap-add=" host.ToLower (by decide) addCaps0
  have c5 : podman5.NoRemapFlag := noRemapFlag_ite _ (noRemapFlag_add c6 _ (by decide)) c6
  have c4 : podman4.NoRemapFlag :=
    noRemapFlag_ite _
      (noRemapFlag_ite _ (noRemapFlag_add c5 _ (by decide)) c5)
      (noRemapFlag_ite _ (noRemapFlag_add c5 _ (by decide)) c5)
  have c3 : podman3.NoRemapFlag := noRemapFlag_ite _ (noRemapFlag_add c4 _ (by decide)) c4
  have c2 : podman2.NoRemapFlag := noRemapFlag_ite _ (noRemapFlag_add c3 _ (by decide)) c3
  have c1 : podman1.NoRemapFlag := noRemapFlag_add c2 _ (by decide)
  have c0 : podman0.NoRemapFlag :=
    noRemapFlag_ite _
      (noRemapFlag_ite _ (noRemapFlag_addf c1 _ (toString_not_remapFlag uid0))
        (noRemapFlag_addf c1 _ (by
          rw [String.append_assoc]
          exact toString_append_not_remapFlag uid0 _))) c2
  rw [hr] at h
  rw [huid, hgid, henv, himg]
  cases hc : checkForUnknownKeys u ContainerGroup supportedContainerKeys with
  | some err => rw [hc] at h; simp at h
  | none =>
    rw [hc] at h
    dsimp only at h
    by_cases hi : (!lookupImage0.isSome || image0 == "") = true
    · rw [if_pos hi] at h; simp at h
    · rw [if_neg hi] at h
      by_cases hkc : ((!ok0 || !(killMode0 == "mixed" || killMode0 == "control-group")) && ok0)
          = true
      · rw [if_pos hkc] at h; simp at h
      · rw [if_neg hkc] at h
        by_cases hkeep : (keepId0 && !true) = true
        · rw [if_pos hkeep] at h; simp at h
        · rw [if_neg hkeep] at h
          cases hU : UnitFile.LookupUid host u ContainerGroup "HostUser" uid0 with
          | error err => rw [hU] at h; simp at h
          | ok hostUid =>
            rw [hU] at h
            dsimp only at h
            cases hG : UnitFile.LookupGid host u ContainerGroup "HostGroup" gid0 with
            | error err => rw [hG] at h; simp at h
            | ok hostGid =>
              rw [hG] at h
              dsimp only at h
              simp only [Bool.not_false, if_true] at h
              generalize hR :
                (if (gid0 != hostGid) = true then
                  addIdMaps
                    (if (uid0 != hostUid) = true then
                      addIdMaps podman0 "--uidmap" uid0 hostUid MaxUint32 none
                    else podman0) "--gidmap" gid0 hostGid MaxUint32 none
                else
                  if (uid0 != hostUid) = true then
                    addIdMaps podman0 "--uidmap" uid0 hostUid MaxUint32 none
                  else podman0) = R at h
              have hRargs : R.Args = podman0.Args ++ singlePairMap "--uidmap" uid0 hostUid ++
                  singlePairMap "--gidmap" gid0 hostGid := by
                rw [← hR]
                unfold singlePairMap
                by_cases h1 : (uid0 != hostUid) = true <;>
                  by_cases h2 : (gid0 != hostGid) = true <;>
                  simp only [h1, h2, if_true, if_false, addIdMaps_args, List.append_nil,
                    Bool.false_eq_true]
              obtain ⟨tV, eV⟩ := foldl_addVolume_uniform volumes0
              cases hE : addExposedPorts exposed_ports0
                  (List.foldl addVolume (service0, R) volumes0).2 with
              | error err => rw [hE] at h; simp at h
              | ok pE =>
                rw [hE] at h
                dsimp only at h
                obtain ⟨tE, eE, uE⟩ := addExposedPorts_uniform _ _ _ hE
                cases hP : addPublishPorts publish_ports0 pE with
                | error err => rw [hP] at h; simp at h
                | ok pP =>
                  rw [hP] at h
                  dsimp only at h
                  obtain ⟨tP, eP, uP⟩ := addPublishPorts_uniform _ _ _ hP
                  have h2 := Except.ok.inj h
                  refine ⟨hostUid, hostGid, podman0.Args, _, _, rfl, rfl, c0, uE _, uP _, ?_⟩
                  rw [← h2, ← List.append_assoc]
                  refine (exec_step_args (UnitFile.LookupLastArgs host u ContainerGroup "Exec")
                    (((((pP.addEnv podmanEnv0).addLabels labels0).addAnnotations
                      annotations0).add podman_args0).add [image0])).trans ?_
                  have aV := eV service0 R
                  have bV := eV u ⟨[]⟩
                  simp only [PodmanCmdline.add, PodmanCmdline.addEnv, PodmanCmdline.addLabels,
                    PodmanCmdline.addAnnotations, addKeys_tokens, eP, eE, aV, bV, hRargs,
                    List.append_assoc, List.nil_append]

/-- C6: in the unprivileged context (isUser = true), on every host and whatever
the package variables hold, two container units that differ only in the values
or the presence of RemapUsers, RemapUidStart, RemapGidStart, RemapUidRanges and
RemapGidRanges have the same outcome, the same error or the same ExecStart
argument list; and the remap flags emitted are only the single-pair maps: an
argument list produced is `before`, the arguments built before the remapping
step, none of which is --uidmap or --gidmap, then the single-pair map of the
user axis made with a nil pool when uid differs from hostUid, then that of the
group axis when gid differs from hostGid, then exactly the tokens the steps
after the remapping append (volumes, ports, environment, labels, annotations,
PodmanArgs, image, Exec), given as what these steps build from an empty
command line. -/
theorem ConvertContainer_user_ignores_remap (host : Host) (g1 g2 : Globals)
    (u1 u2 : UnitFile) (h : u1.withoutRemapKeys = u2.withoutRemapKeys) :
    ConvertContainerArgs host g1 u1 true = ConvertContainerArgs host g2 u2 true ∧
    ∀ args, ConvertContainerArgs host g1 u1 true = .ok args →
      ∃ hostUid hostGid before pE pP,
        u1.LookupUid host ContainerGroup "HostUser" (userContainerUid host u1) = .ok hostUid ∧
        u1.LookupGid host ContainerGroup "HostGroup" (userContainerGid host u1) = .ok hostGid ∧
        (∀ t ∈ before, t ∉ remapFlags) ∧
        addExposedPorts (u1.LookupAll ContainerGroup "ExposeHostPort")
          ((u1.LookupAll ContainerGroup "Volume").foldl addVolume (u1, ⟨[]⟩)).2 = .ok pE ∧
        addPublishPorts (u1.LookupAll ContainerGroup "PublishPort") pE = .ok pP ∧
        args = before ++ singlePairMap "--uidmap" (userContainerUid host u1) hostUid ++
          singlePairMap "--gidmap" (userContainerGid host u1) hostGid ++
          ((((((pP.addEnv (containerEnv host u1)).addLabels
            (u1.LookupAllKeyVal host ContainerGroup "Label")).addAnnotations
            (u1.LookupAllKeyVal host ContainerGroup "Annotation")).add
            (u1.LookupAllArgs host ContainerGroup "PodmanArgs")).add
            [(u1.Lookup ContainerGroup "Image").getD ""]).Args ++
          (u1.LookupLastArgs host ContainerGroup "Exec").getD []) := by
  refine ⟨?_, fun args ha => ConvertContainerArgs_user_steps host g1 u1 args ha⟩
  rw [ConvertContainerArgs_withoutRemapKeys host g1 g1 u1,
    ConvertContainerArgs_withoutRemapKeys host g2 g1 u2, h]

/-- Witness of C6: a unit with RemapUsers=yes, RemapUidStart=5, User=5 and
HostUser=7, and the same unit without the two remapping keys. -/
theorem ConvertContainer_user_ignores_remap_witness :
    (containerUnit [("Image", "img"), ("RemapUsers", "yes"), ("User", "5"), ("HostUser", "7"),
        ("RemapUidStart", "5")]).withoutRemapKeys =
      (containerUnit [("Image", "img"), ("User", "5"), ("HostUser", "7")]).withoutRemapKeys ∧
    ConvertContainerArgs exampleHost noGlobals
        (containerUnit [("Image", "img"), ("RemapUsers", "yes"), ("User", "5"),
          ("HostUser", "7"), ("RemapUidStart", "5")]) true =
      ConvertContainerArgs exampleHost noGlobals
        (containerUnit [("Image", "img"), ("User", "5"), ("HostUser", "7")]) true ∧
    ∃ hostUid hostGid before,
      (containerUnit [("Image", "img"), ("RemapUsers", "yes"), ("User", "5"), ("HostUser", "7"),
        ("RemapUidStart", "5")]).LookupUid exampleHost ContainerGroup "HostUser" 5 =
        .ok hostUid ∧
      (∀ t ∈ before, t ∉ remapFlags) ∧
      (minimalArgs "img").dropLast ++ ["--user", "5", "--uidmap", "5:7:1", "--uidmap", "0:0:5",
          "--uidmap", "6:6:1", "--uidmap", "8:8:4294967287", "img"] =
        before ++ singlePairMap "--uidmap" 5 hostUid ++ singlePairMap "--gidmap" 0 hostGid ++
          ["img"] := by
  have w := ConvertContainer_user_ignores_remap exampleHost noGlobals noGlobals
    (containerUnit [("Image", "img"), ("RemapUsers", "yes"), ("User", "5"), ("HostUser", "7"),
      ("RemapUidStart", "5")])
    (containerUnit [("Image", "img"), ("User", "5"), ("HostUser", "7")]) (by decide)
  obtain ⟨hostUid, hostGid, before, pE, pP, h1, -, h3, h4, h5, h6⟩ :=
    w.2 ((minimalArgs "img").dropLast ++ ["--user", "5", "--uidmap", "5:7:1", "--uidmap", "0:0:5",
      "--uidmap", "6:6:1", "--uidmap", "8:8:4294967287", "img"]) (by rfl)
  refine ⟨by decide, w.1, hostUid, hostGid, before, h1, h3, ?_⟩
  have e4 := Except.ok.inj h4
  subst e4
  have e5 := Except.ok.inj h5
  subst e5
  refine h6.trans ?_
  have a : userContainerUid exampleHost (containerUnit [("Image", "img"), ("RemapUsers", "yes"),
      ("User", "5"), ("HostUser", "7"), ("RemapUidStart", "5")]) = 5 := by decide
  have b : userContainerGid exampleHost (containerUnit [("Image", "img"), ("RemapUsers", "yes"),
      ("User", "5"), ("HostUser", "7"), ("RemapUidStart", "5")]) = 0 := by decide
  rw [a, b]
  congr 1

end Quadlet
